import Mathlib

/-!
# NetGuard native core (`app/src/main/jni/netguard/netguard.c`)

A shallow embedding of the packet synthesiser (`calc_checksum`, `write_tcp`,
`write_udp`), of the TCP half-stack (`handle_tcp`, `check_tcp_sockets`), of
the UDP translator with its DNS sinkhole (`handle_udp`, `get_dns`,
`check_domain`) and of the session sweeper (`check_sessions`,
`check_allowed`), together with the properties proved about them.

Conventions of the embedding

* A byte is a `Fin 256`; a buffer is a `List Byte` and its C length argument is
  the length of the list.
* The host is little-endian (every Android ABI is): a `uint16_t` read through a
  pointer is `b0 + 256 * b1`, and a multi-byte field with value `v` occupies
  the bytes `le16 v` / `le32 v`.  `htons` / `htonl` are the byte swaps.
* Unsigned machine integers are natural numbers reduced with `%` where the C
  type truncates.
* System calls are not modelled: their results are fields of an environment
  record and the calls a handler makes are logged in its result.
-/

namespace NetGuard

/-! ## Bytes and byte order -/

abbrev Byte := Fin 256

/-- Truncation of an integer to `uint8_t`. -/
def byte (n : Nat) : Byte := ⟨n % 256, Nat.mod_lt n (by decide)⟩

/-- Memory image of a `uint16_t` holding `v` on the little-endian host. -/
def le16 (v : Nat) : List Byte := [byte v, byte (v / 256)]

/-- Memory image of a `uint32_t` holding `v` on the little-endian host. -/
def le32 (v : Nat) : List Byte :=
  [byte v, byte (v / 256), byte (v / 65536), byte (v / 16777216)]

/-- The libc `htons` on a little-endian host: swap the two bytes of a `uint16_t`. -/
def htons (x : Nat) : Nat := x % 256 * 256 + x / 256 % 256

/-- The libc `ntohs`, the same byte swap as `htons`. -/
def ntohs (x : Nat) : Nat := htons x

/-- The libc `htonl` on a little-endian host: reverse the four bytes of a `uint32_t`. -/
def htonl (x : Nat) : Nat :=
  x % 256 * 16777216 + x / 256 % 256 * 65536 + x / 65536 % 256 * 256 + x / 16777216 % 256

/-- The libc `ntohl`, the same byte reversal as `htonl`. -/
def ntohl (x : Nat) : Nat := htonl x

/-- The first four bytes of an address union (`saddr.ip4`); storage that is too
short reads as zero. -/
def ip4_bytes (a : List Byte) : List Byte :=
  [a.getD 0 0, a.getD 1 0, a.getD 2 0, a.getD 3 0]

/-- The sixteen bytes of an address union (`saddr.ip6`); storage that is too
short reads as zero. -/
def ip6_bytes (a : List Byte) : List Byte :=
  [a.getD 0 0, a.getD 1 0, a.getD 2 0, a.getD 3 0,
   a.getD 4 0, a.getD 5 0, a.getD 6 0, a.getD 7 0,
   a.getD 8 0, a.getD 9 0, a.getD 10 0, a.getD 11 0,
   a.getD 12 0, a.getD 13 0, a.getD 14 0, a.getD 15 0]

/-! ## `calc_checksum` -/

/-- The value `*buf` of a `uint16_t *` pointing at the bytes `b0 b1`. -/
def word16 (b0 b1 : Byte) : Nat := b0.val + 256 * b1.val

/-- The summing loop of `calc_checksum` with its odd trailing byte: `sum` is a
`uint32_t`, so every addition wraps at `2 ^ 32`. -/
def sum_buffer : Nat → List Byte → Nat
  | sum, b0 :: b1 :: rest => sum_buffer ((sum + word16 b0 b1) % 2 ^ 32) rest
  | sum, [b0] => (sum + b0.val) % 2 ^ 32
  | sum, [] => sum

/-- The loop `while (sum >> 16) sum = (sum & 0xFFFF) + (sum >> 16);`, bounded by
`fuel` rounds. -/
def fold_carry : Nat → Nat → Nat
  | 0, sum => sum
  | fuel + 1, sum =>
    if sum >>> 16 ≠ 0 then fold_carry fuel ((sum &&& 0xFFFF) + (sum >>> 16)) else sum

/-- The function `calc_checksum(start, buffer, length)`: `start` is a `uint16_t`, the result
is cast to `uint16_t`.  The carry loop gets `sum` rounds, which always suffice
(`fold_carry_eq`). -/
def calc_checksum (start : Nat) (buffer : List Byte) : Nat :=
  let sum := sum_buffer (start % 65536) buffer
  fold_carry sum sum % 65536

/-- The C expression `~x` stored into a `uint16_t`. -/
def not16 (x : Nat) : Nat := 65535 - x % 65536

/-! ## Mathematical counterparts used in the proofs -/

/-- The sum of the host-order 16-bit words of a buffer, a trailing odd byte
counting as a lone low-order byte, without wrap-around. -/
def word_sum : List Byte → Nat
  | b0 :: b1 :: rest => word16 b0 b1 + word_sum rest
  | [b0] => b0.val
  | [] => 0

/-- End-around-carry reduction of a natural number to 16 bits. -/
def ones16 (x : Nat) : Nat := if x = 0 then 0 else (x - 1) % 65535 + 1


/-! ## Constants and session records (`netguard.h`) -/

/-- Modelled from the spec: the tuning constants that `netguard.h` defines.  The
header is not among the sources and the spec names the constants without
fixing their values, so they are parameters of every function using them. -/
structure netguard_h where
  TCP_RECV_WINDOW : Nat
  TCP_SEND_WINDOW : Nat
  TCP_INIT_TIMEOUT : Nat
  TCP_IDLE_TIMEOUT : Nat
  TCP_CLOSE_TIMEOUT : Nat
  TCP_KEEP_TIMEOUT : Nat
  UDP_TIMEOUT_53 : Nat
  UDP_TIMEOUT_ANY : Nat
  DNS_QNAME_MAX : Nat
  DNS_TTL : Nat
  UDP4_MAXMSG : Nat
  UID_MAXTRY : Nat
  MAX_PCAP_FILE : Nat
  MAX_PCAP_RECORD : Nat
  LINKTYPE_RAW : Nat

/-- Values of `tcp_session.state`: the `TCP_*` constants the code assigns and
tests, the ten states of the spec's data model. -/
inductive tcp_state where
  | TCP_LISTEN
  | TCP_SYN_RECV
  | TCP_ESTABLISHED
  | TCP_CLOSE_WAIT
  | TCP_LAST_ACK
  | TCP_FIN_WAIT1
  | TCP_FIN_WAIT2
  | TCP_CLOSING
  | TCP_TIME_WAIT
  | TCP_CLOSE
  deriving DecidableEq, Repr

open tcp_state

/-- Modelled from the spec: `struct tcp_session`, declared in `netguard.h`.  The
fields are the ones `netguard.c` reads and writes.  `saddr` / `daddr` are the
sixteen bytes of the address union (`ip4` is its first four bytes), `source` /
`dest` hold the ports as the raw network-order `uint16_t`, the four sequence
fields are `uint32_t`; the list link `next` is the list structure itself. -/
structure tcp_session where
  time : Nat
  uid : Int
  version : Nat
  send_window : Nat
  remote_seq : Nat
  local_seq : Nat
  remote_start : Nat
  local_start : Nat
  saddr : List Byte
  source : Nat
  daddr : List Byte
  dest : Nat
  state : tcp_state
  socket : Int
  deriving DecidableEq, Repr

/-- Modelled from the spec: `struct udp_session`, declared in `netguard.h`, with
the fields `netguard.c` reads and writes. -/
structure udp_session where
  time : Nat
  uid : Int
  version : Nat
  saddr : List Byte
  source : Nat
  daddr : List Byte
  dest : Nat
  stop : Bool
  socket : Int
  deriving DecidableEq, Repr

/-! ## Protocol headers (system headers, little-endian layout) -/

/-- The `struct iphdr` of `linux/ip.h`; the defaults are the `memset` to zero. -/
structure iphdr where
  ihl : Nat := 0
  version : Nat := 0
  tos : Nat := 0
  tot_len : Nat := 0
  id : Nat := 0
  frag_off : Nat := 0
  ttl : Nat := 0
  protocol : Nat := 0
  check : Nat := 0
  saddr : List Byte := []
  daddr : List Byte := []
  deriving DecidableEq, Repr

/-- The twenty bytes of a `struct iphdr` in memory. -/
def iphdr.bytes (h : iphdr) : List Byte :=
  [byte (h.ihl % 16 + 16 * (h.version % 16)), byte h.tos] ++ le16 h.tot_len ++ le16 h.id
    ++ le16 h.frag_off ++ [byte h.ttl, byte h.protocol] ++ le16 h.check
    ++ ip4_bytes h.saddr ++ ip4_bytes h.daddr

/-- The `struct ip6_hdr` of `netinet/ip6.h`: `vfc` overlays the first byte of the
flow word, whose other three bytes the code leaves zero. -/
structure ip6_hdr where
  vfc : Nat := 0
  plen : Nat := 0
  nxt : Nat := 0
  hlim : Nat := 0
  src : List Byte := []
  dst : List Byte := []
  deriving DecidableEq, Repr

/-- The forty bytes of a `struct ip6_hdr` in memory. -/
def ip6_hdr.bytes (h : ip6_hdr) : List Byte :=
  [byte h.vfc, 0, 0, 0] ++ le16 h.plen ++ [byte h.nxt, byte h.hlim]
    ++ ip6_bytes h.src ++ ip6_bytes h.dst

/-- The `struct ippseudo` of `netinet/ip.h`. -/
structure ippseudo where
  src : List Byte := []
  dst : List Byte := []
  pad : Nat := 0
  p : Nat := 0
  len : Nat := 0
  deriving DecidableEq, Repr

/-- The twelve bytes of a `struct ippseudo` in memory. -/
def ippseudo.bytes (h : ippseudo) : List Byte :=
  ip4_bytes h.src ++ ip4_bytes h.dst ++ [byte h.pad, byte h.p] ++ le16 h.len

/-- Modelled from the spec: `struct ip6_hdr_pseudo`, declared in `netguard.h`:
the IPv6 pseudo-header (source, destination, 32-bit transport length, three
zero bytes, next header) with the field names `write_tcp` uses. -/
structure ip6_hdr_pseudo where
  ip6ph_src : List Byte := []
  ip6ph_dst : List Byte := []
  ip6ph_len : Nat := 0
  ip6ph_nxt : Nat := 0
  deriving DecidableEq, Repr

/-- The forty bytes of a `struct ip6_hdr_pseudo` in memory. -/
def ip6_hdr_pseudo.bytes (h : ip6_hdr_pseudo) : List Byte :=
  ip6_bytes h.ip6ph_src ++ ip6_bytes h.ip6ph_dst ++ le32 h.ip6ph_len
    ++ [0, 0, 0, byte h.ip6ph_nxt]

/-- The `struct tcphdr` of `linux/tcp.h`.  Multi-byte fields hold the value the C
field holds (network byte order as seen by the host); flags are one-bit
fields. -/
structure tcphdr where
  source : Nat := 0
  dest : Nat := 0
  seq : Nat := 0
  ack_seq : Nat := 0
  doff : Nat := 0
  fin : Bool := false
  syn : Bool := false
  rst : Bool := false
  psh : Bool := false
  ack : Bool := false
  urg : Bool := false
  window : Nat := 0
  check : Nat := 0
  urg_ptr : Nat := 0
  deriving DecidableEq, Repr

/-- Value of a one-bit field. -/
def bit (b : Bool) : Nat := if b then 1 else 0

/-- The twenty bytes of a `struct tcphdr` in memory (reserved bits zero). -/
def tcphdr.bytes (h : tcphdr) : List Byte :=
  le16 h.source ++ le16 h.dest ++ le32 h.seq ++ le32 h.ack_seq
    ++ [byte (16 * (h.doff % 16)),
        byte (bit h.fin + 2 * bit h.syn + 4 * bit h.rst + 8 * bit h.psh + 16 * bit h.ack
          + 32 * bit h.urg)]
    ++ le16 h.window ++ le16 h.check ++ le16 h.urg_ptr

/-- The `struct udphdr` of `linux/udp.h`. -/
structure udphdr where
  source : Nat := 0
  dest : Nat := 0
  len : Nat := 0
  check : Nat := 0
  deriving DecidableEq, Repr

/-- The eight bytes of a `struct udphdr` in memory. -/
def udphdr.bytes (h : udphdr) : List Byte :=
  le16 h.source ++ le16 h.dest ++ le16 h.len ++ le16 h.check

/-- The IP header of a synthesised packet, of either version. -/
inductive ip_header where
  | v4 (h : iphdr)
  | v6 (h : ip6_hdr)
  deriving DecidableEq, Repr

/-- Memory image of the IP header. -/
def ip_header.bytes : ip_header → List Byte
  | .v4 h => h.bytes
  | .v6 h => h.bytes

/-- A packet built by `write_tcp`: the headers as filled in and `buffer`, the
bytes handed to `write(args->tun, buffer, len)`. -/
structure tcp_frame where
  ip : ip_header
  tcp : tcphdr
  data : List Byte
  buffer : List Byte
  deriving DecidableEq, Repr

/-- A packet built by `write_udp`: the headers as filled in and `buffer`, the
bytes handed to `write(args->tun, buffer, len)`. -/
structure udp_frame where
  ip : ip_header
  udp : udphdr
  data : List Byte
  buffer : List Byte
  deriving DecidableEq, Repr

/-! ## Packet synthesiser: `write_tcp` and `write_udp` -/

def IPDEFTTL : Nat := 64
def IPPROTO_TCP : Nat := 6
def IPPROTO_UDP : Nat := 17
def IPV6_VERSION : Nat := 0x60

/-- The part of `write_tcp` and `write_udp` that is the same in both: the IP
header for a session (`version`, `saddr`, `daddr`) in front of a transport
header of `thl` bytes (`sizeof(struct tcphdr)` or `sizeof(struct udphdr)`) and
`datalen` payload bytes, and `csum`, the checksum of the pseudo-header. -/
def build_ip (version : Nat) (saddr daddr : List Byte) (protocol thl datalen : Nat) :
    ip_header × Nat :=
  if version = 4 then
    let len := 20 + thl + datalen
    let ip4 : iphdr :=
      { version := 4, ihl := 20 / 4, tot_len := htons len, ttl := IPDEFTTL,
        protocol := protocol, saddr := ip4_bytes daddr, daddr := ip4_bytes saddr }
    let ip4 : iphdr := { ip4 with check := not16 (calc_checksum 0 ip4.bytes) }
    let pseudo : ippseudo :=
      { src := ip4.saddr, dst := ip4.daddr, p := ip4.protocol, len := htons (thl + datalen) }
    (.v4 ip4, calc_checksum 0 pseudo.bytes)
  else
    let len := 40 + thl + datalen
    let ip6 : ip6_hdr :=
      { plen := htons (len - 40), nxt := protocol, hlim := IPDEFTTL, vfc := IPV6_VERSION,
        src := ip6_bytes daddr, dst := ip6_bytes saddr }
    let pseudo : ip6_hdr_pseudo :=
      { ip6ph_src := ip6.dst, ip6ph_dst := ip6.src, ip6ph_len := ip6.plen,
        ip6ph_nxt := ip6.nxt }
    (.v6 ip6, calc_checksum 0 pseudo.bytes)

/-- The packet `write_tcp(args, cur, data, datalen, confirm, syn, ack, fin, rst)`
builds and hands to `write`. -/
def build_tcp (k : netguard_h) (cur : tcp_session) (data : List Byte) (confirm : Nat)
    (syn ack fin rst : Bool) : tcp_frame :=
  let datalen := data.length
  let r := build_ip cur.version cur.saddr cur.daddr IPPROTO_TCP 20 datalen
  let ip := r.1
  let csum := r.2
  let tcp : tcphdr :=
    { source := cur.dest, dest := cur.source, seq := htonl cur.local_seq,
      ack_seq := if ack then htonl ((cur.remote_seq + confirm) % 2 ^ 32) else 0,
      doff := 20 / 4, syn := syn, ack := ack, fin := fin, rst := rst,
      window := htons k.TCP_RECV_WINDOW }
  let csum := calc_checksum csum tcp.bytes
  let csum := calc_checksum csum data
  let tcp : tcphdr := { tcp with check := not16 csum }
  { ip := ip, tcp := tcp, data := data, buffer := ip.bytes ++ tcp.bytes ++ data }

/-- The packet `write_udp(args, cur, data, datalen)` builds and hands to `write`. -/
def build_udp (cur : udp_session) (data : List Byte) : udp_frame :=
  let datalen := data.length
  let r := build_ip cur.version cur.saddr cur.daddr IPPROTO_UDP 8 datalen
  let ip := r.1
  let csum := r.2
  let udp : udphdr :=
    { source := cur.dest, dest := cur.source, len := htons (8 + datalen) }
  let csum := calc_checksum csum udp.bytes
  let csum := calc_checksum csum data
  let udp : udphdr := { udp with check := not16 csum }
  { ip := ip, udp := udp, data := data, buffer := ip.bytes ++ udp.bytes ++ data }

/-! ## Recomputing checksums over emitted bytes -/

/-- Big-endian image of a 16-bit number. -/
def be16 (n : Nat) : List Byte := [byte (n / 256), byte n]

/-- Big-endian image of a 32-bit number. -/
def be32 (n : Nat) : List Byte :=
  [byte (n / 16777216), byte (n / 65536), byte (n / 256), byte n]

/-- One's-complement sum over the twenty-byte IPv4 header of a packet, its
check field included. -/
def ip4_header_sum (pkt : List Byte) : Nat := calc_checksum 0 (pkt.take 20)

/-- The IPv4 pseudo-header of a packet, read off its bytes: source, destination,
zero, protocol, transport length. -/
def ip4_pseudo (pkt : List Byte) : List Byte :=
  (pkt.drop 12).take 8 ++ [0, pkt.getD 9 0] ++ be16 (pkt.length - 20)

/-- One's-complement sum over pseudo-header, transport header and payload of an
IPv4 packet. -/
def ip4_transport_sum (pkt : List Byte) : Nat :=
  calc_checksum 0 (ip4_pseudo pkt ++ pkt.drop 20)

/-- The IPv6 pseudo-header of a packet (RFC 2460, section 8.1), read off its
bytes: source, destination, 32-bit transport length, three zero bytes, next
header. -/
def ip6_pseudo (pkt : List Byte) : List Byte :=
  (pkt.drop 8).take 32 ++ be32 (pkt.length - 40) ++ [0, 0, 0, pkt.getD 6 0]

/-- One's-complement sum over pseudo-header, transport header and payload of an
IPv6 packet. -/
def ip6_transport_sum (pkt : List Byte) : Nat :=
  calc_checksum 0 (ip6_pseudo pkt ++ pkt.drop 40)

/-! ## The TCP half-stack: environment and effects -/

/-- A TCP segment read from the tunnel, as `handle_tcp` sees it through its
`ip4` / `ip6` / `tcphdr` / `data` pointers: the IP version, the source and
destination address bytes of the IP header, the TCP header and the payload
(`datalen` is the length of `data`). -/
structure tcp_in where
  version : Nat
  saddr : List Byte
  daddr : List Byte
  tcp : tcphdr
  data : List Byte
  deriving DecidableEq, Repr

/-- A call `send(socket, data, datalen, MSG_NOSIGNAL | more)`. -/
structure send_call where
  socket : Int
  data : List Byte
  msg_more : Bool
  deriving DecidableEq, Repr

/-- A call `recv(socket, buffer, len, 0)`. -/
structure recv_call where
  socket : Int
  len : Nat
  deriving DecidableEq, Repr

/-- The system calls a handler has made so far, in order: packets written to the
tunnel by `write_tcp`, `send` calls, sockets given to `shutdown(.., SHUT_WR)`
and `recv` calls. -/
structure tcp_io where
  tun : List tcp_frame := []
  sent : List send_call := []
  shut : List Int := []
  recvs : List recv_call := []
  deriving DecidableEq, Repr

/-- Results of the system calls made during one call of `handle_tcp`: `time(NULL)`,
`rand()`, the content of the block `malloc` returns, the result of
`open_tcp_socket`, of `send`, of `shutdown`, and for the n-th write to the
tunnel whether `write` wrote the whole packet. -/
structure tcp_env where
  time : Nat
  rand : Nat
  malloc : tcp_session
  open_tcp_socket : Int
  send : Int
  shutdown : Int
  write_ok : Nat → Bool

/-- A session being worked on together with the calls made so far. -/
structure tcp_ctx where
  cur : tcp_session
  io : tcp_io
  deriving DecidableEq, Repr

/-- The function `write_tcp`: build the packet, write it to the tunnel; the result is the
number of bytes written, or -1 when `write` did not write the whole packet. -/
def write_tcp (k : netguard_h) (write_ok : Nat → Bool) (io : tcp_io) (cur : tcp_session)
    (data : List Byte) (confirm : Nat) (syn ack fin rst : Bool) : tcp_io × Int :=
  let frame := build_tcp k cur data confirm syn ack fin rst
  ({ io with tun := io.tun ++ [frame] },
   if write_ok io.tun.length then (frame.buffer.length : Int) else -1)

/-- The function `write_syn_ack`. -/
def write_syn_ack (k : netguard_h) (write_ok : Nat → Bool) (c : tcp_ctx) : tcp_ctx × Int :=
  let r := write_tcp k write_ok c.io c.cur [] 1 true true false false
  if r.2 < 0 then ({ cur := { c.cur with state := TCP_TIME_WAIT }, io := r.1 }, -1)
  else ({ c with io := r.1 }, 0)

/-- The function `write_ack`. -/
def write_ack (k : netguard_h) (write_ok : Nat → Bool) (c : tcp_ctx) (bytes : Nat) :
    tcp_ctx × Int :=
  let r := write_tcp k write_ok c.io c.cur [] bytes false true false false
  if r.2 < 0 then ({ cur := { c.cur with state := TCP_TIME_WAIT }, io := r.1 }, -1)
  else ({ c with io := r.1 }, 0)

/-- The function `write_data`. -/
def write_data (k : netguard_h) (write_ok : Nat → Bool) (c : tcp_ctx) (buffer : List Byte) :
    tcp_ctx × Int :=
  let r := write_tcp k write_ok c.io c.cur buffer 0 false true false false
  if r.2 < 0 then ({ cur := { c.cur with state := TCP_TIME_WAIT }, io := r.1 }, -1)
  else ({ c with io := r.1 }, 0)

/-- The function `write_fin_ack`. -/
def write_fin_ack (k : netguard_h) (write_ok : Nat → Bool) (c : tcp_ctx) (bytes : Nat) :
    tcp_ctx × Int :=
  let r := write_tcp k write_ok c.io c.cur [] bytes false true true false
  if r.2 < 0 then ({ cur := { c.cur with state := TCP_TIME_WAIT }, io := r.1 }, -1)
  else ({ c with io := r.1 }, 0)

/-- The function `write_rst`. -/
def write_rst (k : netguard_h) (write_ok : Nat → Bool) (c : tcp_ctx) : tcp_ctx :=
  let r := write_tcp k write_ok c.io c.cur [] 0 false false false true
  if c.cur.state ≠ TCP_CLOSE then { cur := { c.cur with state := TCP_TIME_WAIT }, io := r.1 }
  else { c with io := r.1 }

/-! ## `handle_tcp` -/

/-- The loop condition of the session search in `handle_tcp`: ports equal and,
by the version of the packet, the `ip4` or the `ip6` view of both addresses
equal. -/
def tcp_match (cur : tcp_session) (seg : tcp_in) : Bool :=
  decide (cur.source = seg.tcp.source ∧ cur.dest = seg.tcp.dest ∧
    (if seg.version = 4 then
       ip4_bytes cur.saddr = ip4_bytes seg.saddr ∧ ip4_bytes cur.daddr = ip4_bytes seg.daddr
     else
       ip6_bytes cur.saddr = ip6_bytes seg.saddr ∧ ip6_bytes cur.daddr = ip6_bytes seg.daddr))

/-- The session `handle_tcp` registers for a SYN: the `malloc` block with every
field assigned, the address union through `ip4` (its first four bytes) or
`ip6` by the version of the packet. -/
def tcp_syn_session (env : tcp_env) (seg : tcp_in) (uid : Int) : tcp_session :=
  { time := env.time,
    uid := uid,
    version := seg.version,
    send_window := ntohs seg.tcp.window,
    remote_seq := ntohl seg.tcp.seq,
    local_seq := env.rand % 2 ^ 32,
    remote_start := ntohl seg.tcp.seq,
    local_start := env.rand % 2 ^ 32,
    saddr := if seg.version = 4 then ip4_bytes seg.saddr ++ (ip6_bytes env.malloc.saddr).drop 4
             else ip6_bytes seg.saddr,
    daddr := if seg.version = 4 then ip4_bytes seg.daddr ++ (ip6_bytes env.malloc.daddr).drop 4
             else ip6_bytes seg.daddr,
    source := seg.tcp.source,
    dest := seg.tcp.dest,
    state := TCP_LISTEN,
    socket := env.open_tcp_socket }

/-- The result of `handle_tcp`: the `jboolean` returned, the session list
afterwards and the system calls made. -/
structure tcp_result where
  allowed : Bool
  table : List tcp_session
  io : tcp_io
  deriving DecidableEq, Repr

/-- The branch `cur == NULL` of `handle_tcp`: no session matches the segment.  A
SYN registers a session at the end of the list unless the socket cannot be
opened; anything else is answered with an RST built from a scratch session. -/
def handle_tcp_unknown (k : netguard_h) (env : tcp_env) (seg : tcp_in) (uid : Int) :
    tcp_result :=
  if seg.tcp.syn then
    let syn := tcp_syn_session env seg uid
    if syn.socket < 0 then { allowed := false, table := [], io := {} }
    else { allowed := true, table := [syn], io := {} }
  else
    let rst : tcp_session :=
      { time := 0, uid := 0, version := 4, send_window := 0,
        remote_seq := ntohl seg.tcp.seq, local_seq := 0, remote_start := 0, local_start := 0,
        saddr := if seg.version = 4 then ip4_bytes seg.saddr ++ List.replicate 12 0
                 else ip6_bytes seg.saddr,
        daddr := if seg.version = 4 then ip4_bytes seg.daddr ++ List.replicate 12 0
                 else ip6_bytes seg.daddr,
        source := seg.tcp.source, dest := seg.tcp.dest,
        state := TCP_ESTABLISHED, socket := 0 }
    { allowed := false, table := [],
      io := (write_rst k env.write_ok { cur := rst, io := {} }).io }

/-- The block `if (ok) { ... }` of `handle_tcp` for a session that is not closed:
RST, in-order control segment, or classification of an out-of-order segment. -/
def handle_tcp_control (k : netguard_h) (env : tcp_env) (seg : tcp_in) (c : tcp_ctx) :
    Bool × tcp_ctx :=
  if seg.tcp.rst then
    (false, { c with cur := { c.cur with state := TCP_TIME_WAIT } })
  else if ntohl seg.tcp.ack_seq = c.cur.local_seq ∧ ntohl seg.tcp.seq = c.cur.remote_seq then
    if seg.tcp.syn then
      (true, c)
    else if seg.tcp.fin then
      let c1 : tcp_ctx := { c with io := { c.io with shut := c.io.shut ++ [c.cur.socket] } }
      if env.shutdown ≠ 0 then
        (false, write_rst k env.write_ok c1)
      else
        let r := write_ack k env.write_ok c1 1
        if r.2 ≥ 0 then
          let cur := { r.1.cur with remote_seq := (r.1.cur.remote_seq + 1) % 2 ^ 32 }
          if cur.state = TCP_ESTABLISHED then
            (true, { r.1 with cur := { cur with state := TCP_CLOSE_WAIT } })
          else if cur.state = TCP_FIN_WAIT1 ∧ seg.tcp.ack then
            (true, { r.1 with cur := { cur with state := TCP_TIME_WAIT } })
          else if cur.state = TCP_FIN_WAIT1 ∧ ¬ seg.tcp.ack then
            (true, { r.1 with cur := { cur with state := TCP_CLOSING } })
          else if cur.state = TCP_FIN_WAIT2 then
            (true, { r.1 with cur := { cur with state := TCP_TIME_WAIT } })
          else
            (false, { r.1 with cur := cur })
        else
          (false, write_rst k env.write_ok r.1)
    else if seg.tcp.ack then
      if c.cur.state = TCP_SYN_RECV then
        (true, { c with cur := { c.cur with state := TCP_ESTABLISHED } })
      else if c.cur.state = TCP_ESTABLISHED then
        (true, c)
      else if c.cur.state = TCP_LAST_ACK then
        (true, { c with cur := { c.cur with state := TCP_TIME_WAIT } })
      else if c.cur.state = TCP_FIN_WAIT1 then
        (true, { c with cur := { c.cur with state := TCP_FIN_WAIT2 } })
      else if c.cur.state = TCP_CLOSING then
        (true, { c with cur := { c.cur with state := TCP_TIME_WAIT } })
      else
        (false, c)
    else
      (false, c)
  else
    if seg.tcp.ack ∧ (ntohl seg.tcp.seq + 1) % 2 ^ 32 = c.cur.remote_seq then
      (true, c)
    else if ntohl seg.tcp.seq = c.cur.remote_seq ∧ ntohl seg.tcp.ack_seq < c.cur.local_seq then
      (true, c)
    else if ntohl seg.tcp.seq < c.cur.remote_seq ∧ ntohl seg.tcp.ack_seq = c.cur.local_seq then
      (true, c)
    else
      (false, c)

/-- The branch `cur != NULL` of `handle_tcp`: the segment belongs to session `cur`.
Returns the `jboolean` result, the session afterwards and the calls made. -/
def handle_tcp_session (k : netguard_h) (env : tcp_env) (cur : tcp_session) (seg : tcp_in) :
    Bool × tcp_ctx :=
  if cur.state = TCP_CLOSE then
    (false, write_rst k env.write_ok { cur := cur, io := {} })
  else
    let cur := { cur with time := env.time, send_window := ntohs seg.tcp.window }
    let datalen := seg.data.length
    if ntohl seg.tcp.seq = cur.remote_seq ∧ datalen ≠ 0 then
      let io : tcp_io :=
        { sent := [{ socket := cur.socket, data := seg.data, msg_more := !seg.tcp.psh }] }
      if env.send < 0 then
        (false, write_rst k env.write_ok { cur := cur, io := io })
      else if seg.tcp.fin ∨ cur.state = TCP_FIN_WAIT1 ∨ cur.state = TCP_FIN_WAIT2
          ∨ cur.state = TCP_CLOSING then
        handle_tcp_control k env seg
          { cur := { cur with remote_seq := (cur.remote_seq + datalen) % 2 ^ 32 }, io := io }
      else
        let r := write_ack k env.write_ok { cur := cur, io := io } datalen
        if r.2 ≥ 0 then
          handle_tcp_control k env seg
            { r.1 with
              cur := { r.1.cur with remote_seq := (r.1.cur.remote_seq + datalen) % 2 ^ 32 } }
        else
          (true, r.1)
    else
      handle_tcp_control k env seg { cur := cur, io := {} }

/-- The function `handle_tcp(args, pkt, length, payload, uid, extra)` on the session list
`tcp_session`: walk the list to the first session matching the segment and
handle the segment there, or fall off the end (`cur == NULL`). -/
def handle_tcp (k : netguard_h) (env : tcp_env) :
    List tcp_session → tcp_in → Int → tcp_result
  | [], seg, uid => handle_tcp_unknown k env seg uid
  | cur :: next, seg, uid =>
    if tcp_match cur seg then
      let r := handle_tcp_session k env cur seg
      { allowed := r.1, table := r.2.cur :: next, io := r.2.io }
    else
      let r := handle_tcp k env next seg uid
      { r with table := cur :: r.table }

/-! ## `check_tcp_sockets` -/

/-- Result of a `recv`: an error (with `errno == EINTR` or not) or the bytes
read, none at end of file. -/
inductive recv_result where
  | error (eintr : Bool)
  | bytes (buffer : List Byte)
  deriving DecidableEq, Repr

/-- Results of the system calls made during one call of `check_tcp_sockets`:
`time(NULL)`, membership of a descriptor in the three `fd_set`s, the result of
`recv(socket, buffer, len, 0)`, and for the n-th write to the tunnel whether
`write` wrote the whole packet. -/
structure select_env where
  time : Nat
  rfds : Int → Bool
  wfds : Int → Bool
  efds : Int → Bool
  recv : Int → Nat → recv_result
  write_ok : Nat → Bool

/-- The body of the loop of `check_tcp_sockets` for a session with
`cur->socket >= 1`. -/
def check_tcp_socket (k : netguard_h) (env : select_env) (c : tcp_ctx) : tcp_ctx :=
  if env.efds c.cur.socket then
    write_rst k env.write_ok { c with cur := { c.cur with time := env.time } }
  else if c.cur.state = TCP_LISTEN then
    if env.wfds c.cur.socket then
      let c1 : tcp_ctx := { c with cur := { c.cur with time := env.time } }
      let r := write_syn_ack k env.write_ok c1
      if r.2 ≥ 0 then
        { r.1 with
          cur := { r.1.cur with
                   local_seq := (r.1.cur.local_seq + 1) % 2 ^ 32,
                   remote_seq := (r.1.cur.remote_seq + 1) % 2 ^ 32,
                   state := TCP_SYN_RECV } }
      else r.1
    else c
  else if c.cur.state = TCP_SYN_RECV ∨ c.cur.state = TCP_ESTABLISHED
      ∨ c.cur.state = TCP_CLOSE_WAIT then
    if env.rfds c.cur.socket ∧ c.cur.send_window > 0 then
      let len := if c.cur.send_window > k.TCP_SEND_WINDOW then k.TCP_SEND_WINDOW
                 else c.cur.send_window
      let c1 : tcp_ctx :=
        { cur := { c.cur with time := env.time },
          io := { c.io with recvs := c.io.recvs ++ [{ socket := c.cur.socket, len := len }] } }
      match env.recv c.cur.socket len with
      | .error eintr => if ¬ eintr then write_rst k env.write_ok c1 else c1
      | .bytes [] =>
        let r := write_fin_ack k env.write_ok c1 0
        if r.2 ≥ 0 then
          let cur := { r.1.cur with local_seq := (r.1.cur.local_seq + 1) % 2 ^ 32 }
          if cur.state = TCP_SYN_RECV ∨ cur.state = TCP_ESTABLISHED then
            { r.1 with cur := { cur with state := TCP_FIN_WAIT1 } }
          else if cur.state = TCP_CLOSE_WAIT then
            { r.1 with cur := { cur with state := TCP_LAST_ACK } }
          else { r.1 with cur := cur }
        else r.1
      | .bytes (b :: bs) =>
        let r := write_data k env.write_ok c1 (b :: bs)
        if r.2 ≥ 0 then
          { r.1 with
            cur := { r.1.cur with
                     local_seq := (r.1.cur.local_seq + (b :: bs).length) % 2 ^ 32 } }
        else r.1
    else c
  else c

/-- The function `check_tcp_sockets` as a pass over the session list, threading the calls made
so far; sessions with `cur->socket < 1` are skipped. -/
def check_tcp_sockets_from (k : netguard_h) (env : select_env) :
    List tcp_session → tcp_io → List tcp_session × tcp_io
  | [], io => ([], io)
  | cur :: next, io =>
    let c : tcp_ctx :=
      if cur.socket ≥ 1 then check_tcp_socket k env { cur := cur, io := io }
      else { cur := cur, io := io }
    let r := check_tcp_sockets_from k env next c.io
    (c.cur :: r.1, r.2)

/-- The function `check_tcp_sockets(args, rfds, wfds, efds)` on the session list `tcp_session`. -/
def check_tcp_sockets (k : netguard_h) (env : select_env) (table : List tcp_session) :
    List tcp_session × tcp_io :=
  check_tcp_sockets_from k env table {}

/-! ## Transition tables of the specification -/

/-- The FIN table of the specification (section 4.5): the state after an in-order
FIN, by current state and ACK flag; a state outside the table is kept. -/
def fin_transition (state : tcp_state) (ack : Bool) : tcp_state :=
  match state, ack with
  | TCP_ESTABLISHED, _ => TCP_CLOSE_WAIT
  | TCP_FIN_WAIT1, true => TCP_TIME_WAIT
  | TCP_FIN_WAIT1, false => TCP_CLOSING
  | TCP_FIN_WAIT2, _ => TCP_TIME_WAIT
  | s, _ => s

/-- The ACK-only transitions of the specification (section 4.5); a state outside
the list is kept. -/
def ack_transition (state : tcp_state) : tcp_state :=
  match state with
  | TCP_SYN_RECV => TCP_ESTABLISHED
  | TCP_LAST_ACK => TCP_TIME_WAIT
  | TCP_FIN_WAIT1 => TCP_FIN_WAIT2
  | TCP_CLOSING => TCP_TIME_WAIT
  | s => s

/-! ## The open/close scenario of the specification (section 8, scenario 1) -/

/-- An IPv4 TCP segment without payload as the client writes it to the tunnel,
from its addresses, ports (network-order field values), sequence and
acknowledgement numbers, window and flags. -/
def segment4 (sa da : List Byte) (sp dp seq ack_seq window : Nat) (syn ack fin : Bool) :
    tcp_in :=
  { version := 4, saddr := sa, daddr := da,
    tcp := { source := sp, dest := dp, seq := htonl seq, ack_seq := htonl ack_seq,
             doff := 5, syn := syn, ack := ack, fin := fin, window := htons window },
    data := [] }

/-- The six steps of the open/close scenario with their results. -/
structure open_close_run where
  syn : tcp_result
  connected : List tcp_session × tcp_io
  ack : tcp_result
  fin : tcp_result
  eof : List tcp_session × tcp_io
  last_ack : tcp_result

/-- The open/close scenario run from an empty table: an inbound SYN (sequence 1000,
window 65535), the socket events after it, an inbound ACK (sequence 1001,
acknowledgement `l + 1`), an inbound FIN (same numbers, ACK flag `a4`), the
socket events after that, and an inbound ACK (sequence 1002, acknowledgement
`l + 2`).  Each step has its own environment; `w3 w4 w6` are the windows of the
later segments. -/
def open_close (k : netguard_h) (e1 : tcp_env) (s2 : select_env) (e3 e4 : tcp_env)
    (s5 : select_env) (e6 : tcp_env) (sa da : List Byte) (sp dp : Nat) (uid : Int)
    (l w3 w4 w6 : Nat) (a4 : Bool) : open_close_run :=
  let r1 := handle_tcp k e1 [] (segment4 sa da sp dp 1000 0 65535 true false false) uid
  let r2 := check_tcp_sockets k s2 r1.table
  let r3 := handle_tcp k e3 r2.1 (segment4 sa da sp dp 1001 (l + 1) w3 false true false) uid
  let r4 := handle_tcp k e4 r3.table (segment4 sa da sp dp 1001 (l + 1) w4 false a4 true) uid
  let r5 := check_tcp_sockets k s5 r4.table
  let r6 := handle_tcp k e6 r5.1 (segment4 sa da sp dp 1002 (l + 2) w6 false true false) uid
  { syn := r1, connected := r2, ack := r3, fin := r4, eof := r5, last_ack := r6 }

/-! ## Concrete values (scenario 1 of the specification) -/

/-- Example constants: both windows 16384 bytes, session timeouts in seconds, names
of up to 255 bytes, a time to live of ten seconds for forged answers, UDP
payloads of up to 65507 bytes, three attempts to find the owner, a capture
file of at most 64 bytes with at most 32 bytes of a packet in a record, and
link type 101. -/
def ex_k : netguard_h :=
  { TCP_RECV_WINDOW := 16384, TCP_SEND_WINDOW := 16384,
    TCP_INIT_TIMEOUT := 30, TCP_IDLE_TIMEOUT := 3600, TCP_CLOSE_TIMEOUT := 30,
    TCP_KEEP_TIMEOUT := 300, UDP_TIMEOUT_53 := 10, UDP_TIMEOUT_ANY := 180,
    DNS_QNAME_MAX := 255, DNS_TTL := 10, UDP4_MAXMSG := 65507, UID_MAXTRY := 3,
    MAX_PCAP_FILE := 64, MAX_PCAP_RECORD := 32, LINKTYPE_RAW := 101 }

/-- The client address 10.0.0.2 in a sixteen-byte address union. -/
def ex_client : List Byte := [10, 0, 0, 2, 0, 0, 0, 0, 0, 0, 0, 0, 0, 0, 0, 0]

/-- The server address 93.184.216.34 in a sixteen-byte address union. -/
def ex_server : List Byte := [93, 184, 216, 34, 0, 0, 0, 0, 0, 0, 0, 0, 0, 0, 0, 0]

/-- An IPv4 session 10.0.0.2:40000 to 93.184.216.34:80 on socket 7 with remote ISN
1000 and local ISN 5000, both SYNs counted, in the given state. -/
def ex_session (state : tcp_state) : tcp_session :=
  { time := 0, uid := 10001, version := 4, send_window := 65535,
    remote_seq := 1001, local_seq := 5001, remote_start := 1000, local_start := 5000,
    saddr := ex_client, source := htons 40000, daddr := ex_server, dest := htons 80,
    state := state, socket := 7 }

/-- The same session seen as an IPv6 session (addresses read as sixteen bytes). -/
def ex_session6 : tcp_session := { ex_session TCP_ESTABLISHED with version := 6 }

/-- A UDP session between the same endpoints, of the given IP version. -/
def ex_udp (version : Nat) : udp_session :=
  { time := 0, uid := 10001, version := version, saddr := ex_client, source := htons 40000,
    daddr := ex_server, dest := htons 53, stop := false, socket := 8 }

/-- An environment for `handle_tcp` in which every call succeeds; `send` returns
the given value. -/
def ex_env (send : Int) : tcp_env :=
  { time := 100, rand := 5000, malloc := ex_session TCP_CLOSE, open_tcp_socket := 7,
    send := send, shutdown := 0, write_ok := fun _ => true }

/-- An environment for `handle_tcp` in which `open_tcp_socket` fails. -/
def ex_env_no_socket : tcp_env := { ex_env 0 with open_tcp_socket := -1 }

/-- An environment for `check_tcp_sockets`: every descriptor readable and writable,
none with an exception, `recv` returning the given result, writes succeeding. -/
def ex_select (r : recv_result) : select_env :=
  { time := 100, rfds := fun _ => true, wfds := fun _ => true, efds := fun _ => false,
    recv := fun _ _ => r, write_ok := fun _ => true }

/-- A segment of the example connection with the given numbers, flags and payload. -/
def ex_segment (seq ack_seq : Nat) (syn ack fin : Bool) (data : List Byte) : tcp_in :=
  { segment4 ex_client ex_server (htons 40000) (htons 80) seq ack_seq 65535 syn ack fin with
    data := data }

/-! ## DNS messages (`struct dns_header`, `struct dns_rr`) -/

/-- Modelled from the spec: `struct dns_header` of `netguard.h`, the twelve-byte
header of RFC 1035 as bit-fields: the identification, the flag bits in the
order a little-endian compiler lays them out (`rd`, `tc`, `aa`, four bits
`opcode`, `qr` in the third byte; four bits `rcode`, `cd`, `ad`, `z`, `ra` in
the fourth) and the four counts. -/
structure dns_header where
  id : Nat
  rd : Nat
  tc : Nat
  aa : Nat
  opcode : Nat
  qr : Nat
  rcode : Nat
  cd : Nat
  ad : Nat
  z : Nat
  ra : Nat
  q_count : Nat
  ans_count : Nat
  auth_count : Nat
  add_count : Nat
  deriving DecidableEq, Repr

/-- The twelve bytes of a `struct dns_header` in memory. -/
def dns_header.bytes (h : dns_header) : List Byte :=
  le16 h.id
    ++ [byte (h.rd % 2 + 2 * (h.tc % 2) + 4 * (h.aa % 2) + 8 * (h.opcode % 16)
          + 128 * (h.qr % 2)),
        byte (h.rcode % 16 + 16 * (h.cd % 2) + 32 * (h.ad % 2) + 64 * (h.z % 2)
          + 128 * (h.ra % 2))]
    ++ le16 h.q_count ++ le16 h.ans_count ++ le16 h.auth_count ++ le16 h.add_count

/-- The fields seen through a `struct dns_header *` pointing at `data`. -/
def dns_header.read (data : List Byte) : dns_header :=
  let b2 := (data.getD 2 0).val
  let b3 := (data.getD 3 0).val
  { id := word16 (data.getD 0 0) (data.getD 1 0),
    rd := b2 % 2,
    tc := b2 / 2 % 2,
    aa := b2 / 4 % 2,
    opcode := b2 / 8 % 16,
    qr := b2 / 128,
    rcode := b3 % 16,
    cd := b3 / 16 % 2,
    ad := b3 / 32 % 2,
    z := b3 / 64 % 2,
    ra := b3 / 128,
    q_count := word16 (data.getD 4 0) (data.getD 5 0),
    ans_count := word16 (data.getD 6 0) (data.getD 7 0),
    auth_count := word16 (data.getD 8 0) (data.getD 9 0),
    add_count := word16 (data.getD 10 0) (data.getD 11 0) }

/-- Modelled from the spec: `struct dns_rr` of `netguard.h`, the fixed part of an
answer record whose name is a compression pointer: twelve bytes, packed. -/
structure dns_rr where
  qname_ptr : Nat
  qtype : Nat
  qclass : Nat
  ttl : Nat
  rdlength : Nat
  deriving DecidableEq, Repr

/-- The twelve bytes of a `struct dns_rr` in memory. -/
def dns_rr.bytes (r : dns_rr) : List Byte :=
  le16 r.qname_ptr ++ le16 r.qtype ++ le16 r.qclass ++ le32 r.ttl ++ le16 r.rdlength

/-- Modelled from the spec: the class IN of RFC 1035. -/
def DNS_QCLASS_IN : Nat := 1

/-- Modelled from the spec: the record type A of RFC 1035. -/
def DNS_QTYPE_A : Nat := 1

/-- Modelled from the spec: the record type AAAA of RFC 3596. -/
def DNS_QTYPE_AAAA : Nat := 28

/-! ## `get_dns` -/

/-- Bytes `bs` stored at offset `off` of a buffer of which `buf` is the part
written so far (from index 0 up to the highest index written). -/
def mem_write (buf : List Byte) (off : Nat) (bs : List Byte) : List Byte :=
  buf.take off ++ List.replicate (off - buf.length) 0 ++ bs ++ buf.drop (off + bs.length)

/-- The variables of the label loop of `get_dns`: `noff` (a `uint8_t`), `qdoff`,
the part of the `name` buffer written so far, and the offsets at which a label
length byte `*(data + qdoff)` has been read. -/
structure dns_walk where
  noff : Nat
  qdoff : Nat
  name : List Byte
  reads : List Nat
  deriving DecidableEq, Repr

/-- The loop `do { ... } while (len && comp < 10)` of `get_dns`, entered with
`comp = 10 - fuel`.  The first component is true when the loop left the
function through `return -1` (a length byte with a bit of `0xC0` set).
`beyond` is the byte that follows the datagram in the packet buffer. -/
def dns_labels (data : List Byte) (beyond : Byte) : Nat → dns_walk → Bool × dns_walk
  | 0, w => (false, w)
  | fuel + 1, w =>
    let len := (data.getD w.qdoff beyond).val
    let w := { w with reads := w.reads ++ [w.qdoff] }
    if len &&& 0xC0 ≠ 0 then (true, w)
    else
      let w1 : dns_walk :=
        if len ≠ 0 ∧ w.qdoff + 1 + len ≤ data.length then
          { w with
            name := mem_write w.name w.noff ((data.drop (w.qdoff + 1)).take len ++ [46]),
            noff := (w.noff + (len + 1)) % 256,
            qdoff := w.qdoff + (1 + len) }
        else w
      if len ≠ 0 ∧ fuel ≠ 0 then dns_labels data beyond fuel w1 else (false, w1)

/-- What `get_dns` leaves behind: the value returned, `*qtype` and `*qclass` (0
when not assigned), the part of the `name` buffer written, and the offsets of
the label length bytes read. -/
structure dns_result where
  ret : Int
  qtype : Nat
  qclass : Nat
  name : List Byte
  reads : List Nat
  deriving DecidableEq, Repr

/-- The function `get_dns(args, u, data, datalen, qtype, qclass, name)`; `sizeof(struct
dns_header)` is 12. -/
def get_dns (data : List Byte) (beyond : Byte) : dns_result :=
  let datalen := data.length
  if datalen < 12 + 1 then
    { ret := -1, qtype := 0, qclass := 0, name := [], reads := [] }
  else
    let dns := dns_header.read data
    if dns.qr = 0 ∧ dns.opcode = 0 ∧ ntohs dns.q_count > 0 then
      let r := dns_labels data beyond 10 { noff := 0, qdoff := 12, name := [], reads := [] }
      if r.1 then
        { ret := -1, qtype := 0, qclass := 0, name := r.2.name, reads := r.2.reads }
      else
        let qdoff := r.2.qdoff + 1
        if r.2.noff > 0 ∧ qdoff + 4 = datalen then
          { ret := 0,
            qtype := ntohs (word16 (data.getD qdoff 0) (data.getD (qdoff + 1) 0)),
            qclass := ntohs (word16 (data.getD (qdoff + 2) 0) (data.getD (qdoff + 3) 0)),
            name := mem_write r.2.name (r.2.noff - 1) [0],
            reads := r.2.reads }
        else
          { ret := -1, qtype := 0, qclass := 0, name := r.2.name, reads := r.2.reads }
    else
      { ret := -1, qtype := 0, qclass := 0, name := [], reads := [] }

/-! ## `write_udp` and `check_domain` -/

/-- A call `sendto(socket, data, datalen, MSG_NOSIGNAL, server, ..)` with the address
and port of `server`. -/
structure sendto_call where
  socket : Int
  data : List Byte
  addr : List Byte
  port : Nat
  deriving DecidableEq, Repr

/-- The system calls a UDP handler has made so far, in order: packets written to
the tunnel by `write_udp` and `sendto` calls. -/
structure udp_io where
  tun : List udp_frame := []
  sent : List sendto_call := []
  deriving DecidableEq, Repr

/-- The function `write_udp`: build the packet, write it to the tunnel; the result is the
number of bytes written, or -1 when `write` did not write the whole packet. -/
def write_udp (write_ok : Nat → Bool) (io : udp_io) (cur : udp_session) (data : List Byte) :
    udp_io × Int :=
  let frame := build_udp cur data
  ({ io with tun := io.tun ++ [frame] },
   if write_ok io.tun.length then (frame.buffer.length : Int) else -1)

/-- The string a `char *` pointing at `buf` denotes: the bytes before the first
zero byte. -/
def c_string (buf : List Byte) : List Byte := buf.takeWhile (fun b => b ≠ 0)

/-- The response `check_domain` builds for the query `data`: the query with its
header modified through `rh`, the answer record `answer` and the loopback
address.  (`data` holds at least the twelve header bytes: `get_dns` accepted
it.) -/
def dns_response (k : netguard_h) (data : List Byte) (qclass qtype : Nat) : List Byte :=
  let rh := dns_header.read data
  let rh : dns_header :=
    { rh with
      qr := 1, aa := 0, tc := 0, rd := 0, ra := 0, z := 0, ad := 0, cd := 0, rcode := 0,
      ans_count := htons 1, auth_count := 0, add_count := 0 }
  let answer : dns_rr :=
    { qname_ptr := htons (12 ||| 0xC000),
      qtype := htons qtype,
      qclass := htons qclass,
      ttl := htonl k.DNS_TTL,
      rdlength := htons (if qtype = DNS_QTYPE_A then 4 else 16) }
  let addr : List Byte :=
    if qtype = DNS_QTYPE_A then [127, 0, 0, 1]
    else [0, 0, 0, 0, 0, 0, 0, 0, 0, 0, 0, 0, 0, 0, 0, 1]
  rh.bytes ++ data.drop 12 ++ answer.bytes ++ addr

/-- The loop of `check_domain` over `args->hosts` from some index on: at an entry
equal to `name` (`!strcmp(name, args->hosts[i])`) the response is written with
`write_udp`; the loop goes on when that fails and returns 1 otherwise. -/
def check_domain_hosts (write_ok : Nat → Bool) (u : udp_session) (response name : List Byte) :
    List (List Byte) → udp_io → udp_io × Int
  | [], io => (io, 0)
  | host :: rest, io =>
    if c_string name = c_string host then
      let r := write_udp write_ok io u response
      if r.2 < 0 then check_domain_hosts write_ok u response name rest r.1
      else (r.1, 1)
    else check_domain_hosts write_ok u response name rest io

/-- The function `check_domain(args, u, data, datalen, qclass, qtype, name)` with `hosts` the
entries of `args->hosts`. -/
def check_domain (k : netguard_h) (write_ok : Nat → Bool) (hosts : List (List Byte))
    (io : udp_io) (u : udp_session) (data : List Byte) (qclass qtype : Nat)
    (name : List Byte) : udp_io × Int :=
  if qclass = DNS_QCLASS_IN ∧ (qtype = DNS_QTYPE_A ∨ qtype = DNS_QTYPE_AAAA) then
    check_domain_hosts write_ok u (dns_response k data qclass qtype) name hosts io
  else (io, 0)

/-! ## `handle_udp` -/

/-- A UDP datagram read from the tunnel, as `handle_udp` sees it through its
`ip4` / `ip6` / `udphdr` / `data` pointers. -/
structure udp_in where
  version : Nat
  saddr : List Byte
  daddr : List Byte
  udp : udphdr
  data : List Byte
  deriving DecidableEq, Repr

/-- A UDP session being worked on together with the calls made so far. -/
structure udp_ctx where
  cur : udp_session
  io : udp_io
  deriving DecidableEq, Repr

/-- What a call of `check_dhcp` leaves behind: the value returned, the session
(whose `saddr` it overwrites) and the calls made. -/
structure dhcp_result where
  ret : Int
  cur : udp_session
  io : udp_io
  deriving DecidableEq, Repr

/-- Results of the system calls made during one call of `handle_udp`: the n-th
call of `time(NULL)`, the content of the block `malloc` returns, the result of
`open_udp_socket` and of `sendto`, for the n-th write to the tunnel whether
`write` wrote the whole packet, and the byte behind the datagram in the packet
buffer.  `check_dhcp` is a field too: it reads the datagram through `struct
dhcp_packet`, which `netguard.h` declares, and ends without a `return`
statement when it has not returned -1, so the value `handle_udp` tests is not
fixed by the source. -/
structure udp_env where
  time : Nat → Nat
  malloc : udp_session
  open_udp_socket : Int
  sendto : Int
  write_ok : Nat → Bool
  beyond : Byte
  check_dhcp : udp_session → List Byte → udp_io → dhcp_result

/-- The loop condition of the session search in `handle_udp`, negated: ports
equal and, by the version of the packet, the `ip4` or the `ip6` view of both
addresses equal. -/
def udp_match (cur : udp_session) (seg : udp_in) : Bool :=
  decide (cur.source = seg.udp.source ∧ cur.dest = seg.udp.dest ∧
    (if seg.version = 4 then
       ip4_bytes cur.saddr = ip4_bytes seg.saddr ∧ ip4_bytes cur.daddr = ip4_bytes seg.daddr
     else
       ip6_bytes cur.saddr = ip6_bytes seg.saddr ∧ ip6_bytes cur.daddr = ip6_bytes seg.daddr))

/-- The session search of `handle_udp`: the sessions before the first match
(`last` is the last of them), the match `cur`, and the sessions after it. -/
def udp_search (seg : udp_in) :
    List udp_session → Option (List udp_session × udp_session × List udp_session)
  | [] => none
  | cur :: next =>
    if udp_match cur seg then some ([], cur, next)
    else (udp_search seg next).map (fun r => (cur :: r.1, r.2.1, r.2.2))

/-- The session `handle_udp` registers when the search finds none: the `malloc`
block with every field assigned, the address union through `ip4` (its first
four bytes) or `ip6` by the version of the packet. -/
def udp_new_session (env : udp_env) (seg : udp_in) (uid : Int) : udp_session :=
  { time := env.time 0,
    uid := uid,
    version := seg.version,
    saddr := if seg.version = 4 then ip4_bytes seg.saddr ++ (ip6_bytes env.malloc.saddr).drop 4
             else ip6_bytes seg.saddr,
    daddr := if seg.version = 4 then ip4_bytes seg.daddr ++ (ip6_bytes env.malloc.daddr).drop 4
             else ip6_bytes seg.daddr,
    source := seg.udp.source,
    dest := seg.udp.dest,
    stop := false,
    socket := env.open_udp_socket }

/-- The first half of `handle_udp`: search the session list and register a new
session at its end when there is none.  The result is `none` when the socket
of a new session cannot be opened (`handle_udp` returns 0); otherwise the list
split at the session `cur` to work on and the number of `time(NULL)` calls made
(1 when the session is new). -/
def udp_lookup (env : udp_env) (table : List udp_session) (seg : udp_in) (uid : Int) :
    Option (List udp_session × udp_session × List udp_session × Nat) :=
  match udp_search seg table with
  | some (before, cur, next) => some (before, cur, next, 0)
  | none =>
    let u := udp_new_session env seg uid
    if u.socket < 0 then none else some (table, u, [], 1)

/-- The second half of `handle_udp`, on the session `cur`: the DNS check, the DHCP
check and the forward to the socket.  `calls` is the number of `time(NULL)`
calls made before. -/
def handle_udp_session (k : netguard_h) (env : udp_env) (hosts : List (List Byte))
    (calls : Nat) (cur : udp_session) (seg : udp_in) : Bool × udp_ctx :=
  let datalen := seg.data.length
  let dns : udp_io × Int :=
    if ntohs seg.udp.dest = 53 then
      let q := get_dns seg.data env.beyond
      if q.ret ≥ 0 then
        check_domain k env.write_ok hosts {} cur seg.data q.qclass q.qtype q.name
      else ({}, 0)
    else ({}, 0)
  if dns.2 ≠ 0 then
    (false, { cur := { cur with stop := true }, io := dns.1 })
  else
    let dhcp : dhcp_result :=
      if ntohs seg.udp.source = 68 ∨ ntohs seg.udp.dest = 67 then
        env.check_dhcp cur seg.data dns.1
      else { ret := -1, cur := cur, io := dns.1 }
    if dhcp.ret ≥ 0 then
      (true, { cur := dhcp.cur, io := dhcp.io })
    else
      let cur := { dhcp.cur with time := env.time calls }
      let call : sendto_call :=
        { socket := cur.socket,
          data := seg.data,
          addr := if seg.version = 4 then ip4_bytes seg.daddr else ip6_bytes seg.daddr,
          port := seg.udp.dest }
      let io : udp_io := { dhcp.io with sent := dhcp.io.sent ++ [call] }
      if env.sendto ≠ (datalen : Int) then
        (false, { cur := { cur with stop := true }, io := io })
      else
        (true, { cur := cur, io := io })

/-- The result of `handle_udp`: the `jboolean` returned, the session list
afterwards and the system calls made. -/
structure udp_result where
  allowed : Bool
  table : List udp_session
  io : udp_io
  deriving DecidableEq, Repr

/-- The function `handle_udp(args, pkt, length, payload, uid, extra)` on the session list
`udp_session`, with `hosts` the entries of `args->hosts`. -/
def handle_udp (k : netguard_h) (env : udp_env) (hosts : List (List Byte))
    (table : List udp_session) (seg : udp_in) (uid : Int) : udp_result :=
  match udp_lookup env table seg uid with
  | none => { allowed := false, table := table, io := {} }
  | some (before, cur, next, calls) =>
    let r := handle_udp_session k env hosts calls cur seg
    { allowed := r.1, table := before ++ r.2.cur :: next, io := r.2.io }

/-! ## Well-formed questions -/

/-- Wire form of a sequence of labels: each label is a length byte followed by
that many bytes. -/
def dns_encode : List (List Byte) → List Byte
  | [] => []
  | l :: rest => byte l.length :: l ++ dns_encode rest

/-- The loop variables of `get_dns` after the labels of the list have been
copied, one round of the loop for each. -/
def dns_consume (w : dns_walk) : List (List Byte) → dns_walk
  | [] => w
  | l :: rest =>
    dns_consume
      { noff := (w.noff + (l.length + 1)) % 256,
        qdoff := w.qdoff + (1 + l.length),
        name := mem_write w.name w.noff (l ++ [46]),
        reads := w.reads ++ [w.qdoff] }
      rest

/-- The labels, each followed by a dot. -/
def dns_dotted : List (List Byte) → List Byte
  | [] => []
  | l :: rest => l ++ 46 :: dns_dotted rest

/-! ## Reading a response back (RFC 1035) -/

/-- A 16-bit count of a DNS message, read in network byte order at offset `off`
(6 for ANCOUNT, 8 for NSCOUNT, 10 for ARCOUNT). -/
def dns_count (msg : List Byte) (off : Nat) : Nat :=
  (msg.getD off 0).val * 256 + (msg.getD (off + 1) 0).val

/-- An answer record whose name is a compression pointer: the offset pointed to,
TYPE, CLASS, TTL and RDATA. -/
structure dns_answer where
  pointer : Nat
  rtype : Nat
  rclass : Nat
  ttl : Nat
  rdata : List Byte
  deriving DecidableEq, Repr

/-- Following the spec's words (RFC 1035, sections 4.1.3 and 4.1.4): the bytes of
one resource record whose NAME is a pointer (two bytes, the first with its top
two bits set, the other fourteen bits the offset), followed by TYPE, CLASS,
TTL and RDLENGTH in network byte order and exactly RDLENGTH bytes of RDATA. -/
def parse_answer : List Byte → Option dns_answer
  | n0 :: n1 :: t0 :: t1 :: c0 :: c1 :: l0 :: l1 :: l2 :: l3 :: r0 :: r1 :: rdata =>
    if n0.val / 64 = 3 ∧ rdata.length = r0.val * 256 + r1.val then
      some { pointer := n0.val % 64 * 256 + n1.val,
             rtype := t0.val * 256 + t1.val,
             rclass := c0.val * 256 + c1.val,
             ttl := ((l0.val * 256 + l1.val) * 256 + l2.val) * 256 + l3.val,
             rdata := rdata }
    else none
  | _ => none

/-! ## Concrete values (scenario 2 of the specification) -/

/-- A query header: identification 0x1234, recursion desired, one question. -/
def ex_dns_header : List Byte := [0x12, 0x34, 1, 0, 0, 1, 0, 0, 0, 0, 0, 0]

/-- The labels of `ads.example`. -/
def ex_labels : List (List Byte) := [[97, 100, 115], [101, 120, 97, 109, 112, 108, 101]]

/-- The standard query for the A record, class IN, of `ads.example`. -/
def ex_query : List Byte := ex_dns_header ++ dns_encode ex_labels ++ [0] ++ [0, 1, 0, 1]

/-- Four labels of 63 bytes: a dotted name of 255 bytes. -/
def ex_labels_255 : List (List Byte) := List.replicate 4 (List.replicate 63 97)

/-- Five labels of 63, 63, 63, 62 and 63 bytes: a dotted name of 318 bytes. -/
def ex_labels_318 : List (List Byte) :=
  [List.replicate 63 97, List.replicate 63 97, List.replicate 63 97, List.replicate 62 97,
   List.replicate 63 97]

/-- The blocklist of scenario 2: the one entry `ads.example`, a C string. -/
def ex_hosts : List (List Byte) := [[97, 100, 115, 46, 101, 120, 97, 109, 112, 108, 101, 0]]

/-- A UDP datagram from 10.0.0.2, source port `sport`, to 93.184.216.34, port 53. -/
def ex_udp_in (sport : Nat) (data : List Byte) : udp_in :=
  { version := 4, saddr := ex_client, daddr := ex_server,
    udp := { source := htons sport, dest := htons 53, len := htons (8 + data.length) },
    data := data }

/-- An environment for `handle_udp`: the clock at 100, `open_udp_socket` and
`sendto` returning the given values, writes to the tunnel succeeding, a zero
byte behind the datagram, `check_dhcp` returning -1. -/
def ex_udp_env (socket sendto : Int) : udp_env :=
  { time := fun _ => 100, malloc := ex_udp 4, open_udp_socket := socket, sendto := sendto,
    write_ok := fun _ => true, beyond := 0,
    check_dhcp := fun cur _ io => { ret := -1, cur := cur, io := io } }

/-- A query whose question holds the five labels of `ex_labels_318`. -/
def ex_query_318 : List Byte :=
  ex_dns_header ++ dns_encode ex_labels_318 ++ [0] ++ [0, 1, 0, 1]

/-! ## `check_sessions` and `check_allowed` -/

/-- Results of the system calls made during one call of `check_sessions`: the n-th
call of `time(NULL)` (the first one gives `now`), and for the n-th write to
the tunnel whether `write` wrote the whole packet. -/
structure sweep_env where
  time : Nat → Nat
  write_ok : Nat → Bool

/-- The UDP loop of `check_sessions`: the sessions kept and the sockets closed, in
order. -/
def check_sessions_udp (k : netguard_h) (now : Nat) :
    List udp_session → List udp_session × List Int
  | [] => ([], [])
  | u :: next =>
    let timeout := if ntohs u.dest = 53 then k.UDP_TIMEOUT_53 else k.UDP_TIMEOUT_ANY
    let r := check_sessions_udp k now next
    if u.stop ∨ u.time + timeout < now then (r.1, u.socket :: r.2) else (u :: r.1, r.2)

/-- What the TCP loop of `check_sessions` has done so far: the packets written to
the tunnel, the sockets closed, and the number of `time(NULL)` calls made. -/
structure sweep_state where
  io : tcp_io
  closed : List Int
  calls : Nat
  deriving DecidableEq, Repr

/-- The `timeout` the TCP loop of `check_sessions` picks for a state. -/
def tcp_timeout (k : netguard_h) (state : tcp_state) : Nat :=
  if state = TCP_LISTEN ∨ state = TCP_SYN_RECV then k.TCP_INIT_TIMEOUT
  else if state = TCP_ESTABLISHED then k.TCP_IDLE_TIMEOUT
  else k.TCP_CLOSE_TIMEOUT

/-- The body of the TCP loop of `check_sessions` up to the unlinking: reset an
idle session, then close a session in TIME_WAIT. -/
def check_sessions_tcp_session (k : netguard_h) (env : sweep_env) (now : Nat)
    (t : tcp_session) (s : sweep_state) : tcp_session × sweep_state :=
  let c : tcp_ctx :=
    if t.state ≠ TCP_TIME_WAIT ∧ t.state ≠ TCP_CLOSE ∧ t.time + tcp_timeout k t.state < now then
      write_rst k env.write_ok { cur := t, io := s.io }
    else { cur := t, io := s.io }
  if c.cur.state = TCP_TIME_WAIT then
    ({ c.cur with socket := -1, time := env.time s.calls, state := TCP_CLOSE },
     { io := c.io, closed := s.closed ++ [c.cur.socket], calls := s.calls + 1 })
  else (c.cur, { s with io := c.io })

/-- The TCP loop of `check_sessions`: a closed session older than
`TCP_KEEP_TIMEOUT` is unlinked, the others are kept. -/
def check_sessions_tcp (k : netguard_h) (env : sweep_env) (now : Nat) :
    List tcp_session → sweep_state → List tcp_session × sweep_state
  | [], s => ([], s)
  | t :: next, s =>
    let r := check_sessions_tcp_session k env now t s
    let rest := check_sessions_tcp k env now next r.2
    if r.1.state = TCP_CLOSE ∧ r.1.time + k.TCP_KEEP_TIMEOUT < now then rest
    else (r.1 :: rest.1, rest.2)

/-- The result of `check_sessions`: both session lists afterwards, the packets
written to the tunnel and the sockets closed. -/
structure sweep_result where
  udp : List udp_session
  tcp : List tcp_session
  io : tcp_io
  closed : List Int
  deriving DecidableEq, Repr

/-- The function `check_sessions(args)` on the session lists `udp_session` and
`tcp_session`. -/
def check_sessions (k : netguard_h) (env : sweep_env) (udp : List udp_session)
    (tcp : List tcp_session) : sweep_result :=
  let now := env.time 0
  let u := check_sessions_udp k now udp
  let t := check_sessions_tcp k env now tcp { io := {}, closed := u.2, calls := 1 }
  { udp := u.1, tcp := t.1, io := t.2.io, closed := t.2.closed }

/-- The UDP loop body of `check_allowed` with `uids` the entries of `args->uids`. -/
def check_allowed_udp (uids : List Int) (u : udp_session) : udp_session :=
  if ¬ u.stop then
    if ¬ u.uid ∈ uids then { u with stop := true } else u
  else u

/-- The TCP loop body of `check_allowed`. -/
def check_allowed_tcp (uids : List Int) (t : tcp_session) : tcp_session :=
  if t.state ≠ TCP_TIME_WAIT ∧ t.state ≠ TCP_CLOSE then
    if ¬ t.uid ∈ uids then { t with state := TCP_TIME_WAIT } else t
  else t

/-- The function `check_allowed(args)` on both session lists. -/
def check_allowed (uids : List Int) (udp : List udp_session) (tcp : List tcp_session) :
    List udp_session × List tcp_session :=
  (udp.map (check_allowed_udp uids), tcp.map (check_allowed_tcp uids))

/-! ## The sequence invariant -/

/-- The invariant of the specification for one session: both sequence numbers
are at least their start values, as the unsigned numbers stored. -/
def seq_ok (c : tcp_session) : Prop :=
  c.local_start ≤ c.local_seq ∧ c.remote_start ≤ c.remote_seq

instance (c : tcp_session) : Decidable (seq_ok c) := by
  unfold seq_ok; infer_instance

/-- The start values of `d` are those of `c`. -/
def same_starts (c d : tcp_session) : Prop :=
  d.local_start = c.local_start ∧ d.remote_start = c.remote_start

/-- No session of the table `t` has a smaller `local_seq` or `remote_seq` in the
table `u` that a step made of it (sessions correspond by position; a session
the step appended has no counterpart): no sequence number wrapped past 2^32. -/
def seq_kept : List tcp_session → List tcp_session → Bool
  | c :: t, d :: u =>
    decide (c.local_seq ≤ d.local_seq ∧ c.remote_seq ≤ d.remote_seq) && seq_kept t u
  | _, _ => true

/-- The states of the TCP table reachable from the empty table through
`handle_tcp`, `check_tcp_sockets`, `check_sessions` and `check_allowed` steps
in which no sequence number wraps (`check_sessions` and `check_allowed` change
no sequence number). -/
inductive tcp_reachable (k : netguard_h) : List tcp_session → Prop where
  | empty : tcp_reachable k []
  | handle_tcp (env : tcp_env) (seg : tcp_in) (uid : Int) (t : List tcp_session) :
      tcp_reachable k t → seq_kept t (handle_tcp k env t seg uid).table = true →
      tcp_reachable k (handle_tcp k env t seg uid).table
  | check_tcp_sockets (env : select_env) (t : List tcp_session) :
      tcp_reachable k t → seq_kept t (check_tcp_sockets k env t).1 = true →
      tcp_reachable k (check_tcp_sockets k env t).1
  | check_sessions (env : sweep_env) (udp : List udp_session) (t : List tcp_session) :
      tcp_reachable k t → tcp_reachable k (check_sessions k env udp t).tcp
  | check_allowed (uids : List Int) (udp : List udp_session) (t : List tcp_session) :
      tcp_reachable k t → tcp_reachable k (check_allowed uids udp t).2

/-! ## `check_udp_sockets` -/

/-- The body of the loop of `check_udp_sockets` for a session with
`cur->socket >= 0`: an exception stops the session; readable, the datagram
received is written to the tunnel, and the session is stopped on an error
other than `EINTR`, at end of file, and after a written answer from port 53. -/
def check_udp_socket (k : netguard_h) (env : select_env) (c : udp_ctx) : udp_ctx :=
  if env.efds c.cur.socket then
    { c with cur := { c.cur with time := env.time, stop := true } }
  else if env.rfds c.cur.socket then
    let cur := { c.cur with time := env.time }
    match env.recv c.cur.socket k.UDP4_MAXMSG with
    | .error eintr => if ¬ eintr then { c with cur := { cur with stop := true } }
                      else { c with cur := cur }
    | .bytes [] => { c with cur := { cur with stop := true } }
    | .bytes (b :: bs) =>
      let r := write_udp env.write_ok c.io cur (b :: bs)
      if r.2 < 0 then { cur := cur, io := r.1 }
      else if ntohs cur.dest = 53 then { cur := { cur with stop := true }, io := r.1 }
      else { cur := cur, io := r.1 }
  else c

/-- The function `check_udp_sockets` as a pass over the session list, threading the calls made
so far; sessions with `cur->socket < 0` are skipped. -/
def check_udp_sockets_from (k : netguard_h) (env : select_env) :
    List udp_session → udp_io → List udp_session × udp_io
  | [], io => ([], io)
  | cur :: next, io =>
    let c : udp_ctx :=
      if cur.socket ≥ 0 then check_udp_socket k env { cur := cur, io := io }
      else { cur := cur, io := io }
    let r := check_udp_sockets_from k env next c.io
    (c.cur :: r.1, r.2)

/-- The function `check_udp_sockets(args, rfds, wfds, efds)` on the session list `udp_session`. -/
def check_udp_sockets (k : netguard_h) (env : select_env) (table : List udp_session) :
    List udp_session × udp_io :=
  check_udp_sockets_from k env table {}

/-! ## `handle_ip` -/

/-- Modelled from the spec: `struct arguments` of `netguard.h`, with the fields
`netguard.c` reads in the packet path: the `log` and `filter` flags, the
allowed owners `uids` (`ucount` is the length of the list) and the blocklist
`hosts` (`hcount` entries). -/
structure arguments where
  log : Bool
  filter : Bool
  uids : List Int
  hosts : List (List Byte)
  deriving DecidableEq, Repr

def IPPROTO_ICMP : Nat := 1

/-- The priority `ANDROID_LOG_WARN` of `android/log.h`. -/
def ANDROID_LOG_WARN : Int := 5

/-- The function `is_lower_layer`. -/
def is_lower_layer (protocol : Nat) : Bool :=
  protocol = 0 || protocol = 60 || protocol = 43 || protocol = 44 || protocol = 51
    || protocol = 50 || protocol = 60 || protocol = 135

/-- The function `is_upper_layer`. -/
def is_upper_layer (protocol : Nat) : Bool :=
  protocol = IPPROTO_TCP || protocol = IPPROTO_UDP || protocol = IPPROTO_ICMP || protocol = 58

/-- The byte at offset `i` of the packet buffer; a byte behind the packet reads
as 0. -/
def pkt_byte (pkt : List Byte) (i : Nat) : Nat := (pkt.getD i 0).val

/-- The loop `while (is_lower_layer(ext->ip6e_nxt) && !is_upper_layer(protocol))` of
`handle_ip`, bounded by `fuel` rounds: `off` is a `uint16_t`, `ext` points at
`pkt + off`, `ip6e_nxt` and `ip6e_len` are its first two bytes.  The result is
`none` when the loop is still running after `fuel` rounds. -/
def ip6_skip (pkt : List Byte) : Nat → Nat → Nat → Option (Nat × Nat)
  | 0, _, _ => none
  | fuel + 1, off, protocol =>
    if is_lower_layer (pkt_byte pkt off) ∧ ¬ is_upper_layer protocol then
      ip6_skip pkt fuel ((off + (8 + pkt_byte pkt (off + 1))) % 65536) (pkt_byte pkt off)
    else some (off, protocol)

/-- What the first part of `handle_ip` extracts from a packet: `version`,
`protocol` and the offset of `payload` in the packet. -/
structure ip_packet where
  version : Nat
  protocol : Nat
  payload : Nat
  deriving DecidableEq, Repr

/-- The first part of `handle_ip`, "Get protocol, addresses & payload".  The
result is `none` when `handle_ip` returns there: an IPv4 packet whose
`tot_len` is not the length read or, with `loglevel < ANDROID_LOG_WARN`, whose
header gives `calc_checksum` the value 0; a version other than 4 and 6.  (It
is `none` too when the extension header loop does not end within 65536
rounds.) -/
def ip_parse (loglevel : Int) (pkt : List Byte) : Option ip_packet :=
  let version := pkt_byte pkt 0 / 16
  if version = 4 then
    let protocol := pkt_byte pkt 9
    let ihl := pkt_byte pkt 0 % 16
    let ipoptlen := (((ihl : Int) - 5) * 4 % 256).toNat
    let tot_len := word16 (pkt.getD 2 0) (pkt.getD 3 0)
    if ntohs tot_len ≠ pkt.length then none
    else if loglevel < ANDROID_LOG_WARN ∧ calc_checksum 0 (pkt.take 20) = 0 then none
    else some { version := version, protocol := protocol, payload := 20 + ipoptlen }
  else if version = 6 then
    let nxt := pkt_byte pkt 6
    if ¬ is_upper_layer nxt then
      match ip6_skip pkt 65536 40 nxt with
      | none => none
      | some (off, protocol) =>
        if ¬ is_upper_layer protocol then
          some { version := version, protocol := nxt, payload := 40 + 0 }
        else some { version := version, protocol := protocol, payload := 40 + off }
    else some { version := version, protocol := nxt, payload := 40 + 0 }
  else none

/-- The fields seen through a `struct tcphdr *` pointing at `bytes`. -/
def tcphdr.read (bytes : List Byte) : tcphdr :=
  let flags := (bytes.getD 13 0).val
  { source := word16 (bytes.getD 0 0) (bytes.getD 1 0),
    dest := word16 (bytes.getD 2 0) (bytes.getD 3 0),
    seq := word16 (bytes.getD 4 0) (bytes.getD 5 0)
      + 65536 * word16 (bytes.getD 6 0) (bytes.getD 7 0),
    ack_seq := word16 (bytes.getD 8 0) (bytes.getD 9 0)
      + 65536 * word16 (bytes.getD 10 0) (bytes.getD 11 0),
    doff := (bytes.getD 12 0).val / 16,
    fin := flags % 2 = 1,
    syn := flags / 2 % 2 = 1,
    rst := flags / 4 % 2 = 1,
    psh := flags / 8 % 2 = 1,
    ack := flags / 16 % 2 = 1,
    urg := flags / 32 % 2 = 1,
    window := word16 (bytes.getD 14 0) (bytes.getD 15 0),
    check := word16 (bytes.getD 16 0) (bytes.getD 17 0),
    urg_ptr := word16 (bytes.getD 18 0) (bytes.getD 19 0) }

/-- The fields seen through a `struct udphdr *` pointing at `bytes`. -/
def udphdr.read (bytes : List Byte) : udphdr :=
  { source := word16 (bytes.getD 0 0) (bytes.getD 1 0),
    dest := word16 (bytes.getD 2 0) (bytes.getD 3 0),
    len := word16 (bytes.getD 4 0) (bytes.getD 5 0),
    check := word16 (bytes.getD 6 0) (bytes.getD 7 0) }

/-- The source address `handle_ip`, `handle_tcp` and `handle_udp` take from the IP
header: `ip4->saddr` for version 4, `ip6->ip6_src` otherwise. -/
def pkt_saddr (pkt : List Byte) : List Byte :=
  if pkt_byte pkt 0 / 16 = 4 then (pkt.drop 12).take 4 else (pkt.drop 8).take 16

/-- The destination address: `ip4->daddr` for version 4, `ip6->ip6_dst`
otherwise. -/
def pkt_daddr (pkt : List Byte) : List Byte :=
  if pkt_byte pkt 0 / 16 = 4 then (pkt.drop 16).take 4 else (pkt.drop 24).take 16

/-- The segment `handle_tcp(args, pkt, length, payload, ..)` works on: the version
from the first byte, the addresses from the IP header, the TCP header at
`payload` and the data behind `sizeof(struct tcphdr)` (for a packet that holds
the whole TCP header). -/
def tcp_segment (pkt : List Byte) (payload : Nat) : tcp_in :=
  { version := pkt_byte pkt 0 / 16,
    saddr := pkt_saddr pkt,
    daddr := pkt_daddr pkt,
    tcp := tcphdr.read (pkt.drop payload),
    data := pkt.drop (payload + 20) }

/-- The datagram `handle_udp(args, pkt, length, payload, ..)` works on (for a
packet that holds the whole UDP header). -/
def udp_datagram (pkt : List Byte) (payload : Nat) : udp_in :=
  { version := pkt_byte pkt 0 / 16,
    saddr := pkt_saddr pkt,
    daddr := pkt_daddr pkt,
    udp := udphdr.read (pkt.drop payload),
    data := pkt.drop (payload + 8) }

/-- Results of the system calls made during one call of `handle_ip`: the global
`loglevel`, the result of the n-th call `get_uid(protocol, version, saddr,
sport, dump)` (which reads the connection tables of the kernel), and the
environments of `handle_tcp` and `handle_udp`. -/
structure ip_env where
  loglevel : Int
  get_uid : Nat → Nat → Nat → List Byte → Nat → Bool → Int
  tcp : tcp_env
  udp : udp_env

/-- The loop `while (uid < 0 && tries++ < UID_MAXTRY)` of `handle_ip` with `left`
rounds to go, `uid` the value so far and `calls` the number of `get_uid` calls
made: for an IPv4 packet the IPv6 table is asked first, with the address
mapped to `::ffff:a.b.c.d`. -/
def uid_lookup (get_uid : Nat → Nat → Nat → List Byte → Nat → Bool → Int)
    (protocol version : Nat) (saddr : List Byte) (sport : Nat) : Nat → Int → Nat → Int
  | 0, uid, _ => uid
  | left + 1, uid, calls =>
    if uid < 0 then
      let dump := decide (left = 0)
      let saddr128 : List Byte := [0, 0, 0, 0, 0, 0, 0, 0, 0, 0, 255, 255] ++ ip4_bytes saddr
      let uid6 := if version = 4 then get_uid calls protocol 6 saddr128 sport dump else uid
      let calls := if version = 4 then calls + 1 else calls
      let uid4 := if uid6 < 0 then get_uid calls protocol version saddr sport dump else uid6
      let calls := if uid6 < 0 then calls + 1 else calls
      uid_lookup get_uid protocol version saddr sport left uid4 calls
    else uid

/-- The `uid` of `handle_ip` after "Get uid": looked up for a TCP segment when
filtering is off or SYN is set and for every UDP packet, -1 otherwise. -/
def ip_uid (k : netguard_h) (env : ip_env) (args : arguments) (pkt : List Byte)
    (p : ip_packet) : Int :=
  let syn : Bool := p.protocol = IPPROTO_TCP ∧ (tcp_segment pkt p.payload).tcp.syn
  let sport :=
    if p.protocol = IPPROTO_TCP then ntohs (tcp_segment pkt p.payload).tcp.source
    else ntohs (udp_datagram pkt p.payload).udp.source
  if (p.protocol = IPPROTO_TCP ∧ (¬ args.filter ∨ syn)) ∨ p.protocol = IPPROTO_UDP then
    uid_lookup env.get_uid p.protocol p.version (pkt_saddr pkt) sport k.UID_MAXTRY (-1) 0
  else -1

/-- The result of `handle_ip`: the value of `allowed` at the end (false when
`handle_ip` returns before it is set), both session lists afterwards, the
calls made by the handlers, the protocol whose handler was called, and the
`allowed` argument of `log_packet` when that is called. -/
structure ip_result where
  allowed : Bool
  udp : List udp_session
  tcp : List tcp_session
  tcp_io : tcp_io
  udp_io : udp_io
  handler : Option Nat
  logged : Option Bool
  deriving DecidableEq, Repr

/-- The function `handle_ip(args, pkt, length)` on the session lists `udp_session` and
`tcp_session`. -/
def handle_ip (k : netguard_h) (env : ip_env) (args : arguments) (udp : List udp_session)
    (tcp : List tcp_session) (pkt : List Byte) : ip_result :=
  match ip_parse env.loglevel pkt with
  | none =>
    { allowed := false, udp := udp, tcp := tcp, tcp_io := {}, udp_io := {}, handler := none,
      logged := none }
  | some p =>
    let syn : Bool := p.protocol = IPPROTO_TCP ∧ (tcp_segment pkt p.payload).tcp.syn
    let dport :=
      if p.protocol = IPPROTO_TCP then ntohs (tcp_segment pkt p.payload).tcp.dest
      else ntohs (udp_datagram pkt p.payload).udp.dest
    let uid := ip_uid k env args pkt p
    let allowed : Bool := if syn ∧ args.filter then decide (uid ∈ args.uids) else !syn
    if allowed then
      if p.protocol = IPPROTO_UDP then
        let r := handle_udp k env.udp args.hosts udp (udp_datagram pkt p.payload) uid
        let log : Bool := !r.allowed || decide (dport ≠ 53)
        { allowed := r.allowed, udp := r.table, tcp := tcp, tcp_io := {}, udp_io := r.io,
          handler := some IPPROTO_UDP,
          logged := if args.log ∧ (¬ args.filter ∨ log) then some r.allowed else none }
      else if p.protocol = IPPROTO_TCP then
        let r := handle_tcp k env.tcp tcp (tcp_segment pkt p.payload) uid
        let log : Bool := !r.allowed || syn
        { allowed := r.allowed, udp := udp, tcp := r.table, tcp_io := r.io, udp_io := {},
          handler := some IPPROTO_TCP,
          logged := if args.log ∧ (¬ args.filter ∨ log) then some r.allowed else none }
      else
        { allowed := false, udp := udp, tcp := tcp, tcp_io := {}, udp_io := {},
          handler := none,
          logged := if args.log then some false else none }
    else
      { allowed := false, udp := udp, tcp := tcp, tcp_io := {}, udp_io := {}, handler := none,
        logged := if args.log ∧ ¬ args.filter then some false else none }

/-! ## Table properties of the specification -/

/-- The 5-tuple of a TCP session: IP version, source and destination address (the
four bytes of the `ip4` view for version 4, the sixteen of the `ip6` view
otherwise), source and destination port. -/
def tcp_tuple (c : tcp_session) : Nat × List Byte × List Byte × Nat × Nat :=
  (c.version,
   if c.version = 4 then ip4_bytes c.saddr else ip6_bytes c.saddr,
   if c.version = 4 then ip4_bytes c.daddr else ip6_bytes c.daddr,
   c.source, c.dest)

/-- The 5-tuple of a UDP session. -/
def udp_tuple (c : udp_session) : Nat × List Byte × List Byte × Nat × Nat :=
  (c.version,
   if c.version = 4 then ip4_bytes c.saddr else ip6_bytes c.saddr,
   if c.version = 4 then ip4_bytes c.daddr else ip6_bytes c.daddr,
   c.source, c.dest)

/-- The 5-tuple of a TCP segment read from the tunnel. -/
def tcp_in.tuple (seg : tcp_in) : Nat × List Byte × List Byte × Nat × Nat :=
  (seg.version,
   if seg.version = 4 then ip4_bytes seg.saddr else ip6_bytes seg.saddr,
   if seg.version = 4 then ip4_bytes seg.daddr else ip6_bytes seg.daddr,
   seg.tcp.source, seg.tcp.dest)

/-- The 5-tuple of a UDP datagram read from the tunnel. -/
def udp_in.tuple (seg : udp_in) : Nat × List Byte × List Byte × Nat × Nat :=
  (seg.version,
   if seg.version = 4 then ip4_bytes seg.saddr else ip6_bytes seg.saddr,
   if seg.version = 4 then ip4_bytes seg.daddr else ip6_bytes seg.daddr,
   seg.udp.source, seg.udp.dest)

/-- The session the search loop of `handle_tcp` stops at, if any. -/
def tcp_search (seg : tcp_in) : List tcp_session → Option tcp_session
  | [] => none
  | cur :: next => if tcp_match cur seg then some cur else tcp_search seg next

/-- The sweeper's rule for one UDP session: removed when stopped or idle. -/
def udp_expired (k : netguard_h) (now : Nat) (u : udp_session) : Bool :=
  u.stop || decide (u.time + (if ntohs u.dest = 53 then k.UDP_TIMEOUT_53
    else k.UDP_TIMEOUT_ANY) < now)

/-- The sweeper's test for an idle TCP session. -/
def tcp_idle (k : netguard_h) (now : Nat) (t : tcp_session) : Bool :=
  decide (t.state ≠ TCP_TIME_WAIT ∧ t.state ≠ TCP_CLOSE
    ∧ t.time + (if t.state = TCP_LISTEN ∨ t.state = TCP_SYN_RECV then k.TCP_INIT_TIMEOUT
        else if t.state = TCP_ESTABLISHED then k.TCP_IDLE_TIMEOUT
        else k.TCP_CLOSE_TIMEOUT) < now)

/-- Following the spec's words, the three rules of the sweeper for one TCP
session, applied one after the other at clock value `now`: an idle session
goes to TIME_WAIT; a session in TIME_WAIT gets socket -1, time `now` and state
CLOSE; a session in CLOSE is unlinked (`none`) when `time + TCP_KEEP_TIMEOUT <
now`. -/
def sweep_tcp (k : netguard_h) (now : Nat) (t : tcp_session) : Option tcp_session :=
  let t1 : tcp_session := if tcp_idle k now t then { t with state := TCP_TIME_WAIT } else t
  let t2 : tcp_session :=
    if t1.state = TCP_TIME_WAIT then { t1 with socket := -1, time := now, state := TCP_CLOSE }
    else t1
  if t2.state = TCP_CLOSE ∧ t2.time + k.TCP_KEEP_TIMEOUT < now then none else some t2

/-- The states of the TCP table reachable from the empty table through
`handle_tcp`, `check_tcp_sockets`, `check_sessions` and `check_allowed`
steps. -/
inductive tcp_table_state (k : netguard_h) : List tcp_session → Prop where
  | empty : tcp_table_state k []
  | handle_tcp (env : tcp_env) (seg : tcp_in) (uid : Int) (t : List tcp_session) :
      tcp_table_state k t → tcp_table_state k (handle_tcp k env t seg uid).table
  | check_tcp_sockets (env : select_env) (t : List tcp_session) :
      tcp_table_state k t → tcp_table_state k (check_tcp_sockets k env t).1
  | check_sessions (env : sweep_env) (udp : List udp_session) (t : List tcp_session) :
      tcp_table_state k t → tcp_table_state k (check_sessions k env udp t).tcp
  | check_allowed (uids : List Int) (udp : List udp_session) (t : List tcp_session) :
      tcp_table_state k t → tcp_table_state k (check_allowed uids udp t).2

/-- The session `d` is the session `c` apart from time, window, sequence numbers
and state: the same version, addresses, ports, owner and socket, and in CLOSE
exactly when `c` is. -/
def same_flow (c d : tcp_session) : Prop :=
  d.version = c.version ∧ d.saddr = c.saddr ∧ d.daddr = c.daddr ∧ d.source = c.source
  ∧ d.dest = c.dest ∧ d.uid = c.uid ∧ d.socket = c.socket
  ∧ (d.state = TCP_CLOSE ↔ c.state = TCP_CLOSE)

/-- The session is in TIME_WAIT or CLOSE. -/
def tcp_terminal (c : tcp_session) : Prop :=
  c.state = TCP_TIME_WAIT ∨ c.state = TCP_CLOSE

/-- The tunnel log `after` is the log `before` followed by packets none of which
has RST set. -/
def rst_free (before after : List tcp_frame) : Prop :=
  before <+: after ∧ ∀ f ∈ after.drop before.length, f.tcp.rst = false

/-- Since the tunnel log was `before`, either no packet with RST set was written
or the session worked on is in TIME_WAIT or CLOSE. -/
def rst_terminal (before : List tcp_frame) (d : tcp_ctx) : Prop :=
  rst_free before d.io.tun ∨ tcp_terminal d.cur

/-- The IP version of a synthesised packet's header. -/
def ip_header.version : ip_header → Nat
  | .v4 _ => 4
  | .v6 _ => 6

/-- The length field of a synthesised packet's IP header as a number: the total
length of an IPv4 header, the payload length of an IPv6 header. -/
def ip_header.length_field : ip_header → Nat
  | .v4 h => ntohs h.tot_len
  | .v6 h => ntohs h.plen

/-! ## `check_dhcp` -/

/-- The path `request->opcode == 1` of `check_dhcp(args, u, data, datalen)`, reached by a
datagram of at least `sizeof(struct dhcp_packet)` bytes with the magic number,
`htype` 1 and `hlen` 6: `inet_pton(AF_INET, "10.1.10.1", &u->saddr)` stores the
four address bytes at the start of the session's source address, and the
response is written with `write_udp`.  `struct dhcp_packet` is declared in
`netguard.h`, so the 500 bytes of the response are a parameter; so is the
value returned, the function ending without a `return` statement. -/
def check_dhcp_request (write_ok : Nat → Bool) (ret : Int) (response : List Byte)
    (u : udp_session) (io : udp_io) : dhcp_result :=
  let u1 : udp_session := { u with saddr := [10, 1, 10, 1] ++ u.saddr.drop 4 }
  { ret := ret, cur := u1, io := (write_udp write_ok io u1 response).1 }

/-! ## Concrete values (DHCP) -/

/-- A DHCP discover: BOOTP request, hardware type 1 with six address bytes,
zeroes up to the magic number 99.130.83.99. -/
def ex_dhcp_data : List Byte := [1, 1, 6, 0] ++ List.replicate 232 0 ++ [99, 130, 83, 99]

/-- The discover as a datagram from 0.0.0.0, port 68, to 255.255.255.255, port 67. -/
def ex_discover : udp_in :=
  { version := 4,
    saddr := List.replicate 16 0,
    daddr := [255, 255, 255, 255, 0, 0, 0, 0, 0, 0, 0, 0, 0, 0, 0, 0],
    udp := { source := htons 68, dest := htons 67, len := htons 248 },
    data := ex_dhcp_data }

/-- An environment for `handle_udp` in which `check_dhcp` takes the path of
`check_dhcp_request` with the given return value and a response of 500 zero
bytes; every other call succeeds. -/
def ex_dhcp_env (ret : Int) : udp_env :=
  { time := fun _ => 100, malloc := ex_udp 4, open_udp_socket := 8, sendto := 240,
    write_ok := fun _ => true, beyond := 0,
    check_dhcp := fun cur _ io =>
      check_dhcp_request (fun _ => true) ret (List.replicate 500 0) cur io }

/-- A datagram of 240 bytes that is a DHCP request as `check_dhcp` tests it (BOOTP
request, hardware type 1 with six address bytes, the magic number
99.130.83.99 at offset 236) and a DNS query as `get_dns` tests it: QR and the
opcode are 0 in the byte that holds `hlen`, the question count is read from
the transaction id, and the bytes from offset 12 are four labels of 63, 63, 63
and 30 bytes and the zero byte, so that the magic number is read as type and
class. -/
def ex_dhcp_query : List Byte :=
  [1, 1, 6, 0, 0, 1, 0, 0, 0, 0, 0, 0]
    ++ dns_encode [List.replicate 63 97, List.replicate 63 97, List.replicate 63 97,
        List.replicate 30 97]
    ++ [0] ++ [99, 130, 83, 99]

/-! ## Concrete values (packets from the tunnel, the sweeper) -/

/-- The IPv4 header of a packet of `len` bytes with the given protocol from
10.0.0.2 to 93.184.216.34 (no options, checksum field zero). -/
def ex_ip4 (len protocol : Byte) : List Byte :=
  [0x45, 0, 0, len, 0, 0, 0, 0, 64, protocol, 0, 0, 10, 0, 0, 2, 93, 184, 216, 34]

/-- A TCP segment without payload from port 40000 to port 80 with sequence
number 1000 and the given flag byte, as an IPv4 packet of 40 bytes. -/
def ex_tcp_packet (flags : Byte) : List Byte :=
  ex_ip4 40 6 ++ [0x9c, 0x40, 0, 80, 0, 0, 3, 232, 0, 0, 0, 0, 0x50, flags, 0xff, 0xff,
    0, 0, 0, 0]

/-- A UDP datagram with four payload bytes from port 40000 to port 9999, as an
IPv4 packet of 32 bytes. -/
def ex_udp_packet : List Byte :=
  ex_ip4 32 17 ++ [0x9c, 0x40, 0x27, 0x0f, 0, 12, 0, 0, 1, 2, 3, 4]

/-- Arguments with logging and filtering on and the one allowed owner 10002. -/
def ex_args : arguments := { log := true, filter := true, uids := [10002], hosts := [] }

/-- An environment for `handle_ip`: log level `ANDROID_LOG_WARN`, every socket
owned by 10001, and handlers whose calls succeed. -/
def ex_ip_env : ip_env :=
  { loglevel := ANDROID_LOG_WARN, get_uid := fun _ _ _ _ _ _ => 10001, tcp := ex_env 1,
    udp := ex_udp_env 8 4 }

/-- A clock for `check_sessions` that reads 1000 throughout; writes succeed. -/
def ex_sweep : sweep_env := { time := fun _ => 1000, write_ok := fun _ => true }

/-! ## `get_selects` -/

/-- The three descriptor sets `get_selects` fills, each as the list of the
descriptors given to `FD_SET` in order (`FD_ISSET` is membership), and the
value it returns. -/
structure selects where
  rfds : List Int
  wfds : List Int
  efds : List Int
  max : Int
  deriving DecidableEq, Repr

/-- The loop "Select UDP sockets" of `get_selects`. -/
def get_selects_udp : List udp_session → selects → selects
  | [], s => s
  | u :: next, s =>
    get_selects_udp next
      (if ¬ u.stop then
        { rfds := s.rfds ++ [u.socket], wfds := s.wfds, efds := s.efds ++ [u.socket],
          max := if u.socket > s.max then u.socket else s.max }
       else s)

/-- The loop "Select TCP sockets" of `get_selects`. -/
def get_selects_tcp : List tcp_session → selects → selects
  | [], s => s
  | t :: next, s =>
    get_selects_tcp next
      (if t.state = TCP_LISTEN then
        { rfds := s.rfds, wfds := s.wfds ++ [t.socket], efds := s.efds ++ [t.socket],
          max := if t.socket > s.max then t.socket else s.max }
       else if t.state = TCP_ESTABLISHED ∨ t.state = TCP_SYN_RECV
           ∨ t.state = TCP_CLOSE_WAIT then
        { rfds := if t.send_window > 0 then s.rfds ++ [t.socket] else s.rfds,
          wfds := s.wfds, efds := s.efds ++ [t.socket],
          max := if t.socket > s.max then t.socket else s.max }
       else s)

/-- The function `get_selects(args, rfds, wfds, efds)` on both session lists, with `tun`
the descriptor `args->tun`. -/
def get_selects (tun : Int) (udp : List udp_session) (tcp : List tcp_session) : selects :=
  get_selects_tcp tcp
    (get_selects_udp udp { rfds := [tun], wfds := [], efds := [tun], max := tun })

/-- The states in which `get_selects` looks for data on the socket. -/
def tcp_reading (t : tcp_session) : Bool :=
  decide (t.state = TCP_ESTABLISHED ∨ t.state = TCP_SYN_RECV ∨ t.state = TCP_CLOSE_WAIT)

/-! ## The capture file: `write_pcap_hdr`, `write_pcap_rec`, `write_pcap` -/

/-- Modelled from the spec: `struct pcap_hdr_s` of `netguard.h`, the global header
of a capture file (24 bytes: magic number, major and minor version, time zone
offset, accuracy, snapshot length, link type). -/
structure pcap_hdr_s where
  magic_number : Nat
  version_major : Nat
  version_minor : Nat
  thiszone : Nat
  sigfigs : Nat
  snaplen : Nat
  network : Nat
  deriving DecidableEq, Repr

/-- The 24 bytes of a `struct pcap_hdr_s` in memory. -/
def pcap_hdr_s.bytes (h : pcap_hdr_s) : List Byte :=
  le32 h.magic_number ++ le16 h.version_major ++ le16 h.version_minor ++ le32 h.thiszone
    ++ le32 h.sigfigs ++ le32 h.snaplen ++ le32 h.network

/-- Modelled from the spec: `struct pcaprec_hdr_s` of `netguard.h`, the header of
a record (16 bytes: seconds, microseconds, captured length, original
length). -/
structure pcaprec_hdr_s where
  ts_sec : Nat
  ts_usec : Nat
  incl_len : Nat
  orig_len : Nat
  deriving DecidableEq, Repr

/-- The 16 bytes of a `struct pcaprec_hdr_s` in memory. -/
def pcaprec_hdr_s.bytes (h : pcaprec_hdr_s) : List Byte :=
  le32 h.ts_sec ++ le32 h.ts_usec ++ le32 h.incl_len ++ le32 h.orig_len

/-- Results of the system calls of one `write_pcap`: whether `fwrite` wrote the
item and whether `ftruncate` returned 0. -/
structure pcap_io where
  fwrite_ok : Bool
  ftruncate_ok : Bool
  deriving DecidableEq, Repr

/-- The function `write_pcap(ptr, len)` on the content of the capture file, which is open
for appending: the bytes are added at the end (`fwrite` of an item of no bytes
returns 0, as a failed one does), `ftell` gives the size, and a file larger
than `MAX_PCAP_FILE` is cut to `sizeof(struct pcap_hdr_s)` bytes. -/
def write_pcap (k : netguard_h) (io : pcap_io) (file : List Byte) (ptr : List Byte) :
    List Byte :=
  if ¬ io.fwrite_ok ∨ ptr = [] then file
  else
    let file1 := file ++ ptr
    if file1.length > k.MAX_PCAP_FILE then
      if io.ftruncate_ok then file1.take 24 else file1
    else file1

/-- The global header `write_pcap_hdr` builds. -/
def pcap_global (k : netguard_h) : pcap_hdr_s :=
  { magic_number := 0xa1b2c3d4, version_major := 2, version_minor := 4, thiszone := 0,
    sigfigs := 0, snaplen := k.MAX_PCAP_RECORD, network := k.LINKTYPE_RAW }

/-- The function `write_pcap_hdr()`. -/
def write_pcap_hdr (k : netguard_h) (io : pcap_io) (file : List Byte) : List Byte :=
  write_pcap k io file (pcap_global k).bytes

/-- The record header `write_pcap_rec` builds for a packet of `length` bytes at
the time `tv_sec`, `tv_nsec`. -/
def pcap_record (k : netguard_h) (tv_sec tv_nsec length : Nat) : pcaprec_hdr_s :=
  { ts_sec := tv_sec % 2 ^ 32, ts_usec := tv_nsec / 1000 % 2 ^ 32,
    incl_len := (if length < k.MAX_PCAP_RECORD then length else k.MAX_PCAP_RECORD) % 2 ^ 32,
    orig_len := length % 2 ^ 32 }

/-- The function `write_pcap_rec(buffer, length)`: `tv_sec` and `tv_nsec` are what
`clock_gettime` stored, `io1` and `io2` the results of the calls of the two
`write_pcap`. -/
def write_pcap_rec (k : netguard_h) (tv_sec tv_nsec : Nat) (io1 io2 : pcap_io)
    (file : List Byte) (buffer : List Byte) : List Byte :=
  let plen := if buffer.length < k.MAX_PCAP_RECORD then buffer.length else k.MAX_PCAP_RECORD
  let file1 := write_pcap k io1 file (pcap_record k tv_sec tv_nsec buffer.length).bytes
  write_pcap k io2 file1 (buffer.take plen)

/-- The `uint32_t` stored at offset `i` of a byte sequence (little-endian host). -/
def read32 (bs : List Byte) (i : Nat) : Nat :=
  (bs.getD i 0).val + 256 * (bs.getD (i + 1) 0).val + 65536 * (bs.getD (i + 2) 0).val
    + 16777216 * (bs.getD (i + 3) 0).val

/-- Following the spec's words: the bytes are whole records, each a record
header with captured length = min(original length, `MAX_PCAP_RECORD`)
followed by exactly that many bytes.  `fuel` bounds the number of records. -/
def pcap_records (k : netguard_h) : Nat → List Byte → Bool
  | _, [] => true
  | 0, _ :: _ => false
  | fuel + 1, b :: rest =>
    let bs := b :: rest
    let incl := read32 bs 8
    let orig := read32 bs 12
    decide (16 ≤ bs.length ∧ incl = min orig k.MAX_PCAP_RECORD ∧ 16 + incl ≤ bs.length)
      && pcap_records k fuel (bs.drop (16 + incl))

/-- Following the spec's words: the file is exactly one global header at offset
0 followed by whole records. -/
def pcap_wellformed (k : netguard_h) (file : List Byte) : Bool :=
  decide (file.take 24 = (pcap_global k).bytes) && pcap_records k file.length (file.drop 24)

/-! ## Well-formed DNS questions -/

/-- Following the claim's words: the bytes are a sequence of labels (a length
byte from 1 to 63 and that many bytes, all present), a zero length byte, and
exactly four more bytes.  `fuel` bounds the number of labels. -/
def dns_question_wf : Nat → List Byte → Bool
  | _, [] => false
  | 0, _ :: _ => false
  | fuel + 1, len :: rest =>
    if len.val = 0 then decide (rest.length = 4)
    else if len.val < 64 ∧ len.val ≤ rest.length then dns_question_wf fuel (rest.drop len.val)
    else false

/-- Following the claim's words: the bytes after the 12-byte header of the
datagram are a well-formed question. -/
def dns_wellformed (data : List Byte) : Bool :=
  dns_question_wf data.length (data.drop 12)

/-! ## Concrete values (ingress, DNS, capture file) -/

/-- An IPv6 packet from `::1` to `::2`: the fixed header with next header 0
(hop-by-hop options) and payload length 28, one hop-by-hop header of eight
bytes with next header 6, and a TCP header with SYN set (ports 40000 and 80,
sequence number 1000). -/
def ex_ip6_packet : List Byte :=
  [0x60, 0, 0, 0, 0, 28, 0, 64]
    ++ [0, 0, 0, 0, 0, 0, 0, 0, 0, 0, 0, 0, 0, 0, 0, 1]
    ++ [0, 0, 0, 0, 0, 0, 0, 0, 0, 0, 0, 0, 0, 0, 0, 2]
    ++ [6, 0, 1, 4, 0, 0, 0, 0]
    ++ [0x9c, 0x40, 0, 80, 0, 0, 3, 232, 0, 0, 0, 0, 0x50, 2, 0xff, 0xff, 0, 0, 0, 0]

/-- The environment `ex_ip_env` with verbose logging (`ANDROID_LOG_DEBUG`). -/
def ex_ip_env_verbose : ip_env := { ex_ip_env with loglevel := 3 }

/-- Arguments with logging on, filtering off and the one allowed owner 10001. -/
def ex_args_open : arguments := { log := true, filter := false, uids := [10001], hosts := [] }

/-- A question that is cut short: the label `a`, then a length byte 9 with only
four bytes behind it. -/
def ex_query_cut : List Byte := ex_dns_header ++ [1, 97] ++ [9] ++ [0, 1, 0, 1]

/-- A question of ten labels `a` followed by a byte 5 instead of the zero byte. -/
def ex_query_ten : List Byte :=
  ex_dns_header ++ dns_encode (List.replicate 10 [97]) ++ [5] ++ [0, 1, 0, 1]

/-- A query that ends with its only label: the header and the label `abc`. -/
def ex_query_short : List Byte := ex_dns_header ++ [3, 97, 98, 99]

/-- System calls of `write_pcap` that succeed. -/
def ex_pcap_io : pcap_io := { fwrite_ok := true, ftruncate_ok := true }

/-- A capture file of 60 bytes: the global header and the record of a packet of
twenty bytes 0x45. -/
def ex_pcap_file : List Byte :=
  write_pcap_rec ex_k 100 0 ex_pcap_io ex_pcap_io (write_pcap_hdr ex_k ex_pcap_io [])
    (List.replicate 20 0x45)

/-- The example UDP session to port 53 with nothing written yet. -/
def ex_udp_ctx : udp_ctx := { cur := ex_udp 4, io := {} }

/-- An environment for `check_udp_sockets` in which `recv` returns three bytes. -/
def ex_answer_env : select_env := ex_select (.bytes [1, 2, 3])

/-! # Theorems

Every definition of the embedding is above this line; below are lemmas, the
theorems for the numbered claims of the specification, and their instances at
concrete inputs. -/

/-! ## Lemmas on byte order -/

theorem byte_val (n : Nat) : (byte n).val = n % 256 := rfl

theorem word_sum_le16 (v : Nat) : word_sum (le16 v) = v % 65536 := by
  simp only [le16, word_sum, word16, byte_val]
  omega

theorem swap16_mod (r q : Nat) (hq : q < 256) : (r * 256 + q) % 256 = q := by omega

theorem swap16_div (r q : Nat) (hq : q < 256) : (r * 256 + q) / 256 = r := by omega

theorem le16_htons (x : Nat) : le16 (htons x) = [byte (x / 256), byte x] := by
  have hq : x / 256 % 256 < 256 := Nat.mod_lt _ (by decide)
  simp only [le16, htons, List.cons.injEq, and_true]
  constructor
  · apply Fin.ext
    simp only [byte_val, swap16_mod _ _ hq]
  · apply Fin.ext
    simp only [byte_val, swap16_div _ _ hq, Nat.mod_mod]

theorem htons_htons (x : Nat) : htons (htons x) = x % 65536 := by
  have hq : x / 256 % 256 < 256 := Nat.mod_lt _ (by decide)
  simp only [htons, swap16_mod _ _ hq, swap16_div _ _ hq, Nat.mod_mod]
  omega

theorem htonl_digits (a b c d : Nat) (ha : a < 256) (hb : b < 256) (hc : c < 256)
    (hd : d < 256) :
    htonl (a * 16777216 + b * 65536 + c * 256 + d)
      = d * 16777216 + c * 65536 + b * 256 + a := by
  have h0 : (a * 16777216 + b * 65536 + c * 256 + d) % 256 = d := by omega
  have h1 : (a * 16777216 + b * 65536 + c * 256 + d) / 256 % 256 = c := by omega
  have h2 : (a * 16777216 + b * 65536 + c * 256 + d) / 65536 % 256 = b := by omega
  have h3 : (a * 16777216 + b * 65536 + c * 256 + d) / 16777216 % 256 = a := by omega
  simp only [htonl, h0, h1, h2, h3]

theorem htonl_htonl (x : Nat) : htonl (htonl x) = x % 4294967296 := by
  have e0 : x % 256 < 256 := Nat.mod_lt _ (by decide)
  have e1 : x / 256 % 256 < 256 := Nat.mod_lt _ (by decide)
  have e2 : x / 65536 % 256 < 256 := Nat.mod_lt _ (by decide)
  have e3 : x / 16777216 % 256 < 256 := Nat.mod_lt _ (by decide)
  have h := htonl_digits (x % 256) (x / 256 % 256) (x / 65536 % 256) (x / 16777216 % 256)
    e0 e1 e2 e3
  have hx : htonl x = x % 256 * 16777216 + x / 256 % 256 * 65536 + x / 65536 % 256 * 256
      + x / 16777216 % 256 := by simp only [htonl]
  rw [hx, h]
  have s1 : x % 4294967296 = x % 16777216 + 16777216 * (x / 16777216 % 256) := by omega
  have s2 : x % 16777216 = x % 65536 + 65536 * (x / 65536 % 256) := by omega
  have s3 : x % 65536 = x % 256 + 256 * (x / 256 % 256) := by omega
  rw [s1, s2, s3]
  generalize x / 16777216 % 256 = a
  generalize x / 65536 % 256 = b
  generalize x / 256 % 256 = c
  generalize x % 256 = d
  omega

theorem ntohl_htonl (x : Nat) : ntohl (htonl x) = x % 4294967296 := htonl_htonl x

theorem ntohs_htons (x : Nat) : ntohs (htons x) = x % 65536 := htons_htons x

/-! ## Lemmas on `calc_checksum` -/

theorem sum_buffer_eq (buf : List Byte) :
    ∀ acc, sum_buffer acc buf = if buf = [] then acc else (acc + word_sum buf) % 2 ^ 32 := by
  induction buf using word_sum.induct with
  | case3 => intro acc; simp [sum_buffer]
  | case2 b => intro acc; simp [sum_buffer, word_sum]
  | case1 b0 b1 rest ih =>
    intro acc
    simp only [sum_buffer, word_sum, ih, reduceCtorEq, if_false]
    split
    · next h => subst h; simp [word_sum]
    · omega

theorem word_sum_append (a b : List Byte) (h : a.length % 2 = 0) :
    word_sum (a ++ b) = word_sum a + word_sum b := by
  induction a using word_sum.induct with
  | case3 => simp [word_sum]
  | case2 x => simp at h
  | case1 b0 b1 rest ih =>
    simp only [List.length_cons] at h
    have h2 : rest.length % 2 = 0 := by omega
    simp only [List.cons_append, word_sum, List.append_eq, ih h2]
    omega

theorem word_sum_le (buf : List Byte) : word_sum buf ≤ 32768 * buf.length := by
  induction buf using word_sum.induct with
  | case3 => simp [word_sum]
  | case2 x => simp only [word_sum, List.length_singleton]; omega
  | case1 b0 b1 rest ih =>
    simp only [word_sum, word16, List.length_cons]
    omega

theorem fold_carry_eq (fuel : Nat) : ∀ sum, sum ≤ fuel → fold_carry fuel sum = ones16 sum := by
  induction fuel with
  | zero => intro sum h; have : sum = 0 := by omega
            subst this; simp [fold_carry, ones16]
  | succ n ih =>
    intro sum h
    simp only [fold_carry, Nat.shiftRight_eq_div_pow, ne_eq, ite_not]
    have hand : sum &&& 0xFFFF = sum % 65536 := Nat.and_pow_two_sub_one_eq_mod sum 16
    split
    · next h0 =>
      simp only [ones16]
      split <;> omega
    · next h0 =>
      rw [hand, ih _ (by omega)]
      simp only [ones16]
      split <;> split <;> omega

theorem ones16_le (x : Nat) : ones16 x ≤ 65535 := by
  simp only [ones16]; split <;> omega

theorem calc_checksum_eq (start : Nat) (buf : List Byte) (hs : start < 65536)
    (hb : start + word_sum buf < 2 ^ 32) :
    calc_checksum start buf = ones16 (start + word_sum buf) := by
  simp only [calc_checksum, sum_buffer_eq, Nat.mod_eq_of_lt hs, Nat.mod_eq_of_lt hb]
  rw [fold_carry_eq _ _ (le_refl _)]
  split
  · next h => subst h; simp only [word_sum, Nat.add_zero]
              have := ones16_le start; omega
  · have := ones16_le (start + word_sum buf); omega

theorem ones16_add (a b : Nat) : ones16 (ones16 a + b) = ones16 (a + b) := by
  simp only [ones16]
  split <;> split <;> split <;> omega

theorem ones16_complement (s : Nat) : ones16 (s + (65535 - ones16 s)) = 65535 := by
  simp only [ones16]
  split <;> split <;> omega

/-! ## Lemmas on header layout -/

theorem iphdr_bytes_length (h : iphdr) : h.bytes.length = 20 := rfl

theorem ip6_hdr_bytes_length (h : ip6_hdr) : h.bytes.length = 40 := rfl

theorem tcphdr_bytes_length (h : tcphdr) : h.bytes.length = 20 := rfl

theorem udphdr_bytes_length (h : udphdr) : h.bytes.length = 8 := rfl

theorem ippseudo_bytes_length (h : ippseudo) : h.bytes.length = 12 := rfl

theorem ip6_hdr_pseudo_bytes_length (h : ip6_hdr_pseudo) : h.bytes.length = 40 := rfl

theorem iphdr_word_sum_check (ihl version tos tot_len id frag_off ttl protocol c : Nat)
    (saddr daddr : List Byte) :
    word_sum (iphdr.mk ihl version tos tot_len id frag_off ttl protocol c saddr daddr).bytes
      = word_sum (iphdr.mk ihl version tos tot_len id frag_off ttl protocol 0 saddr daddr).bytes
        + c % 65536 := by
  simp only [iphdr.bytes, le16, ip4_bytes, List.cons_append, List.nil_append, word_sum, word16,
    byte_val]
  omega

theorem tcphdr_word_sum_check (source dest seq ack_seq doff : Nat) (fin syn rst psh ack urg : Bool)
    (window c urg_ptr : Nat) :
    word_sum (tcphdr.mk source dest seq ack_seq doff fin syn rst psh ack urg window c
        urg_ptr).bytes
      = word_sum (tcphdr.mk source dest seq ack_seq doff fin syn rst psh ack urg window 0
          urg_ptr).bytes + c % 65536 := by
  simp only [tcphdr.bytes, le16, le32, List.cons_append, List.nil_append, word_sum, word16,
    byte_val]
  omega

theorem udphdr_word_sum_check (source dest len c : Nat) :
    word_sum (udphdr.mk source dest len c).bytes
      = word_sum (udphdr.mk source dest len 0).bytes + c % 65536 := by
  simp only [udphdr.bytes, le16, List.cons_append, List.nil_append, word_sum, word16,
    byte_val]
  omega

theorem ip4_pseudo_eq (h : iphdr) (rest : List Byte) :
    ip4_pseudo (h.bytes ++ rest)
      = ({ src := h.saddr, dst := h.daddr, p := h.protocol,
           len := htons rest.length } : ippseudo).bytes := by
  simp only [ip4_pseudo, ippseudo.bytes, le16_htons, be16, List.length_append,
    iphdr_bytes_length, Nat.add_sub_cancel_left]
  simp [iphdr.bytes, le16, ip4_bytes, byte]

theorem ip4_header_eq (h : iphdr) (rest : List Byte) : (h.bytes ++ rest).take 20 = h.bytes := by
  rw [List.take_left' (iphdr_bytes_length h)]

theorem ip4_transport_eq (h : iphdr) (rest : List Byte) : (h.bytes ++ rest).drop 20 = rest := by
  rw [List.drop_left' (iphdr_bytes_length h)]

theorem ip6_transport_eq (h : ip6_hdr) (rest : List Byte) :
    (h.bytes ++ rest).drop 40 = rest := by
  rw [List.drop_left' (ip6_hdr_bytes_length h)]

theorem htons_lt (x : Nat) : htons x < 65536 := by
  simp only [htons]
  omega

theorem word_sum_le32 (v : Nat) (hv : v < 65536) : word_sum (le32 v) = v := by
  simp only [le32, word_sum, word16, byte_val]
  omega

theorem word_sum_be32 (n : Nat) (hn : n < 65536) : word_sum (be32 n) = htons n := by
  simp only [be32, word_sum, word16, byte_val, htons]
  omega

theorem ip6_bytes_length (a : List Byte) : (ip6_bytes a).length = 16 := rfl

theorem ip6_pseudo_eq (h : ip6_hdr) (rest : List Byte) :
    ip6_pseudo (h.bytes ++ rest)
      = ip6_bytes h.src ++ (ip6_bytes h.dst ++ (be32 rest.length ++ [0, 0, 0, byte h.nxt])) := by
  simp only [ip6_pseudo, List.length_append, ip6_hdr_bytes_length, Nat.add_sub_cancel_left]
  simp [ip6_hdr.bytes, le16, ip6_bytes, byte]

theorem ip6_pseudo_word_sum (h : ip6_hdr) (rest : List Byte) (hr : rest.length < 65536) :
    word_sum (ip6_pseudo (h.bytes ++ rest))
      = word_sum ({ ip6ph_src := h.dst, ip6ph_dst := h.src, ip6ph_len := htons rest.length,
                    ip6ph_nxt := h.nxt } : ip6_hdr_pseudo).bytes := by
  have e4 : (be32 rest.length).length % 2 = 0 := by simp [be32]
  have e4l : (le32 (htons rest.length)).length % 2 = 0 := by simp [le32]
  have e16 : ∀ a : List Byte, (ip6_bytes a).length % 2 = 0 := fun _ => by simp [ip6_bytes]
  rw [ip6_pseudo_eq]
  simp only [ip6_hdr_pseudo.bytes, List.append_assoc]
  rw [word_sum_append _ _ (e16 _), word_sum_append _ _ (e16 _), word_sum_append _ _ e4,
    word_sum_append _ _ (e16 _), word_sum_append _ _ (e16 _), word_sum_append _ _ e4l,
    word_sum_be32 _ hr, word_sum_le32 _ (htons_lt _)]
  omega

/-! ## Completing a checksum -/

theorem not16_of_le (x : Nat) (h : x ≤ 65535) : not16 x = 65535 - x := by
  simp only [not16]
  omega

theorem header_checksum_ok (h0 h1 : List Byte)
    (hh : word_sum h1 = word_sum h0 + not16 (calc_checksum 0 h0))
    (hb : 32768 * h0.length + 65535 < 2 ^ 32) :
    calc_checksum 0 h1 = 65535 := by
  have b0 := word_sum_le h0
  have c0 : calc_checksum 0 h0 = ones16 (0 + word_sum h0) :=
    calc_checksum_eq 0 h0 (by decide) (by omega)
  have l0 := ones16_le (0 + word_sum h0)
  rw [c0, not16_of_le _ l0] at hh
  rw [calc_checksum_eq 0 h1 (by decide) (by omega), hh]
  simp only [Nat.zero_add]
  exact ones16_complement _

theorem transport_checksum_ok (p q h0 h1 d : List Byte)
    (hp : p.length % 2 = 0) (hq : q.length % 2 = 0)
    (hh0 : h0.length % 2 = 0) (hh1 : h1.length % 2 = 0)
    (hpq : word_sum q = word_sum p)
    (hh : word_sum h1
      = word_sum h0 + not16 (calc_checksum (calc_checksum (calc_checksum 0 p) h0) d))
    (hb : 32768 * (p.length + h0.length + d.length) + 65535 < 2 ^ 32) :
    calc_checksum 0 (q ++ (h1 ++ d)) = 65535 := by
  have bp := word_sum_le p
  have bh := word_sum_le h0
  have bd := word_sum_le d
  have c1 : calc_checksum 0 p = ones16 (0 + word_sum p) :=
    calc_checksum_eq 0 p (by decide) (by omega)
  have l1 := ones16_le (0 + word_sum p)
  have c2 : calc_checksum (ones16 (0 + word_sum p)) h0
      = ones16 (ones16 (0 + word_sum p) + word_sum h0) :=
    calc_checksum_eq _ h0 (by omega) (by omega)
  have l2 := ones16_le (ones16 (0 + word_sum p) + word_sum h0)
  have c3 : calc_checksum (ones16 (ones16 (0 + word_sum p) + word_sum h0)) d
      = ones16 (ones16 (ones16 (0 + word_sum p) + word_sum h0) + word_sum d) :=
    calc_checksum_eq _ d (by omega) (by omega)
  rw [c1, c2, c3, ones16_add, Nat.add_assoc (ones16 _), ones16_add, ← Nat.add_assoc] at hh
  have l3 := ones16_le (0 + word_sum p + word_sum h0 + word_sum d)
  rw [not16_of_le _ l3] at hh
  have hs : word_sum (q ++ (h1 ++ d))
      = (0 + word_sum p + word_sum h0 + word_sum d)
        + (65535 - ones16 (0 + word_sum p + word_sum h0 + word_sum d)) := by
    rw [word_sum_append _ _ hq, word_sum_append _ _ hh1, hpq, hh]
    omega
  rw [calc_checksum_eq 0 _ (by decide) (by omega), Nat.zero_add, hs]
  exact ones16_complement _

theorem ones16_complement_off (s e : Nat) :
    ones16 (s + (65535 - ones16 s) + e) = ones16 (65535 + e) := by
  simp only [ones16]
  split <;> split <;> split <;> omega

theorem transport_checksum_off (p q h0 h1 d : List Byte) (e : Nat)
    (hp : p.length % 2 = 0) (hq : q.length % 2 = 0)
    (hh0 : h0.length % 2 = 0) (hh1 : h1.length % 2 = 0)
    (hpq : word_sum q = word_sum p + e)
    (hh : word_sum h1
      = word_sum h0 + not16 (calc_checksum (calc_checksum (calc_checksum 0 p) h0) d))
    (hb : 32768 * (p.length + h0.length + d.length) + 65535 + e < 2 ^ 32) :
    calc_checksum 0 (q ++ (h1 ++ d)) = ones16 (65535 + e) := by
  have bp := word_sum_le p
  have bh := word_sum_le h0
  have bd := word_sum_le d
  have c1 : calc_checksum 0 p = ones16 (0 + word_sum p) :=
    calc_checksum_eq 0 p (by decide) (by omega)
  have l1 := ones16_le (0 + word_sum p)
  have c2 : calc_checksum (ones16 (0 + word_sum p)) h0
      = ones16 (ones16 (0 + word_sum p) + word_sum h0) :=
    calc_checksum_eq _ h0 (by omega) (by omega)
  have l2 := ones16_le (ones16 (0 + word_sum p) + word_sum h0)
  have c3 : calc_checksum (ones16 (ones16 (0 + word_sum p) + word_sum h0)) d
      = ones16 (ones16 (ones16 (0 + word_sum p) + word_sum h0) + word_sum d) :=
    calc_checksum_eq _ d (by omega) (by omega)
  rw [c1, c2, c3, ones16_add, Nat.add_assoc (ones16 _), ones16_add, ← Nat.add_assoc] at hh
  have l3 := ones16_le (0 + word_sum p + word_sum h0 + word_sum d)
  rw [not16_of_le _ l3] at hh
  have hs : word_sum (q ++ (h1 ++ d))
      = (0 + word_sum p + word_sum h0 + word_sum d)
        + (65535 - ones16 (0 + word_sum p + word_sum h0 + word_sum d)) + e := by
    rw [word_sum_append _ _ hq, word_sum_append _ _ hh1, hpq, hh]
    omega
  rw [calc_checksum_eq 0 _ (by decide) (by omega), Nat.zero_add, hs]
  exact ones16_complement_off _ _

/-! ## Checksums of synthesised packets -/

theorem not16_mod (x : Nat) : not16 x % 65536 = not16 x := by
  simp only [not16]
  omega

theorem build_tcp_v4_sums (k : netguard_h) (cur : tcp_session) (data : List Byte)
    (confirm : Nat) (syn ack fin rst : Bool) (hv : cur.version = 4)
    (hd : data.length + 20 < 65536) :
    ip4_header_sum (build_tcp k cur data confirm syn ack fin rst).buffer = 65535
    ∧ ip4_transport_sum (build_tcp k cur data confirm syn ack fin rst).buffer = 65535 := by
  simp only [build_tcp, build_ip, hv, if_true, ip_header.bytes, List.append_assoc]
  constructor
  · rw [ip4_header_sum, ip4_header_eq]
    apply header_checksum_ok
      (iphdr.bytes { version := 4, ihl := 20 / 4, tot_len := htons (20 + 20 + data.length),
                     ttl := IPDEFTTL, protocol := IPPROTO_TCP, saddr := ip4_bytes cur.daddr,
                     daddr := ip4_bytes cur.saddr })
    · rw [iphdr_word_sum_check, not16_mod]
    · rw [iphdr_bytes_length]; decide
  · rw [ip4_transport_sum, ip4_transport_eq, ip4_pseudo_eq]
    refine transport_checksum_ok
      (ippseudo.bytes { src := ip4_bytes cur.daddr, dst := ip4_bytes cur.saddr,
                        p := IPPROTO_TCP, len := htons (20 + data.length) })
      _
      (tcphdr.bytes { source := cur.dest, dest := cur.source, seq := htonl cur.local_seq,
                      ack_seq := if ack then htonl ((cur.remote_seq + confirm) % 2 ^ 32) else 0,
                      doff := 20 / 4, syn := syn, ack := ack, fin := fin, rst := rst,
                      window := htons k.TCP_RECV_WINDOW })
      _ _ ?_ ?_ ?_ ?_ ?_ ?_ ?_
    · rw [ippseudo_bytes_length]
    · rw [ippseudo_bytes_length]
    · rw [tcphdr_bytes_length]
    · rw [tcphdr_bytes_length]
    · simp only [List.length_append, tcphdr_bytes_length]
    · rw [tcphdr_word_sum_check, not16_mod]
    · rw [ippseudo_bytes_length, tcphdr_bytes_length]; omega

theorem build_tcp_v6_sum (k : netguard_h) (cur : tcp_session) (data : List Byte)
    (confirm : Nat) (syn ack fin rst : Bool) (hv : ¬ cur.version = 4)
    (hd : data.length + 20 < 65536) :
    ip6_transport_sum (build_tcp k cur data confirm syn ack fin rst).buffer = 65535 := by
  have e : 40 + 20 + data.length - 40 = 20 + data.length := by omega
  simp only [build_tcp, build_ip, hv, if_false, ip_header.bytes, List.append_assoc, e]
  rw [ip6_transport_sum, ip6_transport_eq]
  refine transport_checksum_ok
    (ip6_hdr_pseudo.bytes { ip6ph_src := ip6_bytes cur.saddr, ip6ph_dst := ip6_bytes cur.daddr,
                            ip6ph_len := htons (20 + data.length), ip6ph_nxt := IPPROTO_TCP })
    _
    (tcphdr.bytes { source := cur.dest, dest := cur.source, seq := htonl cur.local_seq,
                    ack_seq := if ack then htonl ((cur.remote_seq + confirm) % 2 ^ 32) else 0,
                    doff := 20 / 4, syn := syn, ack := ack, fin := fin, rst := rst,
                    window := htons k.TCP_RECV_WINDOW })
    _ _ ?_ ?_ ?_ ?_ ?_ ?_ ?_
  · rw [ip6_hdr_pseudo_bytes_length]
  · rw [ip6_pseudo_eq]; simp [ip6_bytes, be32]
  · rw [tcphdr_bytes_length]
  · rw [tcphdr_bytes_length]
  · rw [ip6_pseudo_word_sum _ _ (by simp only [List.length_append, tcphdr_bytes_length]; omega)]
    simp only [List.length_append, tcphdr_bytes_length]
  · rw [tcphdr_word_sum_check, not16_mod]
  · rw [ip6_hdr_pseudo_bytes_length, tcphdr_bytes_length]; omega

theorem build_udp_v4_sums (cur : udp_session) (data : List Byte) (hv : cur.version = 4)
    (hd : data.length + 8 < 65536) :
    ip4_header_sum (build_udp cur data).buffer = 65535
    ∧ ip4_transport_sum (build_udp cur data).buffer = 65535 := by
  simp only [build_udp, build_ip, hv, if_true, ip_header.bytes, List.append_assoc]
  constructor
  · rw [ip4_header_sum, ip4_header_eq]
    apply header_checksum_ok
      (iphdr.bytes { version := 4, ihl := 20 / 4, tot_len := htons (20 + 8 + data.length),
                     ttl := IPDEFTTL, protocol := IPPROTO_UDP, saddr := ip4_bytes cur.daddr,
                     daddr := ip4_bytes cur.saddr })
    · rw [iphdr_word_sum_check, not16_mod]
    · rw [iphdr_bytes_length]; decide
  · rw [ip4_transport_sum, ip4_transport_eq, ip4_pseudo_eq]
    refine transport_checksum_ok
      (ippseudo.bytes { src := ip4_bytes cur.daddr, dst := ip4_bytes cur.saddr,
                        p := IPPROTO_UDP, len := htons (8 + data.length) })
      _
      (udphdr.bytes { source := cur.dest, dest := cur.source, len := htons (8 + data.length) })
      _ _ ?_ ?_ ?_ ?_ ?_ ?_ ?_
    · rw [ippseudo_bytes_length]
    · rw [ippseudo_bytes_length]
    · rw [udphdr_bytes_length]
    · rw [udphdr_bytes_length]
    · simp only [List.length_append, udphdr_bytes_length]
    · rw [udphdr_word_sum_check, not16_mod]
    · rw [ippseudo_bytes_length, udphdr_bytes_length]; omega

theorem build_udp_v6_sum (cur : udp_session) (data : List Byte) (hv : ¬ cur.version = 4)
    (hd : data.length + 8 < 65536) :
    ip6_transport_sum (build_udp cur data).buffer = 65535 := by
  have e : 40 + 8 + data.length - 40 = 8 + data.length := by omega
  simp only [build_udp, build_ip, hv, if_false, ip_header.bytes, List.append_assoc, e]
  rw [ip6_transport_sum, ip6_transport_eq]
  refine transport_checksum_ok
    (ip6_hdr_pseudo.bytes { ip6ph_src := ip6_bytes cur.saddr, ip6ph_dst := ip6_bytes cur.daddr,
                            ip6ph_len := htons (8 + data.length), ip6ph_nxt := IPPROTO_UDP })
    _
    (udphdr.bytes { source := cur.dest, dest := cur.source, len := htons (8 + data.length) })
    _ _ ?_ ?_ ?_ ?_ ?_ ?_ ?_
  · rw [ip6_hdr_pseudo_bytes_length]
  · rw [ip6_pseudo_eq]; simp [ip6_bytes, be32]
  · rw [udphdr_bytes_length]
  · rw [udphdr_bytes_length]
  · rw [ip6_pseudo_word_sum _ _ (by simp only [List.length_append, udphdr_bytes_length]; omega)]
    simp only [List.length_append, udphdr_bytes_length]
  · rw [udphdr_word_sum_check, not16_mod]
  · rw [ip6_hdr_pseudo_bytes_length, udphdr_bytes_length]; omega

theorem word_sum_be32_64k : word_sum (be32 65536) = 256 := by decide

theorem build_tcp_v6_long (k : netguard_h) (cur : tcp_session) (data : List Byte)
    (confirm : Nat) (syn ack fin rst : Bool) (hv : ¬ cur.version = 4)
    (hd : data.length = 65516) :
    ip6_transport_sum (build_tcp k cur data confirm syn ack fin rst).buffer = 256 := by
  have e : 40 + 20 + data.length - 40 = 65536 := by omega
  have e0 : htons 65536 = 0 := by decide
  have e1 : ones16 (65535 + 256) = 256 := by decide
  simp only [build_tcp, build_ip, hv, if_false, ip_header.bytes, List.append_assoc, e, e0]
  rw [ip6_transport_sum, ip6_transport_eq, ← e1]
  have e16 : ∀ a : List Byte, (ip6_bytes a).length % 2 = 0 := fun _ => by simp [ip6_bytes]
  refine transport_checksum_off
    (ip6_hdr_pseudo.bytes { ip6ph_src := ip6_bytes cur.saddr, ip6ph_dst := ip6_bytes cur.daddr,
                            ip6ph_len := 0, ip6ph_nxt := IPPROTO_TCP })
    _
    (tcphdr.bytes { source := cur.dest, dest := cur.source, seq := htonl cur.local_seq,
                    ack_seq := if ack then htonl ((cur.remote_seq + confirm) % 2 ^ 32) else 0,
                    doff := 20 / 4, syn := syn, ack := ack, fin := fin, rst := rst,
                    window := htons k.TCP_RECV_WINDOW })
    _ _ 256 ?_ ?_ ?_ ?_ ?_ ?_ ?_
  · rw [ip6_hdr_pseudo_bytes_length]
  · rw [ip6_pseudo_eq]; simp [ip6_bytes, be32]
  · rw [tcphdr_bytes_length]
  · rw [tcphdr_bytes_length]
  · rw [ip6_pseudo_eq]
    simp only [List.length_append, tcphdr_bytes_length, hd, ip6_hdr_pseudo.bytes,
      List.append_assoc]
    rw [word_sum_append _ _ (e16 _), word_sum_append _ _ (e16 _),
      word_sum_append _ _ (by simp [be32]),
      word_sum_append _ _ (e16 _), word_sum_append _ _ (e16 _),
      word_sum_append _ _ (by simp [le32]), word_sum_be32_64k, word_sum_le32 0 (by decide)]
    omega
  · rw [tcphdr_word_sum_check, not16_mod]
  · rw [ip6_hdr_pseudo_bytes_length, tcphdr_bytes_length]; omega

/-- C1 (as amended). Checksums of synthesised packets.  For every session and every
payload whose transport length (TCP or UDP header plus payload) is below 65536,
the packet built by `write_tcp`, and likewise by `write_udp`, has correct
checksums when recomputed over its bytes: for IPv4 the sum over the twenty-byte
IP header and the sum over pseudo-header, transport header and payload are both
0xFFFF; for IPv6 the sum over pseudo-header, transport header and payload is
0xFFFF. -/
theorem write_checksums_correct (k : netguard_h) (cur : tcp_session) (data : List Byte)
    (confirm : Nat) (syn ack fin rst : Bool) (ucur : udp_session) (udata : List Byte)
    (hd : data.length + 20 < 65536) (hu : udata.length + 8 < 65536) :
    (if cur.version = 4 then
       ip4_header_sum (build_tcp k cur data confirm syn ack fin rst).buffer = 0xFFFF
       ∧ ip4_transport_sum (build_tcp k cur data confirm syn ack fin rst).buffer = 0xFFFF
     else
       ip6_transport_sum (build_tcp k cur data confirm syn ack fin rst).buffer = 0xFFFF)
    ∧ (if ucur.version = 4 then
         ip4_header_sum (build_udp ucur udata).buffer = 0xFFFF
         ∧ ip4_transport_sum (build_udp ucur udata).buffer = 0xFFFF
       else
         ip6_transport_sum (build_udp ucur udata).buffer = 0xFFFF) := by
  constructor
  · split
    · next h => exact build_tcp_v4_sums k cur data confirm syn ack fin rst h hd
    · next h => exact build_tcp_v6_sum k cur data confirm syn ack fin rst h hd
  · split
    · next h => exact build_udp_v4_sums ucur udata h hu
    · next h => exact build_udp_v6_sum ucur udata h hu

/-- Witness for C1: a 3-byte TCP payload on an IPv4 session and a 2-byte UDP payload
on an IPv6 session. -/
theorem write_checksums_correct_witness :
    ([1, 2, 3] : List Byte).length + 20 < 65536 ∧ ([4, 5] : List Byte).length + 8 < 65536
    ∧ (if (ex_session TCP_ESTABLISHED).version = 4 then
         ip4_header_sum (build_tcp ex_k (ex_session TCP_ESTABLISHED) [1, 2, 3] 0
            false true false false).buffer = 0xFFFF
         ∧ ip4_transport_sum (build_tcp ex_k (ex_session TCP_ESTABLISHED) [1, 2, 3] 0
            false true false false).buffer = 0xFFFF
       else
         ip6_transport_sum (build_tcp ex_k (ex_session TCP_ESTABLISHED) [1, 2, 3] 0
            false true false false).buffer = 0xFFFF)
    ∧ (if (ex_udp 6).version = 4 then
         ip4_header_sum (build_udp (ex_udp 6) [4, 5]).buffer = 0xFFFF
         ∧ ip4_transport_sum (build_udp (ex_udp 6) [4, 5]).buffer = 0xFFFF
       else
         ip6_transport_sum (build_udp (ex_udp 6) [4, 5]).buffer = 0xFFFF) :=
  ⟨by decide, by decide,
   write_checksums_correct ex_k (ex_session TCP_ESTABLISHED) [1, 2, 3] 0 false true false false
     (ex_udp 6) [4, 5] (by decide) (by decide)⟩

/-- Counterexample to C1 as stated: for an IPv6 session and a payload of 65516
bytes the transport length 65536 does not fit the 16-bit length that `write_tcp`
puts into the pseudo-header, and the sum recomputed over the emitted bytes is
0x0100, not 0xFFFF. -/
theorem write_checksums_long_payload :
    ¬ (if ex_session6.version = 4 then
         ip4_header_sum (build_tcp ex_k ex_session6 (List.replicate 65516 0) 0
            false true false false).buffer = 0xFFFF
         ∧ ip4_transport_sum (build_tcp ex_k ex_session6 (List.replicate 65516 0) 0
            false true false false).buffer = 0xFFFF
       else
         ip6_transport_sum (build_tcp ex_k ex_session6 (List.replicate 65516 0) 0
            false true false false).buffer = 0xFFFF) := by
  have hv : ¬ ex_session6.version = 4 := by decide
  rw [if_neg hv,
    build_tcp_v6_long ex_k ex_session6 (List.replicate 65516 0) 0 false true false false hv
      (List.length_replicate _ _)]
  decide

/-! ## Lemmas on `write_tcp` and its wrappers -/

theorem build_tcp_seq (k : netguard_h) (cur : tcp_session) (data : List Byte) (confirm : Nat)
    (syn ack fin rst : Bool) :
    ntohl (build_tcp k cur data confirm syn ack fin rst).tcp.seq = cur.local_seq % 2 ^ 32 :=
  ntohl_htonl _

theorem build_tcp_ack_seq (k : netguard_h) (cur : tcp_session) (data : List Byte)
    (confirm : Nat) (syn fin rst : Bool) :
    ntohl (build_tcp k cur data confirm syn true fin rst).tcp.ack_seq
      = (cur.remote_seq + confirm) % 2 ^ 32 := by
  show ntohl (htonl ((cur.remote_seq + confirm) % 2 ^ 32)) = _
  rw [ntohl_htonl]
  exact Nat.mod_mod _ _

theorem build_tcp_flags (k : netguard_h) (cur : tcp_session) (data : List Byte) (confirm : Nat)
    (syn ack fin rst : Bool) :
    (build_tcp k cur data confirm syn ack fin rst).tcp.syn = syn
    ∧ (build_tcp k cur data confirm syn ack fin rst).tcp.ack = ack
    ∧ (build_tcp k cur data confirm syn ack fin rst).tcp.fin = fin
    ∧ (build_tcp k cur data confirm syn ack fin rst).tcp.rst = rst
    ∧ (build_tcp k cur data confirm syn ack fin rst).data = data :=
  ⟨rfl, rfl, rfl, rfl, rfl⟩

theorem write_tcp_io (k : netguard_h) (w : Nat → Bool) (io : tcp_io) (cur : tcp_session)
    (data : List Byte) (confirm : Nat) (syn ack fin rst : Bool) :
    (write_tcp k w io cur data confirm syn ack fin rst).1
      = { io with tun := io.tun ++ [build_tcp k cur data confirm syn ack fin rst] } := rfl

theorem write_tcp_ok (k : netguard_h) (w : Nat → Bool) (io : tcp_io) (cur : tcp_session)
    (data : List Byte) (confirm : Nat) (syn ack fin rst : Bool) (h : w io.tun.length = true) :
    ¬ (write_tcp k w io cur data confirm syn ack fin rst).2 < 0 := by
  simp only [write_tcp, h, if_true]
  omega

theorem write_tcp_fail (k : netguard_h) (w : Nat → Bool) (io : tcp_io) (cur : tcp_session)
    (data : List Byte) (confirm : Nat) (syn ack fin rst : Bool) (h : w io.tun.length = false) :
    (write_tcp k w io cur data confirm syn ack fin rst).2 < 0 := by
  simp [write_tcp, h]

theorem write_ack_ok (k : netguard_h) (w : Nat → Bool) (c : tcp_ctx) (bytes : Nat)
    (h : w c.io.tun.length = true) :
    write_ack k w c bytes
      = ({ c with io := { c.io with
             tun := c.io.tun ++ [build_tcp k c.cur [] bytes false true false false] } }, 0) := by
  simp only [write_ack, if_neg (write_tcp_ok k w c.io c.cur [] bytes false true false false h),
    write_tcp_io]

theorem write_syn_ack_ok (k : netguard_h) (w : Nat → Bool) (c : tcp_ctx)
    (h : w c.io.tun.length = true) :
    write_syn_ack k w c
      = ({ c with io := { c.io with
             tun := c.io.tun ++ [build_tcp k c.cur [] 1 true true false false] } }, 0) := by
  simp only [write_syn_ack, if_neg (write_tcp_ok k w c.io c.cur [] 1 true true false false h),
    write_tcp_io]

theorem write_fin_ack_ok (k : netguard_h) (w : Nat → Bool) (c : tcp_ctx) (bytes : Nat)
    (h : w c.io.tun.length = true) :
    write_fin_ack k w c bytes
      = ({ c with io := { c.io with
             tun := c.io.tun ++ [build_tcp k c.cur [] bytes false true true false] } }, 0) := by
  simp only [write_fin_ack, if_neg (write_tcp_ok k w c.io c.cur [] bytes false true true false h),
    write_tcp_io]

theorem write_data_ok (k : netguard_h) (w : Nat → Bool) (c : tcp_ctx) (buffer : List Byte)
    (h : w c.io.tun.length = true) :
    write_data k w c buffer
      = ({ c with io := { c.io with
             tun := c.io.tun ++ [build_tcp k c.cur buffer 0 false true false false] } }, 0) := by
  simp only [write_data, if_neg (write_tcp_ok k w c.io c.cur buffer 0 false true false false h),
    write_tcp_io]

theorem write_rst_eq (k : netguard_h) (w : Nat → Bool) (c : tcp_ctx) :
    write_rst k w c
      = { cur := { c.cur with
                   state := if c.cur.state = TCP_CLOSE then TCP_CLOSE else TCP_TIME_WAIT },
          io := { c.io with
                  tun := c.io.tun ++ [build_tcp k c.cur [] 0 false false false true] } } := by
  obtain ⟨cur, io⟩ := c
  cases cur
  simp only [write_rst, write_tcp_io, ne_eq, ite_not]
  split
  · next h => subst h; rfl
  · rfl

/-! ## Lemmas on the session search -/

theorem handle_tcp_found (k : netguard_h) (env : tcp_env) (seg : tcp_in) (uid : Int)
    (pre : List tcp_session) (cur : tcp_session) (post : List tcp_session)
    (hpre : ∀ c ∈ pre, tcp_match c seg = false) (hcur : tcp_match cur seg = true) :
    handle_tcp k env (pre ++ cur :: post) seg uid
      = { allowed := (handle_tcp_session k env cur seg).1,
          table := pre ++ (handle_tcp_session k env cur seg).2.cur :: post,
          io := (handle_tcp_session k env cur seg).2.io } := by
  induction pre with
  | nil => simp [handle_tcp, hcur]
  | cons c rest ih =>
    have hc : tcp_match c seg = false := hpre c (List.mem_cons_self _ _)
    have hr : ∀ c ∈ rest, tcp_match c seg = false :=
      fun x hx => hpre x (List.mem_cons_of_mem _ hx)
    simp [handle_tcp, hc, ih hr]

theorem handle_tcp_not_found (k : netguard_h) (env : tcp_env) (seg : tcp_in) (uid : Int)
    (table : List tcp_session) (h : ∀ c ∈ table, tcp_match c seg = false) :
    handle_tcp k env table seg uid
      = { allowed := (handle_tcp_unknown k env seg uid).allowed,
          table := table ++ (handle_tcp_unknown k env seg uid).table,
          io := (handle_tcp_unknown k env seg uid).io } := by
  induction table with
  | nil => simp [handle_tcp]
  | cons c rest ih =>
    have hc : tcp_match c seg = false := h c (List.mem_cons_self _ _)
    have hr : ∀ c ∈ rest, tcp_match c seg = false :=
      fun x hx => h x (List.mem_cons_of_mem _ hx)
    simp [handle_tcp, hc, ih hr]

/-! ## In-order control segments -/

theorem handle_tcp_session_fin (k : netguard_h) (env : tcp_env) (seg : tcp_in)
    (cur : tcp_session)
    (hstate : cur.state ≠ TCP_CLOSE)
    (hfin : seg.tcp.fin = true) (hsyn : seg.tcp.syn = false) (hrst : seg.tcp.rst = false)
    (hdata : seg.data = [])
    (hack : ntohl seg.tcp.ack_seq = cur.local_seq) (hseq : ntohl seg.tcp.seq = cur.remote_seq)
    (hshut : env.shutdown = 0) (hw : env.write_ok 0 = true) :
    (handle_tcp_session k env cur seg).2
      = { cur := { cur with time := env.time, send_window := ntohs seg.tcp.window,
                            remote_seq := (cur.remote_seq + 1) % 2 ^ 32,
                            state := fin_transition cur.state seg.tcp.ack },
          io := { tun := [build_tcp k { cur with time := env.time,
                                                  send_window := ntohs seg.tcp.window }
                            [] 1 false true false false],
                  shut := [cur.socket] } } := by
  simp only [handle_tcp_session, hstate, if_false, hdata, List.length_nil, ne_eq,
    not_true_eq_false, and_false, handle_tcp_control, hrst, hack, hseq, and_self, if_true,
    hsyn, hfin, hshut, Bool.false_eq_true]
  rw [write_ack_ok _ _ _ _ hw]
  simp only [ge_iff_le, le_refl, if_true]
  cases hs : cur.state <;> cases ha : seg.tcp.ack <;> simp_all [fin_transition]

/-- C3. FIN handling.  For the session `cur` that the search of `handle_tcp` finds
(no session before it matches), not in CLOSE, and an in-order segment with FIN
set, SYN and RST clear and no payload, `shutdown` and the tunnel write
succeeding: exactly one packet is written, an ACK (no other flag, no payload)
whose acknowledgement number is `remote_seq + 1` modulo 2^32; the socket is
shut down for writing; in the table only `cur` changes: `remote_seq` grows by
one (modulo 2^32), `local_seq` is kept and the state follows the FIN table
(ESTABLISHED to CLOSE_WAIT, FIN_WAIT1 to TIME_WAIT with ACK and to CLOSING
without, FIN_WAIT2 to TIME_WAIT). -/
theorem handle_tcp_fin_acked (k : netguard_h) (env : tcp_env) (seg : tcp_in) (uid : Int)
    (pre : List tcp_session) (cur : tcp_session) (post : List tcp_session)
    (hpre : ∀ c ∈ pre, tcp_match c seg = false) (hcur : tcp_match cur seg = true)
    (hstate : cur.state ≠ TCP_CLOSE)
    (hfin : seg.tcp.fin = true) (hsyn : seg.tcp.syn = false) (hrst : seg.tcp.rst = false)
    (hdata : seg.data = [])
    (hack : ntohl seg.tcp.ack_seq = cur.local_seq) (hseq : ntohl seg.tcp.seq = cur.remote_seq)
    (hshut : env.shutdown = 0) (hw : env.write_ok 0 = true) :
    ∃ f cur',
      (handle_tcp k env (pre ++ cur :: post) seg uid).io.tun = [f]
      ∧ f.tcp.ack = true ∧ f.tcp.syn = false ∧ f.tcp.fin = false ∧ f.tcp.rst = false
      ∧ f.data = []
      ∧ ntohl f.tcp.ack_seq = (cur.remote_seq + 1) % 2 ^ 32
      ∧ (handle_tcp k env (pre ++ cur :: post) seg uid).io.shut = [cur.socket]
      ∧ (handle_tcp k env (pre ++ cur :: post) seg uid).table = pre ++ cur' :: post
      ∧ cur'.remote_seq = (cur.remote_seq + 1) % 2 ^ 32
      ∧ cur'.local_seq = cur.local_seq
      ∧ cur'.state = fin_transition cur.state seg.tcp.ack
      ∧ fin_transition TCP_ESTABLISHED seg.tcp.ack = TCP_CLOSE_WAIT
      ∧ fin_transition TCP_FIN_WAIT1 true = TCP_TIME_WAIT
      ∧ fin_transition TCP_FIN_WAIT1 false = TCP_CLOSING
      ∧ fin_transition TCP_FIN_WAIT2 seg.tcp.ack = TCP_TIME_WAIT := by
  rw [handle_tcp_found k env seg uid pre cur post hpre hcur,
    handle_tcp_session_fin k env seg cur hstate hfin hsyn hrst hdata hack hseq hshut hw]
  refine ⟨_, _, rfl, rfl, rfl, rfl, rfl, rfl, ?_, rfl, rfl, rfl, rfl, rfl, ?_, rfl, rfl, ?_⟩
  · exact build_tcp_ack_seq _ _ _ _ _ _ _
  · cases seg.tcp.ack <;> rfl
  · cases seg.tcp.ack <;> rfl

theorem handle_tcp_session_ack (k : netguard_h) (env : tcp_env) (seg : tcp_in)
    (cur : tcp_session)
    (hstate : cur.state ≠ TCP_CLOSE)
    (hackf : seg.tcp.ack = true) (hfin : seg.tcp.fin = false) (hsyn : seg.tcp.syn = false)
    (hrst : seg.tcp.rst = false) (hdata : seg.data = [])
    (hack : ntohl seg.tcp.ack_seq = cur.local_seq)
    (hseq : ntohl seg.tcp.seq = cur.remote_seq) :
    (handle_tcp_session k env cur seg).2
      = { cur := { cur with time := env.time, send_window := ntohs seg.tcp.window,
                            state := ack_transition cur.state },
          io := {} } := by
  simp only [handle_tcp_session, hstate, if_false, hdata, List.length_nil, ne_eq,
    not_true_eq_false, and_false, handle_tcp_control, hrst, hack, hseq, and_self, if_true,
    hsyn, hfin, hackf, Bool.false_eq_true]
  cases hs : cur.state <;> simp_all [ack_transition]

/-- C4. ACK-only handling.  For the session `cur` that the search of `handle_tcp`
finds, in any state but CLOSE, and an in-order segment with ACK set, SYN, FIN
and RST clear and no payload: nothing is written to the tunnel, nothing is
sent, `local_seq` and `remote_seq` are kept, and the state follows the ACK
list: SYN_RECV to ESTABLISHED, LAST_ACK to TIME_WAIT, FIN_WAIT1 to FIN_WAIT2,
CLOSING to TIME_WAIT, ESTABLISHED stays ESTABLISHED. -/
theorem handle_tcp_ack_only (k : netguard_h) (env : tcp_env) (seg : tcp_in) (uid : Int)
    (pre : List tcp_session) (cur : tcp_session) (post : List tcp_session)
    (hpre : ∀ c ∈ pre, tcp_match c seg = false) (hcur : tcp_match cur seg = true)
    (hstate : cur.state ≠ TCP_CLOSE)
    (hackf : seg.tcp.ack = true) (hfin : seg.tcp.fin = false) (hsyn : seg.tcp.syn = false)
    (hrst : seg.tcp.rst = false) (hdata : seg.data = [])
    (hack : ntohl seg.tcp.ack_seq = cur.local_seq)
    (hseq : ntohl seg.tcp.seq = cur.remote_seq) :
    ∃ cur',
      (handle_tcp k env (pre ++ cur :: post) seg uid).table = pre ++ cur' :: post
      ∧ (handle_tcp k env (pre ++ cur :: post) seg uid).io.tun = []
      ∧ (handle_tcp k env (pre ++ cur :: post) seg uid).io.sent = []
      ∧ cur'.local_seq = cur.local_seq
      ∧ cur'.remote_seq = cur.remote_seq
      ∧ cur'.state = ack_transition cur.state
      ∧ ack_transition TCP_SYN_RECV = TCP_ESTABLISHED
      ∧ ack_transition TCP_LAST_ACK = TCP_TIME_WAIT
      ∧ ack_transition TCP_FIN_WAIT1 = TCP_FIN_WAIT2
      ∧ ack_transition TCP_CLOSING = TCP_TIME_WAIT
      ∧ ack_transition TCP_ESTABLISHED = TCP_ESTABLISHED := by
  rw [handle_tcp_found k env seg uid pre cur post hpre hcur,
    handle_tcp_session_ack k env seg cur hstate hackf hfin hsyn hrst hdata hack hseq]
  exact ⟨_, rfl, rfl, rfl, rfl, rfl, rfl, rfl, rfl, rfl, rfl, rfl⟩

/-! ## Payload delivery -/

theorem handle_tcp_control_no_fin (k : netguard_h) (env : tcp_env) (seg : tcp_in) (c : tcp_ctx)
    (hfin : seg.tcp.fin = false) :
    (handle_tcp_control k env seg c).2.io = c.io
    ∧ (handle_tcp_control k env seg c).2.cur.remote_seq = c.cur.remote_seq
    ∧ (handle_tcp_control k env seg c).2.cur.local_seq = c.cur.local_seq := by
  simp only [handle_tcp_control, hfin, Bool.false_eq_true, if_false]
  split_ifs <;> simp

/-- C5. Payload delivery.  For the session `cur` that the search of `handle_tcp`
finds, in a state other than FIN_WAIT1, FIN_WAIT2, CLOSING and CLOSE, and a
segment without FIN whose sequence number is `remote_seq` and whose payload is
not empty.  If `send` fails: one packet is written, an RST, `remote_seq` is
kept and the result is not-allowed.  If `send` and the tunnel write succeed:
exactly the payload is passed to `send` on the session's socket, exactly one
packet is written, a bare ACK (no other flag, no payload) with sequence number
`local_seq` and acknowledgement number `remote_seq + n` modulo 2^32, and
`remote_seq` becomes `remote_seq + n` modulo 2^32. -/
theorem handle_tcp_payload (k : netguard_h) (env : tcp_env) (seg : tcp_in) (uid : Int)
    (pre : List tcp_session) (cur : tcp_session) (post : List tcp_session)
    (hpre : ∀ c ∈ pre, tcp_match c seg = false) (hcur : tcp_match cur seg = true)
    (h1 : cur.state ≠ TCP_FIN_WAIT1) (h2 : cur.state ≠ TCP_FIN_WAIT2)
    (h3 : cur.state ≠ TCP_CLOSING) (h4 : cur.state ≠ TCP_CLOSE)
    (hfin : seg.tcp.fin = false) (hseq : ntohl seg.tcp.seq = cur.remote_seq)
    (hdata : seg.data ≠ []) :
    (env.send < 0 →
      ∃ f cur',
        (handle_tcp k env (pre ++ cur :: post) seg uid).io.tun = [f]
        ∧ f.tcp.rst = true
        ∧ (handle_tcp k env (pre ++ cur :: post) seg uid).table = pre ++ cur' :: post
        ∧ cur'.remote_seq = cur.remote_seq
        ∧ (handle_tcp k env (pre ++ cur :: post) seg uid).allowed = false)
    ∧ (¬ env.send < 0 → env.write_ok 0 = true →
      ∃ f cur',
        (handle_tcp k env (pre ++ cur :: post) seg uid).io.sent
          = [{ socket := cur.socket, data := seg.data, msg_more := !seg.tcp.psh }]
        ∧ (handle_tcp k env (pre ++ cur :: post) seg uid).io.tun = [f]
        ∧ f.tcp.ack = true ∧ f.tcp.syn = false ∧ f.tcp.fin = false ∧ f.tcp.rst = false
        ∧ f.data = []
        ∧ ntohl f.tcp.seq = cur.local_seq % 2 ^ 32
        ∧ ntohl f.tcp.ack_seq = (cur.remote_seq + seg.data.length) % 2 ^ 32
        ∧ (handle_tcp k env (pre ++ cur :: post) seg uid).table = pre ++ cur' :: post
        ∧ cur'.remote_seq = (cur.remote_seq + seg.data.length) % 2 ^ 32) := by
  have hlen : seg.data.length ≠ 0 := by
    intro h; exact hdata (List.length_eq_zero.mp h)
  rw [handle_tcp_found k env seg uid pre cur post hpre hcur]
  constructor
  · intro hs
    have key : handle_tcp_session k env cur seg
        = (false, write_rst k env.write_ok
            { cur := { cur with time := env.time, send_window := ntohs seg.tcp.window },
              io := { sent := [{ socket := cur.socket, data := seg.data,
                                 msg_more := !seg.tcp.psh }] } }) := by
      simp only [handle_tcp_session, h4, if_false, hseq, ne_eq, hlen, not_false_eq_true,
        and_self, if_true, hs]
    rw [key, write_rst_eq]
    exact ⟨_, _, rfl, rfl, rfl, rfl, rfl⟩
  · intro hs hw
    have key : handle_tcp_session k env cur seg
        = handle_tcp_control k env seg
            { cur := { cur with time := env.time, send_window := ntohs seg.tcp.window,
                                remote_seq := (cur.remote_seq + seg.data.length) % 2 ^ 32 },
              io := { tun := [build_tcp k { cur with time := env.time,
                                                     send_window := ntohs seg.tcp.window }
                                [] seg.data.length false true false false],
                      sent := [{ socket := cur.socket, data := seg.data,
                                 msg_more := !seg.tcp.psh }] } } := by
      simp only [handle_tcp_session, h1, h2, h3, h4, if_false, hseq, ne_eq, hlen,
        not_false_eq_true, and_self, if_true, hs, hfin, Bool.false_eq_true, or_self]
      rw [write_ack_ok _ _ _ _ hw]
      simp only [ge_iff_le, le_refl, if_true, List.nil_append]
    obtain ⟨e1, e2, _⟩ := handle_tcp_control_no_fin k env seg
      { cur := { cur with time := env.time, send_window := ntohs seg.tcp.window,
                          remote_seq := (cur.remote_seq + seg.data.length) % 2 ^ 32 },
        io := { tun := [build_tcp k { cur with time := env.time,
                                               send_window := ntohs seg.tcp.window }
                          [] seg.data.length false true false false],
                sent := [{ socket := cur.socket, data := seg.data,
                           msg_more := !seg.tcp.psh }] } } hfin
    rw [key]
    refine ⟨build_tcp k { cur with time := env.time, send_window := ntohs seg.tcp.window }
        [] seg.data.length false true false false, _, ?_, ?_, rfl, rfl, rfl, rfl, rfl, ?_, ?_,
      rfl, ?_⟩
    · exact congrArg tcp_io.sent e1
    · exact congrArg tcp_io.tun e1
    · exact build_tcp_seq _ _ _ _ _ _ _ _
    · exact build_tcp_ack_seq _ _ _ _ _ _ _
    · exact e2

/-! ## Payload together with FIN -/

/-- C6. What `handle_tcp` does with a FIN that carries payload.  For the session
`cur` that the search finds, in ESTABLISHED, and an in-order segment (sequence
number `remote_seq`, acknowledgement `local_seq`) with FIN set, RST clear and
`n > 0` payload bytes, `send` succeeding: the payload is sent and `remote_seq`
advances by `n`, but the in-order test that guards the FIN handling compares
the segment with the advanced `remote_seq`, so the FIN is not handled: nothing
is written to the tunnel, the socket is not shut down, the state stays
ESTABLISHED and `remote_seq` ends at `remote_seq + n`, not `remote_seq + n + 1`. -/
theorem handle_tcp_fin_with_payload (k : netguard_h) (env : tcp_env) (seg : tcp_in) (uid : Int)
    (pre : List tcp_session) (cur : tcp_session) (post : List tcp_session)
    (hpre : ∀ c ∈ pre, tcp_match c seg = false) (hcur : tcp_match cur seg = true)
    (hstate : cur.state = TCP_ESTABLISHED)
    (hfin : seg.tcp.fin = true) (hrst : seg.tcp.rst = false)
    (hseq : ntohl seg.tcp.seq = cur.remote_seq) (hack : ntohl seg.tcp.ack_seq = cur.local_seq)
    (hdata : seg.data ≠ []) (hlen : seg.data.length < 2 ^ 32)
    (hsend : ¬ env.send < 0) :
    (handle_tcp k env (pre ++ cur :: post) seg uid).io.tun = []
    ∧ (handle_tcp k env (pre ++ cur :: post) seg uid).io.shut = []
    ∧ (handle_tcp k env (pre ++ cur :: post) seg uid).io.sent
        = [{ socket := cur.socket, data := seg.data, msg_more := !seg.tcp.psh }]
    ∧ (handle_tcp k env (pre ++ cur :: post) seg uid).table
        = pre ++ { cur with
                   time := env.time
                   send_window := ntohs seg.tcp.window
                   remote_seq := (cur.remote_seq + seg.data.length) % 2 ^ 32 } :: post
    ∧ (cur.remote_seq + seg.data.length) % 2 ^ 32 ≠ (cur.remote_seq + seg.data.length + 1) % 2 ^ 32
    := by
  have hn : seg.data.length ≠ 0 := by
    intro h; exact hdata (List.length_eq_zero.mp h)
  have hne : ¬ cur.remote_seq = (cur.remote_seq + seg.data.length) % 2 ^ 32 := by omega
  have hc : cur.state ≠ TCP_CLOSE := by rw [hstate]; decide
  have key : (handle_tcp_session k env cur seg).2
      = { cur := { cur with time := env.time, send_window := ntohs seg.tcp.window,
                            remote_seq := (cur.remote_seq + seg.data.length) % 2 ^ 32 },
          io := { sent := [{ socket := cur.socket, data := seg.data,
                             msg_more := !seg.tcp.psh }] } } := by
    simp only [handle_tcp_session, hc, if_false, hseq, ne_eq, hn, not_false_eq_true,
      and_self, if_true, hsend, hfin, true_or, handle_tcp_control, hrst, Bool.false_eq_true,
      hack, hne, and_false]
    split_ifs <;> rfl
  rw [handle_tcp_found k env seg uid pre cur post hpre hcur, key]
  refine ⟨rfl, rfl, rfl, rfl, ?_⟩
  omega

/-! ## Out-of-order segments -/

/-- C9. Out-of-order classification.  For the session `cur` that the search of
`handle_tcp` finds, not in CLOSE, and a segment without RST and without payload
that is not in order (acknowledgement differs from `local_seq` or sequence
number differs from `remote_seq`): nothing is written to the tunnel, sent or
shut down; the session keeps its state, `local_seq` and `remote_seq` (only the
time stamp and `send_window` are refreshed); and the result is allowed exactly
when the segment is a keep-alive (ACK set and sequence number + 1 equal to
`remote_seq` in 32-bit arithmetic), previous (sequence number equal to
`remote_seq`, acknowledgement below `local_seq`) or repeated (sequence number
below `remote_seq`, acknowledgement equal to `local_seq`). -/
theorem handle_tcp_out_of_order (k : netguard_h) (env : tcp_env) (seg : tcp_in) (uid : Int)
    (pre : List tcp_session) (cur : tcp_session) (post : List tcp_session)
    (hpre : ∀ c ∈ pre, tcp_match c seg = false) (hcur : tcp_match cur seg = true)
    (hstate : cur.state ≠ TCP_CLOSE) (hrst : seg.tcp.rst = false) (hdata : seg.data = [])
    (hooo : ¬ (ntohl seg.tcp.ack_seq = cur.local_seq ∧ ntohl seg.tcp.seq = cur.remote_seq)) :
    (handle_tcp k env (pre ++ cur :: post) seg uid).io = {}
    ∧ (handle_tcp k env (pre ++ cur :: post) seg uid).table
        = pre ++ { cur with time := env.time, send_window := ntohs seg.tcp.window } :: post
    ∧ ((handle_tcp k env (pre ++ cur :: post) seg uid).allowed = true ↔
        ((seg.tcp.ack = true ∧ (ntohl seg.tcp.seq + 1) % 2 ^ 32 = cur.remote_seq)
         ∨ (ntohl seg.tcp.seq = cur.remote_seq ∧ ntohl seg.tcp.ack_seq < cur.local_seq)
         ∨ (ntohl seg.tcp.seq < cur.remote_seq ∧ ntohl seg.tcp.ack_seq = cur.local_seq))) := by
  rw [handle_tcp_found k env seg uid pre cur post hpre hcur]
  simp only [handle_tcp_session, hstate, if_false, hdata, List.length_nil, ne_eq,
    not_true_eq_false, and_false, handle_tcp_control, hrst, Bool.false_eq_true, hooo]
  split_ifs with a b c
  · exact ⟨rfl, rfl, ⟨fun _ => Or.inl a, fun _ => rfl⟩⟩
  · exact ⟨rfl, rfl, ⟨fun _ => Or.inr (Or.inl b), fun _ => rfl⟩⟩
  · exact ⟨rfl, rfl, ⟨fun _ => Or.inr (Or.inr c), fun _ => rfl⟩⟩
  · refine ⟨rfl, rfl, ⟨fun h => by simp at h, fun h => ?_⟩⟩
    rcases h with h | h | h
    · exact absurd h a
    · exact absurd h b
    · exact absurd h c

/-! ## Session creation -/

theorem ip4_bytes_store (a rest : List Byte) : ip4_bytes (ip4_bytes a ++ rest) = ip4_bytes a := by
  simp [ip4_bytes]

theorem ip6_bytes_idem (a : List Byte) : ip6_bytes (ip6_bytes a) = ip6_bytes a := by
  simp [ip6_bytes]

/-- C10. Flow creation on SYN.  For a segment with SYN set that matches no session
of the table: when `open_tcp_socket` fails (negative result) the table is
unchanged and the result is not-allowed; otherwise exactly one session is
appended at the end, every existing session and their order being kept, and
the new session is in LISTEN, has the version, ports and addresses of the
segment, `remote_seq = remote_start =` the segment's sequence number,
`local_seq = local_start` (the value drawn from `rand`), `send_window =` the
segment's window, the resolved owner `uid` and the opened socket. -/
theorem handle_tcp_syn_creates (k : netguard_h) (env : tcp_env) (seg : tcp_in) (uid : Int)
    (table : List tcp_session)
    (hnone : ∀ c ∈ table, tcp_match c seg = false) (hsyn : seg.tcp.syn = true) :
    if env.open_tcp_socket < 0 then
      (handle_tcp k env table seg uid).table = table
      ∧ (handle_tcp k env table seg uid).allowed = false
    else
      ∃ syn,
        (handle_tcp k env table seg uid).table = table ++ [syn]
        ∧ (handle_tcp k env table seg uid).allowed = true
        ∧ syn.state = TCP_LISTEN
        ∧ syn.version = seg.version
        ∧ syn.source = seg.tcp.source ∧ syn.dest = seg.tcp.dest
        ∧ (if seg.version = 4 then
             ip4_bytes syn.saddr = ip4_bytes seg.saddr ∧ ip4_bytes syn.daddr = ip4_bytes seg.daddr
           else
             ip6_bytes syn.saddr = ip6_bytes seg.saddr ∧ ip6_bytes syn.daddr = ip6_bytes seg.daddr)
        ∧ tcp_match syn seg = true
        ∧ syn.remote_seq = ntohl seg.tcp.seq ∧ syn.remote_start = ntohl seg.tcp.seq
        ∧ syn.local_seq = env.rand % 2 ^ 32 ∧ syn.local_start = syn.local_seq
        ∧ syn.send_window = ntohs seg.tcp.window
        ∧ syn.uid = uid
        ∧ syn.socket = env.open_tcp_socket := by
  rw [handle_tcp_not_found k env seg uid table hnone]
  have haddr : (if seg.version = 4 then
        ip4_bytes (tcp_syn_session env seg uid).saddr = ip4_bytes seg.saddr
        ∧ ip4_bytes (tcp_syn_session env seg uid).daddr = ip4_bytes seg.daddr
      else
        ip6_bytes (tcp_syn_session env seg uid).saddr = ip6_bytes seg.saddr
        ∧ ip6_bytes (tcp_syn_session env seg uid).daddr = ip6_bytes seg.daddr) := by
    simp only [tcp_syn_session]
    split
    · exact ⟨ip4_bytes_store _ _, ip4_bytes_store _ _⟩
    · exact ⟨ip6_bytes_idem _, ip6_bytes_idem _⟩
  have hm : tcp_match (tcp_syn_session env seg uid) seg = true := by
    simp only [tcp_match, decide_eq_true_eq]
    exact ⟨rfl, rfl, haddr⟩
  split
  · next h =>
    have h' : (tcp_syn_session env seg uid).socket < 0 := h
    have hu : handle_tcp_unknown k env seg uid
        = { allowed := false, table := [], io := {} } := by
      simp only [handle_tcp_unknown, hsyn, if_true, h']
    rw [hu]
    exact ⟨List.append_nil _, rfl⟩
  · next h =>
    have h' : ¬ (tcp_syn_session env seg uid).socket < 0 := h
    have hu : handle_tcp_unknown k env seg uid
        = { allowed := true, table := [tcp_syn_session env seg uid], io := {} } := by
      simp only [handle_tcp_unknown, hsyn, if_true, h', if_false]
    rw [hu]
    exact ⟨_, rfl, rfl, rfl, rfl, rfl, rfl, haddr, hm, rfl, rfl, rfl, rfl, rfl, rfl, rfl⟩

/-! ## Socket events: `check_tcp_sockets` -/

theorem check_tcp_sockets_from_append (k : netguard_h) (env : select_env)
    (pre rest : List tcp_session) :
    ∀ io, check_tcp_sockets_from k env (pre ++ rest) io
      = ((check_tcp_sockets_from k env pre io).1
            ++ (check_tcp_sockets_from k env rest (check_tcp_sockets_from k env pre io).2).1,
         (check_tcp_sockets_from k env rest (check_tcp_sockets_from k env pre io).2).2) := by
  induction pre with
  | nil => intro io; simp [check_tcp_sockets_from]
  | cons c l ih => intro io; simp [check_tcp_sockets_from, ih]

theorem write_syn_ack_eq (k : netguard_h) (w : Nat → Bool) (c : tcp_ctx) :
    write_syn_ack k w c
      = if w c.io.tun.length = true then
          ({ c with io := { c.io with
               tun := c.io.tun ++ [build_tcp k c.cur [] 1 true true false false] } }, 0)
        else
          ({ cur := { c.cur with state := TCP_TIME_WAIT },
             io := { c.io with
               tun := c.io.tun ++ [build_tcp k c.cur [] 1 true true false false] } }, -1) := by
  split
  · next h => exact write_syn_ack_ok k w c h
  · next h =>
    have h' : w c.io.tun.length = false := by simpa using h
    simp only [write_syn_ack, if_pos (write_tcp_fail k w c.io c.cur [] 1 true true false false h'),
      write_tcp_io]

/-- C7. Connect completion.  For a session `cur` of the table in LISTEN with a
socket descriptor of at least 1 that is in the write set and not in the
exception set, `check_tcp_sockets` writes, after whatever the sessions before
`cur` caused (`r1`), one packet with SYN and ACK set (no FIN, no RST, no
payload), sequence number `local_seq` and acknowledgement number
`remote_seq + 1` modulo 2^32; when that write succeeds `cur` gets `local_seq`
and `remote_seq` each increased by one (modulo 2^32) and state SYN_RECV,
otherwise it goes to TIME_WAIT with both numbers kept; the sessions before and
after `cur` are processed as they would be on their own. -/
theorem check_tcp_sockets_connect (k : netguard_h) (env : select_env)
    (pre : List tcp_session) (cur : tcp_session) (post : List tcp_session)
    (r1 : List tcp_session × tcp_io) (hr1 : check_tcp_sockets_from k env pre {} = r1)
    (hstate : cur.state = TCP_LISTEN) (hsock : cur.socket ≥ 1)
    (he : env.efds cur.socket = false) (hwf : env.wfds cur.socket = true) :
    ∃ f cur',
      check_tcp_sockets k env (pre ++ cur :: post)
        = (r1.1 ++ cur'
              :: (check_tcp_sockets_from k env post { r1.2 with tun := r1.2.tun ++ [f] }).1,
           (check_tcp_sockets_from k env post { r1.2 with tun := r1.2.tun ++ [f] }).2)
      ∧ f.tcp.syn = true ∧ f.tcp.ack = true ∧ f.tcp.fin = false ∧ f.tcp.rst = false
      ∧ f.data = []
      ∧ ntohl f.tcp.seq = cur.local_seq % 2 ^ 32
      ∧ ntohl f.tcp.ack_seq = (cur.remote_seq + 1) % 2 ^ 32
      ∧ cur' = (if env.write_ok r1.2.tun.length = true then
                  { cur with
                    time := env.time
                    local_seq := (cur.local_seq + 1) % 2 ^ 32
                    remote_seq := (cur.remote_seq + 1) % 2 ^ 32
                    state := TCP_SYN_RECV }
                else { cur with time := env.time, state := TCP_TIME_WAIT }) := by
  subst hr1
  refine ⟨build_tcp k { cur with time := env.time } [] 1 true true false false, _, ?_,
    rfl, rfl, rfl, rfl, rfl, build_tcp_seq _ _ _ _ _ _ _ _, build_tcp_ack_seq _ _ _ _ _ _ _, rfl⟩
  rw [check_tcp_sockets, check_tcp_sockets_from_append]
  simp only [check_tcp_sockets_from, hsock, ge_iff_le, if_true, check_tcp_socket, he,
    Bool.false_eq_true, if_false, hstate, hwf, write_syn_ack_eq]
  split <;> simp

theorem recv_len_eq_min (a b : Nat) : (if a > b then b else a) = min a b := by
  simp only [Nat.min_def]
  split <;> split <;> omega

/-- C8. Upstream read.  For a session `cur` of the table in SYN_RECV, ESTABLISHED
or CLOSE_WAIT with `send_window > 0` and a socket descriptor of at least 1 that
is in the read set and not in the exception set, `check_tcp_sockets` calls
`recv` for `min(send_window, TCP_SEND_WINDOW)` bytes; when `recv` returns
`buffer` and the tunnel write succeeds, one packet is written with ACK set, SYN
and RST clear and sequence number `local_seq`: for an empty `buffer` (end of
file) it has FIN set and no payload, `local_seq` grows by one and the state
becomes FIN_WAIT1 from SYN_RECV or ESTABLISHED and LAST_ACK from CLOSE_WAIT;
for `b > 0` bytes it has FIN clear and carries exactly `buffer`, `local_seq`
grows by `b` and the state is kept.  `remote_seq` is unchanged in both cases
and the growth of `local_seq` is modulo 2^32. -/
theorem check_tcp_sockets_read (k : netguard_h) (env : select_env)
    (pre : List tcp_session) (cur : tcp_session) (post : List tcp_session)
    (r1 : List tcp_session × tcp_io) (hr1 : check_tcp_sockets_from k env pre {} = r1)
    (buffer : List Byte)
    (hstate : cur.state = TCP_SYN_RECV ∨ cur.state = TCP_ESTABLISHED
      ∨ cur.state = TCP_CLOSE_WAIT)
    (hwin : cur.send_window > 0) (hsock : cur.socket ≥ 1)
    (he : env.efds cur.socket = false) (hrf : env.rfds cur.socket = true)
    (hrecv : env.recv cur.socket (min cur.send_window k.TCP_SEND_WINDOW) = .bytes buffer)
    (hw : env.write_ok r1.2.tun.length = true) :
    ∃ f cur' io',
      check_tcp_sockets k env (pre ++ cur :: post)
        = (r1.1 ++ cur' :: (check_tcp_sockets_from k env post io').1,
           (check_tcp_sockets_from k env post io').2)
      ∧ io' = { r1.2 with
                tun := r1.2.tun ++ [f]
                recvs := r1.2.recvs ++ [recv_call.mk cur.socket
                                          (min cur.send_window k.TCP_SEND_WINDOW)] }
      ∧ f.tcp.ack = true ∧ f.tcp.syn = false ∧ f.tcp.rst = false
      ∧ f.tcp.fin = decide (buffer = [])
      ∧ f.data = buffer
      ∧ ntohl f.tcp.seq = cur.local_seq % 2 ^ 32
      ∧ cur'.remote_seq = cur.remote_seq
      ∧ cur'.local_seq
          = (cur.local_seq + (if buffer = [] then 1 else buffer.length)) % 2 ^ 32
      ∧ cur'.state
          = (if buffer = [] then
               (if cur.state = TCP_CLOSE_WAIT then TCP_LAST_ACK else TCP_FIN_WAIT1)
             else cur.state) := by
  subst hr1
  have hl : cur.state ≠ TCP_LISTEN := by
    rcases hstate with h | h | h <;> rw [h] <;> decide
  have key : check_tcp_sockets k env (pre ++ cur :: post)
      = ((check_tcp_sockets_from k env pre {}).1
           ++ (check_tcp_socket k env
                 { cur := cur, io := (check_tcp_sockets_from k env pre {}).2 }).cur
              :: (check_tcp_sockets_from k env post
                    (check_tcp_socket k env
                      { cur := cur, io := (check_tcp_sockets_from k env pre {}).2 }).io).1,
         (check_tcp_sockets_from k env post
            (check_tcp_socket k env
              { cur := cur, io := (check_tcp_sockets_from k env pre {}).2 }).io).2) := by
    rw [check_tcp_sockets, check_tcp_sockets_from_append]
    simp only [check_tcp_sockets_from, hsock, ge_iff_le, if_true]
  generalize check_tcp_sockets_from k env pre {} = r1 at key hw ⊢
  cases buffer with
  | nil =>
    have body : check_tcp_socket k env { cur := cur, io := r1.2 }
        = { cur := { cur with time := env.time,
                              local_seq := (cur.local_seq + 1) % 2 ^ 32,
                              state := if cur.state = TCP_CLOSE_WAIT then TCP_LAST_ACK
                                       else TCP_FIN_WAIT1 },
            io := { r1.2 with
                    tun := r1.2.tun ++ [build_tcp k { cur with time := env.time } [] 0
                                          false true true false],
                    recvs := r1.2.recvs
                      ++ [{ socket := cur.socket,
                            len := min cur.send_window k.TCP_SEND_WINDOW }] } } := by
      simp only [check_tcp_socket, he, Bool.false_eq_true, if_false, hl, hstate, if_true, hrf,
        hwin, and_self, recv_len_eq_min, hrecv]
      rw [write_fin_ack_ok _ _ _ _ hw]
      rcases hstate with h | h | h <;> simp [h]
    rw [key, body]
    exact ⟨_, _, _, rfl, rfl, rfl, rfl, rfl, rfl, rfl, build_tcp_seq _ _ _ _ _ _ _ _, rfl,
      rfl, rfl⟩
  | cons b bs =>
    have body : check_tcp_socket k env { cur := cur, io := r1.2 }
        = { cur := { cur with time := env.time,
                              local_seq := (cur.local_seq + (b :: bs).length) % 2 ^ 32 },
            io := { r1.2 with
                    tun := r1.2.tun ++ [build_tcp k { cur with time := env.time } (b :: bs) 0
                                          false true false false],
                    recvs := r1.2.recvs
                      ++ [{ socket := cur.socket,
                            len := min cur.send_window k.TCP_SEND_WINDOW }] } } := by
      simp only [check_tcp_socket, he, Bool.false_eq_true, if_false, hl, hstate, if_true, hrf,
        hwin, and_self, recv_len_eq_min, hrecv]
      rw [write_data_ok _ _ _ _ hw]
      simp
    rw [key, body]
    exact ⟨_, _, _, rfl, rfl, rfl, rfl, rfl, rfl, rfl, build_tcp_seq _ _ _ _ _ _ _ _, rfl,
      rfl, rfl⟩

/-! ## The open/close scenario -/

theorem handle_tcp_single (k : netguard_h) (env : tcp_env) (cur : tcp_session) (seg : tcp_in)
    (uid : Int) (h : tcp_match cur seg = true) :
    handle_tcp k env [cur] seg uid
      = { allowed := (handle_tcp_session k env cur seg).1,
          table := [(handle_tcp_session k env cur seg).2.cur],
          io := (handle_tcp_session k env cur seg).2.io } := by
  simp [handle_tcp, h]

theorem segment4_match (cur : tcp_session) (sa da : List Byte) (sp dp seq ack_seq window : Nat)
    (syn ack fin : Bool) (hs : cur.source = sp) (hd : cur.dest = dp)
    (hsa : ip4_bytes cur.saddr = ip4_bytes sa) (hda : ip4_bytes cur.daddr = ip4_bytes da) :
    tcp_match cur (segment4 sa da sp dp seq ack_seq window syn ack fin) = true := by
  simp [tcp_match, segment4, hs, hd, hsa, hda]

/-- C2. TCP open/close trace.  From an empty table, for every stored local ISN `l`,
every client address pair and port pair, every opened descriptor `fd >= 1` and
every window of the later segments (positive for the FIN), with `shutdown` and
the tunnel writes succeeding: the SYN (sequence 1000, window 65535) creates one
session in LISTEN; the writable event writes one packet with SYN and ACK,
sequence `l` and acknowledgement 1001 and gives SYN_RECV; the ACK (1001,
`l + 1`) gives ESTABLISHED; the FIN (1001, `l + 1`) writes one ACK with
acknowledgement 1002 and gives CLOSE_WAIT; end of file on the socket writes one
packet with FIN and ACK and gives LAST_ACK; the ACK (1002, `l + 2`) gives
TIME_WAIT. -/
theorem tcp_open_close_trace (k : netguard_h) (e1 : tcp_env) (s2 : select_env)
    (e3 e4 : tcp_env) (s5 : select_env) (e6 : tcp_env) (sa da : List Byte) (sp dp : Nat)
    (uid : Int) (l w3 w4 w6 : Nat) (a4 : Bool) (fd : Int)
    (hl : e1.rand % 2 ^ 32 = l)
    (hfd : e1.open_tcp_socket = fd) (hfd1 : fd ≥ 1)
    (h2e : s2.efds fd = false) (h2w : s2.wfds fd = true) (h2t : s2.write_ok 0 = true)
    (h4s : e4.shutdown = 0) (h4t : e4.write_ok 0 = true)
    (hw4 : ntohs (htons w4) > 0)
    (h5e : s5.efds fd = false) (h5r : s5.rfds fd = true)
    (h5v : s5.recv fd (min (ntohs (htons w4)) k.TCP_SEND_WINDOW) = .bytes [])
    (h5t : s5.write_ok 0 = true) :
    ∃ c1 c2 c3 c4 c5 c6 f2 f4 f5,
      (open_close k e1 s2 e3 e4 s5 e6 sa da sp dp uid l w3 w4 w6 a4).syn.table = [c1]
      ∧ c1.state = TCP_LISTEN
      ∧ (open_close k e1 s2 e3 e4 s5 e6 sa da sp dp uid l w3 w4 w6 a4).connected.1 = [c2]
      ∧ (open_close k e1 s2 e3 e4 s5 e6 sa da sp dp uid l w3 w4 w6 a4).connected.2.tun = [f2]
      ∧ f2.tcp.syn = true ∧ f2.tcp.ack = true ∧ f2.tcp.fin = false ∧ f2.tcp.rst = false
      ∧ ntohl f2.tcp.seq = l ∧ ntohl f2.tcp.ack_seq = 1001
      ∧ c2.state = TCP_SYN_RECV
      ∧ (open_close k e1 s2 e3 e4 s5 e6 sa da sp dp uid l w3 w4 w6 a4).ack.table = [c3]
      ∧ c3.state = TCP_ESTABLISHED
      ∧ (open_close k e1 s2 e3 e4 s5 e6 sa da sp dp uid l w3 w4 w6 a4).fin.table = [c4]
      ∧ (open_close k e1 s2 e3 e4 s5 e6 sa da sp dp uid l w3 w4 w6 a4).fin.io.tun = [f4]
      ∧ f4.tcp.ack = true ∧ f4.tcp.syn = false ∧ f4.tcp.fin = false ∧ f4.tcp.rst = false
      ∧ ntohl f4.tcp.ack_seq = 1002
      ∧ c4.state = TCP_CLOSE_WAIT
      ∧ (open_close k e1 s2 e3 e4 s5 e6 sa da sp dp uid l w3 w4 w6 a4).eof.1 = [c5]
      ∧ (open_close k e1 s2 e3 e4 s5 e6 sa da sp dp uid l w3 w4 w6 a4).eof.2.tun = [f5]
      ∧ f5.tcp.fin = true ∧ f5.tcp.ack = true ∧ f5.tcp.syn = false ∧ f5.tcp.rst = false
      ∧ c5.state = TCP_LAST_ACK
      ∧ (open_close k e1 s2 e3 e4 s5 e6 sa da sp dp uid l w3 w4 w6 a4).last_ack.table = [c6]
      ∧ c6.state = TCP_TIME_WAIT := by
  have hl32 : l < 2 ^ 32 := by rw [← hl]; exact Nat.mod_lt _ (by decide)
  -- step 1: the SYN
  have n1000 : ntohl (htonl 1000) = 1000 := by rw [ntohl_htonl]
  have n1001 : ntohl (htonl 1001) = 1001 := by rw [ntohl_htonl]
  have n1002 : ntohl (htonl 1002) = 1002 := by rw [ntohl_htonl]
  have nl1 : ntohl (htonl (l + 1)) = (l + 1) % 2 ^ 32 := ntohl_htonl _
  have nl2 : ntohl (htonl (l + 2)) = (l + 2) % 2 ^ 32 := ntohl_htonl _
  obtain ⟨c1, hc1⟩ : ∃ c, c = tcp_syn_session e1
      (segment4 sa da sp dp 1000 0 65535 true false false) uid := ⟨_, rfl⟩
  have c1_socket : c1.socket = fd := by rw [hc1]; exact hfd
  have c1_state : c1.state = TCP_LISTEN := by rw [hc1]; rfl
  have c1_local : c1.local_seq = l := by rw [hc1]; exact hl
  have c1_remote : c1.remote_seq = 1000 := by rw [hc1]; exact n1000
  have c1_source : c1.source = sp := by rw [hc1]; rfl
  have c1_dest : c1.dest = dp := by rw [hc1]; rfl
  have c1_saddr : ip4_bytes c1.saddr = ip4_bytes sa := by
    rw [hc1]; exact ip4_bytes_store _ _
  have c1_daddr : ip4_bytes c1.daddr = ip4_bytes da := by
    rw [hc1]; exact ip4_bytes_store _ _
  have r1 : handle_tcp k e1 [] (segment4 sa da sp dp 1000 0 65535 true false false) uid
      = { allowed := true, table := [c1], io := {} } := by
    have hs : ¬ c1.socket < 0 := by rw [c1_socket]; omega
    have hsyn : (segment4 sa da sp dp 1000 0 65535 true false false).tcp.syn = true := rfl
    simp only [handle_tcp, handle_tcp_unknown, hsyn, hs, if_false, if_true, ← hc1]
  -- step 2: connect completes
  obtain ⟨c2, hc2⟩ : ∃ c, c = ({ c1 with
      time := s2.time
      local_seq := (c1.local_seq + 1) % 2 ^ 32
      remote_seq := (c1.remote_seq + 1) % 2 ^ 32
      state := TCP_SYN_RECV } : tcp_session) := ⟨_, rfl⟩
  have r2 : check_tcp_sockets k s2 [c1]
      = ([c2], { tun := [build_tcp k { c1 with time := s2.time } [] 1 true true false false] })
      := by
    simp only [check_tcp_sockets, check_tcp_sockets_from, c1_socket, hfd1, ge_iff_le, if_true,
      check_tcp_socket, h2e, Bool.false_eq_true, if_false, c1_state, h2w]
    rw [write_syn_ack_ok _ _ _ h2t, hc2]
    simp only [le_refl, if_true, List.nil_append, c1_socket, c1_state]
  have c2_state : c2.state = TCP_SYN_RECV := by rw [hc2]
  have c2_socket : c2.socket = fd := by rw [hc2]; exact c1_socket
  have c2_local : c2.local_seq = (l + 1) % 2 ^ 32 := by rw [hc2]; simp only [c1_local]
  have c2_remote : c2.remote_seq = 1001 := by rw [hc2]; simp only [c1_remote]; norm_num
  have c2_match : ∀ seq ack_seq window syn ack fin,
      tcp_match c2 (segment4 sa da sp dp seq ack_seq window syn ack fin) = true := by
    intro seq ack_seq window syn ack fin
    apply segment4_match <;> rw [hc2] <;> assumption
  -- step 3: the ACK
  obtain ⟨c3, hc3⟩ : ∃ c, c = ({ c2 with
      time := e3.time
      send_window := ntohs (htons w3)
      state := TCP_ESTABLISHED } : tcp_session) := ⟨_, rfl⟩
  have r3 : handle_tcp k e3 [c2] (segment4 sa da sp dp 1001 (l + 1) w3 false true false) uid
      = { allowed := (handle_tcp_session k e3 c2
            (segment4 sa da sp dp 1001 (l + 1) w3 false true false)).1,
          table := [c3], io := {} } := by
    rw [handle_tcp_single _ _ _ _ _ (c2_match _ _ _ _ _ _),
      handle_tcp_session_ack k e3 _ c2 (by rw [c2_state]; decide) rfl rfl rfl rfl rfl
        (by rw [c2_local]; exact nl1) (by rw [c2_remote]; exact n1001)]
    simp only [c2_state, ack_transition, hc3]
    rfl
  have c3_state : c3.state = TCP_ESTABLISHED := by rw [hc3]
  have c3_socket : c3.socket = fd := by rw [hc3]; exact c2_socket
  have c3_local : c3.local_seq = (l + 1) % 2 ^ 32 := by rw [hc3]; exact c2_local
  have c3_remote : c3.remote_seq = 1001 := by rw [hc3]; exact c2_remote
  have c3_match : ∀ seq ack_seq window syn ack fin,
      tcp_match c3 (segment4 sa da sp dp seq ack_seq window syn ack fin) = true := by
    intro seq ack_seq window syn ack fin
    rw [hc3]; exact c2_match seq ack_seq window syn ack fin
  -- step 4: the FIN
  obtain ⟨c4, hc4⟩ : ∃ c, c = ({ c3 with
      time := e4.time
      send_window := ntohs (htons w4)
      remote_seq := (c3.remote_seq + 1) % 2 ^ 32
      state := TCP_CLOSE_WAIT } : tcp_session) := ⟨_, rfl⟩
  obtain ⟨f4, hf4⟩ : ∃ f, f = build_tcp k
      ({ c3 with time := e4.time, send_window := ntohs (htons w4) } : tcp_session)
      [] 1 false true false false := ⟨_, rfl⟩
  have r4 : handle_tcp k e4 [c3] (segment4 sa da sp dp 1001 (l + 1) w4 false a4 true) uid
      = { allowed := (handle_tcp_session k e4 c3
            (segment4 sa da sp dp 1001 (l + 1) w4 false a4 true)).1,
          table := [c4], io := { tun := [f4], shut := [fd] } } := by
    rw [handle_tcp_single _ _ _ _ _ (c3_match _ _ _ _ _ _),
      handle_tcp_session_fin k e4 _ c3 (by rw [c3_state]; decide) rfl rfl rfl rfl
        (by rw [c3_local]; exact nl1) (by rw [c3_remote]; exact n1001) h4s h4t, hc4, hf4]
    simp only [c3_state, c3_socket, fin_transition]
    rfl
  have c4_state : c4.state = TCP_CLOSE_WAIT := by rw [hc4]
  have c4_socket : c4.socket = fd := by rw [hc4]; exact c3_socket
  have c4_local : c4.local_seq = (l + 1) % 2 ^ 32 := by rw [hc4]; exact c3_local
  have c4_remote : c4.remote_seq = 1002 := by rw [hc4]; simp only [c3_remote]; norm_num
  have c4_window : c4.send_window = ntohs (htons w4) := by rw [hc4]
  have f4_ack : ntohl f4.tcp.ack_seq = 1002 := by
    rw [hf4, build_tcp_ack_seq]
    simp only [c3_remote]
    norm_num
  -- step 5: end of file on the socket
  obtain ⟨c5, hc5⟩ : ∃ c, c = ({ c4 with
      time := s5.time
      local_seq := (c4.local_seq + 1) % 2 ^ 32
      state := TCP_LAST_ACK } : tcp_session) := ⟨_, rfl⟩
  obtain ⟨f5, hf5⟩ : ∃ f, f = build_tcp k ({ c4 with time := s5.time } : tcp_session)
      [] 0 false true true false := ⟨_, rfl⟩
  have r5 : check_tcp_sockets k s5 [c4]
      = ([c5], { tun := [f5], recvs := [{ socket := fd,
                                          len := min (ntohs (htons w4)) k.TCP_SEND_WINDOW }] })
      := by
    simp only [check_tcp_sockets, check_tcp_sockets_from, c4_socket, hfd1, ge_iff_le, if_true,
      check_tcp_socket, h5e, Bool.false_eq_true, if_false, c4_state, reduceCtorEq, or_true,
      h5r, c4_window, hw4, gt_iff_lt, and_self, recv_len_eq_min, h5v]
    rw [write_fin_ack_ok _ _ _ _ h5t, hc5, hf5]
    simp only [le_refl, if_true, List.nil_append, c4_socket, c4_state, c4_window, reduceCtorEq,
      or_self, if_false]
  have c5_state : c5.state = TCP_LAST_ACK := by rw [hc5]
  have c5_local : c5.local_seq = (l + 2) % 2 ^ 32 := by
    rw [hc5]; simp only [c4_local]; omega
  have c5_remote : c5.remote_seq = 1002 := by rw [hc5]; exact c4_remote
  have c5_match : ∀ seq ack_seq window syn ack fin,
      tcp_match c5 (segment4 sa da sp dp seq ack_seq window syn ack fin) = true := by
    intro seq ack_seq window syn ack fin
    rw [hc5, hc4]; exact c3_match seq ack_seq window syn ack fin
  -- step 6: the last ACK
  obtain ⟨c6, hc6⟩ : ∃ c, c = ({ c5 with
      time := e6.time
      send_window := ntohs (htons w6)
      state := TCP_TIME_WAIT } : tcp_session) := ⟨_, rfl⟩
  have r6 : handle_tcp k e6 [c5] (segment4 sa da sp dp 1002 (l + 2) w6 false true false) uid
      = { allowed := (handle_tcp_session k e6 c5
            (segment4 sa da sp dp 1002 (l + 2) w6 false true false)).1,
          table := [c6], io := {} } := by
    rw [handle_tcp_single _ _ _ _ _ (c5_match _ _ _ _ _ _),
      handle_tcp_session_ack k e6 _ c5 (by rw [c5_state]; decide) rfl rfl rfl rfl rfl
        (by rw [c5_local]; exact nl2) (by rw [c5_remote]; exact n1002)]
    simp only [c5_state, ack_transition, hc6]
    rfl
  have c6_state : c6.state = TCP_TIME_WAIT := by rw [hc6]
  have f2_seq : ntohl (build_tcp k ({ c1 with time := s2.time } : tcp_session)
      [] 1 true true false false).tcp.seq = l := by
    rw [build_tcp_seq]
    simp only [c1_local]
    exact Nat.mod_eq_of_lt hl32
  have f2_ack : ntohl (build_tcp k ({ c1 with time := s2.time } : tcp_session)
      [] 1 true true false false).tcp.ack_seq = 1001 := by
    rw [build_tcp_ack_seq]
    simp only [c1_remote]
    norm_num
  refine ⟨c1, c2, c3, c4, c5, c6, _, f4, f5, ?_, c1_state, ?_, ?_, rfl, rfl, rfl, rfl, f2_seq,
    f2_ack, c2_state, ?_, c3_state, ?_, ?_, ?_, ?_, ?_, ?_, f4_ack, c4_state, ?_, ?_, ?_, ?_, ?_,
    ?_, c5_state, ?_, c6_state⟩
  all_goals simp only [open_close, r1, r2, r3, r4, r5, r6, hf4, hf5]
  all_goals rfl

/-! ## Witnesses: the theorems at concrete inputs -/

/-- Witness for C3: an in-order FIN with ACK on the established example session. -/
theorem handle_tcp_fin_acked_witness :
    ∃ f cur',
      (handle_tcp ex_k (ex_env 1) (([] : List tcp_session) ++ (ex_session TCP_ESTABLISHED) :: ([] : List tcp_session)) (ex_segment 1001 5001 false true true []) 10001).io.tun = [f]
      ∧ f.tcp.ack = true ∧ f.tcp.syn = false ∧ f.tcp.fin = false ∧ f.tcp.rst = false
      ∧ f.data = []
      ∧ ntohl f.tcp.ack_seq = ((ex_session TCP_ESTABLISHED).remote_seq + 1) % 2 ^ 32
      ∧ (handle_tcp ex_k (ex_env 1) (([] : List tcp_session) ++ (ex_session TCP_ESTABLISHED) :: ([] : List tcp_session)) (ex_segment 1001 5001 false true true []) 10001).io.shut = [(ex_session TCP_ESTABLISHED).socket]
      ∧ (handle_tcp ex_k (ex_env 1) (([] : List tcp_session) ++ (ex_session TCP_ESTABLISHED) :: ([] : List tcp_session)) (ex_segment 1001 5001 false true true []) 10001).table = ([] : List tcp_session) ++ cur' :: ([] : List tcp_session)
      ∧ cur'.remote_seq = ((ex_session TCP_ESTABLISHED).remote_seq + 1) % 2 ^ 32
      ∧ cur'.local_seq = (ex_session TCP_ESTABLISHED).local_seq
      ∧ cur'.state = fin_transition (ex_session TCP_ESTABLISHED).state (ex_segment 1001 5001 false true true []).tcp.ack
      ∧ fin_transition TCP_ESTABLISHED (ex_segment 1001 5001 false true true []).tcp.ack = TCP_CLOSE_WAIT
      ∧ fin_transition TCP_FIN_WAIT1 true = TCP_TIME_WAIT
      ∧ fin_transition TCP_FIN_WAIT1 false = TCP_CLOSING
      ∧ fin_transition TCP_FIN_WAIT2 (ex_segment 1001 5001 false true true []).tcp.ack = TCP_TIME_WAIT :=
  handle_tcp_fin_acked ex_k (ex_env 1) (ex_segment 1001 5001 false true true []) 10001 [] (ex_session TCP_ESTABLISHED) []
    (by simp) (by decide) (by decide) rfl rfl rfl rfl (by decide) (by decide) rfl rfl

/-- Witness for C4: an in-order bare ACK on the example session in SYN_RECV. -/
theorem handle_tcp_ack_only_witness :
    ∃ cur',
      (handle_tcp ex_k (ex_env 1) (([] : List tcp_session) ++ (ex_session TCP_SYN_RECV) :: ([] : List tcp_session)) (ex_segment 1001 5001 false true false []) 10001).table = ([] : List tcp_session) ++ cur' :: ([] : List tcp_session)
      ∧ (handle_tcp ex_k (ex_env 1) (([] : List tcp_session) ++ (ex_session TCP_SYN_RECV) :: ([] : List tcp_session)) (ex_segment 1001 5001 false true false []) 10001).io.tun = []
      ∧ (handle_tcp ex_k (ex_env 1) (([] : List tcp_session) ++ (ex_session TCP_SYN_RECV) :: ([] : List tcp_session)) (ex_segment 1001 5001 false true false []) 10001).io.sent = []
      ∧ cur'.local_seq = (ex_session TCP_SYN_RECV).local_seq
      ∧ cur'.remote_seq = (ex_session TCP_SYN_RECV).remote_seq
      ∧ cur'.state = ack_transition (ex_session TCP_SYN_RECV).state
      ∧ ack_transition TCP_SYN_RECV = TCP_ESTABLISHED
      ∧ ack_transition TCP_LAST_ACK = TCP_TIME_WAIT
      ∧ ack_transition TCP_FIN_WAIT1 = TCP_FIN_WAIT2
      ∧ ack_transition TCP_CLOSING = TCP_TIME_WAIT
      ∧ ack_transition TCP_ESTABLISHED = TCP_ESTABLISHED :=
  handle_tcp_ack_only ex_k (ex_env 1) (ex_segment 1001 5001 false true false []) 10001 [] (ex_session TCP_SYN_RECV) []
    (by simp) (by decide) (by decide) rfl rfl rfl rfl rfl (by decide) (by decide)

/-- Witness for C5: three payload bytes for the established example session, once with
`send` failing and once with `send` and the tunnel write succeeding. -/
theorem handle_tcp_payload_witness :
    (∃ f cur',
        (handle_tcp ex_k (ex_env (-1)) (([] : List tcp_session) ++ (ex_session TCP_ESTABLISHED) :: ([] : List tcp_session)) (ex_segment 1001 5001 false true false [7, 8, 9]) 10001).io.tun = [f]
        ∧ f.tcp.rst = true
        ∧ (handle_tcp ex_k (ex_env (-1)) (([] : List tcp_session) ++ (ex_session TCP_ESTABLISHED) :: ([] : List tcp_session)) (ex_segment 1001 5001 false true false [7, 8, 9]) 10001).table = ([] : List tcp_session) ++ cur' :: ([] : List tcp_session)
        ∧ cur'.remote_seq = (ex_session TCP_ESTABLISHED).remote_seq
        ∧ (handle_tcp ex_k (ex_env (-1)) (([] : List tcp_session) ++ (ex_session TCP_ESTABLISHED) :: ([] : List tcp_session)) (ex_segment 1001 5001 false true false [7, 8, 9]) 10001).allowed = false)
    ∧ (∃ f cur',
        (handle_tcp ex_k (ex_env 3) (([] : List tcp_session) ++ (ex_session TCP_ESTABLISHED) :: ([] : List tcp_session)) (ex_segment 1001 5001 false true false [7, 8, 9]) 10001).io.sent
          = [{ socket := (ex_session TCP_ESTABLISHED).socket, data := (ex_segment 1001 5001 false true false [7, 8, 9]).data, msg_more := !(ex_segment 1001 5001 false true false [7, 8, 9]).tcp.psh }]
        ∧ (handle_tcp ex_k (ex_env 3) (([] : List tcp_session) ++ (ex_session TCP_ESTABLISHED) :: ([] : List tcp_session)) (ex_segment 1001 5001 false true false [7, 8, 9]) 10001).io.tun = [f]
        ∧ f.tcp.ack = true ∧ f.tcp.syn = false ∧ f.tcp.fin = false ∧ f.tcp.rst = false
        ∧ f.data = []
        ∧ ntohl f.tcp.seq = (ex_session TCP_ESTABLISHED).local_seq % 2 ^ 32
        ∧ ntohl f.tcp.ack_seq = ((ex_session TCP_ESTABLISHED).remote_seq + (ex_segment 1001 5001 false true false [7, 8, 9]).data.length) % 2 ^ 32
        ∧ (handle_tcp ex_k (ex_env 3) (([] : List tcp_session) ++ (ex_session TCP_ESTABLISHED) :: ([] : List tcp_session)) (ex_segment 1001 5001 false true false [7, 8, 9]) 10001).table = ([] : List tcp_session) ++ cur' :: ([] : List tcp_session)
        ∧ cur'.remote_seq = ((ex_session TCP_ESTABLISHED).remote_seq + (ex_segment 1001 5001 false true false [7, 8, 9]).data.length) % 2 ^ 32) :=
  ⟨(handle_tcp_payload ex_k (ex_env (-1)) (ex_segment 1001 5001 false true false [7, 8, 9]) 10001 [] (ex_session TCP_ESTABLISHED) []
      (by simp) (by decide) (by decide) (by decide) (by decide) (by decide) rfl (by decide)
      (by decide)).1 (by decide),
   (handle_tcp_payload ex_k (ex_env 3) (ex_segment 1001 5001 false true false [7, 8, 9]) 10001 [] (ex_session TCP_ESTABLISHED) []
      (by simp) (by decide) (by decide) (by decide) (by decide) (by decide) rfl (by decide)
      (by decide)).2 (by decide) rfl⟩

/-- Witness for C6: FIN and ACK with three payload bytes for the established example session. -/
theorem handle_tcp_fin_with_payload_witness :
    (handle_tcp ex_k (ex_env 3) (([] : List tcp_session) ++ (ex_session TCP_ESTABLISHED) :: ([] : List tcp_session)) (ex_segment 1001 5001 false true true [7, 8, 9]) 10001).io.tun = []
    ∧ (handle_tcp ex_k (ex_env 3) (([] : List tcp_session) ++ (ex_session TCP_ESTABLISHED) :: ([] : List tcp_session)) (ex_segment 1001 5001 false true true [7, 8, 9]) 10001).io.shut = []
    ∧ (handle_tcp ex_k (ex_env 3) (([] : List tcp_session) ++ (ex_session TCP_ESTABLISHED) :: ([] : List tcp_session)) (ex_segment 1001 5001 false true true [7, 8, 9]) 10001).io.sent
        = [{ socket := (ex_session TCP_ESTABLISHED).socket, data := (ex_segment 1001 5001 false true true [7, 8, 9]).data, msg_more := !(ex_segment 1001 5001 false true true [7, 8, 9]).tcp.psh }]
    ∧ (handle_tcp ex_k (ex_env 3) (([] : List tcp_session) ++ (ex_session TCP_ESTABLISHED) :: ([] : List tcp_session)) (ex_segment 1001 5001 false true true [7, 8, 9]) 10001).table
        = ([] : List tcp_session) ++ { (ex_session TCP_ESTABLISHED) with
                   time := (ex_env 3).time
                   send_window := ntohs (ex_segment 1001 5001 false true true [7, 8, 9]).tcp.window
                   remote_seq := ((ex_session TCP_ESTABLISHED).remote_seq + (ex_segment 1001 5001 false true true [7, 8, 9]).data.length) % 2 ^ 32 } :: ([] : List tcp_session)
    ∧ ((ex_session TCP_ESTABLISHED).remote_seq + (ex_segment 1001 5001 false true true [7, 8, 9]).data.length) % 2 ^ 32 ≠ ((ex_session TCP_ESTABLISHED).remote_seq + (ex_segment 1001 5001 false true true [7, 8, 9]).data.length + 1) % 2 ^ 32 :=
  handle_tcp_fin_with_payload ex_k (ex_env 3) (ex_segment 1001 5001 false true true [7, 8, 9]) 10001 [] (ex_session TCP_ESTABLISHED) []
    (by simp) (by decide) rfl rfl rfl (by decide) (by decide) (by decide) (by decide)
    (by decide)

/-- Witness for C9: a keep-alive (sequence number one below `remote_seq`) on the established example session. -/
theorem handle_tcp_out_of_order_witness :
    (handle_tcp ex_k (ex_env 1) (([] : List tcp_session) ++ (ex_session TCP_ESTABLISHED) :: ([] : List tcp_session)) (ex_segment 1000 5001 false true false []) 10001).io = {}
    ∧ (handle_tcp ex_k (ex_env 1) (([] : List tcp_session) ++ (ex_session TCP_ESTABLISHED) :: ([] : List tcp_session)) (ex_segment 1000 5001 false true false []) 10001).table
        = ([] : List tcp_session) ++ { (ex_session TCP_ESTABLISHED) with time := (ex_env 1).time, send_window := ntohs (ex_segment 1000 5001 false true false []).tcp.window } :: ([] : List tcp_session)
    ∧ ((handle_tcp ex_k (ex_env 1) (([] : List tcp_session) ++ (ex_session TCP_ESTABLISHED) :: ([] : List tcp_session)) (ex_segment 1000 5001 false true false []) 10001).allowed = true ↔
        (((ex_segment 1000 5001 false true false []).tcp.ack = true ∧ (ntohl (ex_segment 1000 5001 false true false []).tcp.seq + 1) % 2 ^ 32 = (ex_session TCP_ESTABLISHED).remote_seq)
         ∨ (ntohl (ex_segment 1000 5001 false true false []).tcp.seq = (ex_session TCP_ESTABLISHED).remote_seq ∧ ntohl (ex_segment 1000 5001 false true false []).tcp.ack_seq < (ex_session TCP_ESTABLISHED).local_seq)
         ∨ (ntohl (ex_segment 1000 5001 false true false []).tcp.seq < (ex_session TCP_ESTABLISHED).remote_seq ∧ ntohl (ex_segment 1000 5001 false true false []).tcp.ack_seq = (ex_session TCP_ESTABLISHED).local_seq))) :=
  handle_tcp_out_of_order ex_k (ex_env 1) (ex_segment 1000 5001 false true false []) 10001 [] (ex_session TCP_ESTABLISHED) []
    (by simp) (by decide) (by decide) rfl rfl (by decide)

/-- Witness for C10: the SYN of the example connection on an empty table, once with the socket opened and once with `open_tcp_socket` failing. -/
theorem handle_tcp_syn_creates_witness :
    (if (ex_env 1).open_tcp_socket < 0 then
      (handle_tcp ex_k (ex_env 1) ([] : List tcp_session) (ex_segment 1000 0 true false false []) 10001).table = ([] : List tcp_session)
      ∧ (handle_tcp ex_k (ex_env 1) ([] : List tcp_session) (ex_segment 1000 0 true false false []) 10001).allowed = false
    else
      ∃ syn,
        (handle_tcp ex_k (ex_env 1) ([] : List tcp_session) (ex_segment 1000 0 true false false []) 10001).table = ([] : List tcp_session) ++ [syn]
        ∧ (handle_tcp ex_k (ex_env 1) ([] : List tcp_session) (ex_segment 1000 0 true false false []) 10001).allowed = true
        ∧ syn.state = TCP_LISTEN
        ∧ syn.version = (ex_segment 1000 0 true false false []).version
        ∧ syn.source = (ex_segment 1000 0 true false false []).tcp.source ∧ syn.dest = (ex_segment 1000 0 true false false []).tcp.dest
        ∧ (if (ex_segment 1000 0 true false false []).version = 4 then
             ip4_bytes syn.saddr = ip4_bytes (ex_segment 1000 0 true false false []).saddr ∧ ip4_bytes syn.daddr = ip4_bytes (ex_segment 1000 0 true false false []).daddr
           else
             ip6_bytes syn.saddr = ip6_bytes (ex_segment 1000 0 true false false []).saddr ∧ ip6_bytes syn.daddr = ip6_bytes (ex_segment 1000 0 true false false []).daddr)
        ∧ tcp_match syn (ex_segment 1000 0 true false false []) = true
        ∧ syn.remote_seq = ntohl (ex_segment 1000 0 true false false []).tcp.seq ∧ syn.remote_start = ntohl (ex_segment 1000 0 true false false []).tcp.seq
        ∧ syn.local_seq = (ex_env 1).rand % 2 ^ 32 ∧ syn.local_start = syn.local_seq
        ∧ syn.send_window = ntohs (ex_segment 1000 0 true false false []).tcp.window
        ∧ syn.uid = 10001
        ∧ syn.socket = (ex_env 1).open_tcp_socket)
    ∧ (if ex_env_no_socket.open_tcp_socket < 0 then
      (handle_tcp ex_k ex_env_no_socket ([] : List tcp_session) (ex_segment 1000 0 true false false []) 10001).table = ([] : List tcp_session)
      ∧ (handle_tcp ex_k ex_env_no_socket ([] : List tcp_session) (ex_segment 1000 0 true false false []) 10001).allowed = false
    else
      ∃ syn,
        (handle_tcp ex_k ex_env_no_socket ([] : List tcp_session) (ex_segment 1000 0 true false false []) 10001).table = ([] : List tcp_session) ++ [syn]
        ∧ (handle_tcp ex_k ex_env_no_socket ([] : List tcp_session) (ex_segment 1000 0 true false false []) 10001).allowed = true
        ∧ syn.state = TCP_LISTEN
        ∧ syn.version = (ex_segment 1000 0 true false false []).version
        ∧ syn.source = (ex_segment 1000 0 true false false []).tcp.source ∧ syn.dest = (ex_segment 1000 0 true false false []).tcp.dest
        ∧ (if (ex_segment 1000 0 true false false []).version = 4 then
             ip4_bytes syn.saddr = ip4_bytes (ex_segment 1000 0 true false false []).saddr ∧ ip4_bytes syn.daddr = ip4_bytes (ex_segment 1000 0 true false false []).daddr
           else
             ip6_bytes syn.saddr = ip6_bytes (ex_segment 1000 0 true false false []).saddr ∧ ip6_bytes syn.daddr = ip6_bytes (ex_segment 1000 0 true false false []).daddr)
        ∧ tcp_match syn (ex_segment 1000 0 true false false []) = true
        ∧ syn.remote_seq = ntohl (ex_segment 1000 0 true false false []).tcp.seq ∧ syn.remote_start = ntohl (ex_segment 1000 0 true false false []).tcp.seq
        ∧ syn.local_seq = ex_env_no_socket.rand % 2 ^ 32 ∧ syn.local_start = syn.local_seq
        ∧ syn.send_window = ntohs (ex_segment 1000 0 true false false []).tcp.window
        ∧ syn.uid = 10001
        ∧ syn.socket = ex_env_no_socket.open_tcp_socket) :=
  ⟨handle_tcp_syn_creates ex_k (ex_env 1) (ex_segment 1000 0 true false false []) 10001 [] (by simp) rfl,
   handle_tcp_syn_creates ex_k ex_env_no_socket (ex_segment 1000 0 true false false []) 10001 [] (by simp) rfl⟩

/-- Witness for C7: the example session in LISTEN, alone in the table, its socket writable. -/
theorem check_tcp_sockets_connect_witness :
    ∃ f cur',
      check_tcp_sockets ex_k (ex_select (.bytes [])) (([] : List tcp_session) ++ (ex_session TCP_LISTEN) :: ([] : List tcp_session))
        = ((([], {}) : List tcp_session × tcp_io).1 ++ cur'
              :: (check_tcp_sockets_from ex_k (ex_select (.bytes [])) ([] : List tcp_session) { (([], {}) : List tcp_session × tcp_io).2 with tun := (([], {}) : List tcp_session × tcp_io).2.tun ++ [f] }).1,
           (check_tcp_sockets_from ex_k (ex_select (.bytes [])) ([] : List tcp_session) { (([], {}) : List tcp_session × tcp_io).2 with tun := (([], {}) : List tcp_session × tcp_io).2.tun ++ [f] }).2)
      ∧ f.tcp.syn = true ∧ f.tcp.ack = true ∧ f.tcp.fin = false ∧ f.tcp.rst = false
      ∧ f.data = []
      ∧ ntohl f.tcp.seq = (ex_session TCP_LISTEN).local_seq % 2 ^ 32
      ∧ ntohl f.tcp.ack_seq = ((ex_session TCP_LISTEN).remote_seq + 1) % 2 ^ 32
      ∧ cur' = (if (ex_select (.bytes [])).write_ok (([], {}) : List tcp_session × tcp_io).2.tun.length = true then
                  { (ex_session TCP_LISTEN) with
                    time := (ex_select (.bytes [])).time
                    local_seq := ((ex_session TCP_LISTEN).local_seq + 1) % 2 ^ 32
                    remote_seq := ((ex_session TCP_LISTEN).remote_seq + 1) % 2 ^ 32
                    state := TCP_SYN_RECV }
                else { (ex_session TCP_LISTEN) with time := (ex_select (.bytes [])).time, state := TCP_TIME_WAIT }) :=
  check_tcp_sockets_connect ex_k (ex_select (.bytes [])) [] (ex_session TCP_LISTEN) [] ([], {}) rfl rfl (by decide) rfl rfl

/-- Witness for C8: the established example session, alone in the table, reading two bytes. -/
theorem check_tcp_sockets_read_witness :
    ∃ f cur' io',
      check_tcp_sockets ex_k (ex_select (.bytes [1, 2])) (([] : List tcp_session) ++ (ex_session TCP_ESTABLISHED) :: ([] : List tcp_session))
        = ((([], {}) : List tcp_session × tcp_io).1 ++ cur' :: (check_tcp_sockets_from ex_k (ex_select (.bytes [1, 2])) ([] : List tcp_session) io').1,
           (check_tcp_sockets_from ex_k (ex_select (.bytes [1, 2])) ([] : List tcp_session) io').2)
      ∧ io' = { (([], {}) : List tcp_session × tcp_io).2 with
                tun := (([], {}) : List tcp_session × tcp_io).2.tun ++ [f]
                recvs := (([], {}) : List tcp_session × tcp_io).2.recvs ++ [recv_call.mk (ex_session TCP_ESTABLISHED).socket
                                          (min (ex_session TCP_ESTABLISHED).send_window ex_k.TCP_SEND_WINDOW)] }
      ∧ f.tcp.ack = true ∧ f.tcp.syn = false ∧ f.tcp.rst = false
      ∧ f.tcp.fin = decide (([1, 2] : List Byte) = [])
      ∧ f.data = ([1, 2] : List Byte)
      ∧ ntohl f.tcp.seq = (ex_session TCP_ESTABLISHED).local_seq % 2 ^ 32
      ∧ cur'.remote_seq = (ex_session TCP_ESTABLISHED).remote_seq
      ∧ cur'.local_seq
          = ((ex_session TCP_ESTABLISHED).local_seq + (if ([1, 2] : List Byte) = [] then 1 else ([1, 2] : List Byte).length)) % 2 ^ 32
      ∧ cur'.state
          = (if ([1, 2] : List Byte) = [] then
               (if (ex_session TCP_ESTABLISHED).state = TCP_CLOSE_WAIT then TCP_LAST_ACK else TCP_FIN_WAIT1)
             else (ex_session TCP_ESTABLISHED).state) :=
  check_tcp_sockets_read ex_k (ex_select (.bytes [1, 2])) [] (ex_session TCP_ESTABLISHED) [] ([], {}) rfl [1, 2]
    (Or.inr (Or.inl rfl)) (by decide) (by decide) rfl rfl rfl rfl

/-- Witness for C2: the scenario of the specification with local ISN 5000 and socket 7. -/
theorem tcp_open_close_trace_witness :
    ∃ c1 c2 c3 c4 c5 c6 f2 f4 f5,
      (open_close ex_k (ex_env 1) (ex_select (.bytes [])) (ex_env 1) (ex_env 1) (ex_select (.bytes [])) (ex_env 1) ex_client ex_server (htons 40000) (htons 80) 10001 5000 65535 65535 65535 true).syn.table = [c1]
      ∧ c1.state = TCP_LISTEN
      ∧ (open_close ex_k (ex_env 1) (ex_select (.bytes [])) (ex_env 1) (ex_env 1) (ex_select (.bytes [])) (ex_env 1) ex_client ex_server (htons 40000) (htons 80) 10001 5000 65535 65535 65535 true).connected.1 = [c2]
      ∧ (open_close ex_k (ex_env 1) (ex_select (.bytes [])) (ex_env 1) (ex_env 1) (ex_select (.bytes [])) (ex_env 1) ex_client ex_server (htons 40000) (htons 80) 10001 5000 65535 65535 65535 true).connected.2.tun = [f2]
      ∧ f2.tcp.syn = true ∧ f2.tcp.ack = true ∧ f2.tcp.fin = false ∧ f2.tcp.rst = false
      ∧ ntohl f2.tcp.seq = 5000 ∧ ntohl f2.tcp.ack_seq = 1001
      ∧ c2.state = TCP_SYN_RECV
      ∧ (open_close ex_k (ex_env 1) (ex_select (.bytes [])) (ex_env 1) (ex_env 1) (ex_select (.bytes [])) (ex_env 1) ex_client ex_server (htons 40000) (htons 80) 10001 5000 65535 65535 65535 true).ack.table = [c3]
      ∧ c3.state = TCP_ESTABLISHED
      ∧ (open_close ex_k (ex_env 1) (ex_select (.bytes [])) (ex_env 1) (ex_env 1) (ex_select (.bytes [])) (ex_env 1) ex_client ex_server (htons 40000) (htons 80) 10001 5000 65535 65535 65535 true).fin.table = [c4]
      ∧ (open_close ex_k (ex_env 1) (ex_select (.bytes [])) (ex_env 1) (ex_env 1) (ex_select (.bytes [])) (ex_env 1) ex_client ex_server (htons 40000) (htons 80) 10001 5000 65535 65535 65535 true).fin.io.tun = [f4]
      ∧ f4.tcp.ack = true ∧ f4.tcp.syn = false ∧ f4.tcp.fin = false ∧ f4.tcp.rst = false
      ∧ ntohl f4.tcp.ack_seq = 1002
      ∧ c4.state = TCP_CLOSE_WAIT
      ∧ (open_close ex_k (ex_env 1) (ex_select (.bytes [])) (ex_env 1) (ex_env 1) (ex_select (.bytes [])) (ex_env 1) ex_client ex_server (htons 40000) (htons 80) 10001 5000 65535 65535 65535 true).eof.1 = [c5]
      ∧ (open_close ex_k (ex_env 1) (ex_select (.bytes [])) (ex_env 1) (ex_env 1) (ex_select (.bytes [])) (ex_env 1) ex_client ex_server (htons 40000) (htons 80) 10001 5000 65535 65535 65535 true).eof.2.tun = [f5]
      ∧ f5.tcp.fin = true ∧ f5.tcp.ack = true ∧ f5.tcp.syn = false ∧ f5.tcp.rst = false
      ∧ c5.state = TCP_LAST_ACK
      ∧ (open_close ex_k (ex_env 1) (ex_select (.bytes [])) (ex_env 1) (ex_env 1) (ex_select (.bytes [])) (ex_env 1) ex_client ex_server (htons 40000) (htons 80) 10001 5000 65535 65535 65535 true).last_ack.table = [c6]
      ∧ c6.state = TCP_TIME_WAIT :=
  tcp_open_close_trace ex_k (ex_env 1) (ex_select (.bytes [])) (ex_env 1) (ex_env 1)
    (ex_select (.bytes [])) (ex_env 1) ex_client ex_server (htons 40000) (htons 80) 10001 5000 65535 65535
    65535 true 7 (by decide) rfl (by decide) rfl rfl rfl rfl rfl (by decide) rfl rfl rfl rfl

/-! ## Segments for unknown sessions -/

theorem handle_tcp_unknown_no_syn (k : netguard_h) (env : tcp_env) (seg : tcp_in) (uid : Int)
    (hsyn : seg.tcp.syn = false) :
    ∃ rst : tcp_session,
      rst.local_seq = 0 ∧ rst.remote_seq = ntohl seg.tcp.seq
      ∧ handle_tcp_unknown k env seg uid
        = { allowed := false, table := [],
            io := { tun := [build_tcp k rst [] 0 false false false true] } } := by
  simp only [handle_tcp_unknown, hsyn, Bool.false_eq_true, if_false, write_rst_eq]
  exact ⟨_, rfl, rfl, rfl⟩

theorem htonl_zero : htonl 0 = 0 := by decide

theorem handle_tcp_stray (k : netguard_h) (env : tcp_env) (seg : tcp_in) (uid : Int)
    (table : List tcp_session)
    (hnone : ∀ c ∈ table, tcp_match c seg = false) (hsyn : seg.tcp.syn = false) :
    ∃ rst : tcp_session,
      rst.local_seq = 0
      ∧ handle_tcp k env table seg uid
        = { allowed := false, table := table,
            io := { tun := [build_tcp k rst [] 0 false false false true] } } := by
  obtain ⟨rst, h0, _, hu⟩ := handle_tcp_unknown_no_syn k env seg uid hsyn
  rw [handle_tcp_not_found k env seg uid table hnone, hu]
  exact ⟨rst, h0, by simp⟩

theorem handle_tcp_stray_scratch (k : netguard_h) (env : tcp_env) (seg : tcp_in) (uid : Int)
    (table : List tcp_session)
    (hnone : ∀ c ∈ table, tcp_match c seg = false) (hsyn : seg.tcp.syn = false) :
    ∃ rst : tcp_session,
      rst.local_seq = 0 ∧ rst.remote_seq = ntohl seg.tcp.seq
      ∧ handle_tcp k env table seg uid
        = { allowed := false, table := table,
            io := { tun := [build_tcp k rst [] 0 false false false true] } } := by
  obtain ⟨rst, h0, hr, hu⟩ := handle_tcp_unknown_no_syn k env seg uid hsyn
  rw [handle_tcp_not_found k env seg uid table hnone, hu]
  exact ⟨rst, h0, hr, by simp⟩

/-- C11. Stray non-SYN reset fields.  For every segment without SYN that matches
no session of the table, `handle_tcp` writes exactly one packet to the tunnel:
it has RST set and SYN, ACK and FIN clear, no payload, sequence number 0 and
acknowledgement field 0.  The packet is built from a scratch session whose
`remote_seq` is `ntohl(tcphdr->seq)`, the value `write_tcp` puts into the
acknowledgement field; but `write_rst` asks for the ACK flag clear and
`write_tcp` zeroes `ack_seq` when the ACK flag is clear.  Built with the ACK
flag, the same packet would acknowledge the sequence number of the segment; as
it is written, its acknowledgement number is that sequence number only when
the segment has sequence number 0. -/
theorem handle_tcp_stray_rst (k : netguard_h) (env : tcp_env) (seg : tcp_in) (uid : Int)
    (table : List tcp_session)
    (hnone : ∀ c ∈ table, tcp_match c seg = false) (hsyn : seg.tcp.syn = false) :
    ∃ f,
      (handle_tcp k env table seg uid).io.tun = [f]
      ∧ f.tcp.rst = true ∧ f.tcp.syn = false ∧ f.tcp.ack = false ∧ f.tcp.fin = false
      ∧ f.data = []
      ∧ ntohl f.tcp.seq = 0
      ∧ f.tcp.ack_seq = 0 ∧ ntohl f.tcp.ack_seq = 0
      ∧ (∃ rst : tcp_session,
          rst.local_seq = 0 ∧ rst.remote_seq = ntohl seg.tcp.seq
          ∧ f = build_tcp k rst [] 0 false false false true
          ∧ ntohl (build_tcp k rst [] 0 false true false true).tcp.ack_seq
              = ntohl seg.tcp.seq % 2 ^ 32)
      ∧ (ntohl f.tcp.ack_seq = ntohl seg.tcp.seq ↔ ntohl seg.tcp.seq = 0) := by
  obtain ⟨rst, h0, hr, hu⟩ := handle_tcp_stray_scratch k env seg uid table hnone hsyn
  rw [hu]
  have hz : ntohl (build_tcp k rst [] 0 false false false true).tcp.ack_seq = 0 := htonl_zero
  refine ⟨_, rfl, rfl, rfl, rfl, rfl, rfl, ?_, rfl, hz, ⟨rst, h0, hr, rfl, ?_⟩, ?_⟩
  · rw [build_tcp_seq, h0]; rfl
  · rw [build_tcp_ack_seq, hr, Nat.add_zero]
  · rw [hz]
    exact ⟨fun h => h.symm, fun h => h.symm⟩

/-- C11 at a concrete segment: for an ACK with sequence number 1001 that matches
no session (empty table) no packet is written that has RST set, sequence
number 0 and acknowledgement number 1001. -/
theorem handle_tcp_stray_rst_ack_not_seq :
    ¬ ∃ f,
      (handle_tcp ex_k (ex_env 1) [] (ex_segment 1001 5001 false true false []) 10001).io.tun
        = [f]
      ∧ f.tcp.rst = true
      ∧ ntohl f.tcp.seq = 0
      ∧ ntohl f.tcp.ack_seq = ntohl (ex_segment 1001 5001 false true false []).tcp.seq := by
  rintro ⟨f, hf, _, _, hack⟩
  obtain ⟨rst, _, hu⟩ :=
    handle_tcp_stray ex_k (ex_env 1) (ex_segment 1001 5001 false true false []) 10001 []
      (by simp) rfl
  rw [hu] at hf
  have hfg : build_tcp ex_k rst [] 0 false false false true = f := by simpa using hf
  rw [← hfg] at hack
  have hz : ntohl (build_tcp ex_k rst [] 0 false false false true).tcp.ack_seq = 0 := htonl_zero
  rw [hz] at hack
  revert hack
  decide

/-! ## No session without SYN -/

theorem handle_tcp_length_no_syn (k : netguard_h) (env : tcp_env) (seg : tcp_in) (uid : Int)
    (hsyn : seg.tcp.syn = false) (table : List tcp_session) :
    (handle_tcp k env table seg uid).table.length = table.length := by
  induction table with
  | nil => simp [handle_tcp, handle_tcp_unknown, hsyn]
  | cons c rest ih =>
    simp only [handle_tcp]
    split
    · simp
    · simp [ih]

/-- C12. No flow without SYN.  For every segment without SYN that matches no
session, `handle_tcp` returns the table exactly as it was and reports the
packet as not allowed; and for such a segment and any table whatever (matching
or not) the table keeps its length, so a session is only ever added by a
segment with SYN set. -/
theorem handle_tcp_no_syn_no_flow (k : netguard_h) (env : tcp_env) (seg : tcp_in) (uid : Int)
    (table : List tcp_session)
    (hnone : ∀ c ∈ table, tcp_match c seg = false) (hsyn : seg.tcp.syn = false) :
    (handle_tcp k env table seg uid).table = table
    ∧ (handle_tcp k env table seg uid).allowed = false
    ∧ ∀ other : List tcp_session,
        (handle_tcp k env other seg uid).table.length = other.length := by
  obtain ⟨rst, _, hu⟩ := handle_tcp_stray k env seg uid table hnone hsyn
  rw [hu]
  exact ⟨rfl, rfl, fun other => handle_tcp_length_no_syn k env seg uid hsyn other⟩

/-! ## The checksum law -/

/-- C19 (as amended). Checksum law.  For every 16-bit accumulator `s`, every buffer
`a` of even length and every buffer `b`, the 32-bit running sum not overflowing:
`calc_checksum(calc_checksum(s, a), b) = calc_checksum(s, a ++ b)`, and the
result is the one's-complement 16-bit sum (end-around-carry fold) of `s` and
the 16-bit words of the data. -/
theorem calc_checksum_concat (s : Nat) (a b : List Byte) (hs : s < 65536)
    (ha : a.length % 2 = 0) (hsum : s + word_sum (a ++ b) < 2 ^ 32) :
    calc_checksum (calc_checksum s a) b = calc_checksum s (a ++ b)
    ∧ calc_checksum s (a ++ b) = ones16 (s + word_sum (a ++ b)) := by
  have hab := word_sum_append a b ha
  rw [hab] at hsum
  have e1 : calc_checksum s a = ones16 (s + word_sum a) :=
    calc_checksum_eq s a hs (by omega)
  have l1 := ones16_le (s + word_sum a)
  have e2 : calc_checksum (ones16 (s + word_sum a)) b
      = ones16 (ones16 (s + word_sum a) + word_sum b) :=
    calc_checksum_eq _ b (by omega) (by
      have : ones16 (s + word_sum a) ≤ s + word_sum a := by
        simp only [ones16]; split <;> omega
      omega)
  have e3 : calc_checksum s (a ++ b) = ones16 (s + word_sum (a ++ b)) :=
    calc_checksum_eq s (a ++ b) hs (by rw [hab]; omega)
  rw [e1, e2, e3, ones16_add, hab, Nat.add_assoc]
  exact ⟨rfl, rfl⟩

/-- Witness for C19: accumulator 7, a two-byte buffer and a three-byte buffer. -/
theorem calc_checksum_concat_witness :
    calc_checksum (calc_checksum 7 [1, 2]) [3, 4, 5] = calc_checksum 7 ([1, 2] ++ [3, 4, 5])
    ∧ calc_checksum 7 ([1, 2] ++ [3, 4, 5]) = ones16 (7 + word_sum ([1, 2] ++ [3, 4, 5])) :=
  calc_checksum_concat 7 [1, 2] [3, 4, 5] (by decide) (by decide) (by decide)

/-- Counterexample to C19 as stated: with a first buffer of odd length the chained
call adds the bytes 1 and 2 as two words, the single call as the one word
0x0201. -/
theorem calc_checksum_concat_odd :
    calc_checksum (calc_checksum 0 [1]) [2] ≠ calc_checksum 0 ([1] ++ [2]) := by decide

/-! ## The label walk of `get_dns` -/

set_option maxRecDepth 100000 in
theorem land_c0 : ∀ b : Byte, (b.val &&& 0xC0 = 0 ↔ b.val < 64) := by decide

theorem getD_append_cons (front : List Byte) (x : Byte) (rest : List Byte) (d : Byte) :
    (front ++ x :: rest).getD front.length d = x := by
  induction front with
  | nil => rfl
  | cons a front ih => simpa using ih

theorem mem_write_end (buf bs : List Byte) : mem_write buf buf.length bs = buf ++ bs := by
  simp [mem_write]

theorem dns_encode_length_cons (l : List Byte) (rest : List (List Byte)) :
    (dns_encode (l :: rest)).length = 1 + l.length + (dns_encode rest).length := by
  simp [dns_encode]; omega

theorem dns_consume_qdoff (labels : List (List Byte)) (w : dns_walk) :
    (dns_consume w labels).qdoff = w.qdoff + (dns_encode labels).length := by
  induction labels generalizing w with
  | nil => simp [dns_consume, dns_encode]
  | cons l rest ih =>
    rw [dns_consume, ih, dns_encode_length_cons]
    simp only
    omega

theorem dns_labels_step (data : List Byte) (beyond : Byte) (fuel : Nat) (w : dns_walk)
    (front : List Byte) (l : List Byte) (tail : List Byte)
    (hdata : data = front ++ byte l.length :: l ++ tail)
    (hq : w.qdoff = front.length) (h1 : 1 ≤ l.length) (h63 : l.length ≤ 63) :
    dns_labels data beyond (fuel + 1) w
      = if fuel ≠ 0 then dns_labels data beyond fuel (dns_consume w [l])
        else (false, dns_consume w [l]) := by
  have hlen : (data.getD w.qdoff beyond).val = l.length := by
    rw [hdata, hq, List.append_assoc, List.cons_append, getD_append_cons]
    simp [byte]
    omega
  have hland : ¬ (l.length &&& 0xC0 ≠ 0) := by
    have h := (land_c0 ⟨l.length, by omega⟩).2 (by simp; omega)
    simpa using h
  have hfit : l.length ≠ 0 ∧ w.qdoff + 1 + l.length ≤ data.length := by
    refine ⟨by omega, ?_⟩
    rw [hdata, hq]; simp; omega
  have htake : (data.drop (w.qdoff + 1)).take l.length = l := by
    rw [hdata, hq]
    simp [List.drop_append, List.take_append]
  have hne : l.length ≠ 0 := by omega
  rw [dns_labels]
  simp only [hlen, hland, if_false, hfit, and_self, if_true, htake, hne, ne_eq, not_false_eq_true,
    true_and, dns_consume]

theorem dns_labels_walk (beyond : Byte) (tail : List Byte) (labels : List (List Byte)) :
    ∀ (front : List Byte) (fuel : Nat) (w : dns_walk),
      (∀ l ∈ labels, 1 ≤ l.length ∧ l.length ≤ 63) →
      w.qdoff = front.length → labels.length ≤ fuel →
      dns_labels (front ++ dns_encode labels ++ tail) beyond fuel w
        = if labels.length = fuel then (false, dns_consume w labels)
          else dns_labels (front ++ dns_encode labels ++ tail) beyond (fuel - labels.length)
            (dns_consume w labels) := by
  induction labels with
  | nil =>
    intro front fuel w _ _ _
    cases fuel with
    | zero => simp [dns_consume, dns_labels]
    | succ f => simp [dns_consume]
  | cons l rest ih =>
    intro front fuel w hv hq hf
    have hl := hv l (List.mem_cons_self _ _)
    cases fuel with
    | zero => simp at hf
    | succ f =>
      have hdata : front ++ dns_encode (l :: rest) ++ tail
          = front ++ byte l.length :: l ++ (dns_encode rest ++ tail) := by
        simp [dns_encode]
      rw [dns_labels_step _ beyond f w front l (dns_encode rest ++ tail) hdata hq hl.1 hl.2]
      have hdata2 : front ++ dns_encode (l :: rest) ++ tail
          = (front ++ byte l.length :: l) ++ dns_encode rest ++ tail := by
        simp [dns_encode]
      have hq2 : (dns_consume w [l]).qdoff = (front ++ byte l.length :: l).length := by
        simp [dns_consume, hq]; omega
      have hrest : ∀ x ∈ rest, 1 ≤ x.length ∧ x.length ≤ 63 :=
        fun x hx => hv x (List.mem_cons_of_mem _ hx)
      have hc : dns_consume (dns_consume w [l]) rest = dns_consume w (l :: rest) := by
        simp [dns_consume]
      simp only [List.length_cons] at hf ⊢
      by_cases hf0 : f = 0
      · subst hf0
        have hr : rest = [] := List.length_eq_zero.mp (by omega)
        subst hr
        simp
      · have ih2 := ih (front ++ byte l.length :: l) f (dns_consume w [l]) hrest hq2 (by omega)
        rw [← hdata2] at ih2
        simp only [hf0, ne_eq, not_false_eq_true, if_true]
        rw [ih2, hc]
        have e : f + 1 - (rest.length + 1) = f - rest.length := by omega
        rw [e]
        by_cases hx : rest.length = f
        · simp [hx]
        · have hx2 : ¬ rest.length + 1 = f + 1 := by omega
          simp [hx, hx2]

theorem dns_labels_stop (data : List Byte) (beyond : Byte) (fuel : Nat) (w : dns_walk)
    (h0 : data.getD w.qdoff beyond = 0) :
    dns_labels data beyond (fuel + 1) w = (false, { w with reads := w.reads ++ [w.qdoff] }) := by
  have hv : (data.getD w.qdoff beyond).val = 0 := by rw [h0]; rfl
  rw [dns_labels]
  simp only [hv]
  simp

theorem dns_labels_pointer (data : List Byte) (beyond : Byte) (fuel : Nat) (w : dns_walk)
    (h : 64 ≤ (data.getD w.qdoff beyond).val) :
    (dns_labels data beyond (fuel + 1) w).1 = true := by
  have hland : (data.getD w.qdoff beyond).val &&& 0xC0 ≠ 0 := by
    intro h0
    have := (land_c0 _).1 h0
    omega
  rw [dns_labels]
  simp only [hland, ne_eq, not_false_eq_true, if_true]

theorem dns_encode_append (a b : List (List Byte)) :
    dns_encode (a ++ b) = dns_encode a ++ dns_encode b := by
  induction a with
  | nil => rfl
  | cons l rest ih => simp [dns_encode, ih]

theorem dns_consume_plain (labels : List (List Byte)) :
    ∀ (w : dns_walk), w.name.length = w.noff → w.noff + (dns_dotted labels).length < 256 →
      (dns_consume w labels).noff = w.noff + (dns_dotted labels).length
      ∧ (dns_consume w labels).name = w.name ++ dns_dotted labels := by
  induction labels with
  | nil => intro w _ _; simp [dns_consume, dns_dotted]
  | cons l rest ih =>
    intro w hn hfit
    have hd : (dns_dotted (l :: rest)).length = l.length + 1 + (dns_dotted rest).length := by
      simp [dns_dotted]; omega
    rw [hd] at hfit
    have hm : (w.noff + (l.length + 1)) % 256 = w.noff + (l.length + 1) :=
      Nat.mod_eq_of_lt (by omega)
    have hw : mem_write w.name w.noff (l ++ [46]) = w.name ++ (l ++ [46]) := by
      rw [← hn, mem_write_end]
    have h := ih
      { noff := w.noff + (l.length + 1),
        qdoff := w.qdoff + (1 + l.length),
        name := w.name ++ (l ++ [46]),
        reads := w.reads ++ [w.qdoff] }
      (by simp; omega)
      (by show w.noff + (l.length + 1) + (dns_dotted rest).length < 256; omega)
    rw [dns_consume, hm, hw, h.1, h.2, hd]
    refine ⟨by show w.noff + (l.length + 1) + _ = _; omega, by simp [dns_dotted]⟩

theorem dns_dotted_intercalate (labels : List (List Byte)) (h : labels ≠ []) :
    dns_dotted labels = List.intercalate [46] labels ++ [46] := by
  induction labels with
  | nil => exact absurd rfl h
  | cons l rest ih =>
    cases rest with
    | nil => simp [dns_dotted, List.intercalate]
    | cons m rest2 =>
      have := ih (by simp)
      rw [dns_dotted, this]
      simp [List.intercalate]

theorem dns_question_walk (beyond : Byte) (hdr tail : List Byte) (labels : List (List Byte))
    (w : dns_walk)
    (hv : ∀ l ∈ labels, 1 ≤ l.length ∧ l.length ≤ 63)
    (hq : w.qdoff = hdr.length) (hk : labels.length ≤ 10) :
    ∃ rd, dns_labels (hdr ++ dns_encode labels ++ 0 :: tail) beyond 10 w
      = (false, { dns_consume w labels with reads := rd }) := by
  have hw := dns_labels_walk beyond (0 :: tail) labels hdr 10 w hv hq hk
  rw [hw]
  by_cases h10 : labels.length = 10
  · rw [if_pos h10]
    exact ⟨_, rfl⟩
  · simp only [h10, if_false]
    obtain ⟨f, hf⟩ : ∃ f, 10 - labels.length = f + 1 := ⟨9 - labels.length, by omega⟩
    rw [hf, dns_labels_stop]
    · exact ⟨_, rfl⟩
    · rw [dns_consume_qdoff, hq, ← List.length_append, getD_append_cons]

theorem ntohs_word16 (a b : Byte) : ntohs (word16 a b) = a.val * 256 + b.val := by
  have ha := a.isLt
  have hb := b.isLt
  simp only [ntohs, htons, word16]
  omega

theorem dns_header_read_append (hdr rest : List Byte) (h : hdr.length = 12) :
    dns_header.read (hdr ++ rest) = dns_header.read hdr := by
  simp only [dns_header.read]
  repeat rw [List.getD_append _ _ _ _ (by omega)]

theorem get_dns_walked (data : List Byte) (beyond : Byte) (w : dns_walk)
    (h13 : 13 ≤ data.length)
    (hstd : (dns_header.read data).qr = 0 ∧ (dns_header.read data).opcode = 0
      ∧ ntohs (dns_header.read data).q_count > 0)
    (hw : dns_labels data beyond 10 { noff := 0, qdoff := 12, name := [], reads := [] }
      = (false, w)) :
    get_dns data beyond
      = if w.noff > 0 ∧ w.qdoff + 1 + 4 = data.length then
          { ret := 0,
            qtype := ntohs (word16 (data.getD (w.qdoff + 1) 0) (data.getD (w.qdoff + 1 + 1) 0)),
            qclass :=
              ntohs (word16 (data.getD (w.qdoff + 1 + 2) 0) (data.getD (w.qdoff + 1 + 3) 0)),
            name := mem_write w.name (w.noff - 1) [0],
            reads := w.reads }
        else { ret := -1, qtype := 0, qclass := 0, name := w.name, reads := w.reads } := by
  have h : ¬ data.length < 12 + 1 := by omega
  simp only [get_dns, h, if_false, hstd, and_self, if_true, hw, Bool.false_eq_true]

theorem get_dns_pointer (data : List Byte) (beyond : Byte)
    (hw : (dns_labels data beyond 10 { noff := 0, qdoff := 12, name := [], reads := [] }).1
      = true) :
    (get_dns data beyond).ret = -1 := by
  simp only [get_dns, hw, if_true]
  split
  · rfl
  · split <;> rfl

theorem get_dns_not_query (data : List Byte) (beyond : Byte)
    (h : ¬ ((dns_header.read data).qr = 0 ∧ (dns_header.read data).opcode = 0
      ∧ ntohs (dns_header.read data).q_count > 0)) :
    (get_dns data beyond).ret = -1 := by
  simp only [get_dns, h, if_false]
  split <;> rfl

/-! ## Queries `get_dns` rejects -/

/-- C17. DNS query rejection.  The function `get_dns` returns -1 for every datagram
shorter than 13 bytes; for every datagram whose header is not that of a
standard query (QR = 1, or opcode not 0, or QDCOUNT = 0); and for every
datagram in which the label walk reaches a length byte with its top two bits
set, that is a byte that follows the twelve header bytes and fewer than ten
labels (each a length byte in 1..63 and that many bytes). -/
theorem get_dns_rejects (beyond : Byte) :
    (∀ data : List Byte, data.length < 13 → (get_dns data beyond).ret = -1)
    ∧ (∀ data : List Byte,
        (dns_header.read data).qr = 1 ∨ (dns_header.read data).opcode ≠ 0
          ∨ ntohs (dns_header.read data).q_count = 0 →
        (get_dns data beyond).ret = -1)
    ∧ (∀ (hdr : List Byte) (labels : List (List Byte)) (b : Byte) (rest : List Byte),
        hdr.length = 12 → (∀ l ∈ labels, 1 ≤ l.length ∧ l.length ≤ 63) → labels.length < 10 →
        192 ≤ b.val →
        (get_dns (hdr ++ dns_encode labels ++ b :: rest) beyond).ret = -1) := by
  refine ⟨?_, ?_, ?_⟩
  · intro data h
    have h2 : data.length < 12 + 1 := h
    simp only [get_dns, h2, if_true]
  · intro data h
    apply get_dns_not_query
    rintro ⟨h1, h2, h3⟩
    rcases h with h | h | h
    · rw [h1] at h; exact absurd h (by decide)
    · exact h h2
    · rw [h] at h3; exact absurd h3 (by decide)
  · intro hdr labels b rest h12 hv hk hb
    apply get_dns_pointer
    have hw := dns_labels_walk beyond (b :: rest) labels hdr 10
      { noff := 0, qdoff := 12, name := [], reads := [] } hv h12.symm (by omega)
    rw [hw, if_neg (by omega)]
    obtain ⟨f, hf⟩ : ∃ f, 10 - labels.length = f + 1 := ⟨9 - labels.length, by omega⟩
    rw [hf]
    apply dns_labels_pointer
    rw [dns_consume_qdoff]
    show 64 ≤ ((hdr ++ dns_encode labels ++ b :: rest).getD
      (12 + (dns_encode labels).length) beyond).val
    rw [← h12, ← List.length_append, getD_append_cons]
    omega

/-! ## Queries `get_dns` accepts -/

theorem get_dns_question (beyond : Byte) (hdr : List Byte) (labels : List (List Byte))
    (a b c d : Byte)
    (hhdr : hdr.length = 12)
    (hstd : (dns_header.read hdr).qr = 0 ∧ (dns_header.read hdr).opcode = 0
      ∧ ntohs (dns_header.read hdr).q_count > 0)
    (hv : ∀ l ∈ labels, 1 ≤ l.length ∧ l.length ≤ 63)
    (h1 : 1 ≤ labels.length) (h10 : labels.length ≤ 10)
    (h254 : (List.intercalate [46] labels).length ≤ 254) :
    ∃ rd, get_dns (hdr ++ dns_encode labels ++ [0] ++ [a, b, c, d]) beyond
      = { ret := 0,
          qtype := a.val * 256 + b.val,
          qclass := c.val * 256 + d.val,
          name := List.intercalate [46] labels ++ [0],
          reads := rd } := by
  have hne : labels ≠ [] := by
    intro h; rw [h] at h1; simp at h1
  have hdot := dns_dotted_intercalate labels hne
  have hdata : hdr ++ dns_encode labels ++ [0] ++ [a, b, c, d]
      = hdr ++ dns_encode labels ++ 0 :: [a, b, c, d] := by simp
  obtain ⟨rd, hw⟩ := dns_question_walk beyond hdr [a, b, c, d] labels
    { noff := 0, qdoff := 12, name := [], reads := [] } hv hhdr.symm h10
  obtain ⟨hn, hnm⟩ := dns_consume_plain labels
    { noff := 0, qdoff := 12, name := [], reads := [] } rfl
    (by rw [hdot]; simp; omega)
  have hq := dns_consume_qdoff labels { noff := 0, qdoff := 12, name := [], reads := [] }
  simp only [Nat.zero_add, List.nil_append] at hn hnm hq
  have hstd2 := hstd
  rw [← dns_header_read_append hdr (dns_encode labels ++ 0 :: [a, b, c, d]) hhdr,
    ← List.append_assoc] at hstd2
  rw [hdata, get_dns_walked _ beyond _ (by simp; omega) hstd2 hw]
  have hl : (hdr ++ dns_encode labels ++ 0 :: [a, b, c, d]).length
      = 12 + (dns_encode labels).length + 1 + 4 := by simp [hhdr]; omega
  have hpos : (dns_dotted labels).length > 0 := by rw [hdot]; simp
  have hfront : 12 + (dns_encode labels).length + 1
      = (hdr ++ dns_encode labels ++ [0]).length := by simp [hhdr]; omega
  have hsplit : hdr ++ dns_encode labels ++ 0 :: [a, b, c, d]
      = (hdr ++ dns_encode labels ++ [0]) ++ [a, b, c, d] := by simp
  have g0 : (hdr ++ dns_encode labels ++ 0 :: [a, b, c, d]).getD
      (12 + (dns_encode labels).length + 1) 0 = a := by
    rw [hsplit, hfront, List.getD_append_right _ _ _ _ (by omega)]; simp
  have g1 : (hdr ++ dns_encode labels ++ 0 :: [a, b, c, d]).getD
      (12 + (dns_encode labels).length + 1 + 1) 0 = b := by
    rw [hsplit, hfront, List.getD_append_right _ _ _ _ (by omega)]; simp
  have g2 : (hdr ++ dns_encode labels ++ 0 :: [a, b, c, d]).getD
      (12 + (dns_encode labels).length + 1 + 2) 0 = c := by
    rw [hsplit, hfront, List.getD_append_right _ _ _ _ (by omega)]; simp
  have g3 : (hdr ++ dns_encode labels ++ 0 :: [a, b, c, d]).getD
      (12 + (dns_encode labels).length + 1 + 3) 0 = d := by
    rw [hsplit, hfront, List.getD_append_right _ _ _ _ (by omega)]; simp
  have hname : mem_write (dns_dotted labels) ((dns_dotted labels).length - 1) [0]
      = List.intercalate [46] labels ++ [0] := by
    rw [hdot]
    simp [mem_write]
  simp only [hn, hnm, hq, hl, hpos, and_self, if_true, g0, g1, g2, g3, ntohs_word16, hname]
  exact ⟨_, rfl⟩

theorem get_dns_no_label (beyond : Byte) (hdr : List Byte) (tail : List Byte)
    (hhdr : hdr.length = 12) :
    (get_dns (hdr ++ 0 :: tail) beyond).ret = -1 := by
  by_cases hstd : (dns_header.read (hdr ++ 0 :: tail)).qr = 0
      ∧ (dns_header.read (hdr ++ 0 :: tail)).opcode = 0
      ∧ ntohs (dns_header.read (hdr ++ 0 :: tail)).q_count > 0
  · obtain ⟨rd, hw⟩ := dns_question_walk beyond hdr tail []
      { noff := 0, qdoff := 12, name := [], reads := [] } (by simp) hhdr.symm (by simp)
    simp only [dns_encode, List.append_nil, dns_consume] at hw
    rw [get_dns_walked _ beyond _ (by simp; omega) hstd hw]
    simp
  · exact get_dns_not_query _ beyond hstd

theorem get_dns_many_labels (beyond : Byte) (hdr : List Byte) (labels : List (List Byte))
    (tail : List Byte)
    (hhdr : hdr.length = 12)
    (hv : ∀ l ∈ labels, 1 ≤ l.length ∧ l.length ≤ 63)
    (h10 : 10 < labels.length) (ht : 5 ≤ tail.length) :
    (get_dns (hdr ++ dns_encode labels ++ tail) beyond).ret = -1 := by
  by_cases hstd : (dns_header.read (hdr ++ dns_encode labels ++ tail)).qr = 0
      ∧ (dns_header.read (hdr ++ dns_encode labels ++ tail)).opcode = 0
      ∧ ntohs (dns_header.read (hdr ++ dns_encode labels ++ tail)).q_count > 0
  · have hsplit : labels = labels.take 10 ++ labels.drop 10 := (List.take_append_drop 10 labels).symm
    have hdata : hdr ++ dns_encode labels ++ tail
        = hdr ++ dns_encode (labels.take 10) ++ (dns_encode (labels.drop 10) ++ tail) := by
      conv_lhs => rw [hsplit]
      rw [dns_encode_append]
      simp
    have hlen10 : (labels.take 10).length = 10 := by
      rw [List.length_take]; omega
    have hv10 : ∀ l ∈ labels.take 10, 1 ≤ l.length ∧ l.length ≤ 63 :=
      fun l hl => hv l (List.mem_of_mem_take hl)
    have hw := dns_labels_walk beyond (dns_encode (labels.drop 10) ++ tail) (labels.take 10) hdr
      10 { noff := 0, qdoff := 12, name := [], reads := [] } hv10 hhdr.symm (by omega)
    rw [if_pos hlen10, ← hdata] at hw
    have h13 : 13 ≤ (hdr ++ dns_encode labels ++ tail).length := by simp; omega
    rw [get_dns_walked _ beyond _ h13 hstd hw]
    have hq := dns_consume_qdoff (labels.take 10)
      { noff := 0, qdoff := 12, name := [], reads := [] }
    have hl : (hdr ++ dns_encode labels ++ tail).length
        = 12 + (dns_encode (labels.take 10)).length + (dns_encode (labels.drop 10)).length
          + tail.length := by
      rw [hdata]; simp [hhdr]; omega
    have hd : 1 ≤ (dns_encode (labels.drop 10)).length := by
      cases hdr10 : labels.drop 10 with
      | nil =>
        have := congrArg List.length hdr10
        rw [List.length_drop] at this
        simp at this
        omega
      | cons x rest => simp [dns_encode]
    have hq2 : (dns_consume { noff := 0, qdoff := 12, name := [], reads := [] }
        (labels.take 10)).qdoff = 12 + (dns_encode (labels.take 10)).length := hq
    have hcond : ¬ ((dns_consume { noff := 0, qdoff := 12, name := [], reads := [] }
          (labels.take 10)).noff > 0
        ∧ (dns_consume { noff := 0, qdoff := 12, name := [], reads := [] }
          (labels.take 10)).qdoff + 1 + 4 = (hdr ++ dns_encode labels ++ tail).length) := by
      rw [hq2, hl]
      omega
    rw [if_neg hcond]
  · exact get_dns_not_query _ beyond hstd

theorem c_string_terminated (s : List Byte) (h : (0 : Byte) ∉ s) : c_string (s ++ [0]) = s := by
  induction s with
  | nil => simp [c_string]
  | cons x rest ih =>
    have hx : x ≠ 0 := fun e => h (by simp [e])
    have hr : (0 : Byte) ∉ rest := fun e => h (List.mem_cons_of_mem _ e)
    have h2 := ih hr
    simp only [c_string] at h2
    simp only [c_string, List.cons_append, List.takeWhile_cons, hx, ne_eq, not_false_eq_true,
      decide_True, if_true, h2]

theorem dns_dotted_no_zero (labels : List (List Byte)) (h : ∀ l ∈ labels, (0 : Byte) ∉ l) :
    (0 : Byte) ∉ dns_dotted labels := by
  induction labels with
  | nil => simp [dns_dotted]
  | cons l rest ih =>
    have h1 := h l (List.mem_cons_self _ _)
    have h2 := ih (fun x hx => h x (List.mem_cons_of_mem _ hx))
    simp only [dns_dotted, List.mem_append, List.mem_cons, not_or]
    exact ⟨h1, by decide, h2⟩

theorem intercalate_no_zero (labels : List (List Byte)) (h : ∀ l ∈ labels, (0 : Byte) ∉ l) :
    (0 : Byte) ∉ List.intercalate [46] labels := by
  intro hmem
  by_cases hne : labels = []
  · rw [hne] at hmem
    simp [List.intercalate] at hmem
  · apply dns_dotted_no_zero labels h
    rw [dns_dotted_intercalate labels hne]
    exact List.mem_append_left _ hmem

/-- C16 (as amended). DNS query parsing.  For every datagram made of a 12-byte header with
QR = 0, opcode = 0 and QDCOUNT > 0, followed by `labels` (each a length byte in
1..63 and that many bytes), a zero byte and the four bytes `a b c d`, whose
dotted name is at most `DNS_QNAME_MAX` and at most 254 bytes long: with 1 to 10
labels `get_dns` returns 0, leaves in the name buffer the labels joined by
`'.'` followed by a terminating zero (which fits the `DNS_QNAME_MAX + 1` bytes
of the buffer, and reads as the joined labels when no label contains a zero
byte), and stores `a * 256 + b` as QTYPE and `c * 256 + d` as QCLASS; with no
label or more than 10 labels it returns -1. -/
theorem get_dns_parses (k : netguard_h) (beyond : Byte) (hdr : List Byte)
    (labels : List (List Byte)) (a b c d : Byte)
    (hhdr : hdr.length = 12)
    (hstd : (dns_header.read hdr).qr = 0 ∧ (dns_header.read hdr).opcode = 0
      ∧ ntohs (dns_header.read hdr).q_count > 0)
    (hv : ∀ l ∈ labels, 1 ≤ l.length ∧ l.length ≤ 63)
    (hmax : (List.intercalate [46] labels).length ≤ k.DNS_QNAME_MAX)
    (h254 : (List.intercalate [46] labels).length ≤ 254) :
    (1 ≤ labels.length ∧ labels.length ≤ 10 →
      (get_dns (hdr ++ dns_encode labels ++ [0] ++ [a, b, c, d]) beyond).ret = 0
      ∧ (get_dns (hdr ++ dns_encode labels ++ [0] ++ [a, b, c, d]) beyond).name
          = List.intercalate [46] labels ++ [0]
      ∧ (get_dns (hdr ++ dns_encode labels ++ [0] ++ [a, b, c, d]) beyond).name.length
          ≤ k.DNS_QNAME_MAX + 1
      ∧ ((∀ l ∈ labels, (0 : Byte) ∉ l) →
          c_string (get_dns (hdr ++ dns_encode labels ++ [0] ++ [a, b, c, d]) beyond).name
            = List.intercalate [46] labels)
      ∧ (get_dns (hdr ++ dns_encode labels ++ [0] ++ [a, b, c, d]) beyond).qtype
          = a.val * 256 + b.val
      ∧ (get_dns (hdr ++ dns_encode labels ++ [0] ++ [a, b, c, d]) beyond).qclass
          = c.val * 256 + d.val)
    ∧ (labels.length = 0 ∨ 10 < labels.length →
      (get_dns (hdr ++ dns_encode labels ++ [0] ++ [a, b, c, d]) beyond).ret = -1) := by
  constructor
  · rintro ⟨h1, h10⟩
    obtain ⟨rd, hg⟩ := get_dns_question beyond hdr labels a b c d hhdr hstd hv h1 h10 h254
    rw [hg]
    refine ⟨rfl, rfl, ?_, ?_, rfl, rfl⟩
    · simp only [List.length_append, List.length_singleton]
      omega
    · intro hz
      exact c_string_terminated _ (intercalate_no_zero labels hz)
  · rintro (h0 | h10)
    · have hn : labels = [] := List.length_eq_zero.mp h0
      subst hn
      have := get_dns_no_label beyond hdr [a, b, c, d] hhdr
      simpa [dns_encode] using this
    · have := get_dns_many_labels beyond hdr labels ([0] ++ [a, b, c, d]) hhdr hv h10 (by simp)
      simpa using this

set_option maxRecDepth 100000 in
/-- Counterexample to C16 as stated: four labels of 63 bytes make a dotted name of 255
bytes, which is not more than `DNS_QNAME_MAX` = 255, yet `get_dns` returns -1:
`noff`, a `uint8_t`, is 256 = 0 after the fourth label and the test `noff > 0`
fails. -/
theorem get_dns_name_255_rejected :
    (∀ l ∈ ex_labels_255, 1 ≤ l.length ∧ l.length ≤ 63)
    ∧ 1 ≤ ex_labels_255.length ∧ ex_labels_255.length ≤ 10
    ∧ (List.intercalate [46] ex_labels_255).length ≤ ex_k.DNS_QNAME_MAX
    ∧ (get_dns (ex_dns_header ++ dns_encode ex_labels_255 ++ [0] ++ [0, 1, 0, 1]) 0).ret = -1 := by
  decide

/-! ## The name buffer -/

set_option maxRecDepth 100000 in
theorem get_dns_318 :
    (get_dns ex_query_318 0).ret = 0
    ∧ (get_dns ex_query_318 0).name.length = 319
    ∧ (c_string (get_dns ex_query_318 0).name).length = 62 := by
  decide

/-- C18. The name buffer of `get_dns` is overrun.  The function `get_dns` never compares
an offset into `name` with `DNS_QNAME_MAX`, and its offset `noff` is a
`uint8_t`.  For the query `ex_query_318` (labels of 63, 63, 63, 62 and 63
bytes) it returns 0 having written the bytes 0 to 318 of the name buffer,
beyond index `DNS_QNAME_MAX` whenever `DNS_QNAME_MAX` is less than 318; the
name it returns is the 62 bytes before the zero it stored at index 62. -/
theorem get_dns_name_overflow (k : netguard_h) (h : k.DNS_QNAME_MAX < 318) :
    (get_dns ex_query_318 0).ret = 0
    ∧ k.DNS_QNAME_MAX + 1 < (get_dns ex_query_318 0).name.length
    ∧ (c_string (get_dns ex_query_318 0).name).length = 62 := by
  obtain ⟨h1, h2, h3⟩ := get_dns_318
  rw [h2]
  exact ⟨h1, by omega, h3⟩

/-! ## The forged response -/

theorem digits32 (a b c d : Nat) (ha : a < 256) (hb : b < 256) (hc : c < 256) (hd : d < 256) :
    (a * 16777216 + b * 65536 + c * 256 + d) % 256 = d
    ∧ (a * 16777216 + b * 65536 + c * 256 + d) / 256 % 256 = c
    ∧ (a * 16777216 + b * 65536 + c * 256 + d) / 65536 % 256 = b
    ∧ (a * 16777216 + b * 65536 + c * 256 + d) / 16777216 % 256 = a := by
  refine ⟨?_, ?_, ?_, ?_⟩ <;> omega

theorem le32_htonl (x : Nat) : le32 (htonl x) = be32 x := by
  have e0 : x % 256 < 256 := Nat.mod_lt _ (by decide)
  have e1 : x / 256 % 256 < 256 := Nat.mod_lt _ (by decide)
  have e2 : x / 65536 % 256 < 256 := Nat.mod_lt _ (by decide)
  have e3 : x / 16777216 % 256 < 256 := Nat.mod_lt _ (by decide)
  obtain ⟨h0, h1, h2, h3⟩ := digits32 _ _ _ _ e0 e1 e2 e3
  simp only [le32, be32, htonl, List.cons.injEq, and_true]
  refine ⟨?_, ?_, ?_, ?_⟩ <;> apply Fin.ext <;> simp only [byte_val]
  · exact h0
  · exact h1
  · exact h2
  · exact h3

theorem le16_word16 (a b : Byte) : le16 (word16 a b) = [a, b] := by
  have ha := a.isLt
  have hb := b.isLt
  simp only [le16, word16, List.cons.injEq, and_true]
  constructor <;> apply Fin.ext <;> simp only [byte_val] <;> omega

theorem list_length_twelve (l : List Byte) (h : 12 ≤ l.length) :
    ∃ a0 a1 a2 a3 a4 a5 a6 a7 a8 a9 a10 a11 rest,
      l = [a0, a1, a2, a3, a4, a5, a6, a7, a8, a9, a10, a11] ++ rest := by
  match l, h with
  | a0 :: a1 :: a2 :: a3 :: a4 :: a5 :: a6 :: a7 :: a8 :: a9 :: a10 :: a11 :: rest, _ =>
    exact ⟨a0, a1, a2, a3, a4, a5, a6, a7, a8, a9, a10, a11, rest, rfl⟩

theorem dns_response_eq (k : netguard_h) (qclass qtype : Nat)
    (a0 a1 a2 a3 a4 a5 a6 a7 a8 a9 a10 a11 : Byte) (rest : List Byte) :
    dns_response k ([a0, a1, a2, a3, a4, a5, a6, a7, a8, a9, a10, a11] ++ rest) qclass qtype
      = [a0, a1, byte (8 * (a2.val / 8 % 16) + 128), 0, a4, a5, 0, 1, 0, 0, 0, 0] ++ rest
        ++ ([192, 12] ++ be16 qtype ++ be16 qclass ++ be32 k.DNS_TTL
          ++ be16 (if qtype = DNS_QTYPE_A then 4 else 16))
        ++ (if qtype = DNS_QTYPE_A then [127, 0, 0, 1]
            else [0, 0, 0, 0, 0, 0, 0, 0, 0, 0, 0, 0, 0, 0, 0, 1]) := by
  have hp : le16 (htons (12 ||| 0xC000)) = [192, 12] := by decide
  have h1 : le16 (htons 1) = [0, 1] := by decide
  have h0 : le16 0 = [0, 0] := by decide
  have hf : byte (0 % 2 + 2 * (0 % 2) + 4 * (0 % 2) + 8 * (a2.val / 8 % 16 % 16) + 128 * (1 % 2))
      = byte (8 * (a2.val / 8 % 16) + 128) := by
    apply Fin.ext; simp only [byte_val]; omega
  have hz : byte (0 % 16 + 16 * (0 % 2) + 32 * (0 % 2) + 64 * (0 % 2) + 128 * (0 % 2)) = 0 := by
    decide
  simp only [dns_response, dns_header.read, dns_header.bytes, dns_rr.bytes, List.cons_append,
    List.nil_append, List.getD_cons_zero, List.getD_cons_succ, le16_word16, hp, h1, h0, hf, hz,
    le16_htons, le32_htonl, be16, List.drop_succ_cons, List.drop_zero, List.append_assoc]

theorem get_dns_accepts_length (data : List Byte) (beyond : Byte)
    (h : (get_dns data beyond).ret ≥ 0) : 13 ≤ data.length := by
  by_contra hn
  have h2 : data.length < 12 + 1 := by omega
  simp only [get_dns, h2, if_true] at h
  exact absurd h (by decide)

theorem write_udp_ok (write_ok : Nat → Bool) (io : udp_io) (cur : udp_session)
    (data : List Byte) (h : write_ok io.tun.length = true) :
    write_udp write_ok io cur data
      = ({ io with tun := io.tun ++ [build_udp cur data] },
         ((build_udp cur data).buffer.length : Int)) := by
  simp only [write_udp, h, if_true]

theorem write_udp_fail (write_ok : Nat → Bool) (io : udp_io) (cur : udp_session)
    (data : List Byte) (h : write_ok io.tun.length = false) :
    write_udp write_ok io cur data = ({ io with tun := io.tun ++ [build_udp cur data] }, -1) := by
  simp only [write_udp, h, Bool.false_eq_true, if_false]

theorem check_domain_hosts_ok (write_ok : Nat → Bool) (u : udp_session)
    (response name host : List Byte) (rest : List (List Byte)) (io : udp_io)
    (hm : c_string name = c_string host) (hw : write_ok io.tun.length = true) :
    check_domain_hosts write_ok u response name (host :: rest) io
      = ({ io with tun := io.tun ++ [build_udp u response] }, 1) := by
  have hpos : ¬ ((build_udp u response).buffer.length : Int) < 0 := by omega
  simp only [check_domain_hosts, hm, if_true, write_udp_ok _ _ _ _ hw, hpos, if_false]

theorem check_domain_hosts_fail (write_ok : Nat → Bool) (u : udp_session)
    (response name host : List Byte) (rest : List (List Byte)) (io : udp_io)
    (hm : c_string name = c_string host) (hw : write_ok io.tun.length = false) :
    check_domain_hosts write_ok u response name (host :: rest) io
      = check_domain_hosts write_ok u response name rest
          { io with tun := io.tun ++ [build_udp u response] } := by
  have hneg : (-1 : Int) < 0 := by decide
  simp only [check_domain_hosts, hm, if_true, write_udp_fail _ _ _ _ hw, hneg]

theorem check_domain_hosts_skip (write_ok : Nat → Bool) (u : udp_session)
    (response name host : List Byte) (rest : List (List Byte)) (io : udp_io)
    (hm : c_string name ≠ c_string host) :
    check_domain_hosts write_ok u response name (host :: rest) io
      = check_domain_hosts write_ok u response name rest io := by
  simp only [check_domain_hosts, hm, if_false]

theorem check_domain_hosts_frames (write_ok : Nat → Bool) (u : udp_session)
    (response name : List Byte) (hosts : List (List Byte)) :
    ∀ io : udp_io, ∃ n,
      (check_domain_hosts write_ok u response name hosts io).1
        = { io with tun := io.tun ++ List.replicate n (build_udp u response) }
      ∧ ((∃ h ∈ hosts, c_string name = c_string h) → 1 ≤ n) := by
  induction hosts with
  | nil =>
    intro io
    exact ⟨0, by simp [check_domain_hosts], by simp⟩
  | cons host rest ih =>
    intro io
    by_cases hm : c_string name = c_string host
    · by_cases hw : write_ok io.tun.length = true
      · rw [check_domain_hosts_ok _ _ _ _ _ _ _ hm hw]
        exact ⟨1, by simp, fun _ => le_refl 1⟩
      · obtain ⟨n, hn, _⟩ := ih { io with tun := io.tun ++ [build_udp u response] }
        refine ⟨n + 1, ?_, fun _ => by omega⟩
        rw [check_domain_hosts_fail _ _ _ _ _ _ _ hm (by simpa using hw), hn]
        simp [List.replicate_succ]
    · obtain ⟨n, hn, hpos⟩ := ih io
      rw [check_domain_hosts_skip _ _ _ _ _ _ _ hm]
      refine ⟨n, hn, ?_⟩
      rintro ⟨h, hh, he⟩
      rcases List.mem_cons.mp hh with rfl | hr
      · exact absurd he hm
      · exact hpos ⟨h, hr, he⟩

theorem be32_value (x : Nat) (h : x < 2 ^ 32) :
    (((byte (x / 16777216)).val * 256 + (byte (x / 65536)).val) * 256 + (byte (x / 256)).val)
      * 256 + (byte x).val = x := by
  simp only [byte_val]
  omega

theorem dns_response_answer (k : netguard_h) (data : List Byte) (qclass qtype : Nat)
    (hlen : 12 ≤ data.length) :
    (dns_response k data qclass qtype).length
        = data.length + 12 + (if qtype = DNS_QTYPE_A then 4 else 16)
    ∧ dns_count (dns_response k data qclass qtype) 6 = 1
    ∧ (dns_response k data qclass qtype).drop data.length
        = [192, 12] ++ be16 qtype ++ be16 qclass ++ be32 k.DNS_TTL
          ++ be16 (if qtype = DNS_QTYPE_A then 4 else 16)
          ++ (if qtype = DNS_QTYPE_A then [127, 0, 0, 1]
              else [0, 0, 0, 0, 0, 0, 0, 0, 0, 0, 0, 0, 0, 0, 0, 1]) := by
  obtain ⟨a0, a1, a2, a3, a4, a5, a6, a7, a8, a9, a10, a11, rest, rfl⟩ :=
    list_length_twelve data hlen
  rw [dns_response_eq]
  refine ⟨?_, ?_, ?_⟩
  · split <;> simp [be16, be32]
  · simp [dns_count]
  · have hl : ([a0, a1, a2, a3, a4, a5, a6, a7, a8, a9, a10, a11] ++ rest).length
        = ([a0, a1, byte (8 * (a2.val / 8 % 16) + 128), 0, a4, a5, 0, 1, 0, 0, 0, 0]
            ++ rest).length := by simp
    rw [hl, List.append_assoc ([a0, a1, byte (8 * (a2.val / 8 % 16) + 128), 0, a4, a5, 0, 1,
      0, 0, 0, 0] ++ rest), List.drop_left]

theorem check_domain_frames (k : netguard_h) (write_ok : Nat → Bool) (hosts : List (List Byte))
    (u : udp_session) (data : List Byte) (qclass qtype : Nat) (name : List Byte) :
    ∃ n,
      (check_domain k write_ok hosts {} u data qclass qtype name).1.tun
        = List.replicate n (build_udp u (dns_response k data qclass qtype))
      ∧ (qclass = DNS_QCLASS_IN → qtype = DNS_QTYPE_A ∨ qtype = DNS_QTYPE_AAAA →
          (∃ h ∈ hosts, c_string name = c_string h) → 1 ≤ n) := by
  by_cases hc : qclass = DNS_QCLASS_IN ∧ (qtype = DNS_QTYPE_A ∨ qtype = DNS_QTYPE_AAAA)
  · obtain ⟨n, hn, hpos⟩ := check_domain_hosts_frames write_ok u
      (dns_response k data qclass qtype) name hosts {}
    refine ⟨n, ?_, fun _ _ hb => hpos hb⟩
    rw [check_domain, if_pos hc, hn]
    simp
  · refine ⟨0, ?_, fun h1 h2 _ => absurd ⟨h1, h2⟩ hc⟩
    rw [check_domain, if_neg hc]
    rfl

/-- C14. Forged DNS answer round trip.  For every query that `get_dns` accepts with
class IN, type A or AAAA and a name equal to an entry of the blocklist,
`check_domain` builds a response and hands it to `write_udp` (once, or once
more for every further matching entry while the tunnel write fails).  The
response is `datalen + 12 + 4` bytes long for A and `datalen + 12 + 16` for
AAAA, its ANCOUNT reads 1, and the bytes after the first `datalen` are one
answer record: the two name bytes C0 0C (a pointer to offset 12), TYPE and
CLASS of the query, TTL `DNS_TTL` (a 32-bit value), and RDLENGTH 4 with RDATA
127.0.0.1 for A or RDLENGTH 16 with RDATA ::1 for AAAA. -/
theorem check_domain_answer (k : netguard_h) (write_ok : Nat → Bool)
    (hosts : List (List Byte)) (u : udp_session) (data : List Byte) (beyond : Byte)
    (hacc : (get_dns data beyond).ret ≥ 0)
    (hin : (get_dns data beyond).qclass = DNS_QCLASS_IN)
    (ht : (get_dns data beyond).qtype = DNS_QTYPE_A
      ∨ (get_dns data beyond).qtype = DNS_QTYPE_AAAA)
    (hblock : ∃ h ∈ hosts, c_string (get_dns data beyond).name = c_string h)
    (httl : k.DNS_TTL < 2 ^ 32) :
    ∃ response n,
      (check_domain k write_ok hosts {} u data (get_dns data beyond).qclass
          (get_dns data beyond).qtype (get_dns data beyond).name).1.tun
        = List.replicate (n + 1) (build_udp u response)
      ∧ (build_udp u response).data = response
      ∧ response.length
          = data.length + 12 + (if (get_dns data beyond).qtype = DNS_QTYPE_A then 4 else 16)
      ∧ dns_count response 6 = 1
      ∧ response.drop data.length
          = [0xC0, 0x0C] ++ be16 (get_dns data beyond).qtype ++ be16 (get_dns data beyond).qclass
            ++ be32 k.DNS_TTL
            ++ be16 (if (get_dns data beyond).qtype = DNS_QTYPE_A then 4 else 16)
            ++ (if (get_dns data beyond).qtype = DNS_QTYPE_A then [127, 0, 0, 1]
                else [0, 0, 0, 0, 0, 0, 0, 0, 0, 0, 0, 0, 0, 0, 0, 1])
      ∧ parse_answer (response.drop data.length)
          = some { pointer := 12,
                   rtype := (get_dns data beyond).qtype,
                   rclass := (get_dns data beyond).qclass,
                   ttl := k.DNS_TTL,
                   rdata := if (get_dns data beyond).qtype = DNS_QTYPE_A then [127, 0, 0, 1]
                            else [0, 0, 0, 0, 0, 0, 0, 0, 0, 0, 0, 0, 0, 0, 0, 1] } := by
  have hlen : 12 ≤ data.length := by
    have := get_dns_accepts_length data beyond hacc
    omega
  obtain ⟨n, hn, hpos⟩ := check_domain_frames k write_ok hosts u data
    (get_dns data beyond).qclass (get_dns data beyond).qtype (get_dns data beyond).name
  have h1 := hpos hin ht hblock
  obtain ⟨m, rfl⟩ : ∃ m, n = m + 1 := ⟨n - 1, by omega⟩
  obtain ⟨r1, r2, r3⟩ := dns_response_answer k data (get_dns data beyond).qclass
    (get_dns data beyond).qtype hlen
  refine ⟨_, m, hn, rfl, r1, r2, r3, ?_⟩
  rw [r3, hin]
  have hv := be32_value k.DNS_TTL httl
  have hA : (if DNS_QTYPE_A = DNS_QTYPE_A then (4 : Nat) else 16) = 4 := if_pos rfl
  have hA2 : (if DNS_QTYPE_A = DNS_QTYPE_A then ([127, 0, 0, 1] : List Byte)
      else [0, 0, 0, 0, 0, 0, 0, 0, 0, 0, 0, 0, 0, 0, 0, 1]) = [127, 0, 0, 1] := if_pos rfl
  have hB : (if DNS_QTYPE_AAAA = DNS_QTYPE_A then (4 : Nat) else 16) = 16 := if_neg (by decide)
  have hB2 : (if DNS_QTYPE_AAAA = DNS_QTYPE_A then ([127, 0, 0, 1] : List Byte)
      else [0, 0, 0, 0, 0, 0, 0, 0, 0, 0, 0, 0, 0, 0, 0, 1])
      = [0, 0, 0, 0, 0, 0, 0, 0, 0, 0, 0, 0, 0, 0, 0, 1] := if_neg (by decide)
  rcases ht with ht | ht
  · rw [ht, hA, hA2]
    simp only [be16, be32, List.cons_append, List.nil_append, parse_answer]
    rw [if_pos (by decide)]
    simp only [Option.some.injEq, dns_answer.mk.injEq, hv, and_true, true_and]
    decide
  · rw [ht, hB, hB2]
    simp only [be16, be32, List.cons_append, List.nil_append, parse_answer]
    rw [if_pos (by decide)]
    simp only [Option.some.injEq, dns_answer.mk.injEq, hv, and_true, true_and]
    decide

/-- C15. Forged DNS response preserves the query.  Every packet `check_domain` writes
carries the response built from the query `data` (which has its twelve header
bytes, as every datagram `get_dns` accepts has), and in that response the first
`datalen` bytes are the query except for header flags and counts: the
transaction ID (bytes 0-1), the opcode (bits 3-6 of byte 2), QDCOUNT (bytes
4-5) and everything from byte 12 on are unchanged; QR (bit 7 of byte 2) is 1;
AA, TC and RD (bits 0-2 of byte 2) and RA, Z, AD, CD and RCODE (byte 3) are 0;
ANCOUNT is 1 and NSCOUNT and ARCOUNT are 0. -/
theorem check_domain_keeps_query (k : netguard_h) (write_ok : Nat → Bool)
    (hosts : List (List Byte)) (u : udp_session) (data : List Byte) (qclass qtype : Nat)
    (name : List Byte) (hlen : 12 ≤ data.length) :
    (∀ f ∈ (check_domain k write_ok hosts {} u data qclass qtype name).1.tun,
      f.data = dns_response k data qclass qtype)
    ∧ (dns_response k data qclass qtype).take 2 = data.take 2
    ∧ ((dns_response k data qclass qtype).getD 2 0).val / 8 % 16 = (data.getD 2 0).val / 8 % 16
    ∧ ((dns_response k data qclass qtype).drop 4).take 2 = (data.drop 4).take 2
    ∧ ((dns_response k data qclass qtype).take data.length).drop 12 = data.drop 12
    ∧ ((dns_response k data qclass qtype).getD 2 0).val / 128 = 1
    ∧ ((dns_response k data qclass qtype).getD 2 0).val % 8 = 0
    ∧ ((dns_response k data qclass qtype).getD 3 0).val = 0
    ∧ dns_count (dns_response k data qclass qtype) 6 = 1
    ∧ dns_count (dns_response k data qclass qtype) 8 = 0
    ∧ dns_count (dns_response k data qclass qtype) 10 = 0 := by
  obtain ⟨n, hn, _⟩ := check_domain_frames k write_ok hosts u data qclass qtype name
  refine ⟨?_, ?_⟩
  · intro f hf
    rw [hn] at hf
    rw [List.eq_of_mem_replicate hf]
    rfl
  · obtain ⟨a0, a1, a2, a3, a4, a5, a6, a7, a8, a9, a10, a11, rest, rfl⟩ :=
      list_length_twelve data hlen
    rw [dns_response_eq]
    have hb : (byte (8 * (a2.val / 8 % 16) + 128)).val = 8 * (a2.val / 8 % 16) + 128 := by
      rw [byte_val]; omega
    refine ⟨?_, ?_, ?_, ?_, ?_, ?_, ?_, ?_, ?_, ?_⟩
    · simp
    · simp only [List.cons_append, List.getD_cons_succ, List.getD_cons_zero, hb]
      omega
    · simp
    · simp
    · simp only [List.cons_append, List.getD_cons_succ, List.getD_cons_zero, hb]
      omega
    · simp only [List.cons_append, List.getD_cons_succ, List.getD_cons_zero, hb]
      omega
    · simp
    · simp [dns_count]
    · simp [dns_count]
    · simp [dns_count]

/-! ## The sinkhole decision of `handle_udp` -/

theorem check_domain_hosts_cases (write_ok : Nat → Bool) (u : udp_session)
    (response name : List Byte) (hosts : List (List Byte)) :
    ∀ io : udp_io,
      ((check_domain_hosts write_ok u response name hosts io).2 = 1
        ∧ (∃ h ∈ hosts, c_string name = c_string h)
        ∧ ∃ n, (check_domain_hosts write_ok u response name hosts io).1
              = { io with tun := io.tun ++ List.replicate (n + 1) (build_udp u response) }
            ∧ write_ok (io.tun.length + n) = true)
      ∨ ((check_domain_hosts write_ok u response name hosts io).2 = 0
        ∧ ∃ n, (check_domain_hosts write_ok u response name hosts io).1
              = { io with tun := io.tun ++ List.replicate n (build_udp u response) }
            ∧ (∀ i, i < n → write_ok (io.tun.length + i) = false)
            ∧ ((∀ h ∈ hosts, c_string name ≠ c_string h) → n = 0)) := by
  induction hosts with
  | nil =>
    intro io
    right
    exact ⟨rfl, 0, by simp [check_domain_hosts], by simp, fun _ => rfl⟩
  | cons host rest ih =>
    intro io
    by_cases hm : c_string name = c_string host
    · by_cases hw : write_ok io.tun.length = true
      · left
        rw [check_domain_hosts_ok _ _ _ _ _ _ _ hm hw]
        exact ⟨rfl, ⟨host, List.mem_cons_self _ _, hm⟩, 0, by simp, by simpa using hw⟩
      · have hw2 : write_ok io.tun.length = false := by simpa using hw
        rw [check_domain_hosts_fail _ _ _ _ _ _ _ hm hw2]
        rcases ih { io with tun := io.tun ++ [build_udp u response] } with
          ⟨h1, ⟨h, hh, he⟩, n, hn, hok⟩ | ⟨h0, n, hn, hfail, _⟩
        · left
          refine ⟨h1, ⟨h, List.mem_cons_of_mem _ hh, he⟩, n + 1, ?_, ?_⟩
          · rw [hn]; simp [List.replicate_succ]
          · rw [← hok]; simp; congr 1; omega
        · right
          refine ⟨h0, n + 1, ?_, ?_, ?_⟩
          · rw [hn]; simp [List.replicate_succ]
          · intro i hi
            cases i with
            | zero => simpa using hw2
            | succ j =>
              have := hfail j (by omega)
              rw [← this]; simp; congr 1; omega
          · intro hall
            exact absurd hm (hall host (List.mem_cons_self _ _))
    · rw [check_domain_hosts_skip _ _ _ _ _ _ _ hm]
      rcases ih io with ⟨h1, ⟨h, hh, he⟩, n, hn, hok⟩ | ⟨h0, n, hn, hfail, hnone⟩
      · left
        exact ⟨h1, ⟨h, List.mem_cons_of_mem _ hh, he⟩, n, hn, hok⟩
      · right
        exact ⟨h0, n, hn, hfail, fun hall => hnone (fun h hh => hall h (List.mem_cons_of_mem _ hh))⟩

theorem check_domain_first_ok (write_ok : Nat → Bool) (u : udp_session)
    (response name : List Byte) (hosts : List (List Byte)) (io : udp_io)
    (hb : ∃ h ∈ hosts, c_string name = c_string h) (hw : write_ok io.tun.length = true) :
    check_domain_hosts write_ok u response name hosts io
      = ({ io with tun := io.tun ++ [build_udp u response] }, 1) := by
  induction hosts with
  | nil =>
    obtain ⟨h, hh, _⟩ := hb
    simp at hh
  | cons host rest ih =>
    by_cases hm : c_string name = c_string host
    · rw [check_domain_hosts_ok _ _ _ _ _ _ _ hm hw]
    · rw [check_domain_hosts_skip _ _ _ _ _ _ _ hm]
      apply ih
      obtain ⟨h, hh, he⟩ := hb
      rcases List.mem_cons.mp hh with rfl | hr
      · exact absurd he hm
      · exact ⟨h, hr, he⟩

theorem check_domain_cases (k : netguard_h) (write_ok : Nat → Bool) (hosts : List (List Byte))
    (u : udp_session) (data : List Byte) (qclass qtype : Nat) (name : List Byte) :
    ((check_domain k write_ok hosts {} u data qclass qtype name).2 = 1
      ∧ (qclass = DNS_QCLASS_IN ∧ (qtype = DNS_QTYPE_A ∨ qtype = DNS_QTYPE_AAAA)
        ∧ ∃ h ∈ hosts, c_string name = c_string h)
      ∧ ∃ n, (check_domain k write_ok hosts {} u data qclass qtype name).1
            = { tun := List.replicate (n + 1) (build_udp u (dns_response k data qclass qtype)),
                sent := [] }
          ∧ write_ok n = true)
    ∨ ((check_domain k write_ok hosts {} u data qclass qtype name).2 = 0
      ∧ ∃ n, (check_domain k write_ok hosts {} u data qclass qtype name).1
            = { tun := List.replicate n (build_udp u (dns_response k data qclass qtype)),
                sent := [] }
          ∧ (∀ i, i < n → write_ok i = false)
          ∧ (¬ (qclass = DNS_QCLASS_IN ∧ (qtype = DNS_QTYPE_A ∨ qtype = DNS_QTYPE_AAAA)
              ∧ ∃ h ∈ hosts, c_string name = c_string h) → n = 0)) := by
  by_cases hc : qclass = DNS_QCLASS_IN ∧ (qtype = DNS_QTYPE_A ∨ qtype = DNS_QTYPE_AAAA)
  · rw [check_domain, if_pos hc]
    rcases check_domain_hosts_cases write_ok u (dns_response k data qclass qtype) name hosts {}
      with ⟨h1, hb, n, hn, hok⟩ | ⟨h0, n, hn, hfail, hnone⟩
    · left
      refine ⟨h1, ⟨hc.1, hc.2, hb⟩, n, ?_, by simpa using hok⟩
      rw [hn]; simp
    · right
      refine ⟨h0, n, ?_, fun i hi => by simpa using hfail i hi, ?_⟩
      · rw [hn]; simp
      · intro hnb
        apply hnone
        intro h hh he
        exact hnb ⟨hc.1, hc.2, h, hh, he⟩
  · right
    rw [check_domain, if_neg hc]
    exact ⟨rfl, 0, rfl, by simp, fun _ => rfl⟩

theorem handle_udp_session_dns (k : netguard_h) (env : udp_env) (hosts : List (List Byte))
    (calls : Nat) (cur : udp_session) (seg : udp_in)
    (hport : ntohs seg.udp.dest = 53) (hsrc : ntohs seg.udp.source ≠ 68)
    (hacc : (get_dns seg.data env.beyond).ret ≥ 0) :
    handle_udp_session k env hosts calls cur seg
      = if (check_domain k env.write_ok hosts {} cur seg.data
              (get_dns seg.data env.beyond).qclass (get_dns seg.data env.beyond).qtype
              (get_dns seg.data env.beyond).name).2 ≠ 0 then
          (false,
           { cur := { cur with stop := true },
             io := (check_domain k env.write_ok hosts {} cur seg.data
               (get_dns seg.data env.beyond).qclass (get_dns seg.data env.beyond).qtype
               (get_dns seg.data env.beyond).name).1 })
        else if env.sendto ≠ (seg.data.length : Int) then
          (false,
           { cur := { cur with time := env.time calls, stop := true },
             io :=
               { tun := (check_domain k env.write_ok hosts {} cur seg.data
                   (get_dns seg.data env.beyond).qclass (get_dns seg.data env.beyond).qtype
                   (get_dns seg.data env.beyond).name).1.tun,
                 sent := (check_domain k env.write_ok hosts {} cur seg.data
                   (get_dns seg.data env.beyond).qclass (get_dns seg.data env.beyond).qtype
                   (get_dns seg.data env.beyond).name).1.sent
                   ++ [{ socket := cur.socket, data := seg.data,
                         addr := if seg.version = 4 then ip4_bytes seg.daddr
                                 else ip6_bytes seg.daddr,
                         port := seg.udp.dest }] } })
        else
          (true,
           { cur := { cur with time := env.time calls },
             io :=
               { tun := (check_domain k env.write_ok hosts {} cur seg.data
                   (get_dns seg.data env.beyond).qclass (get_dns seg.data env.beyond).qtype
                   (get_dns seg.data env.beyond).name).1.tun,
                 sent := (check_domain k env.write_ok hosts {} cur seg.data
                   (get_dns seg.data env.beyond).qclass (get_dns seg.data env.beyond).qtype
                   (get_dns seg.data env.beyond).name).1.sent
                   ++ [{ socket := cur.socket, data := seg.data,
                         addr := if seg.version = 4 then ip4_bytes seg.daddr
                                 else ip6_bytes seg.daddr,
                         port := seg.udp.dest }] } }) := by
  have h67 : ¬ (ntohs seg.udp.source = 68 ∨ (53 : Nat) = 67) := by
    intro h; rcases h with h | h
    · exact hsrc h
    · exact absurd h (by decide)
  have hneg : ¬ ((-1 : Int) ≥ 0) := by decide
  simp only [handle_udp_session, hport, if_true, hacc, h67, if_false, hneg]

theorem handle_udp_located (k : netguard_h) (env : udp_env) (hosts : List (List Byte))
    (table : List udp_session) (seg : udp_in) (uid : Int)
    (before : List udp_session) (cur : udp_session) (next : List udp_session) (calls : Nat)
    (hloc : udp_lookup env table seg uid = some (before, cur, next, calls)) :
    handle_udp k env hosts table seg uid
      = { allowed := (handle_udp_session k env hosts calls cur seg).1,
          table := before ++ (handle_udp_session k env hosts calls cur seg).2.cur :: next,
          io := (handle_udp_session k env hosts calls cur seg).2.io } := by
  simp only [handle_udp, hloc]

theorem udp_lookup_none_iff (env : udp_env) (table : List udp_session) (seg : udp_in)
    (uid : Int) :
    udp_lookup env table seg uid = none
      ↔ udp_search seg table = none ∧ env.open_udp_socket < 0 := by
  simp only [udp_lookup]
  cases hs : udp_search seg table with
  | some r => simp
  | none =>
    simp only [udp_new_session, true_and]
    split <;> simp_all

theorem handle_udp_unlocated (k : netguard_h) (env : udp_env) (hosts : List (List Byte))
    (table : List udp_session) (seg : udp_in) (uid : Int)
    (hloc : udp_lookup env table seg uid = none) :
    handle_udp k env hosts table seg uid
      = { allowed := false, table := table, io := { tun := [], sent := [] } } := by
  simp only [handle_udp, hloc]

theorem write_rst_starts (k : netguard_h) (w : Nat → Bool) (c : tcp_ctx) :
    (write_rst k w c).cur.local_start = c.cur.local_start
    ∧ (write_rst k w c).cur.remote_start = c.cur.remote_start
    ∧ (write_rst k w c).cur.local_seq = c.cur.local_seq
    ∧ (write_rst k w c).cur.remote_seq = c.cur.remote_seq := by
  simp only [write_rst]
  split <;> exact ⟨rfl, rfl, rfl, rfl⟩

theorem write_rst_local_start (k : netguard_h) (w : Nat → Bool) (c : tcp_ctx) :
    (write_rst k w c).cur.local_start = c.cur.local_start := (write_rst_starts k w c).1

theorem write_rst_remote_start (k : netguard_h) (w : Nat → Bool) (c : tcp_ctx) :
    (write_rst k w c).cur.remote_start = c.cur.remote_start := (write_rst_starts k w c).2.1

theorem write_ack_local_start (k : netguard_h) (w : Nat → Bool) (c : tcp_ctx) (n : Nat) :
    (write_ack k w c n).1.cur.local_start = c.cur.local_start := by
  simp only [write_ack]
  split <;> rfl

theorem write_ack_remote_start (k : netguard_h) (w : Nat → Bool) (c : tcp_ctx) (n : Nat) :
    (write_ack k w c n).1.cur.remote_start = c.cur.remote_start := by
  simp only [write_ack]
  split <;> rfl

theorem write_syn_ack_local_start (k : netguard_h) (w : Nat → Bool) (c : tcp_ctx) :
    (write_syn_ack k w c).1.cur.local_start = c.cur.local_start := by
  simp only [write_syn_ack]
  split <;> rfl

theorem write_syn_ack_remote_start (k : netguard_h) (w : Nat → Bool) (c : tcp_ctx) :
    (write_syn_ack k w c).1.cur.remote_start = c.cur.remote_start := by
  simp only [write_syn_ack]
  split <;> rfl

theorem write_fin_ack_local_start (k : netguard_h) (w : Nat → Bool) (c : tcp_ctx) (n : Nat) :
    (write_fin_ack k w c n).1.cur.local_start = c.cur.local_start := by
  simp only [write_fin_ack]
  split <;> rfl

theorem write_fin_ack_remote_start (k : netguard_h) (w : Nat → Bool) (c : tcp_ctx) (n : Nat) :
    (write_fin_ack k w c n).1.cur.remote_start = c.cur.remote_start := by
  simp only [write_fin_ack]
  split <;> rfl

theorem write_data_local_start (k : netguard_h) (w : Nat → Bool) (c : tcp_ctx) (b : List Byte) :
    (write_data k w c b).1.cur.local_start = c.cur.local_start := by
  simp only [write_data]
  split <;> rfl

theorem write_data_remote_start (k : netguard_h) (w : Nat → Bool) (c : tcp_ctx) (b : List Byte) :
    (write_data k w c b).1.cur.remote_start = c.cur.remote_start := by
  simp only [write_data]
  split <;> rfl

theorem ite_same_starts (c0 : tcp_session) (p : Prop) [Decidable p] (a b : Bool × tcp_ctx)
    (ha : p → same_starts c0 a.2.cur) (hb : ¬ p → same_starts c0 b.2.cur) :
    same_starts c0 (if p then a else b).2.cur := by
  split
  · exact ha ‹_›
  · exact hb ‹_›

theorem ite_ctx_starts (c0 : tcp_session) (p : Prop) [Decidable p] (a b : tcp_ctx)
    (ha : p → same_starts c0 a.cur) (hb : ¬ p → same_starts c0 b.cur) :
    same_starts c0 (if p then a else b).cur := by
  split
  · exact ha ‹_›
  · exact hb ‹_›

theorem handle_tcp_session_starts (k : netguard_h) (env : tcp_env) (cur : tcp_session)
    (seg : tcp_in) :
    same_starts cur (handle_tcp_session k env cur seg).2.cur := by
  unfold handle_tcp_session
  dsimp only
  repeat' (apply ite_same_starts <;> intro _)
  all_goals
    simp only [same_starts, write_rst_local_start, write_rst_remote_start,
      write_ack_local_start, write_ack_remote_start, and_self]

theorem check_tcp_socket_starts (k : netguard_h) (env : select_env) (c : tcp_ctx) :
    same_starts c.cur (check_tcp_socket k env c).cur := by
  unfold check_tcp_socket
  dsimp only
  repeat' (first | (apply ite_ctx_starts <;> intro _) | split)
  all_goals
    simp only [same_starts, write_rst_local_start, write_rst_remote_start,
      write_syn_ack_local_start, write_syn_ack_remote_start,
      write_fin_ack_local_start, write_fin_ack_remote_start,
      write_data_local_start, write_data_remote_start, and_self]

theorem same_starts_refl (c : tcp_session) : same_starts c c := ⟨rfl, rfl⟩

theorem forall2_same_starts_refl (t : List tcp_session) : List.Forall₂ same_starts t t := by
  induction t with
  | nil => exact List.Forall₂.nil
  | cons c t ih => exact List.Forall₂.cons (same_starts_refl c) ih

theorem handle_tcp_starts (k : netguard_h) (env : tcp_env) (seg : tcp_in) (uid : Int)
    (table : List tcp_session) :
    List.Forall₂ same_starts table ((handle_tcp k env table seg uid).table.take table.length)
    ∧ ∀ d ∈ (handle_tcp k env table seg uid).table.drop table.length,
        d.local_seq = d.local_start ∧ d.remote_seq = d.remote_start := by
  induction table with
  | nil =>
    refine ⟨by simp, ?_⟩
    intro d hd
    simp only [handle_tcp, handle_tcp_unknown, List.length_nil, List.drop_zero] at hd
    split at hd
    · split at hd
      · simp at hd
      · simp only [List.mem_singleton] at hd
        subst hd
        exact ⟨rfl, rfl⟩
    · simp at hd
  | cons cur next ih =>
    by_cases hm : tcp_match cur seg = true
    · simp only [handle_tcp, hm, if_true, List.length_cons, List.take_succ_cons,
        List.drop_succ_cons]
      refine ⟨?_, ?_⟩
      · rw [List.take_length]
        exact List.Forall₂.cons (handle_tcp_session_starts k env cur seg)
          (forall2_same_starts_refl next)
      · rw [List.drop_length]
        simp
    · simp only [handle_tcp, hm, if_false, List.length_cons, List.take_succ_cons,
        List.drop_succ_cons, Bool.false_eq_true]
      exact ⟨List.Forall₂.cons (same_starts_refl cur) ih.1, ih.2⟩

theorem check_tcp_sockets_from_starts (k : netguard_h) (env : select_env)
    (table : List tcp_session) :
    ∀ io, List.Forall₂ same_starts table (check_tcp_sockets_from k env table io).1 := by
  induction table with
  | nil => intro io; exact List.Forall₂.nil
  | cons cur next ih =>
    intro io
    simp only [check_tcp_sockets_from]
    refine List.Forall₂.cons ?_ (ih _)
    split
    · exact check_tcp_socket_starts k env { cur := cur, io := io }
    · exact same_starts_refl cur

theorem seq_kept_invariant (t : List tcp_session) :
    ∀ u : List tcp_session,
      List.Forall₂ same_starts t (u.take t.length) →
      (∀ d ∈ u.drop t.length, d.local_seq = d.local_start ∧ d.remote_seq = d.remote_start) →
      (∀ c ∈ t, seq_ok c) → seq_kept t u = true → ∀ d ∈ u, seq_ok d := by
  induction t with
  | nil =>
    intro u _ hnew _ _ d hd
    have := hnew d (by simpa using hd)
    exact ⟨by rw [this.1], by rw [this.2]⟩
  | cons c t ih =>
    intro u hs hnew hinv hk d hd
    cases u with
    | nil => simp at hd
    | cons e u =>
      simp only [List.length_cons, List.take_succ_cons, List.drop_succ_cons] at hs hnew
      cases hs with
      | cons hce hrest =>
        simp only [seq_kept, Bool.and_eq_true, decide_eq_true_eq] at hk
        rcases List.mem_cons.mp hd with rfl | hdu
        · have hc := hinv c (List.mem_cons_self _ _)
          unfold seq_ok at hc ⊢
          unfold same_starts at hce
          omega
        · exact ih u hrest hnew (fun x hx => hinv x (List.mem_cons_of_mem _ hx)) hk.2 d hdu

theorem check_sessions_tcp_session_seq (k : netguard_h) (env : sweep_env) (now : Nat)
    (t : tcp_session) (s : sweep_state) :
    seq_ok t → seq_ok (check_sessions_tcp_session k env now t s).1 := by
  intro h
  have hr := write_rst_starts k env.write_ok { cur := t, io := s.io }
  unfold seq_ok at h ⊢
  simp only [check_sessions_tcp_session]
  split
  · split
    · simp only [hr.1, hr.2.1, hr.2.2.1, hr.2.2.2]; exact h
    · simp only [hr.1, hr.2.1, hr.2.2.1, hr.2.2.2]; exact h
  · split <;> exact h

theorem check_sessions_tcp_seq (k : netguard_h) (env : sweep_env) (now : Nat)
    (table : List tcp_session) :
    ∀ s, (∀ c ∈ table, seq_ok c) → ∀ d ∈ (check_sessions_tcp k env now table s).1, seq_ok d := by
  induction table with
  | nil => intro s _ d hd; simp [check_sessions_tcp] at hd
  | cons t next ih =>
    intro s hinv d hd
    have ht := check_sessions_tcp_session_seq k env now t s (hinv t (List.mem_cons_self _ _))
    have hn := ih (check_sessions_tcp_session k env now t s).2
      (fun x hx => hinv x (List.mem_cons_of_mem _ hx))
    simp only [check_sessions_tcp] at hd
    split at hd
    · exact hn d hd
    · rcases List.mem_cons.mp hd with rfl | hd2
      · exact ht
      · exact hn d hd2

theorem check_allowed_tcp_seq (uids : List Int) (t : tcp_session) :
    seq_ok t → seq_ok (check_allowed_tcp uids t) := by
  intro h
  unfold check_allowed_tcp
  split
  · split <;> exact h
  · exact h

/-- Witness for C11: an ACK with sequence number 1001 on an empty table. -/
theorem handle_tcp_stray_rst_witness :
    ∃ f,
      (handle_tcp ex_k (ex_env 1) ([] : List tcp_session) (ex_segment 1001 5001 false true false []) 10001).io.tun = [f]
      ∧ f.tcp.rst = true ∧ f.tcp.syn = false ∧ f.tcp.ack = false ∧ f.tcp.fin = false
      ∧ f.data = []
      ∧ ntohl f.tcp.seq = 0
      ∧ f.tcp.ack_seq = 0 ∧ ntohl f.tcp.ack_seq = 0
      ∧ (∃ rst : tcp_session,
          rst.local_seq = 0 ∧ rst.remote_seq = ntohl (ex_segment 1001 5001 false true false []).tcp.seq
          ∧ f = build_tcp ex_k rst [] 0 false false false true
          ∧ ntohl (build_tcp ex_k rst [] 0 false true false true).tcp.ack_seq
              = ntohl (ex_segment 1001 5001 false true false []).tcp.seq % 2 ^ 32)
      ∧ (ntohl f.tcp.ack_seq = ntohl (ex_segment 1001 5001 false true false []).tcp.seq ↔ ntohl (ex_segment 1001 5001 false true false []).tcp.seq = 0) :=
  handle_tcp_stray_rst ex_k (ex_env 1) (ex_segment 1001 5001 false true false []) 10001 [] (by simp) rfl

/-- Witness for C12: the same stray ACK on an empty table. -/
theorem handle_tcp_no_syn_no_flow_witness :
    (handle_tcp ex_k (ex_env 1) ([] : List tcp_session) (ex_segment 1001 5001 false true false []) 10001).table = ([] : List tcp_session)
    ∧ (handle_tcp ex_k (ex_env 1) ([] : List tcp_session) (ex_segment 1001 5001 false true false []) 10001).allowed = false
    ∧ ∀ other : List tcp_session,
        (handle_tcp ex_k (ex_env 1) other (ex_segment 1001 5001 false true false []) 10001).table.length = other.length :=
  handle_tcp_no_syn_no_flow ex_k (ex_env 1) (ex_segment 1001 5001 false true false []) 10001 [] (by simp) rfl

/-- Witness for C14: the query of scenario 2, `ads.example` on the blocklist. -/
theorem check_domain_answer_witness :
    ∃ response n,
      (check_domain ex_k (fun _ => true) ex_hosts {} (ex_udp 4) ex_query (get_dns ex_query 0).qclass
          (get_dns ex_query 0).qtype (get_dns ex_query 0).name).1.tun
        = List.replicate (n + 1) (build_udp (ex_udp 4) response)
      ∧ (build_udp (ex_udp 4) response).data = response
      ∧ response.length
          = ex_query.length + 12 + (if (get_dns ex_query 0).qtype = DNS_QTYPE_A then 4 else 16)
      ∧ dns_count response 6 = 1
      ∧ response.drop ex_query.length
          = [0xC0, 0x0C] ++ be16 (get_dns ex_query 0).qtype ++ be16 (get_dns ex_query 0).qclass
            ++ be32 ex_k.DNS_TTL
            ++ be16 (if (get_dns ex_query 0).qtype = DNS_QTYPE_A then 4 else 16)
            ++ (if (get_dns ex_query 0).qtype = DNS_QTYPE_A then [127, 0, 0, 1]
                else [0, 0, 0, 0, 0, 0, 0, 0, 0, 0, 0, 0, 0, 0, 0, 1])
      ∧ parse_answer (response.drop ex_query.length)
          = some { pointer := 12,
                   rtype := (get_dns ex_query 0).qtype,
                   rclass := (get_dns ex_query 0).qclass,
                   ttl := ex_k.DNS_TTL,
                   rdata := if (get_dns ex_query 0).qtype = DNS_QTYPE_A then [127, 0, 0, 1]
                            else [0, 0, 0, 0, 0, 0, 0, 0, 0, 0, 0, 0, 0, 0, 0, 1] } :=
  check_domain_answer ex_k (fun _ => true) ex_hosts (ex_udp 4) ex_query 0
    (by decide) (by decide) (Or.inl (by decide)) (by decide) (by decide)

/-- Witness for C15: the response to the query of scenario 2. -/
theorem check_domain_keeps_query_witness :
    (∀ f ∈ (check_domain ex_k (fun _ => true) ex_hosts {} (ex_udp 4) ex_query 1 1 (get_dns ex_query 0).name).1.tun,
      f.data = dns_response ex_k ex_query 1 1)
    ∧ (dns_response ex_k ex_query 1 1).take 2 = ex_query.take 2
    ∧ ((dns_response ex_k ex_query 1 1).getD 2 0).val / 8 % 16 = (ex_query.getD 2 0).val / 8 % 16
    ∧ ((dns_response ex_k ex_query 1 1).drop 4).take 2 = (ex_query.drop 4).take 2
    ∧ ((dns_response ex_k ex_query 1 1).take ex_query.length).drop 12 = ex_query.drop 12
    ∧ ((dns_response ex_k ex_query 1 1).getD 2 0).val / 128 = 1
    ∧ ((dns_response ex_k ex_query 1 1).getD 2 0).val % 8 = 0
    ∧ ((dns_response ex_k ex_query 1 1).getD 3 0).val = 0
    ∧ dns_count (dns_response ex_k ex_query 1 1) 6 = 1
    ∧ dns_count (dns_response ex_k ex_query 1 1) 8 = 0
    ∧ dns_count (dns_response ex_k ex_query 1 1) 10 = 0 :=
  check_domain_keeps_query ex_k (fun _ => true) ex_hosts (ex_udp 4) ex_query 1 1 (get_dns ex_query 0).name
    (by decide)

/-- Witness for C16: the query of scenario 2, two labels. -/
theorem get_dns_parses_witness :
    (1 ≤ ex_labels.length ∧ ex_labels.length ≤ 10 →
      (get_dns (ex_dns_header ++ dns_encode ex_labels ++ [0] ++ [(0 : Byte), (1 : Byte), (0 : Byte), (1 : Byte)]) 0).ret = 0
      ∧ (get_dns (ex_dns_header ++ dns_encode ex_labels ++ [0] ++ [(0 : Byte), (1 : Byte), (0 : Byte), (1 : Byte)]) 0).name
          = List.intercalate [46] ex_labels ++ [0]
      ∧ (get_dns (ex_dns_header ++ dns_encode ex_labels ++ [0] ++ [(0 : Byte), (1 : Byte), (0 : Byte), (1 : Byte)]) 0).name.length
          ≤ ex_k.DNS_QNAME_MAX + 1
      ∧ ((∀ l ∈ ex_labels, (0 : Byte) ∉ l) →
          c_string (get_dns (ex_dns_header ++ dns_encode ex_labels ++ [0] ++ [(0 : Byte), (1 : Byte), (0 : Byte), (1 : Byte)]) 0).name
            = List.intercalate [46] ex_labels)
      ∧ (get_dns (ex_dns_header ++ dns_encode ex_labels ++ [0] ++ [(0 : Byte), (1 : Byte), (0 : Byte), (1 : Byte)]) 0).qtype
          = (0 : Byte).val * 256 + (1 : Byte).val
      ∧ (get_dns (ex_dns_header ++ dns_encode ex_labels ++ [0] ++ [(0 : Byte), (1 : Byte), (0 : Byte), (1 : Byte)]) 0).qclass
          = (0 : Byte).val * 256 + (1 : Byte).val)
    ∧ (ex_labels.length = 0 ∨ 10 < ex_labels.length →
      (get_dns (ex_dns_header ++ dns_encode ex_labels ++ [0] ++ [(0 : Byte), (1 : Byte), (0 : Byte), (1 : Byte)]) 0).ret = -1) :=
  get_dns_parses ex_k 0 ex_dns_header ex_labels 0 1 0 1
    rfl (by decide) (by decide) (by decide) (by decide)

/-- Witness for C18: names of at most 255 bytes. -/
theorem get_dns_name_overflow_witness :
    (get_dns ex_query_318 0).ret = 0
    ∧ ex_k.DNS_QNAME_MAX + 1 < (get_dns ex_query_318 0).name.length
    ∧ (c_string (get_dns ex_query_318 0).name).length = 62 :=
  get_dns_name_overflow ex_k (by decide)

/-- Witness for C17: a three-byte datagram, a response (QR = 1), and a pointer
after the two labels of `ads.example`. -/
theorem get_dns_rejects_witness :
    (get_dns [1, 2, 3] 0).ret = -1
    ∧ (get_dns (dns_response ex_k ex_query 1 1) 0).ret = -1
    ∧ (get_dns (ex_dns_header ++ dns_encode ex_labels ++ 192 :: [12, 0, 1, 0, 1]) 0).ret = -1 :=
  ⟨(get_dns_rejects 0).1 [1, 2, 3] (by decide),
   (get_dns_rejects 0).2.1 (dns_response ex_k ex_query 1 1) (Or.inl (by decide)),
   (get_dns_rejects 0).2.2 ex_dns_header ex_labels 192 [12, 0, 1, 0, 1] rfl (by decide)
     (by decide) (by decide)⟩

theorem check_sessions_udp_filter (k : netguard_h) (now : Nat) (udp : List udp_session) :
    (check_sessions_udp k now udp).1 = udp.filter (fun u => !udp_expired k now u)
    ∧ (check_sessions_udp k now udp).2
        = (udp.filter (fun u => udp_expired k now u)).map (fun u => u.socket) := by
  induction udp with
  | nil => exact ⟨rfl, rfl⟩
  | cons u next ih =>
    by_cases h : u.stop = true ∨ u.time + (if ntohs u.dest = 53 then k.UDP_TIMEOUT_53
        else k.UDP_TIMEOUT_ANY) < now
    · have he : udp_expired k now u = true := by
        simp only [udp_expired, Bool.or_eq_true, decide_eq_true_eq]; exact h
      simp only [check_sessions_udp, h, if_true, List.filter_cons, he, Bool.not_true,
        Bool.false_eq_true, if_false, List.map_cons, ih.1, ih.2]
      exact ⟨trivial, trivial⟩
    · have he : udp_expired k now u = false := by
        rw [← Bool.not_eq_true]
        simp only [udp_expired, Bool.or_eq_true, decide_eq_true_eq]; exact h
      simp only [check_sessions_udp, h, if_false, List.filter_cons, he, Bool.not_false,
        if_true, Bool.false_eq_true, ih.1, ih.2]
      exact ⟨trivial, trivial⟩

theorem tcp_idle_iff (k : netguard_h) (now : Nat) (t : tcp_session) :
    tcp_idle k now t = true ↔
      (t.state ≠ TCP_TIME_WAIT ∧ t.state ≠ TCP_CLOSE ∧ t.time + tcp_timeout k t.state < now) := by
  simp only [tcp_idle, tcp_timeout, decide_eq_true_eq]

theorem check_sessions_tcp_session_idle (k : netguard_h) (env : sweep_env) (now : Nat)
    (t : tcp_session) (s : sweep_state) (h : tcp_idle k now t = true) :
    check_sessions_tcp_session k env now t s
      = ({ t with socket := -1, time := env.time s.calls, state := TCP_CLOSE },
         { io := { s.io with
                   tun := s.io.tun ++ [build_tcp k t [] 0 false false false true] },
           closed := s.closed ++ [t.socket],
           calls := s.calls + 1 }) := by
  have h2 := (tcp_idle_iff k now t).1 h
  have hc : ¬ t.state = TCP_CLOSE := h2.2.1
  simp only [check_sessions_tcp_session, h2, ne_eq, not_false_eq_true, and_self, if_true,
    write_rst_eq, hc, if_false]

theorem check_sessions_tcp_session_busy (k : netguard_h) (env : sweep_env) (now : Nat)
    (t : tcp_session) (s : sweep_state) (h : tcp_idle k now t = false) :
    check_sessions_tcp_session k env now t s
      = if t.state = TCP_TIME_WAIT then
          ({ t with socket := -1, time := env.time s.calls, state := TCP_CLOSE },
           { io := s.io, closed := s.closed ++ [t.socket], calls := s.calls + 1 })
        else (t, s) := by
  have h2 : ¬ (t.state ≠ TCP_TIME_WAIT ∧ t.state ≠ TCP_CLOSE
      ∧ t.time + tcp_timeout k t.state < now) := by
    rw [← tcp_idle_iff, h]; decide
  simp only [check_sessions_tcp_session, h2, if_false]

/-- What the TCP loop of the sweeper adds to the log, whatever the clock: one
reset per idle session and one `close` per session idle or in TIME_WAIT. -/
theorem check_sessions_tcp_log (k : netguard_h) (env : sweep_env) (now : Nat)
    (tcp : List tcp_session) :
    ∀ s, (check_sessions_tcp k env now tcp s).2
      = { io := { s.io with
                  tun := s.io.tun ++ (tcp.filter (fun t => tcp_idle k now t)).map
                    (fun t => build_tcp k t [] 0 false false false true) },
          closed := s.closed ++ (tcp.filter
            (fun t => tcp_idle k now t || decide (t.state = TCP_TIME_WAIT))).map
              (fun t => t.socket),
          calls := s.calls + (tcp.filter
            (fun t => tcp_idle k now t || decide (t.state = TCP_TIME_WAIT))).length } := by
  induction tcp with
  | nil => intro s; simp [check_sessions_tcp]
  | cons t next ih =>
    intro s
    have hstep : (check_sessions_tcp k env now (t :: next) s).2
        = (check_sessions_tcp k env now next (check_sessions_tcp_session k env now t s).2).2 := by
      simp only [check_sessions_tcp]
      split <;> rfl
    rw [hstep, ih]
    cases hi : tcp_idle k now t with
    | true =>
      rw [check_sessions_tcp_session_idle k env now t s hi]
      simp only [List.filter_cons, hi, if_true, Bool.true_or, List.map_cons, List.append_assoc,
        List.singleton_append, List.length_cons]
      have : s.calls + 1 + (List.filter (fun t => tcp_idle k now t
          || decide (t.state = TCP_TIME_WAIT)) next).length
          = s.calls + ((List.filter (fun t => tcp_idle k now t
          || decide (t.state = TCP_TIME_WAIT)) next).length + 1) := by omega
      rw [this]
    | false =>
      rw [check_sessions_tcp_session_busy k env now t s hi]
      by_cases hw : t.state = TCP_TIME_WAIT
      · simp only [hw, if_true, List.filter_cons, hi, Bool.false_eq_true, if_false,
          Bool.false_or, decide_True, List.map_cons, List.append_assoc,
          List.singleton_append, List.length_cons]
        have : s.calls + 1 + (List.filter (fun t => tcp_idle k now t
            || decide (t.state = TCP_TIME_WAIT)) next).length
            = s.calls + ((List.filter (fun t => tcp_idle k now t
            || decide (t.state = TCP_TIME_WAIT)) next).length + 1) := by omega
        rw [this]
      · simp only [hw, if_false, List.filter_cons, hi, Bool.false_eq_true,
          Bool.false_or, decide_False]

/-- For a clock that stands still the TCP loop body followed by the unlinking
test is the three rules of `sweep_tcp`. -/
theorem check_sessions_tcp_session_sweep (k : netguard_h) (env : sweep_env) (now : Nat)
    (hclock : ∀ n, env.time n = now) (t : tcp_session) (s : sweep_state) :
    (if (check_sessions_tcp_session k env now t s).1.state = TCP_CLOSE
        ∧ (check_sessions_tcp_session k env now t s).1.time + k.TCP_KEEP_TIMEOUT < now
      then none else some (check_sessions_tcp_session k env now t s).1)
      = sweep_tcp k now t := by
  cases hi : tcp_idle k now t with
  | true =>
    rw [check_sessions_tcp_session_idle k env now t s hi]
    simp only [sweep_tcp, hi, if_true, hclock]
  | false =>
    rw [check_sessions_tcp_session_busy k env now t s hi]
    by_cases hw : t.state = TCP_TIME_WAIT
    · simp only [sweep_tcp, hi, hw, if_true, hclock, Bool.false_eq_true, if_false]
    · simp only [sweep_tcp, hi, hw, if_false, Bool.false_eq_true]

theorem check_sessions_tcp_sweep (k : netguard_h) (env : sweep_env) (now : Nat)
    (hclock : ∀ n, env.time n = now) (tcp : List tcp_session) :
    ∀ s, (check_sessions_tcp k env now tcp s).1 = tcp.filterMap (sweep_tcp k now) := by
  induction tcp with
  | nil => intro s; rfl
  | cons t next ih =>
    intro s
    have h := check_sessions_tcp_session_sweep k env now hclock t s
    by_cases hc : (check_sessions_tcp_session k env now t s).1.state = TCP_CLOSE
        ∧ (check_sessions_tcp_session k env now t s).1.time + k.TCP_KEEP_TIMEOUT < now
    · rw [if_pos hc] at h
      rw [check_sessions_tcp, List.filterMap_cons, ← h]
      simp only [hc, and_self, if_true]
      exact ih _
    · rw [if_neg hc] at h
      rw [check_sessions_tcp, List.filterMap_cons, ← h]
      simp only [hc, if_false]
      rw [ih]

/-- C24. UDP eviction.  With `now` the result of the first `time(NULL)`,
`check_sessions` keeps of the UDP table exactly the sessions that are not
stopped and do not satisfy `time + T < now` (`T` is `UDP_TIMEOUT_53` for
destination port 53 and `UDP_TIMEOUT_ANY` otherwise): the table afterwards is
the old table filtered, so the sessions kept are unchanged and in their old
order, and the sockets closed are those of the sessions removed. -/
theorem check_sessions_udp_eviction (k : netguard_h) (env : sweep_env)
    (udp : List udp_session) (tcp : List tcp_session) :
    (check_sessions k env udp tcp).udp
        = udp.filter (fun u => !udp_expired k (env.time 0) u)
    ∧ List.Sublist (check_sessions k env udp tcp).udp udp
    ∧ (∀ u, u ∈ (check_sessions k env udp tcp).udp ↔
        u ∈ udp ∧ ¬ (u.stop = true
          ∨ u.time + (if ntohs u.dest = 53 then k.UDP_TIMEOUT_53 else k.UDP_TIMEOUT_ANY)
              < env.time 0))
    ∧ (check_sessions k env udp tcp).closed
        = (udp.filter (fun u => udp_expired k (env.time 0) u)).map (fun u => u.socket)
          ++ (tcp.filter (fun t => tcp_idle k (env.time 0) t
                || decide (t.state = TCP_TIME_WAIT))).map (fun t => t.socket) := by
  have h := check_sessions_udp_filter k (env.time 0) udp
  have hu : (check_sessions k env udp tcp).udp
      = udp.filter (fun u => !udp_expired k (env.time 0) u) := h.1
  refine ⟨hu, ?_, ?_, ?_⟩
  · rw [hu]; exact List.filter_sublist udp
  · intro u
    rw [hu, List.mem_filter]
    simp only [udp_expired, Bool.not_eq_true', Bool.or_eq_false_iff, decide_eq_false_iff_not,
      not_or, Bool.not_eq_true]
  · rw [← h.2]
    simp only [check_sessions, check_sessions_tcp_log]

/-! ## The TCP rules of the sweeper -/

theorem tcp_idle_terminal (k : netguard_h) (now : Nat) (t : tcp_session)
    (h : t.state = TCP_TIME_WAIT ∨ t.state = TCP_CLOSE) : tcp_idle k now t = false := by
  rw [← Bool.not_eq_true, tcp_idle_iff]
  intro h2
  rcases h with h | h
  · exact h2.1 h
  · exact h2.2.1 h

theorem sweep_tcp_closing (k : netguard_h) (now : Nat) (t : tcp_session)
    (h : tcp_idle k now t = true ∨ t.state = TCP_TIME_WAIT) :
    sweep_tcp k now t = some { t with socket := -1, time := now, state := TCP_CLOSE } := by
  have hk : ¬ now + k.TCP_KEEP_TIMEOUT < now := by omega
  rcases h with h | h
  · simp only [sweep_tcp, h, if_true, hk, and_false, if_false]
  · have hi := tcp_idle_terminal k now t (Or.inl h)
    simp only [sweep_tcp, hi, Bool.false_eq_true, if_false, h, if_true, hk, and_false]

theorem sweep_tcp_closed (k : netguard_h) (now : Nat) (t : tcp_session)
    (h : t.state = TCP_CLOSE) :
    sweep_tcp k now t = if t.time + k.TCP_KEEP_TIMEOUT < now then none else some t := by
  have hi := tcp_idle_terminal k now t (Or.inr h)
  have hw : ¬ t.state = TCP_TIME_WAIT := by rw [h]; decide
  simp only [sweep_tcp, hi, Bool.false_eq_true, if_false, hw]
  simp only [h, true_and]

theorem sweep_tcp_other (k : netguard_h) (now : Nat) (t : tcp_session)
    (hi : tcp_idle k now t = false) (hw : t.state ≠ TCP_TIME_WAIT) (hc : t.state ≠ TCP_CLOSE) :
    sweep_tcp k now t = some t := by
  simp only [sweep_tcp, hi, Bool.false_eq_true, if_false, hw, hc, false_and]

/-- A session the three rules keep is kept unchanged by a second application at
the same clock value: it is neither idle nor in TIME_WAIT. -/
theorem sweep_tcp_fixed (k : netguard_h) (now : Nat) (t t2 : tcp_session)
    (h : sweep_tcp k now t = some t2) :
    tcp_idle k now t2 = false ∧ t2.state ≠ TCP_TIME_WAIT ∧ sweep_tcp k now t2 = some t2 := by
  have hk : ¬ now + k.TCP_KEEP_TIMEOUT < now := by omega
  by_cases h1 : tcp_idle k now t = true ∨ t.state = TCP_TIME_WAIT
  · rw [sweep_tcp_closing k now t h1] at h
    have h3 : t2.state = TCP_CLOSE := by rw [← Option.some.inj h]
    have h4 : t2.time = now := by rw [← Option.some.inj h]
    refine ⟨tcp_idle_terminal k now t2 (Or.inr h3), by rw [h3]; decide, ?_⟩
    rw [sweep_tcp_closed k now t2 h3, h4, if_neg hk]
  · have hi : tcp_idle k now t = false := by
      rw [← Bool.not_eq_true]; exact fun hh => h1 (Or.inl hh)
    have hw : t.state ≠ TCP_TIME_WAIT := fun hh => h1 (Or.inr hh)
    by_cases hc : t.state = TCP_CLOSE
    · rw [sweep_tcp_closed k now t hc] at h
      by_cases he : t.time + k.TCP_KEEP_TIMEOUT < now
      · rw [if_pos he] at h; exact absurd h (by simp)
      · rw [if_neg he] at h
        have ht : t = t2 := Option.some.inj h
        subst ht
        exact ⟨hi, hw, by rw [sweep_tcp_closed k now t hc, if_neg he]⟩
    · rw [sweep_tcp_other k now t hi hw hc] at h
      have ht : t = t2 := Option.some.inj h
      subst ht
      exact ⟨hi, hw, sweep_tcp_other k now t hi hw hc⟩

theorem sweep_tcp_filterMap (k : netguard_h) (now : Nat) (tcp : List tcp_session) :
    (tcp.filterMap (sweep_tcp k now)).filterMap (sweep_tcp k now)
        = tcp.filterMap (sweep_tcp k now)
    ∧ (tcp.filterMap (sweep_tcp k now)).filter
        (fun t => tcp_idle k now t || decide (t.state = TCP_TIME_WAIT)) = []
    ∧ (tcp.filterMap (sweep_tcp k now)).filter (fun t => tcp_idle k now t) = [] := by
  induction tcp with
  | nil => exact ⟨rfl, rfl, rfl⟩
  | cons t next ih =>
    cases h : sweep_tcp k now t with
    | none => rw [List.filterMap_cons_none h]; exact ih
    | some t2 =>
      obtain ⟨h1, h2, h3⟩ := sweep_tcp_fixed k now t t2 h
      rw [List.filterMap_cons_some h, List.filterMap_cons_some h3, ih.1]
      refine ⟨rfl, ?_, ?_⟩
      · rw [List.filter_cons_of_neg (by simp [h1, h2]), ih.2.1]
      · rw [List.filter_cons_of_neg (by simp [h1]), ih.2.2]

/-- C25. TCP sweep.  For a clock that reads `now` throughout, `check_sessions`
applies to every TCP session, in table order, the three rules one after the
other: a session is idle exactly when its state is neither TIME_WAIT nor CLOSE
and `time + T < now` (`T` by state as listed), and for each idle session one
reset packet is written and the session goes to TIME_WAIT; a session in
TIME_WAIT (also one that just got there) gets socket -1, time `now` and state
CLOSE; a session in CLOSE is unlinked exactly when `time + TCP_KEEP_TIMEOUT <
now`; every other session is kept as it is. -/
theorem check_sessions_tcp_rules (k : netguard_h) (env : sweep_env)
    (udp : List udp_session) (tcp : List tcp_session)
    (hclock : ∀ n, env.time n = env.time 0) :
    (check_sessions k env udp tcp).tcp = tcp.filterMap (sweep_tcp k (env.time 0))
    ∧ (check_sessions k env udp tcp).io
        = { tun := (tcp.filter (fun t => tcp_idle k (env.time 0) t)).map
              (fun t => build_tcp k t [] 0 false false false true) }
    ∧ (∀ t : tcp_session,
        (tcp_idle k (env.time 0) t = true ↔
          (t.state ≠ TCP_TIME_WAIT ∧ t.state ≠ TCP_CLOSE
            ∧ t.time + (if t.state = TCP_LISTEN ∨ t.state = TCP_SYN_RECV then k.TCP_INIT_TIMEOUT
                else if t.state = TCP_ESTABLISHED then k.TCP_IDLE_TIMEOUT
                else k.TCP_CLOSE_TIMEOUT) < env.time 0))
        ∧ (tcp_idle k (env.time 0) t = true ∨ t.state = TCP_TIME_WAIT →
            sweep_tcp k (env.time 0) t
              = some { t with socket := -1, time := env.time 0, state := TCP_CLOSE })
        ∧ (t.state = TCP_CLOSE →
            sweep_tcp k (env.time 0) t
              = if t.time + k.TCP_KEEP_TIMEOUT < env.time 0 then none else some t)
        ∧ (tcp_idle k (env.time 0) t = false → t.state ≠ TCP_TIME_WAIT →
            t.state ≠ TCP_CLOSE → sweep_tcp k (env.time 0) t = some t)) := by
  refine ⟨?_, ?_, ?_⟩
  · exact check_sessions_tcp_sweep k env (env.time 0) hclock tcp _
  · simp only [check_sessions, check_sessions_tcp_log, List.nil_append]
  · intro t
    refine ⟨?_, sweep_tcp_closing k _ t, sweep_tcp_closed k _ t, sweep_tcp_other k _ t⟩
    simp only [tcp_idle, decide_eq_true_eq]

/-- C23. Sweeper idempotence.  For a clock that reads `now` throughout both
calls, `check_sessions` applied to the tables an earlier `check_sessions` left
returns the same two tables, writes nothing to the tunnel and closes no
socket. -/
theorem check_sessions_idempotent (k : netguard_h) (env env2 : sweep_env) (now : Nat)
    (udp : List udp_session) (tcp : List tcp_session)
    (hclock : ∀ n, env.time n = now) (hclock2 : ∀ n, env2.time n = now) :
    (check_sessions k env2 (check_sessions k env udp tcp).udp
        (check_sessions k env udp tcp).tcp).udp = (check_sessions k env udp tcp).udp
    ∧ (check_sessions k env2 (check_sessions k env udp tcp).udp
        (check_sessions k env udp tcp).tcp).tcp = (check_sessions k env udp tcp).tcp
    ∧ (check_sessions k env2 (check_sessions k env udp tcp).udp
        (check_sessions k env udp tcp).tcp).io = {}
    ∧ (check_sessions k env2 (check_sessions k env udp tcp).udp
        (check_sessions k env udp tcp).tcp).closed = [] := by
  have hu : (check_sessions k env udp tcp).udp
      = udp.filter (fun u => !udp_expired k now u) := by
    rw [← hclock 0]; exact (check_sessions_udp_filter k (env.time 0) udp).1
  have ht : (check_sessions k env udp tcp).tcp = tcp.filterMap (sweep_tcp k now) := by
    have := check_sessions_tcp_sweep k env (env.time 0) (fun n => by rw [hclock, hclock]) tcp
      { io := {}, closed := (check_sessions_udp k (env.time 0) udp).2, calls := 1 }
    rw [hclock 0] at this
    rw [← this]; simp only [check_sessions, hclock]
  have h2 : env2.time 0 = now := hclock2 0
  have hs := sweep_tcp_filterMap k now tcp
  rw [hu, ht]
  refine ⟨?_, ?_, ?_, ?_⟩
  · show (check_sessions_udp k (env2.time 0) _).1 = _
    rw [(check_sessions_udp_filter k (env2.time 0) _).1, h2, List.filter_filter]
    simp only [Bool.and_self]
  · have := check_sessions_tcp_sweep k env2 (env2.time 0) (fun n => by rw [hclock2, hclock2])
      (tcp.filterMap (sweep_tcp k now))
      { io := {}, closed := (check_sessions_udp k (env2.time 0)
          (udp.filter (fun u => !udp_expired k now u))).2, calls := 1 }
    rw [h2, hs.1] at this
    simp only [check_sessions, h2]
    exact this
  · simp only [check_sessions, check_sessions_tcp_log, h2, hs.2.2, List.map_nil,
      List.append_nil]
  · simp only [check_sessions, check_sessions_tcp_log, h2, hs.2.1, List.map_nil,
      List.append_nil, (check_sessions_udp_filter k now _).2, List.filter_filter]
    have : (udp.filter (fun a => udp_expired k now a && !udp_expired k now a)) = [] := by
      rw [List.filter_eq_nil_iff]; intro a _; simp
    rw [this]; rfl

/-! ## `check_allowed` -/

theorem forall2_map_self {α : Type} (R : α → α → Prop) (f : α → α) (h : ∀ a, R a (f a)) :
    ∀ l : List α, List.Forall₂ R l (l.map f)
  | [] => List.Forall₂.nil
  | a :: l => List.Forall₂.cons (h a) (forall2_map_self R f h l)

theorem check_allowed_udp_effect (uids : List Int) (u : udp_session) :
    check_allowed_udp uids u = { u with stop := (check_allowed_udp uids u).stop }
    ∧ (u.uid ∉ uids → (check_allowed_udp uids u).stop = true)
    ∧ (u.uid ∈ uids → check_allowed_udp uids u = u)
    ∧ (u.stop = true → check_allowed_udp uids u = u) := by
  cases u
  simp only [check_allowed_udp]
  split_ifs <;> simp_all

theorem check_allowed_tcp_effect (uids : List Int) (t : tcp_session) :
    check_allowed_tcp uids t = { t with state := (check_allowed_tcp uids t).state }
    ∧ (t.uid ∉ uids → t.state ≠ TCP_TIME_WAIT → t.state ≠ TCP_CLOSE →
        (check_allowed_tcp uids t).state = TCP_TIME_WAIT)
    ∧ (t.uid ∈ uids → check_allowed_tcp uids t = t)
    ∧ (t.state = TCP_TIME_WAIT ∨ t.state = TCP_CLOSE → check_allowed_tcp uids t = t) := by
  cases t
  simp only [check_allowed_tcp]
  split_ifs <;> simp_all

/-- C28. Allow-list change.  `check_allowed` with allow-list `uids` keeps both
tables position by position (no session added or removed).  A UDP session
differs from the one before at most in `stop`, has `stop` set when its uid is
not in the list, and is unchanged when its uid is in the list or it was
stopped already.  A TCP session differs at most in `state`, is in TIME_WAIT
when its uid is not in the list and it was neither in TIME_WAIT nor in CLOSE,
and is unchanged when its uid is in the list or it was in TIME_WAIT or
CLOSE. -/
theorem check_allowed_effect (uids : List Int) (udp : List udp_session)
    (tcp : List tcp_session) :
    (check_allowed uids udp tcp).1.length = udp.length
    ∧ (check_allowed uids udp tcp).2.length = tcp.length
    ∧ List.Forall₂ (fun u v : udp_session =>
          v = { u with stop := v.stop }
          ∧ (u.uid ∉ uids → v.stop = true)
          ∧ (u.uid ∈ uids → v = u)
          ∧ (u.stop = true → v = u))
        udp (check_allowed uids udp tcp).1
    ∧ List.Forall₂ (fun t v : tcp_session =>
          v = { t with state := v.state }
          ∧ (t.uid ∉ uids → t.state ≠ TCP_TIME_WAIT → t.state ≠ TCP_CLOSE →
              v.state = TCP_TIME_WAIT)
          ∧ (t.uid ∈ uids → v = t)
          ∧ (t.state = TCP_TIME_WAIT ∨ t.state = TCP_CLOSE → v = t))
        tcp (check_allowed uids udp tcp).2 := by
  refine ⟨by simp [check_allowed], by simp [check_allowed], ?_, ?_⟩
  · exact forall2_map_self _ _ (check_allowed_udp_effect uids) udp
  · exact forall2_map_self _ _ (check_allowed_tcp_effect uids) tcp

/-! ## What the TCP steps leave of a session -/

theorem write_ack_cur (k : netguard_h) (w : Nat → Bool) (c : tcp_ctx) (n : Nat) :
    (write_ack k w c n).1.cur
      = { c.cur with state := if w c.io.tun.length = true then c.cur.state
                              else TCP_TIME_WAIT } := by
  cases h : w c.io.tun.length with
  | true => rw [write_ack_ok k w c n h]; simp
  | false =>
    simp only [write_ack, if_pos (write_tcp_fail k w c.io c.cur [] n false true false false h)]
    simp

theorem write_fin_ack_cur (k : netguard_h) (w : Nat → Bool) (c : tcp_ctx) (n : Nat) :
    (write_fin_ack k w c n).1.cur
      = { c.cur with state := if w c.io.tun.length = true then c.cur.state
                              else TCP_TIME_WAIT } := by
  cases h : w c.io.tun.length with
  | true => rw [write_fin_ack_ok k w c n h]; simp
  | false =>
    simp only [write_fin_ack,
      if_pos (write_tcp_fail k w c.io c.cur [] n false true true false h)]
    simp

theorem write_data_cur (k : netguard_h) (w : Nat → Bool) (c : tcp_ctx) (b : List Byte) :
    (write_data k w c b).1.cur
      = { c.cur with state := if w c.io.tun.length = true then c.cur.state
                              else TCP_TIME_WAIT } := by
  cases h : w c.io.tun.length with
  | true => rw [write_data_ok k w c b h]; simp
  | false =>
    simp only [write_data, if_pos (write_tcp_fail k w c.io c.cur b 0 false true false false h)]
    simp

theorem write_syn_ack_cur (k : netguard_h) (w : Nat → Bool) (c : tcp_ctx) :
    (write_syn_ack k w c).1.cur
      = { c.cur with state := if w c.io.tun.length = true then c.cur.state
                              else TCP_TIME_WAIT } := by
  rw [write_syn_ack_eq]
  split <;> rfl

theorem write_rst_cur (k : netguard_h) (w : Nat → Bool) (c : tcp_ctx) :
    (write_rst k w c).cur
      = { c.cur with state := if c.cur.state = TCP_CLOSE then TCP_CLOSE
                              else TCP_TIME_WAIT } := by
  rw [write_rst_eq]

theorem write_ack_tun (k : netguard_h) (w : Nat → Bool) (c : tcp_ctx) (n : Nat) :
    (write_ack k w c n).1.io.tun
      = c.io.tun ++ [build_tcp k c.cur [] n false true false false] := by
  simp only [write_ack]
  split <;> rfl

theorem write_fin_ack_tun (k : netguard_h) (w : Nat → Bool) (c : tcp_ctx) (n : Nat) :
    (write_fin_ack k w c n).1.io.tun
      = c.io.tun ++ [build_tcp k c.cur [] n false true true false] := by
  simp only [write_fin_ack]
  split <;> rfl

theorem write_data_tun (k : netguard_h) (w : Nat → Bool) (c : tcp_ctx) (b : List Byte) :
    (write_data k w c b).1.io.tun
      = c.io.tun ++ [build_tcp k c.cur b 0 false true false false] := by
  simp only [write_data]
  split <;> rfl

theorem write_syn_ack_tun (k : netguard_h) (w : Nat → Bool) (c : tcp_ctx) :
    (write_syn_ack k w c).1.io.tun
      = c.io.tun ++ [build_tcp k c.cur [] 1 true true false false] := by
  simp only [write_syn_ack]
  split <;> rfl

theorem same_flow_refl (c : tcp_session) : same_flow c c :=
  ⟨rfl, rfl, rfl, rfl, rfl, rfl, rfl, Iff.rfl⟩

theorem same_flow_trans (a b c : tcp_session) (h1 : same_flow a b) (h2 : same_flow b c) :
    same_flow a c := by
  obtain ⟨a1, a2, a3, a4, a5, a6, a7, a8⟩ := h1
  obtain ⟨b1, b2, b3, b4, b5, b6, b7, b8⟩ := h2
  exact ⟨b1.trans a1, b2.trans a2, b3.trans a3, b4.trans a4, b5.trans a5, b6.trans a6,
    b7.trans a7, b8.trans a8⟩

theorem same_flow_tuple (c d : tcp_session) (h : same_flow c d) : tcp_tuple d = tcp_tuple c := by
  obtain ⟨h1, h2, h3, h4, h5, _, _, _⟩ := h
  simp only [tcp_tuple, h1, h2, h3, h4, h5]

theorem ite_same_flow (c0 : tcp_session) (p : Prop) [Decidable p] (a b : Bool × tcp_ctx)
    (ha : p → same_flow c0 a.2.cur) (hb : ¬ p → same_flow c0 b.2.cur) :
    same_flow c0 (if p then a else b).2.cur := by
  split
  · exact ha ‹_›
  · exact hb ‹_›

theorem ite_ctx_flow (c0 : tcp_session) (p : Prop) [Decidable p] (a b : tcp_ctx)
    (ha : p → same_flow c0 a.cur) (hb : ¬ p → same_flow c0 b.cur) :
    same_flow c0 (if p then a else b).cur := by
  split
  · exact ha ‹_›
  · exact hb ‹_›

theorem handle_tcp_control_flow (k : netguard_h) (env : tcp_env) (seg : tcp_in) (c : tcp_ctx)
    (h : c.cur.state ≠ TCP_CLOSE) :
    same_flow c.cur (handle_tcp_control k env seg c).2.cur := by
  unfold handle_tcp_control
  dsimp only
  repeat' (apply ite_same_flow <;> intro _)
  all_goals try simp only [same_flow, write_rst_cur, write_ack_cur, true_and]
  all_goals try split_ifs
  all_goals first | (simp [h]; done) | simp_all

theorem handle_tcp_session_flow (k : netguard_h) (env : tcp_env) (cur : tcp_session)
    (seg : tcp_in) :
    same_flow cur (handle_tcp_session k env cur seg).2.cur := by
  by_cases hc : cur.state = TCP_CLOSE
  · rw [handle_tcp_session, if_pos hc]
    simp only [same_flow, write_rst_cur, hc, if_true, and_self]
  · rw [handle_tcp_session, if_neg hc]
    dsimp only
    repeat' (apply ite_same_flow <;> intro _)
    all_goals try simp only [same_flow, write_rst_cur, write_ack_cur, true_and]
    all_goals try split_ifs
    all_goals first | (simp [hc]; done) | simp_all

theorem check_tcp_socket_flow (k : netguard_h) (env : select_env) (c : tcp_ctx) :
    same_flow c.cur (check_tcp_socket k env c).cur := by
  by_cases hc : c.cur.state = TCP_CLOSE
  · have h1 : ¬ c.cur.state = TCP_LISTEN := by rw [hc]; decide
    have h2 : ¬ (c.cur.state = TCP_SYN_RECV ∨ c.cur.state = TCP_ESTABLISHED
        ∨ c.cur.state = TCP_CLOSE_WAIT) := by rw [hc]; decide
    unfold check_tcp_socket
    rw [if_neg h1, if_neg h2]
    split
    · simp only [same_flow, write_rst_cur, hc, if_true, and_self]
    · exact same_flow_refl _
  · unfold check_tcp_socket
    dsimp only
    repeat' (first | (apply ite_ctx_flow <;> intro _) | split)
    all_goals try simp only [same_flow, write_rst_cur, write_syn_ack_cur, write_fin_ack_cur,
      write_data_cur, true_and]
    all_goals try split_ifs
    all_goals simp [hc]

theorem check_allowed_tcp_flow (uids : List Int) (t : tcp_session) :
    same_flow t (check_allowed_tcp uids t) := by
  unfold check_allowed_tcp
  split_ifs with h1 h2
  · exact same_flow_refl t
  · simp [same_flow, h1.2]
  · exact same_flow_refl t

/-! ## The TCP table, step by step -/

theorem forall2_same_flow_refl (t : List tcp_session) : List.Forall₂ same_flow t t := by
  induction t with
  | nil => exact List.Forall₂.nil
  | cons c t ih => exact List.Forall₂.cons (same_flow_refl c) ih

/-- The table after `handle_tcp`: the old sessions position by position, each the
same flow as before, followed by at most one new session, which is the one
built from the segment, in LISTEN, and there only when no old session
matches. -/
theorem handle_tcp_flow (k : netguard_h) (env : tcp_env) (seg : tcp_in) (uid : Int)
    (table : List tcp_session) :
    List.Forall₂ same_flow table ((handle_tcp k env table seg uid).table.take table.length)
    ∧ ((handle_tcp k env table seg uid).table.drop table.length = []
        ∨ ((handle_tcp k env table seg uid).table.drop table.length
              = [tcp_syn_session env seg uid]
            ∧ ∀ c ∈ table, tcp_match c seg = false)) := by
  induction table with
  | nil =>
    refine ⟨by simp, ?_⟩
    simp only [handle_tcp, handle_tcp_unknown, List.length_nil, List.drop_zero]
    split
    · split
      · exact Or.inl rfl
      · exact Or.inr ⟨rfl, by simp⟩
    · exact Or.inl rfl
  | cons cur next ih =>
    by_cases hm : tcp_match cur seg = true
    · simp only [handle_tcp, hm, if_true, List.length_cons, List.take_succ_cons,
        List.drop_succ_cons]
      refine ⟨?_, ?_⟩
      · rw [List.take_length]
        exact List.Forall₂.cons (handle_tcp_session_flow k env cur seg)
          (forall2_same_flow_refl next)
      · rw [List.drop_length]
        exact Or.inl rfl
    · simp only [handle_tcp, hm, if_false, List.length_cons, List.take_succ_cons,
        List.drop_succ_cons, Bool.false_eq_true]
      refine ⟨List.Forall₂.cons (same_flow_refl cur) ih.1, ?_⟩
      rcases ih.2 with h | h
      · exact Or.inl h
      · refine Or.inr ⟨h.1, ?_⟩
        intro c hc
        rcases List.mem_cons.mp hc with rfl | hc
        · simpa using hm
        · exact h.2 c hc

theorem check_tcp_sockets_from_flow (k : netguard_h) (env : select_env)
    (table : List tcp_session) :
    ∀ io, List.Forall₂ same_flow table (check_tcp_sockets_from k env table io).1 := by
  induction table with
  | nil => intro io; exact List.Forall₂.nil
  | cons cur next ih =>
    intro io
    simp only [check_tcp_sockets_from]
    refine List.Forall₂.cons ?_ (ih _)
    split
    · exact check_tcp_socket_flow k env { cur := cur, io := io }
    · exact same_flow_refl cur

theorem check_allowed_flow (uids : List Int) (udp : List udp_session)
    (table : List tcp_session) :
    List.Forall₂ same_flow table (check_allowed uids udp table).2 :=
  forall2_map_self same_flow _ (check_allowed_tcp_flow uids) table

/-- Every session `check_sessions` keeps is the loop body's result for a session
of the old table. -/
theorem check_sessions_tcp_mem (k : netguard_h) (env : sweep_env) (now : Nat)
    (table : List tcp_session) :
    ∀ s, ∀ d ∈ (check_sessions_tcp k env now table s).1,
      ∃ t ∈ table, ∃ s2, d = (check_sessions_tcp_session k env now t s2).1 := by
  induction table with
  | nil => intro s d hd; simp [check_sessions_tcp] at hd
  | cons t next ih =>
    intro s d hd
    have hn := ih (check_sessions_tcp_session k env now t s).2
    simp only [check_sessions_tcp] at hd
    split at hd
    · obtain ⟨t2, ht2, s2, h2⟩ := hn d hd
      exact ⟨t2, List.mem_cons_of_mem _ ht2, s2, h2⟩
    · rcases List.mem_cons.mp hd with rfl | hd2
      · exact ⟨t, List.mem_cons_self _ _, s, rfl⟩
      · obtain ⟨t2, ht2, s2, h2⟩ := hn d hd2
        exact ⟨t2, List.mem_cons_of_mem _ ht2, s2, h2⟩

/-- The loop body of the sweeper and CLOSE: a session gets to CLOSE only through
the test for TIME_WAIT, with its socket closed and set to -1, and a session in
CLOSE is left as it is. -/
theorem check_sessions_tcp_session_close (k : netguard_h) (env : sweep_env) (now : Nat)
    (t : tcp_session) (s : sweep_state) :
    ((check_sessions_tcp_session k env now t s).1.state = TCP_CLOSE → t.state ≠ TCP_CLOSE →
        (if tcp_idle k now t then write_rst k env.write_ok { cur := t, io := s.io }
          else { cur := t, io := s.io }).cur.state = TCP_TIME_WAIT
        ∧ (check_sessions_tcp_session k env now t s).1.socket = -1
        ∧ (check_sessions_tcp_session k env now t s).2.closed = s.closed ++ [t.socket])
    ∧ (t.state = TCP_CLOSE → check_sessions_tcp_session k env now t s = (t, s)) := by
  cases hi : tcp_idle k now t with
  | true =>
    have h2 := (tcp_idle_iff k now t).1 hi
    rw [check_sessions_tcp_session_idle k env now t s hi]
    refine ⟨fun _ _ => ⟨?_, rfl, rfl⟩, fun hc => absurd hc h2.2.1⟩
    simp only [if_true, write_rst_cur, h2.2.1, if_false]
  | false =>
    rw [check_sessions_tcp_session_busy k env now t s hi]
    by_cases hw : t.state = TCP_TIME_WAIT
    · simp only [hw, if_true, Bool.false_eq_true, if_false]
      exact ⟨fun _ _ => ⟨trivial, trivial, trivial⟩, fun hc => absurd hc (by decide)⟩
    · simp only [hw, if_false, Bool.false_eq_true]
      exact ⟨fun h1 h2 => absurd h1 h2, fun _ => trivial⟩

theorem forall2_closed_socket (t : List tcp_session) :
    ∀ u : List tcp_session, List.Forall₂ same_flow t u →
      (∀ c ∈ t, c.state = TCP_CLOSE → c.socket = -1) →
      ∀ d ∈ u, d.state = TCP_CLOSE → d.socket = -1 := by
  induction t with
  | nil => intro u h _ d hd; cases h; simp at hd
  | cons c t ih =>
    intro u h hinv d hd
    cases h with
    | cons hce hrest =>
      rcases List.mem_cons.mp hd with rfl | hdu
      · intro hs
        obtain ⟨_, _, _, _, _, _, h7, h8⟩ := hce
        rw [h7]
        exact hinv c (List.mem_cons_self _ _) (h8.1 hs)
      · exact ih _ hrest (fun x hx => hinv x (List.mem_cons_of_mem _ hx)) d hdu

theorem tcp_closed_socket (k : netguard_h) (table : List tcp_session)
    (h : tcp_table_state k table) : ∀ c ∈ table, c.state = TCP_CLOSE → c.socket = -1 := by
  induction h with
  | empty => intro c hc; simp at hc
  | handle_tcp env seg uid t _ ih =>
    have hs := handle_tcp_flow k env seg uid t
    intro d hd
    rw [← List.take_append_drop t.length (handle_tcp k env t seg uid).table] at hd
    rcases List.mem_append.mp hd with hd | hd
    · exact forall2_closed_socket t _ hs.1 ih d hd
    · rcases hs.2 with h | h
      · rw [h] at hd; simp at hd
      · rw [h.1] at hd
        simp only [List.mem_singleton] at hd
        subst hd
        intro hc
        exact absurd hc (by simp [tcp_syn_session])
  | check_tcp_sockets env t _ ih =>
    exact forall2_closed_socket t _ (check_tcp_sockets_from_flow k env t {}) ih
  | check_sessions env udp t _ ih =>
    intro d hd hc
    obtain ⟨t2, ht2, s2, h2⟩ := check_sessions_tcp_mem k env (env.time 0) t _ d hd
    have hx := check_sessions_tcp_session_close k env (env.time 0) t2 s2
    by_cases hc2 : t2.state = TCP_CLOSE
    · rw [h2, hx.2 hc2]
      exact ih t2 ht2 hc2
    · rw [h2] at hc ⊢
      exact (hx.1 hc hc2).2.1
  | check_allowed uids udp t _ ih =>
    exact forall2_closed_socket t _ (check_allowed_flow uids udp t) ih

/-- C26. Close ordering invariant.  In every state of the TCP table reachable
from the empty table through `handle_tcp`, `check_tcp_sockets`,
`check_sessions` and `check_allowed`, a session in CLOSE has socket -1.
`handle_tcp`, `check_tcp_sockets` and `check_allowed` keep every session's
socket and leave it in CLOSE exactly when it was in CLOSE (`same_flow`), and a
session `handle_tcp` adds is in LISTEN.  In `check_sessions` a session that was
not in CLOSE is in CLOSE afterwards only when it was in TIME_WAIT at the test
for finished connections (from the start or reset as idle just before), and
then its socket has been closed and set to -1; a session in CLOSE is left as
it is (and kept or unlinked). -/
theorem tcp_close_ordering (k : netguard_h) :
    (∀ table, tcp_table_state k table → ∀ c ∈ table, c.state = TCP_CLOSE → c.socket = -1)
    ∧ (∀ (env : tcp_env) (seg : tcp_in) (uid : Int) (table : List tcp_session),
        List.Forall₂ same_flow table ((handle_tcp k env table seg uid).table.take table.length)
        ∧ ∀ d ∈ (handle_tcp k env table seg uid).table.drop table.length,
            d.state = TCP_LISTEN)
    ∧ (∀ (env : select_env) (table : List tcp_session),
        List.Forall₂ same_flow table (check_tcp_sockets k env table).1)
    ∧ (∀ (uids : List Int) (udp : List udp_session) (table : List tcp_session),
        List.Forall₂ same_flow table (check_allowed uids udp table).2)
    ∧ (∀ (env : sweep_env) (udp : List udp_session) (table : List tcp_session),
        ∀ d ∈ (check_sessions k env udp table).tcp,
          ∃ t ∈ table, ∃ s, d = (check_sessions_tcp_session k env (env.time 0) t s).1)
    ∧ (∀ (env : sweep_env) (now : Nat) (t : tcp_session) (s : sweep_state),
        ((check_sessions_tcp_session k env now t s).1.state = TCP_CLOSE →
          t.state ≠ TCP_CLOSE →
            (if tcp_idle k now t then write_rst k env.write_ok { cur := t, io := s.io }
              else { cur := t, io := s.io }).cur.state = TCP_TIME_WAIT
            ∧ (check_sessions_tcp_session k env now t s).1.socket = -1
            ∧ (check_sessions_tcp_session k env now t s).2.closed = s.closed ++ [t.socket])
        ∧ (t.state = TCP_CLOSE → check_sessions_tcp_session k env now t s = (t, s))) := by
  refine ⟨tcp_closed_socket k, ?_, ?_, ?_, ?_, ?_⟩
  · intro env seg uid table
    have hs := handle_tcp_flow k env seg uid table
    refine ⟨hs.1, ?_⟩
    intro d hd
    rcases hs.2 with h | h
    · rw [h] at hd; simp at hd
    · rw [h.1] at hd
      simp only [List.mem_singleton] at hd
      subst hd
      rfl
  · intro env table
    exact check_tcp_sockets_from_flow k env table {}
  · exact check_allowed_flow
  · intro env udp table d hd
    exact check_sessions_tcp_mem k env (env.time 0) table _ d hd
  · exact check_sessions_tcp_session_close k

/-! ## Resets -/

theorem build_tcp_rst (k : netguard_h) (cur : tcp_session) (data : List Byte) (confirm : Nat)
    (syn ack fin rst : Bool) :
    (build_tcp k cur data confirm syn ack fin rst).tcp.rst = rst := rfl

theorem rst_free_append (b l : List tcp_frame) :
    rst_free b (b ++ l) ↔ ∀ f ∈ l, f.tcp.rst = false := by
  simp [rst_free]

theorem rst_free_self (b : List tcp_frame) : rst_free b b := by
  simp [rst_free]

theorem rst_free_nil (l : List tcp_frame) :
    rst_free [] l ↔ ∀ f ∈ l, f.tcp.rst = false := by
  simp [rst_free]

theorem write_rst_terminal (k : netguard_h) (w : Nat → Bool) (c : tcp_ctx) :
    tcp_terminal (write_rst k w c).cur := by
  rw [write_rst_cur]
  unfold tcp_terminal
  split_ifs
  · exact Or.inr rfl
  · exact Or.inl rfl

theorem ite_rst_terminal (before : List tcp_frame) (p : Prop) [Decidable p]
    (a b : Bool × tcp_ctx)
    (ha : p → rst_terminal before a.2) (hb : ¬ p → rst_terminal before b.2) :
    rst_terminal before (if p then a else b).2 := by
  split
  · exact ha ‹_›
  · exact hb ‹_›

theorem ite_ctx_rst_terminal (before : List tcp_frame) (p : Prop) [Decidable p]
    (a b : tcp_ctx)
    (ha : p → rst_terminal before a) (hb : ¬ p → rst_terminal before b) :
    rst_terminal before (if p then a else b) := by
  split
  · exact ha ‹_›
  · exact hb ‹_›

theorem handle_tcp_session_rst (k : netguard_h) (env : tcp_env) (cur : tcp_session)
    (seg : tcp_in) :
    rst_terminal [] (handle_tcp_session k env cur seg).2 := by
  unfold handle_tcp_session
  dsimp only
  repeat' (apply ite_rst_terminal <;> intro _)
  all_goals first
    | (simp only [rst_terminal, write_rst_terminal, or_true]; done)
    | simp [rst_terminal, rst_free_nil, write_ack_tun, build_tcp_rst, write_rst_terminal,
        tcp_terminal, write_tcp_io]

theorem check_tcp_socket_rst (k : netguard_h) (env : select_env) (c : tcp_ctx) :
    rst_terminal c.io.tun (check_tcp_socket k env c) := by
  unfold check_tcp_socket
  dsimp only
  repeat' (first | (apply ite_ctx_rst_terminal <;> intro _) | split)
  all_goals first
    | (simp only [rst_terminal, write_rst_terminal, or_true]; done)
    | (simp [rst_terminal, rst_free_self, rst_free_append, write_syn_ack_tun, write_fin_ack_tun,
        write_data_tun, build_tcp_rst, write_rst_terminal, tcp_terminal, write_tcp_io]; done)
    | simp_all [rst_terminal, rst_free_self, rst_free_append, write_syn_ack_tun,
        write_fin_ack_tun, write_data_tun, build_tcp_rst, write_rst_terminal, tcp_terminal,
        write_tcp_io]

theorem check_sessions_tcp_session_rst (k : netguard_h) (env : sweep_env) (now : Nat)
    (t : tcp_session) (s : sweep_state) :
    rst_terminal s.io.tun
      { cur := (check_sessions_tcp_session k env now t s).1,
        io := (check_sessions_tcp_session k env now t s).2.io } := by
  cases hi : tcp_idle k now t with
  | true =>
    rw [check_sessions_tcp_session_idle k env now t s hi]
    exact Or.inr (Or.inr rfl)
  | false =>
    rw [check_sessions_tcp_session_busy k env now t s hi]
    split
    · exact Or.inr (Or.inr rfl)
    · exact Or.inl (rst_free_self _)

/-- C27. Reset leaves the flow terminal.  Whatever the tunnel write returns,
`write_rst` changes of the session only the state, to CLOSE when it was CLOSE
and to TIME_WAIT otherwise, so both sequence numbers are kept, and it hands
one packet with RST set to the tunnel.  For a session of the table worked on
by `handle_tcp`, `check_tcp_sockets` or `check_sessions`: either no packet with
RST set was written for it, or it is in TIME_WAIT or CLOSE when the function
is done with it. -/
theorem write_rst_leaves_terminal (k : netguard_h) (w : Nat → Bool) (c : tcp_ctx) :
    (write_rst k w c).cur
        = { c.cur with state := if c.cur.state = TCP_CLOSE then TCP_CLOSE else TCP_TIME_WAIT }
    ∧ ((write_rst k w c).cur.state = TCP_TIME_WAIT ∨ (write_rst k w c).cur.state = TCP_CLOSE)
    ∧ (write_rst k w c).cur.local_seq = c.cur.local_seq
    ∧ (write_rst k w c).cur.remote_seq = c.cur.remote_seq
    ∧ (write_rst k w c).io.tun = c.io.tun ++ [build_tcp k c.cur [] 0 false false false true]
    ∧ (build_tcp k c.cur [] 0 false false false true).tcp.rst = true
    ∧ (∀ (env : tcp_env) (cur : tcp_session) (seg : tcp_in),
        rst_terminal [] (handle_tcp_session k env cur seg).2)
    ∧ (∀ (env : select_env) (d : tcp_ctx), rst_terminal d.io.tun (check_tcp_socket k env d))
    ∧ (∀ (env : sweep_env) (now : Nat) (t : tcp_session) (s : sweep_state),
        rst_terminal s.io.tun
          { cur := (check_sessions_tcp_session k env now t s).1,
            io := (check_sessions_tcp_session k env now t s).2.io }) := by
  refine ⟨write_rst_cur k w c, write_rst_terminal k w c, (write_rst_starts k w c).2.2.1,
    (write_rst_starts k w c).2.2.2, ?_, rfl, handle_tcp_session_rst k, check_tcp_socket_rst k,
    check_sessions_tcp_session_rst k⟩
  rw [write_rst_eq]

/-! ## The session search and the 5-tuple -/

theorem tcp_search_some (seg : tcp_in) (table : List tcp_session) (cur : tcp_session)
    (h : tcp_search seg table = some cur) :
    ∃ pre post, table = pre ++ cur :: post ∧ (∀ c ∈ pre, tcp_match c seg = false)
      ∧ tcp_match cur seg = true := by
  induction table with
  | nil => simp [tcp_search] at h
  | cons c next ih =>
    by_cases hm : tcp_match c seg = true
    · simp only [tcp_search, hm, if_true, Option.some.injEq] at h
      subst h
      exact ⟨[], next, rfl, by simp, hm⟩
    · simp only [tcp_search, hm, if_false, Bool.false_eq_true] at h
      obtain ⟨pre, post, h1, h2, h3⟩ := ih h
      refine ⟨c :: pre, post, by rw [h1]; rfl, ?_, h3⟩
      intro x hx
      rcases List.mem_cons.mp hx with rfl | hx
      · simpa using hm
      · exact h2 x hx

theorem tcp_search_none (seg : tcp_in) (table : List tcp_session)
    (h : ∀ c ∈ table, tcp_match c seg = false) : tcp_search seg table = none := by
  induction table with
  | nil => rfl
  | cons c next ih =>
    have hc := h c (List.mem_cons_self _ _)
    simp only [tcp_search, hc, Bool.false_eq_true, if_false]
    exact ih (fun x hx => h x (List.mem_cons_of_mem _ hx))

theorem udp_search_some (seg : udp_in) (table : List udp_session)
    (before : List udp_session) (cur : udp_session) (next : List udp_session)
    (h : udp_search seg table = some (before, cur, next)) :
    table = before ++ cur :: next ∧ (∀ c ∈ before, udp_match c seg = false)
      ∧ udp_match cur seg = true := by
  induction table generalizing before with
  | nil => simp [udp_search] at h
  | cons c rest ih =>
    by_cases hm : udp_match c seg = true
    · simp only [udp_search, hm, if_true, Option.some.injEq, Prod.mk.injEq] at h
      obtain ⟨h1, h2, h3⟩ := h
      subst h1 h2 h3
      exact ⟨rfl, by simp, hm⟩
    · simp only [udp_search, hm, if_false, Bool.false_eq_true, Option.map_eq_some',
        Prod.mk.injEq] at h
      obtain ⟨r, hr, h1, h2, h3⟩ := h
      obtain ⟨i1, i2, i3⟩ := ih r.1 (by rw [hr, ← h2, ← h3])
      subst h1
      refine ⟨by rw [i1]; rfl, ?_, i3⟩
      intro x hx
      rcases List.mem_cons.mp hx with rfl | hx
      · simpa using hm
      · exact i2 x hx

theorem udp_search_none (seg : udp_in) (table : List udp_session)
    (h : ∀ c ∈ table, udp_match c seg = false) : udp_search seg table = none := by
  induction table with
  | nil => rfl
  | cons c next ih =>
    have hc := h c (List.mem_cons_self _ _)
    simp only [udp_search, hc, Bool.false_eq_true, if_false,
      ih (fun x hx => h x (List.mem_cons_of_mem _ hx)), Option.map_none']

theorem tcp_match_iff (cur : tcp_session) (seg : tcp_in) :
    tcp_match cur seg = true ↔
      (cur.source = seg.tcp.source ∧ cur.dest = seg.tcp.dest ∧
        (if seg.version = 4 then
           ip4_bytes cur.saddr = ip4_bytes seg.saddr ∧ ip4_bytes cur.daddr = ip4_bytes seg.daddr
         else
           ip6_bytes cur.saddr = ip6_bytes seg.saddr
             ∧ ip6_bytes cur.daddr = ip6_bytes seg.daddr)) := by
  simp only [tcp_match, decide_eq_true_eq]

theorem udp_match_iff (cur : udp_session) (seg : udp_in) :
    udp_match cur seg = true ↔
      (cur.source = seg.udp.source ∧ cur.dest = seg.udp.dest ∧
        (if seg.version = 4 then
           ip4_bytes cur.saddr = ip4_bytes seg.saddr ∧ ip4_bytes cur.daddr = ip4_bytes seg.daddr
         else
           ip6_bytes cur.saddr = ip6_bytes seg.saddr
             ∧ ip6_bytes cur.daddr = ip6_bytes seg.daddr)) := by
  simp only [udp_match, decide_eq_true_eq]

/-- A session of the packet's version matches exactly when it has the packet's
5-tuple. -/
theorem tcp_match_tuple (cur : tcp_session) (seg : tcp_in) (hv : cur.version = seg.version) :
    tcp_match cur seg = true ↔ tcp_tuple cur = seg.tuple := by
  rw [tcp_match_iff]
  simp only [tcp_tuple, tcp_in.tuple, hv, Prod.mk.injEq, true_and]
  by_cases h4 : seg.version = 4
  · simp only [h4, if_true]; tauto
  · simp only [h4, if_false]; tauto

theorem udp_match_tuple (cur : udp_session) (seg : udp_in) (hv : cur.version = seg.version) :
    udp_match cur seg = true ↔ udp_tuple cur = seg.tuple := by
  rw [udp_match_iff]
  simp only [udp_tuple, udp_in.tuple, hv, Prod.mk.injEq, true_and]
  by_cases h4 : seg.version = 4
  · simp only [h4, if_true]; tauto
  · simp only [h4, if_false]; tauto

set_option maxRecDepth 100000 in
/-- C22. Lookup and the 5-tuple.  The session the search of `handle_tcp` or of
`handle_udp` stops at (the one the handler then works on) has the packet's
ports and, read as the packet's IP version says (four bytes for version 4,
sixteen otherwise), the packet's addresses; it has the packet's 5-tuple when
its version is the packet's.  The version itself is not compared: for the
IPv4 FIN segment 10.0.0.2:40000 to 93.184.216.34:80 the search stops at the
IPv6 session whose addresses start with these four bytes, whose 5-tuple is not
the segment's, and the acknowledgement written to the tunnel is an IPv6
packet; likewise for the IPv4 datagram to port 53 and the IPv6 UDP session. -/
theorem lookup_ignores_version (k : netguard_h) :
    (∀ (env : tcp_env) (seg : tcp_in) (uid : Int) (table : List tcp_session)
        (cur : tcp_session), tcp_search seg table = some cur →
        (∃ pre post, table = pre ++ cur :: post
          ∧ (handle_tcp k env table seg uid).table
              = pre ++ (handle_tcp_session k env cur seg).2.cur :: post)
        ∧ cur.source = seg.tcp.source ∧ cur.dest = seg.tcp.dest
        ∧ (if seg.version = 4 then
             ip4_bytes cur.saddr = ip4_bytes seg.saddr ∧ ip4_bytes cur.daddr = ip4_bytes seg.daddr
           else
             ip6_bytes cur.saddr = ip6_bytes seg.saddr
               ∧ ip6_bytes cur.daddr = ip6_bytes seg.daddr)
        ∧ (cur.version = seg.version → tcp_tuple cur = seg.tuple))
    ∧ (∀ (seg : udp_in) (table before : List udp_session) (cur : udp_session)
        (next : List udp_session), udp_search seg table = some (before, cur, next) →
        table = before ++ cur :: next
        ∧ cur.source = seg.udp.source ∧ cur.dest = seg.udp.dest
        ∧ (if seg.version = 4 then
             ip4_bytes cur.saddr = ip4_bytes seg.saddr ∧ ip4_bytes cur.daddr = ip4_bytes seg.daddr
           else
             ip6_bytes cur.saddr = ip6_bytes seg.saddr
               ∧ ip6_bytes cur.daddr = ip6_bytes seg.daddr)
        ∧ (cur.version = seg.version → udp_tuple cur = seg.tuple))
    ∧ (tcp_search (ex_segment 1001 5001 false true true []) [ex_session6] = some ex_session6
        ∧ (ex_segment 1001 5001 false true true []).version = 4
        ∧ ex_session6.version = 6
        ∧ tcp_tuple ex_session6 ≠ (ex_segment 1001 5001 false true true []).tuple
        ∧ (handle_tcp ex_k (ex_env 1) [ex_session6]
              (ex_segment 1001 5001 false true true []) 10001).table
            = [{ ex_session6 with time := 100, remote_seq := 1002, state := TCP_CLOSE_WAIT }]
        ∧ (handle_tcp ex_k (ex_env 1) [ex_session6]
              (ex_segment 1001 5001 false true true []) 10001).io.tun.map
                (fun f => f.ip.version) = [6])
    ∧ (udp_search (ex_udp_in 40000 ex_query) [ex_udp 6] = some ([], ex_udp 6, [])
        ∧ (ex_udp_in 40000 ex_query).version = 4
        ∧ (ex_udp 6).version = 6
        ∧ udp_tuple (ex_udp 6) ≠ (ex_udp_in 40000 ex_query).tuple
        ∧ (handle_udp ex_k (ex_udp_env 8 29) [] [ex_udp 6] (ex_udp_in 40000 ex_query) 10001).table
            = [{ ex_udp 6 with time := 100 }]) := by
  refine ⟨?_, ?_, ?_, ?_⟩
  · intro env seg uid table cur h
    obtain ⟨pre, post, h1, h2, h3⟩ := tcp_search_some seg table cur h
    have hm := (tcp_match_iff cur seg).1 h3
    refine ⟨⟨pre, post, h1, ?_⟩, hm.1, hm.2.1, hm.2.2, ?_⟩
    · rw [h1, handle_tcp_found k env seg uid pre cur post h2 h3]
    · intro hv
      exact (tcp_match_tuple cur seg hv).1 h3
  · intro seg table before cur next h
    obtain ⟨h1, _, h3⟩ := udp_search_some seg table before cur next h
    have hm := (udp_match_iff cur seg).1 h3
    exact ⟨h1, hm.1, hm.2.1, hm.2.2, fun hv => (udp_match_tuple cur seg hv).1 h3⟩
  · decide
  · decide

/-! ## Uniqueness of the 5-tuple -/

theorem forall2_flow_tuples (t : List tcp_session) :
    ∀ u : List tcp_session, List.Forall₂ same_flow t u →
      u.map tcp_tuple = t.map tcp_tuple := by
  induction t with
  | nil => intro u h; cases h; rfl
  | cons c t ih =>
    intro u h
    cases h with
    | cons hce hrest =>
      simp only [List.map_cons, same_flow_tuple c _ hce, ih _ hrest]

theorem tcp_syn_session_tuple (env : tcp_env) (seg : tcp_in) (uid : Int) :
    tcp_tuple (tcp_syn_session env seg uid) = seg.tuple := by
  by_cases h4 : seg.version = 4
  · simp only [tcp_tuple, tcp_in.tuple, tcp_syn_session, h4, if_true, ip4_bytes_store]
  · simp only [tcp_tuple, tcp_in.tuple, tcp_syn_session, h4, if_false, ip6_bytes_idem]

theorem udp_new_session_tuple (env : udp_env) (seg : udp_in) (uid : Int) :
    udp_tuple (udp_new_session env seg uid) = seg.tuple := by
  by_cases h4 : seg.version = 4
  · simp only [udp_tuple, udp_in.tuple, udp_new_session, h4, if_true, ip4_bytes_store]
  · simp only [udp_tuple, udp_in.tuple, udp_new_session, h4, if_false, ip6_bytes_idem]

theorem tcp_tuple_match (cur : tcp_session) (seg : tcp_in) (h : tcp_tuple cur = seg.tuple) :
    tcp_match cur seg = true := by
  have hv : cur.version = seg.version := by
    simp only [tcp_tuple, tcp_in.tuple, Prod.mk.injEq] at h
    exact h.1
  exact (tcp_match_tuple cur seg hv).2 h

theorem udp_tuple_match (cur : udp_session) (seg : udp_in) (h : udp_tuple cur = seg.tuple) :
    udp_match cur seg = true := by
  have hv : cur.version = seg.version := by
    simp only [udp_tuple, udp_in.tuple, Prod.mk.injEq] at h
    exact h.1
  exact (udp_match_tuple cur seg hv).2 h

theorem nodup_map_concat {α β : Type} (f : α → β) (l : List α) (x : α)
    (h : (l.map f).Nodup) (hx : ∀ c ∈ l, f c ≠ f x) : ((l ++ [x]).map f).Nodup := by
  rw [List.map_append, List.map_singleton]
  refine List.Nodup.append h (List.nodup_singleton _) ?_
  intro a ha hb
  rw [List.mem_singleton] at hb
  obtain ⟨c, hc, rfl⟩ := List.mem_map.mp ha
  exact hx c hc hb

theorem handle_tcp_unique (k : netguard_h) (env : tcp_env) (seg : tcp_in) (uid : Int)
    (table : List tcp_session) (h : (table.map tcp_tuple).Nodup) :
    ((handle_tcp k env table seg uid).table.map tcp_tuple).Nodup := by
  have hs := handle_tcp_flow k env seg uid table
  have ht := forall2_flow_tuples table _ hs.1
  rw [← List.take_append_drop table.length (handle_tcp k env table seg uid).table]
  rcases hs.2 with hd | hd
  · rw [hd, List.append_nil, ht]; exact h
  · rw [hd.1, List.map_append, ht, ← List.map_append]
    refine nodup_map_concat tcp_tuple table _ h ?_
    intro c hc heq
    rw [tcp_syn_session_tuple] at heq
    have := tcp_tuple_match c seg heq
    rw [hd.2 c hc] at this
    exact absurd this (by decide)

theorem check_sessions_tcp_tuples (k : netguard_h) (env : sweep_env) (now : Nat)
    (table : List tcp_session) :
    ∀ s, List.Sublist ((check_sessions_tcp k env now table s).1.map tcp_tuple)
      (table.map tcp_tuple) := by
  induction table with
  | nil => intro s; simp [check_sessions_tcp]
  | cons t next ih =>
    intro s
    have hn := ih (check_sessions_tcp_session k env now t s).2
    have ht : tcp_tuple (check_sessions_tcp_session k env now t s).1 = tcp_tuple t := by
      cases hi : tcp_idle k now t with
      | true => rw [check_sessions_tcp_session_idle k env now t s hi]; rfl
      | false =>
        rw [check_sessions_tcp_session_busy k env now t s hi]
        split <;> rfl
    simp only [check_sessions_tcp]
    split
    · exact List.Sublist.cons _ hn
    · simp only [List.map_cons, ht]
      exact List.Sublist.cons₂ _ hn

/-- In every reachable state of the TCP table no two sessions have the same
5-tuple. -/
theorem tcp_table_unique (k : netguard_h) (table : List tcp_session)
    (h : tcp_table_state k table) : (table.map tcp_tuple).Nodup := by
  induction h with
  | empty => exact List.nodup_nil
  | handle_tcp env seg uid t _ ih => exact handle_tcp_unique k env seg uid t ih
  | check_tcp_sockets env t _ ih =>
    rw [check_tcp_sockets, forall2_flow_tuples t _ (check_tcp_sockets_from_flow k env t {})]
    exact ih
  | check_sessions env udp t _ ih =>
    exact List.Nodup.sublist (check_sessions_tcp_tuples k env (env.time 0) t _) ih
  | check_allowed uids udp t _ ih =>
    rw [forall2_flow_tuples t _ (check_allowed_flow uids udp t)]
    exact ih

theorem check_udp_socket_tuple (k : netguard_h) (env : select_env) (c : udp_ctx) :
    udp_tuple (check_udp_socket k env c).cur = udp_tuple c.cur := by
  unfold check_udp_socket
  dsimp only
  repeat' split
  all_goals rfl

theorem check_udp_sockets_from_tuples (k : netguard_h) (env : select_env)
    (table : List udp_session) :
    ∀ io, (check_udp_sockets_from k env table io).1.map udp_tuple = table.map udp_tuple := by
  induction table with
  | nil => intro io; rfl
  | cons cur next ih =>
    intro io
    simp only [check_udp_sockets_from, List.map_cons, ih]
    congr 1
    split
    · exact check_udp_socket_tuple k env { cur := cur, io := io }
    · rfl

theorem check_allowed_udp_tuple (uids : List Int) (u : udp_session) :
    udp_tuple (check_allowed_udp uids u) = udp_tuple u := by
  unfold check_allowed_udp
  split_ifs <;> rfl

theorem ite_udp_tuple (t : Nat × List Byte × List Byte × Nat × Nat) (p : Prop) [Decidable p]
    (a b : Bool × udp_ctx)
    (ha : p → udp_tuple a.2.cur = t) (hb : ¬ p → udp_tuple b.2.cur = t) :
    udp_tuple (if p then a else b).2.cur = t := by
  split
  · exact ha ‹_›
  · exact hb ‹_›

theorem handle_udp_session_tuple (k : netguard_h) (env : udp_env) (hosts : List (List Byte))
    (calls : Nat) (cur : udp_session) (seg : udp_in)
    (h : ¬ (ntohs seg.udp.source = 68 ∨ ntohs seg.udp.dest = 67)) :
    udp_tuple (handle_udp_session k env hosts calls cur seg).2.cur = udp_tuple cur := by
  have hneg : ¬ ((-1 : Int) ≥ 0) := by decide
  simp only [handle_udp_session, h, if_false, hneg]
  repeat' (apply ite_udp_tuple <;> intro _)
  all_goals rfl

theorem udp_search_no_match (seg : udp_in) (table : List udp_session)
    (h : udp_search seg table = none) : ∀ c ∈ table, udp_match c seg = false := by
  induction table with
  | nil => intro c hc; simp at hc
  | cons c next ih =>
    by_cases hm : udp_match c seg = true
    · simp [udp_search, hm] at h
    · simp only [udp_search, hm, if_false, Bool.false_eq_true, Option.map_eq_none'] at h
      intro x hx
      rcases List.mem_cons.mp hx with rfl | hx
      · simpa using hm
      · exact ih h x hx

theorem handle_udp_unique (k : netguard_h) (env : udp_env) (hosts : List (List Byte))
    (table : List udp_session) (seg : udp_in) (uid : Int)
    (hd : ¬ (ntohs seg.udp.source = 68 ∨ ntohs seg.udp.dest = 67))
    (h : (table.map udp_tuple).Nodup) :
    ((handle_udp k env hosts table seg uid).table.map udp_tuple).Nodup := by
  cases hs : udp_search seg table with
  | some r =>
    obtain ⟨before, cur, next⟩ := r
    have hl : udp_lookup env table seg uid = some (before, cur, next, 0) := by
      simp only [udp_lookup, hs]
    rw [handle_udp_located k env hosts table seg uid before cur next 0 hl]
    have ht := (udp_search_some seg table before cur next hs).1
    rw [ht] at h
    simp only [List.map_append, List.map_cons,
      handle_udp_session_tuple k env hosts 0 cur seg hd] at h ⊢
    exact h
  | none =>
    by_cases hk : (udp_new_session env seg uid).socket < 0
    · have hl : udp_lookup env table seg uid = none := by
        simp only [udp_lookup, hs, hk, if_true]
      simp only [handle_udp, hl]
      exact h
    · have hl : udp_lookup env table seg uid
          = some (table, udp_new_session env seg uid, [], 1) := by
        simp only [udp_lookup, hs, hk, if_false]
      rw [handle_udp_located k env hosts table seg uid table _ [] 1 hl]
      refine nodup_map_concat udp_tuple table _ h ?_
      intro c hc heq
      rw [handle_udp_session_tuple k env hosts 1 _ seg hd, udp_new_session_tuple] at heq
      have := udp_tuple_match c seg heq
      rw [udp_search_no_match seg table hs c hc] at this
      exact absurd this (by decide)

set_option maxRecDepth 100000 in
/-- C21. 5-tuple uniqueness.  From tables in which no two sessions have the same
5-tuple, `handle_tcp`, `check_tcp_sockets`, `check_sessions`, `check_allowed`
and `check_udp_sockets` lead to tables with the same property, and so does
`handle_udp` for a datagram that does not go to `check_dhcp` (source port not
68 and destination port not 67); every reachable state of the TCP table has
it.  `handle_udp` loses it on the DHCP path: `check_dhcp` overwrites the source
address of the session, so the discover from 0.0.0.0:68 to 255.255.255.255:67
sent twice, starting from the empty table, leaves two sessions with the
5-tuple (4, 10.1.10.1, 255.255.255.255, 68, 67), whatever `check_dhcp`
returns. -/
theorem tuple_unique_except_dhcp (k : netguard_h) (udp : List udp_session)
    (tcp : List tcp_session)
    (hu : (udp.map udp_tuple).Nodup) (ht : (tcp.map tcp_tuple).Nodup) :
    (∀ (env : tcp_env) (seg : tcp_in) (uid : Int),
        ((handle_tcp k env tcp seg uid).table.map tcp_tuple).Nodup)
    ∧ (∀ env : select_env, ((check_tcp_sockets k env tcp).1.map tcp_tuple).Nodup)
    ∧ (∀ env : sweep_env,
        ((check_sessions k env udp tcp).tcp.map tcp_tuple).Nodup
        ∧ ((check_sessions k env udp tcp).udp.map udp_tuple).Nodup)
    ∧ (∀ uids : List Int,
        ((check_allowed uids udp tcp).1.map udp_tuple).Nodup
        ∧ ((check_allowed uids udp tcp).2.map tcp_tuple).Nodup)
    ∧ (∀ env : select_env, ((check_udp_sockets k env udp).1.map udp_tuple).Nodup)
    ∧ (∀ (env : udp_env) (hosts : List (List Byte)) (seg : udp_in) (uid : Int),
        ¬ (ntohs seg.udp.source = 68 ∨ ntohs seg.udp.dest = 67) →
        ((handle_udp k env hosts udp seg uid).table.map udp_tuple).Nodup)
    ∧ (∀ table, tcp_table_state k table → (table.map tcp_tuple).Nodup)
    ∧ (∀ ret : Int, ret = 0 ∨ ret = -1 →
        ((handle_udp ex_k (ex_dhcp_env ret) [] [] ex_discover 10001).table.map udp_tuple).Nodup
        ∧ (handle_udp ex_k (ex_dhcp_env ret) []
            (handle_udp ex_k (ex_dhcp_env ret) [] [] ex_discover 10001).table
              ex_discover 10001).table.map udp_tuple
            = [(4, [10, 1, 10, 1], [255, 255, 255, 255], htons 68, htons 67),
               (4, [10, 1, 10, 1], [255, 255, 255, 255], htons 68, htons 67)]
        ∧ ¬ ((handle_udp ex_k (ex_dhcp_env ret) []
            (handle_udp ex_k (ex_dhcp_env ret) [] [] ex_discover 10001).table
              ex_discover 10001).table.map udp_tuple).Nodup) := by
  refine ⟨?_, ?_, ?_, ?_, ?_, ?_, tcp_table_unique k, ?_⟩
  · intro env seg uid
    exact handle_tcp_unique k env seg uid tcp ht
  · intro env
    rw [check_tcp_sockets, forall2_flow_tuples tcp _ (check_tcp_sockets_from_flow k env tcp {})]
    exact ht
  · intro env
    refine ⟨List.Nodup.sublist (check_sessions_tcp_tuples k env (env.time 0) tcp _) ht, ?_⟩
    have h := (check_sessions_udp_filter k (env.time 0) udp).1
    show ((check_sessions_udp k (env.time 0) udp).1.map udp_tuple).Nodup
    rw [h]
    exact List.Nodup.sublist (List.Sublist.map _ (List.filter_sublist udp)) hu
  · intro uids
    refine ⟨?_, ?_⟩
    · have : (check_allowed uids udp tcp).1.map udp_tuple = udp.map udp_tuple := by
        simp only [check_allowed, List.map_map]
        exact List.map_congr_left (fun u _ => check_allowed_udp_tuple uids u)
      rw [this]; exact hu
    · rw [forall2_flow_tuples tcp _ (check_allowed_flow uids udp tcp)]
      exact ht
  · intro env
    rw [check_udp_sockets, check_udp_sockets_from_tuples]
    exact hu
  · intro env hosts seg uid hd
    exact handle_udp_unique k env hosts udp seg uid hd hu
  · intro ret hr
    have h1 : (handle_udp ex_k (ex_dhcp_env ret) [] [] ex_discover 10001).table.map udp_tuple
        = [(4, [10, 1, 10, 1], [255, 255, 255, 255], htons 68, htons 67)] := by
      rcases hr with rfl | rfl <;> decide
    have h2 : (handle_udp ex_k (ex_dhcp_env ret) []
        (handle_udp ex_k (ex_dhcp_env ret) [] [] ex_discover 10001).table
          ex_discover 10001).table.map udp_tuple
        = [(4, [10, 1, 10, 1], [255, 255, 255, 255], htons 68, htons 67),
           (4, [10, 1, 10, 1], [255, 255, 255, 255], htons 68, htons 67)] := by
      rcases hr with rfl | rfl <;> decide
    refine ⟨?_, h2, ?_⟩
    · rw [h1]; exact List.nodup_singleton _
    · rw [h2]; simp

/-! ## `handle_ip` and the allow-list -/

theorem uid_lookup_unresolved (get_uid : Nat → Nat → Nat → List Byte → Nat → Bool → Int)
    (h : ∀ n a b c d e, get_uid n a b c d e < 0) (protocol version : Nat) (saddr : List Byte)
    (sport : Nat) :
    ∀ (left : Nat) (uid : Int) (calls : Nat), uid < 0 →
      uid_lookup get_uid protocol version saddr sport left uid calls < 0 := by
  intro left
  induction left with
  | zero => intro uid calls hu; exact hu
  | succ left ih =>
    intro uid calls hu
    rw [uid_lookup, if_pos hu]
    apply ih
    dsimp only
    by_cases h4 : version = 4
    · simp only [h4, if_true]
      split
      · exact h _ _ _ _ _ _
      · exact h _ _ _ _ _ _
    · simp only [h4, if_false, hu, if_true]
      exact h _ _ _ _ _ _

theorem handle_ip_allowed_tcp (k : netguard_h) (env : ip_env) (args : arguments)
    (udp : List udp_session) (tcp : List tcp_session) (pkt : List Byte) (p : ip_packet)
    (hp : ip_parse env.loglevel pkt = some p) (ht : p.protocol = IPPROTO_TCP)
    (hs : (tcp_segment pkt p.payload).tcp.syn = false) :
    handle_ip k env args udp tcp pkt
      = { allowed :=
            (handle_tcp k env.tcp tcp (tcp_segment pkt p.payload) (ip_uid k env args pkt p)).allowed,
          udp := udp,
          tcp :=
            (handle_tcp k env.tcp tcp (tcp_segment pkt p.payload) (ip_uid k env args pkt p)).table,
          tcp_io :=
            (handle_tcp k env.tcp tcp (tcp_segment pkt p.payload) (ip_uid k env args pkt p)).io,
          udp_io := {},
          handler := some IPPROTO_TCP,
          logged :=
            if args.log ∧ (¬ args.filter ∨ (handle_tcp k env.tcp tcp (tcp_segment pkt p.payload)
                (ip_uid k env args pkt p)).allowed = false) then
              some (handle_tcp k env.tcp tcp (tcp_segment pkt p.payload)
                (ip_uid k env args pkt p)).allowed
            else none } := by
  have hne : ¬ IPPROTO_TCP = IPPROTO_UDP := by decide
  simp only [handle_ip, hp, ht, hs, hne, if_false, if_true, Bool.false_eq_true, and_false,
    false_and, decide_False, Bool.not_false, Bool.or_false, Bool.not_eq_true',
    decide_True, Bool.true_and]

theorem handle_ip_blocked_syn (k : netguard_h) (env : ip_env) (args : arguments)
    (udp : List udp_session) (tcp : List tcp_session) (pkt : List Byte) (p : ip_packet)
    (hp : ip_parse env.loglevel pkt = some p) (ht : p.protocol = IPPROTO_TCP)
    (hs : (tcp_segment pkt p.payload).tcp.syn = true) (hf : args.filter = true)
    (hu : ip_uid k env args pkt p ∉ args.uids) :
    handle_ip k env args udp tcp pkt
      = { allowed := false, udp := udp, tcp := tcp, tcp_io := {}, udp_io := {},
          handler := none, logged := none } := by
  simp only [handle_ip, hp, ht, hs, hf, hu, and_self, decide_True, if_true, decide_False,
    Bool.false_eq_true, if_false, not_true_eq_false, and_false]

theorem handle_ip_udp (k : netguard_h) (env : ip_env) (args : arguments)
    (udp : List udp_session) (tcp : List tcp_session) (pkt : List Byte) (p : ip_packet)
    (hp : ip_parse env.loglevel pkt = some p) (hu : p.protocol = IPPROTO_UDP) :
    handle_ip k env args udp tcp pkt
      = { allowed :=
            (handle_udp k env.udp args.hosts udp (udp_datagram pkt p.payload)
              (ip_uid k env args pkt p)).allowed,
          udp :=
            (handle_udp k env.udp args.hosts udp (udp_datagram pkt p.payload)
              (ip_uid k env args pkt p)).table,
          tcp := tcp,
          tcp_io := {},
          udp_io :=
            (handle_udp k env.udp args.hosts udp (udp_datagram pkt p.payload)
              (ip_uid k env args pkt p)).io,
          handler := some IPPROTO_UDP,
          logged :=
            if args.log ∧ (¬ args.filter
                ∨ (handle_udp k env.udp args.hosts udp (udp_datagram pkt p.payload)
                    (ip_uid k env args pkt p)).allowed = false
                ∨ ntohs (udp_datagram pkt p.payload).udp.dest ≠ 53) then
              some (handle_udp k env.udp args.hosts udp (udp_datagram pkt p.payload)
                (ip_uid k env args pkt p)).allowed
            else none } := by
  have hne : ¬ IPPROTO_UDP = IPPROTO_TCP := by decide
  simp only [handle_ip, hp, hu, hne, if_false, if_true, Bool.false_eq_true, and_false,
    false_and, decide_False, Bool.not_false, Bool.or_eq_true, Bool.not_eq_true',
    decide_eq_true_eq]

set_option maxRecDepth 100000 in
/-- C30. Filtering of UDP.  Every packet `handle_ip` takes as a UDP datagram goes
to `handle_udp`, whatever the filter flag and the allow-list: the UDP table,
the calls made and the verdict are those of `handle_udp`.  With filtering on
and the allow-list holding only 10002, the datagram of owner 10001 to port
9999 creates a session on the empty table and is sent to its socket. -/
theorem handle_ip_udp_unfiltered (k : netguard_h) (env : ip_env) (args : arguments)
    (udp : List udp_session) (tcp : List tcp_session) (pkt : List Byte) (p : ip_packet)
    (hp : ip_parse env.loglevel pkt = some p) (hu : p.protocol = IPPROTO_UDP) :
    handle_ip k env args udp tcp pkt
      = { allowed :=
            (handle_udp k env.udp args.hosts udp (udp_datagram pkt p.payload)
              (ip_uid k env args pkt p)).allowed,
          udp :=
            (handle_udp k env.udp args.hosts udp (udp_datagram pkt p.payload)
              (ip_uid k env args pkt p)).table,
          tcp := tcp,
          tcp_io := {},
          udp_io :=
            (handle_udp k env.udp args.hosts udp (udp_datagram pkt p.payload)
              (ip_uid k env args pkt p)).io,
          handler := some IPPROTO_UDP,
          logged :=
            if args.log ∧ (¬ args.filter
                ∨ (handle_udp k env.udp args.hosts udp (udp_datagram pkt p.payload)
                    (ip_uid k env args pkt p)).allowed = false
                ∨ ntohs (udp_datagram pkt p.payload).udp.dest ≠ 53) then
              some (handle_udp k env.udp args.hosts udp (udp_datagram pkt p.payload)
                (ip_uid k env args pkt p)).allowed
            else none }
    ∧ (ex_args.filter = true
        ∧ ip_parse ex_ip_env.loglevel ex_udp_packet
            = some { version := 4, protocol := IPPROTO_UDP, payload := 20 }
        ∧ ip_uid ex_k ex_ip_env ex_args ex_udp_packet
            { version := 4, protocol := IPPROTO_UDP, payload := 20 } = 10001
        ∧ (10001 : Int) ∉ ex_args.uids
        ∧ (handle_ip ex_k ex_ip_env ex_args [] [] ex_udp_packet).allowed = true
        ∧ (handle_ip ex_k ex_ip_env ex_args [] [] ex_udp_packet).udp
            = [{ time := 100, uid := 10001, version := 4,
                 saddr := [10, 0, 0, 2, 0, 0, 0, 0, 0, 0, 0, 0, 0, 0, 0, 0],
                 source := htons 40000,
                 daddr := [93, 184, 216, 34, 0, 0, 0, 0, 0, 0, 0, 0, 0, 0, 0, 0],
                 dest := htons 9999, stop := false, socket := 8 }]
        ∧ (handle_ip ex_k ex_ip_env ex_args [] [] ex_udp_packet).udp_io.sent
            = [{ socket := 8, data := [1, 2, 3, 4], addr := [93, 184, 216, 34],
                 port := htons 9999 }]) := by
  refine ⟨handle_ip_udp k env args udp tcp pkt p hp hu, ?_⟩
  decide

/-! ## Witnesses: the theorems on the tables, the sweeper and `handle_ip` at concrete inputs -/

/-- Witness for C21: the tables holding the example UDP session and the example
TCP session. -/
theorem tuple_unique_except_dhcp_witness :
    (∀ (env : tcp_env) (seg : tcp_in) (uid : Int),
        ((handle_tcp ex_k env [ex_session TCP_ESTABLISHED] seg uid).table.map tcp_tuple).Nodup)
    ∧ (∀ env : select_env, ((check_tcp_sockets ex_k env [ex_session TCP_ESTABLISHED]).1.map tcp_tuple).Nodup)
    ∧ (∀ env : sweep_env,
        ((check_sessions ex_k env [ex_udp 4] [ex_session TCP_ESTABLISHED]).tcp.map tcp_tuple).Nodup
        ∧ ((check_sessions ex_k env [ex_udp 4] [ex_session TCP_ESTABLISHED]).udp.map udp_tuple).Nodup)
    ∧ (∀ uids : List Int,
        ((check_allowed uids [ex_udp 4] [ex_session TCP_ESTABLISHED]).1.map udp_tuple).Nodup
        ∧ ((check_allowed uids [ex_udp 4] [ex_session TCP_ESTABLISHED]).2.map tcp_tuple).Nodup)
    ∧ (∀ env : select_env, ((check_udp_sockets ex_k env [ex_udp 4]).1.map udp_tuple).Nodup)
    ∧ (∀ (env : udp_env) (hosts : List (List Byte)) (seg : udp_in) (uid : Int),
        ¬ (ntohs seg.udp.source = 68 ∨ ntohs seg.udp.dest = 67) →
        ((handle_udp ex_k env hosts [ex_udp 4] seg uid).table.map udp_tuple).Nodup)
    ∧ (∀ table, tcp_table_state ex_k table → (table.map tcp_tuple).Nodup)
    ∧ (∀ ret : Int, ret = 0 ∨ ret = -1 →
        ((handle_udp ex_k (ex_dhcp_env ret) [] [] ex_discover 10001).table.map udp_tuple).Nodup
        ∧ (handle_udp ex_k (ex_dhcp_env ret) []
            (handle_udp ex_k (ex_dhcp_env ret) [] [] ex_discover 10001).table
              ex_discover 10001).table.map udp_tuple
            = [(4, [10, 1, 10, 1], [255, 255, 255, 255], htons 68, htons 67),
               (4, [10, 1, 10, 1], [255, 255, 255, 255], htons 68, htons 67)]
        ∧ ¬ ((handle_udp ex_k (ex_dhcp_env ret) []
            (handle_udp ex_k (ex_dhcp_env ret) [] [] ex_discover 10001).table
              ex_discover 10001).table.map udp_tuple).Nodup) :=
  tuple_unique_except_dhcp ex_k [ex_udp 4] [ex_session TCP_ESTABLISHED]
    (List.nodup_singleton _) (List.nodup_singleton _)

/-- Witness for C23: the clock at 1000, an expired UDP session and a TCP session
idle in SYN_RECV. -/
theorem check_sessions_idempotent_witness :
    (check_sessions ex_k ex_sweep (check_sessions ex_k ex_sweep [ex_udp 4] [ex_session TCP_SYN_RECV]).udp
        (check_sessions ex_k ex_sweep [ex_udp 4] [ex_session TCP_SYN_RECV]).tcp).udp = (check_sessions ex_k ex_sweep [ex_udp 4] [ex_session TCP_SYN_RECV]).udp
    ∧ (check_sessions ex_k ex_sweep (check_sessions ex_k ex_sweep [ex_udp 4] [ex_session TCP_SYN_RECV]).udp
        (check_sessions ex_k ex_sweep [ex_udp 4] [ex_session TCP_SYN_RECV]).tcp).tcp = (check_sessions ex_k ex_sweep [ex_udp 4] [ex_session TCP_SYN_RECV]).tcp
    ∧ (check_sessions ex_k ex_sweep (check_sessions ex_k ex_sweep [ex_udp 4] [ex_session TCP_SYN_RECV]).udp
        (check_sessions ex_k ex_sweep [ex_udp 4] [ex_session TCP_SYN_RECV]).tcp).io = {}
    ∧ (check_sessions ex_k ex_sweep (check_sessions ex_k ex_sweep [ex_udp 4] [ex_session TCP_SYN_RECV]).udp
        (check_sessions ex_k ex_sweep [ex_udp 4] [ex_session TCP_SYN_RECV]).tcp).closed = [] :=
  check_sessions_idempotent ex_k ex_sweep ex_sweep 1000 [ex_udp 4] [ex_session TCP_SYN_RECV]
    (fun _ => rfl) (fun _ => rfl)

/-- Witness for C25: the clock at 1000, a session idle in SYN_RECV and a session
in TIME_WAIT. -/
theorem check_sessions_tcp_rules_witness :
    (check_sessions ex_k ex_sweep [ex_udp 4] [ex_session TCP_SYN_RECV, ex_session TCP_TIME_WAIT]).tcp = [ex_session TCP_SYN_RECV, ex_session TCP_TIME_WAIT].filterMap (sweep_tcp ex_k (ex_sweep.time 0))
    ∧ (check_sessions ex_k ex_sweep [ex_udp 4] [ex_session TCP_SYN_RECV, ex_session TCP_TIME_WAIT]).io
        = { tun := ([ex_session TCP_SYN_RECV, ex_session TCP_TIME_WAIT].filter (fun t => tcp_idle ex_k (ex_sweep.time 0) t)).map
              (fun t => build_tcp ex_k t [] 0 false false false true) }
    ∧ (∀ t : tcp_session,
        (tcp_idle ex_k (ex_sweep.time 0) t = true ↔
          (t.state ≠ TCP_TIME_WAIT ∧ t.state ≠ TCP_CLOSE
            ∧ t.time + (if t.state = TCP_LISTEN ∨ t.state = TCP_SYN_RECV then ex_k.TCP_INIT_TIMEOUT
                else if t.state = TCP_ESTABLISHED then ex_k.TCP_IDLE_TIMEOUT
                else ex_k.TCP_CLOSE_TIMEOUT) < ex_sweep.time 0))
        ∧ (tcp_idle ex_k (ex_sweep.time 0) t = true ∨ t.state = TCP_TIME_WAIT →
            sweep_tcp ex_k (ex_sweep.time 0) t
              = some { t with socket := -1, time := ex_sweep.time 0, state := TCP_CLOSE })
        ∧ (t.state = TCP_CLOSE →
            sweep_tcp ex_k (ex_sweep.time 0) t
              = if t.time + ex_k.TCP_KEEP_TIMEOUT < ex_sweep.time 0 then none else some t)
        ∧ (tcp_idle ex_k (ex_sweep.time 0) t = false → t.state ≠ TCP_TIME_WAIT →
            t.state ≠ TCP_CLOSE → sweep_tcp ex_k (ex_sweep.time 0) t = some t)) :=
  check_sessions_tcp_rules ex_k ex_sweep [ex_udp 4] [ex_session TCP_SYN_RECV, ex_session TCP_TIME_WAIT]
    (fun _ => rfl)

set_option maxRecDepth 100000 in
/-- Witness for C30: the datagram of owner 10001 to port 9999, filtering on, only
10002 allowed. -/
theorem handle_ip_udp_unfiltered_witness :
    handle_ip ex_k ex_ip_env ex_args ([] : List udp_session) ([] : List tcp_session) ex_udp_packet
      = { allowed :=
            (handle_udp ex_k ex_ip_env.udp ex_args.hosts ([] : List udp_session) (udp_datagram ex_udp_packet ({ version := 4, protocol := IPPROTO_UDP, payload := 20 } : ip_packet).payload)
              (ip_uid ex_k ex_ip_env ex_args ex_udp_packet ({ version := 4, protocol := IPPROTO_UDP, payload := 20 } : ip_packet))).allowed,
          udp :=
            (handle_udp ex_k ex_ip_env.udp ex_args.hosts ([] : List udp_session) (udp_datagram ex_udp_packet ({ version := 4, protocol := IPPROTO_UDP, payload := 20 } : ip_packet).payload)
              (ip_uid ex_k ex_ip_env ex_args ex_udp_packet ({ version := 4, protocol := IPPROTO_UDP, payload := 20 } : ip_packet))).table,
          tcp := ([] : List tcp_session),
          tcp_io := {},
          udp_io :=
            (handle_udp ex_k ex_ip_env.udp ex_args.hosts ([] : List udp_session) (udp_datagram ex_udp_packet ({ version := 4, protocol := IPPROTO_UDP, payload := 20 } : ip_packet).payload)
              (ip_uid ex_k ex_ip_env ex_args ex_udp_packet ({ version := 4, protocol := IPPROTO_UDP, payload := 20 } : ip_packet))).io,
          handler := some IPPROTO_UDP,
          logged :=
            if ex_args.log ∧ (¬ ex_args.filter
                ∨ (handle_udp ex_k ex_ip_env.udp ex_args.hosts ([] : List udp_session) (udp_datagram ex_udp_packet ({ version := 4, protocol := IPPROTO_UDP, payload := 20 } : ip_packet).payload)
                    (ip_uid ex_k ex_ip_env ex_args ex_udp_packet ({ version := 4, protocol := IPPROTO_UDP, payload := 20 } : ip_packet))).allowed = false
                ∨ ntohs (udp_datagram ex_udp_packet ({ version := 4, protocol := IPPROTO_UDP, payload := 20 } : ip_packet).payload).udp.dest ≠ 53) then
              some (handle_udp ex_k ex_ip_env.udp ex_args.hosts ([] : List udp_session) (udp_datagram ex_udp_packet ({ version := 4, protocol := IPPROTO_UDP, payload := 20 } : ip_packet).payload)
                (ip_uid ex_k ex_ip_env ex_args ex_udp_packet ({ version := 4, protocol := IPPROTO_UDP, payload := 20 } : ip_packet))).allowed
            else none }
    ∧ (ex_args.filter = true
        ∧ ip_parse ex_ip_env.loglevel ex_udp_packet
            = some { version := 4, protocol := IPPROTO_UDP, payload := 20 }
        ∧ ip_uid ex_k ex_ip_env ex_args ex_udp_packet
            { version := 4, protocol := IPPROTO_UDP, payload := 20 } = 10001
        ∧ (10001 : Int) ∉ ex_args.uids
        ∧ (handle_ip ex_k ex_ip_env ex_args [] [] ex_udp_packet).allowed = true
        ∧ (handle_ip ex_k ex_ip_env ex_args [] [] ex_udp_packet).udp
            = [{ time := 100, uid := 10001, version := 4,
                 saddr := [10, 0, 0, 2, 0, 0, 0, 0, 0, 0, 0, 0, 0, 0, 0, 0],
                 source := htons 40000,
                 daddr := [93, 184, 216, 34, 0, 0, 0, 0, 0, 0, 0, 0, 0, 0, 0, 0],
                 dest := htons 9999, stop := false, socket := 8 }]
        ∧ (handle_ip ex_k ex_ip_env ex_args [] [] ex_udp_packet).udp_io.sent
            = [{ socket := 8, data := [1, 2, 3, 4], addr := [93, 184, 216, 34],
                 port := htons 9999 }]) :=
  handle_ip_udp_unfiltered ex_k ex_ip_env ex_args [] [] ex_udp_packet
    { version := 4, protocol := IPPROTO_UDP, payload := 20 } (by decide) rfl

theorem word_sum_zero (buf : List Byte) : word_sum buf = 0 ↔ ∀ x ∈ buf, x = 0 := by
  induction buf using word_sum.induct with
  | case3 => simp [word_sum]
  | case2 x =>
    simp only [word_sum, List.mem_singleton, forall_eq]
    exact ⟨fun h => Fin.ext h, fun h => by rw [h]; rfl⟩
  | case1 b0 b1 rest ih =>
    simp only [word_sum, word16, List.mem_cons, forall_eq_or_imp]
    constructor
    · intro h
      have h0 : b0.val = 0 := by omega
      have h1 : b1.val = 0 := by omega
      have hr : word_sum rest = 0 := by omega
      exact ⟨Fin.ext h0, Fin.ext h1, ih.1 hr⟩
    · intro h
      obtain ⟨h0, h1, hr⟩ := h
      rw [h0, h1, ih.2 hr]
      rfl

theorem ones16_zero (x : Nat) : ones16 x = 0 ↔ x = 0 := by
  simp only [ones16]
  split <;> omega

theorem calc_checksum_zero (s : Nat) (a : List Byte) (hs : s < 65536)
    (hsum : s + word_sum a < 2 ^ 32) :
    calc_checksum s a = 0 ↔ s = 0 ∧ ∀ x ∈ a, x = 0 := by
  rw [calc_checksum_eq s a hs hsum, ones16_zero, ← word_sum_zero]
  omega

/-- C39. Checksum chaining on even boundaries.  For a 16-bit accumulator `s`, a
buffer `a` of even length and a buffer `b`, the 32-bit running sum not
overflowing: `calc_checksum(calc_checksum(s, a), b) = calc_checksum(s, a ++ b)`;
`calc_checksum` of `s` and a buffer is the end-around-carry fold to 16 bits
of `s` plus the sum of the buffer's 16-bit host-order words (`word_sum`, in
which a trailing odd byte counts as a lone low-order byte), for `a`, for `b`
after `a` and for `a ++ b`; and the result is 0 exactly when `s` is 0 and
every byte summed is 0. -/
theorem calc_checksum_chain (s : Nat) (a b : List Byte) (hs : s < 65536)
    (ha : a.length % 2 = 0) (hsum : s + word_sum (a ++ b) < 2 ^ 32) :
    calc_checksum (calc_checksum s a) b = calc_checksum s (a ++ b)
    ∧ calc_checksum s a = ones16 (s + word_sum a)
    ∧ calc_checksum (calc_checksum s a) b = ones16 (s + word_sum a + word_sum b)
    ∧ calc_checksum s (a ++ b) = ones16 (s + word_sum (a ++ b))
    ∧ (calc_checksum s a = 0 ↔ s = 0 ∧ ∀ x ∈ a, x = 0)
    ∧ (calc_checksum s (a ++ b) = 0 ↔ s = 0 ∧ ∀ x ∈ a ++ b, x = 0) := by
  have hab := word_sum_append a b ha
  have hsum2 : s + word_sum (a ++ b) < 2 ^ 32 := hsum
  rw [hab] at hsum
  have e1 : calc_checksum s a = ones16 (s + word_sum a) :=
    calc_checksum_eq s a hs (by omega)
  have l1 := ones16_le (s + word_sum a)
  have e2 : calc_checksum (ones16 (s + word_sum a)) b
      = ones16 (ones16 (s + word_sum a) + word_sum b) :=
    calc_checksum_eq _ b (by omega) (by
      have : ones16 (s + word_sum a) ≤ s + word_sum a := by
        simp only [ones16]; split <;> omega
      omega)
  have e3 : calc_checksum s (a ++ b) = ones16 (s + word_sum (a ++ b)) :=
    calc_checksum_eq s (a ++ b) hs hsum2
  refine ⟨?_, e1, ?_, e3, calc_checksum_zero s a hs (by omega),
    calc_checksum_zero s (a ++ b) hs hsum2⟩
  · rw [e1, e2, e3, ones16_add, hab, Nat.add_assoc]
  · rw [e1, e2, ones16_add]

/-! ## `handle_ip`: what is dropped at the door -/

theorem handle_ip_unparsed (k : netguard_h) (env : ip_env) (args : arguments)
    (udp : List udp_session) (tcp : List tcp_session) (pkt : List Byte)
    (h : ip_parse env.loglevel pkt = none) :
    handle_ip k env args udp tcp pkt
      = { allowed := false, udp := udp, tcp := tcp, tcp_io := {}, udp_io := {},
          handler := none, logged := none } := by
  simp only [handle_ip, h]

theorem handle_ip_other (k : netguard_h) (env : ip_env) (args : arguments)
    (udp : List udp_session) (tcp : List tcp_session) (pkt : List Byte) (p : ip_packet)
    (hp : ip_parse env.loglevel pkt = some p) (ht : p.protocol ≠ IPPROTO_TCP)
    (hu : p.protocol ≠ IPPROTO_UDP) :
    handle_ip k env args udp tcp pkt
      = { allowed := false, udp := udp, tcp := tcp, tcp_io := {}, udp_io := {},
          handler := none, logged := if args.log then some false else none } := by
  simp only [handle_ip, hp, ht, hu, if_false, false_and, decide_False, Bool.not_false,
    if_true, Bool.false_eq_true]

theorem header_checksum_nonzero (pkt : List Byte) (h4 : pkt_byte pkt 0 / 16 = 4) :
    calc_checksum 0 (pkt.take 20) ≠ 0 := by
  intro h0
  have hle := word_sum_le (pkt.take 20)
  have hlen : (pkt.take 20).length ≤ 20 := by simp
  have hz := (calc_checksum_zero 0 (pkt.take 20) (by decide) (by omega)).1 h0
  cases pkt with
  | nil => simp [pkt_byte] at h4
  | cons b rest =>
    have hb : b = 0 := hz.2 b (by simp)
    subst hb
    simp [pkt_byte] at h4

theorem ip_parse_v4 (loglevel : Int) (pkt : List Byte) (h4 : pkt_byte pkt 0 / 16 = 4) :
    ip_parse loglevel pkt
      = if ntohs (word16 (pkt.getD 2 0) (pkt.getD 3 0)) ≠ pkt.length then none
        else some { version := 4, protocol := pkt_byte pkt 9,
                    payload := 20 + ((((pkt_byte pkt 0 % 16 : Nat) : Int) - 5) * 4 % 256).toNat } := by
  have hc := header_checksum_nonzero pkt h4
  simp only [ip_parse, h4, if_true, hc, and_false, if_false]

theorem lower_not_upper (p : Nat) (h : is_lower_layer p = true) : is_upper_layer p = false := by
  simp only [is_lower_layer, Bool.or_eq_true, decide_eq_true_eq] at h
  simp only [is_upper_layer, IPPROTO_TCP, IPPROTO_UDP, IPPROTO_ICMP, Bool.or_eq_false_iff,
    decide_eq_false_iff_not]
  omega

theorem ip6_skip_not_upper (pkt : List Byte) :
    ∀ (fuel off protocol : Nat), is_upper_layer protocol = false →
      ∀ r, ip6_skip pkt fuel off protocol = some r → is_upper_layer r.2 = false := by
  intro fuel
  induction fuel with
  | zero => intro off protocol _ r h; simp [ip6_skip] at h
  | succ fuel ih =>
    intro off protocol hp r h
    simp only [ip6_skip] at h
    split at h
    · next hc => exact ih _ _ (lower_not_upper _ hc.1) r h
    · simp only [Option.some.injEq] at h
      subst h
      exact hp

theorem ip_parse_v6_extension (loglevel : Int) (pkt : List Byte)
    (h6 : pkt_byte pkt 0 / 16 = 6) (hx : is_upper_layer (pkt_byte pkt 6) = false) :
    ip_parse loglevel pkt = none
    ∨ ip_parse loglevel pkt = some { version := 6, protocol := pkt_byte pkt 6, payload := 40 } := by
  have h4 : ¬ (6 : Nat) = 4 := by decide
  simp only [ip_parse, h6, h4, if_false, if_true, hx, Bool.false_eq_true, not_false_eq_true]
  cases hs : ip6_skip pkt 65536 40 (pkt_byte pkt 6) with
  | none => exact Or.inl rfl
  | some r =>
    right
    have hr := ip6_skip_not_upper pkt 65536 40 _ hx r hs
    obtain ⟨off, protocol⟩ := r
    simp only at hr
    simp only [hr, Bool.false_eq_true, not_false_eq_true, if_true]

theorem handle_ip_uids_unused (k : netguard_h) (env : ip_env) (args : arguments)
    (udp : List udp_session) (tcp : List tcp_session) (pkt : List Byte) (uids : List Int)
    (hf : args.filter = false) :
    handle_ip k env { args with uids := uids } udp tcp pkt = handle_ip k env args udp tcp pkt := by
  obtain ⟨log, filter, uids0, hosts⟩ := args
  simp only at hf
  subst hf
  simp only [handle_ip, ip_uid, Bool.false_eq_true, and_false, if_false, not_false_eq_true,
    true_or]

set_option maxRecDepth 100000 in
/-- C33. IPv4 ingress validation.  An IPv4 packet whose total-length field is not
the number of bytes read is dropped: no handler is called and both tables are
as before.  The checksum test drops nothing: `calc_checksum` over the header
of an IPv4 packet is never 0, the one value `handle_ip` rejects, so a packet
with the right length is taken whatever the log level and the checksum; with
log level 3 the datagram whose header sums to a value other than 0xFFFF
creates a session and is sent. -/
theorem handle_ip_v4_validation (k : netguard_h) (env : ip_env) (args : arguments)
    (udp : List udp_session) (tcp : List tcp_session) (pkt : List Byte)
    (h4 : pkt_byte pkt 0 / 16 = 4) :
    (ntohs (word16 (pkt.getD 2 0) (pkt.getD 3 0)) ≠ pkt.length →
        handle_ip k env args udp tcp pkt
          = { allowed := false, udp := udp, tcp := tcp, tcp_io := {}, udp_io := {},
              handler := none, logged := none })
    ∧ (ntohs (word16 (pkt.getD 2 0) (pkt.getD 3 0)) = pkt.length →
        ip_parse env.loglevel pkt
          = some { version := 4, protocol := pkt_byte pkt 9,
                   payload := 20 + ((((pkt_byte pkt 0 % 16 : Nat) : Int) - 5) * 4 % 256).toNat })
    ∧ calc_checksum 0 (pkt.take 20) ≠ 0
    ∧ (ex_ip_env_verbose.loglevel < ANDROID_LOG_WARN
        ∧ calc_checksum 0 (ex_udp_packet.take 20) ≠ 65535
        ∧ (handle_ip ex_k ex_ip_env_verbose ex_args_open [] [] ex_udp_packet).handler
            = some IPPROTO_UDP
        ∧ (handle_ip ex_k ex_ip_env_verbose ex_args_open [] [] ex_udp_packet).udp
            = [{ time := 100, uid := 10001, version := 4,
                 saddr := [10, 0, 0, 2, 0, 0, 0, 0, 0, 0, 0, 0, 0, 0, 0, 0],
                 source := htons 40000,
                 daddr := [93, 184, 216, 34, 0, 0, 0, 0, 0, 0, 0, 0, 0, 0, 0, 0],
                 dest := htons 9999, stop := false, socket := 8 }]
        ∧ (handle_ip ex_k ex_ip_env_verbose ex_args_open [] [] ex_udp_packet).udp_io.sent
            = [{ socket := 8, data := [1, 2, 3, 4], addr := [93, 184, 216, 34],
                 port := htons 9999 }]) := by
  have hp := ip_parse_v4 env.loglevel pkt h4
  refine ⟨?_, ?_, header_checksum_nonzero pkt h4, ?_⟩
  · intro hl
    rw [if_pos hl] at hp
    exact handle_ip_unparsed k env args udp tcp pkt hp
  · intro hl
    rw [if_neg (by rw [hl]; exact fun h => h rfl)] at hp
    exact hp
  · decide

set_option maxRecDepth 100000 in
/-- C34. IPv6 extension headers.  For an IPv6 packet whose next header is not an
upper-layer protocol (TCP, UDP, ICMP, ICMPv6), the loop over the extension
headers never leaves `protocol` at an upper-layer protocol, so `handle_ip`
falls back to the next header of the fixed header and the offset 40: it calls
no handler, leaves both tables as they are, and the verdict is "not allowed"
(given to `log_packet` when logging is on), also when the chain ends with TCP
or UDP.  The SYN behind one hop-by-hop header, its owner on the allow-list, is
such a packet. -/
theorem handle_ip_v6_extension (k : netguard_h) (env : ip_env) (args : arguments)
    (udp : List udp_session) (tcp : List tcp_session) (pkt : List Byte)
    (h6 : pkt_byte pkt 0 / 16 = 6) (hx : is_upper_layer (pkt_byte pkt 6) = false) :
    (ip_parse env.loglevel pkt = none
      ∨ ip_parse env.loglevel pkt
          = some { version := 6, protocol := pkt_byte pkt 6, payload := 40 })
    ∧ (handle_ip k env args udp tcp pkt
          = { allowed := false, udp := udp, tcp := tcp, tcp_io := {}, udp_io := {},
              handler := none, logged := none }
        ∨ handle_ip k env args udp tcp pkt
          = { allowed := false, udp := udp, tcp := tcp, tcp_io := {}, udp_io := {},
              handler := none, logged := if args.log then some false else none })
    ∧ (pkt_byte ex_ip6_packet 0 / 16 = 6
        ∧ pkt_byte ex_ip6_packet 6 = 0
        ∧ pkt_byte ex_ip6_packet 40 = IPPROTO_TCP
        ∧ (tcp_segment ex_ip6_packet 48).tcp.syn = true
        ∧ ip_parse ex_ip_env.loglevel ex_ip6_packet
            = some { version := 6, protocol := 0, payload := 40 }
        ∧ handle_ip ex_k ex_ip_env { ex_args with uids := [10001] } [] [] ex_ip6_packet
            = { allowed := false, udp := [], tcp := [], tcp_io := {}, udp_io := {},
                handler := none, logged := some false }) := by
  have hp := ip_parse_v6_extension env.loglevel pkt h6 hx
  refine ⟨hp, ?_, ?_⟩
  · rcases hp with hp | hp
    · exact Or.inl (handle_ip_unparsed k env args udp tcp pkt hp)
    · right
      have hu : is_upper_layer (pkt_byte pkt 6) = false := hx
      simp only [is_upper_layer, Bool.or_eq_false_iff, decide_eq_false_iff_not] at hu
      exact handle_ip_other k env args udp tcp pkt _ hp hu.1.1.1 hu.1.1.2
  · decide

/-- C40. Filtering disabled.  With filtering off, a packet `handle_ip` takes as a
TCP segment with SYN set is not given to `handle_tcp`, whatever the
allow-list: both tables are as before, nothing is written or sent, the verdict
`allowed` is 0, and `log_packet` gets it when logging is on.  With filtering
off the allow-list has no effect on any packet. -/
theorem handle_ip_filter_off (k : netguard_h) (env : ip_env) (args : arguments)
    (udp : List udp_session) (tcp : List tcp_session) (pkt : List Byte) (p : ip_packet)
    (hp : ip_parse env.loglevel pkt = some p) (ht : p.protocol = IPPROTO_TCP)
    (hs : (tcp_segment pkt p.payload).tcp.syn = true) (hf : args.filter = false) :
    handle_ip k env args udp tcp pkt
      = { allowed := false, udp := udp, tcp := tcp, tcp_io := {}, udp_io := {},
          handler := none, logged := if args.log then some false else none }
    ∧ (∀ (uids : List Int) (other : List Byte),
        handle_ip k env { args with uids := uids } udp tcp other
          = handle_ip k env args udp tcp other) := by
  refine ⟨?_, fun uids other => handle_ip_uids_unused k env args udp tcp other uids hf⟩
  simp only [handle_ip, hp, ht, hs, hf, and_self, decide_True, Bool.false_eq_true, and_false,
    if_false, Bool.not_true, not_false_eq_true, and_true]

/-! ## `get_selects` -/

/-- The larger of the value so far and the next socket, as `get_selects` keeps
it. -/
theorem select_max_ge (m d : Int) : m ≤ (if d > m then d else m) ∧ d ≤ (if d > m then d else m) := by
  split <;> omega

theorem get_selects_udp_eq (udp : List udp_session) :
    ∀ s : selects,
      (get_selects_udp udp s).rfds
          = s.rfds ++ (udp.filter (fun u => !u.stop)).map (fun u => u.socket)
      ∧ (get_selects_udp udp s).wfds = s.wfds
      ∧ (get_selects_udp udp s).efds
          = s.efds ++ (udp.filter (fun u => !u.stop)).map (fun u => u.socket)
      ∧ (get_selects_udp udp s).max
          = ((udp.filter (fun u => !u.stop)).map (fun u => u.socket)).foldl
              (fun m d => if d > m then d else m) s.max := by
  induction udp with
  | nil => intro s; simp [get_selects_udp]
  | cons u next ih =>
    intro s
    cases hs : u.stop with
    | true =>
      simp only [get_selects_udp, hs, not_true_eq_false, if_false, List.filter_cons,
        Bool.not_true, Bool.false_eq_true]
      exact ih s
    | false =>
      simp only [get_selects_udp, hs, Bool.false_eq_true, not_false_eq_true, if_true,
        List.filter_cons, Bool.not_false, List.map_cons, List.foldl_cons]
      obtain ⟨h1, h2, h3, h4⟩ := ih
        { rfds := s.rfds ++ [u.socket], wfds := s.wfds, efds := s.efds ++ [u.socket],
          max := if u.socket > s.max then u.socket else s.max }
      refine ⟨?_, h2, ?_, h4⟩
      · rw [h1]; simp
      · rw [h3]; simp

theorem get_selects_tcp_eq (tcp : List tcp_session) :
    ∀ s : selects,
      (get_selects_tcp tcp s).rfds
          = s.rfds ++ (tcp.filter
              (fun t => tcp_reading t && decide (t.send_window > 0))).map (fun t => t.socket)
      ∧ (get_selects_tcp tcp s).wfds
          = s.wfds ++ (tcp.filter
              (fun t => decide (t.state = TCP_LISTEN))).map (fun t => t.socket)
      ∧ (get_selects_tcp tcp s).efds
          = s.efds ++ (tcp.filter
              (fun t => decide (t.state = TCP_LISTEN) || tcp_reading t)).map (fun t => t.socket)
      ∧ (get_selects_tcp tcp s).max
          = ((tcp.filter
              (fun t => decide (t.state = TCP_LISTEN) || tcp_reading t)).map
                (fun t => t.socket)).foldl (fun m d => if d > m then d else m) s.max := by
  induction tcp with
  | nil => intro s; simp [get_selects_tcp]
  | cons t next ih =>
    intro s
    by_cases hl : t.state = TCP_LISTEN
    · have hr : tcp_reading t = false := by simp [tcp_reading, hl]
      simp only [get_selects_tcp, hl, if_true, List.filter_cons, hr, Bool.false_and,
        Bool.false_eq_true, if_false, decide_True, Bool.true_or, List.map_cons,
        List.foldl_cons]
      obtain ⟨h1, h2, h3, h4⟩ := ih
        { rfds := s.rfds, wfds := s.wfds ++ [t.socket], efds := s.efds ++ [t.socket],
          max := if t.socket > s.max then t.socket else s.max }
      simp only [hl, decide_True, Bool.true_or] at h1 h2 h3 h4 ⊢
      refine ⟨h1, ?_, ?_, h4⟩
      · rw [h2]; simp
      · rw [h3]; simp
    · by_cases hr : t.state = TCP_ESTABLISHED ∨ t.state = TCP_SYN_RECV
          ∨ t.state = TCP_CLOSE_WAIT
      · have hr2 : tcp_reading t = true := by simp only [tcp_reading, hr, decide_True]
        obtain ⟨h1, h2, h3, h4⟩ := ih
          { rfds := if t.send_window > 0 then s.rfds ++ [t.socket] else s.rfds,
            wfds := s.wfds, efds := s.efds ++ [t.socket],
            max := if t.socket > s.max then t.socket else s.max }
        simp only [get_selects_tcp, hl, if_false, hr, if_true, List.filter_cons, hr2,
          Bool.true_and, decide_False, Bool.false_or, Bool.false_eq_true, List.map_cons,
          List.foldl_cons]
        refine ⟨?_, h2, ?_, h4⟩
        · rw [h1]
          by_cases hw : t.send_window > 0
          · simp [hw]
          · simp [hw]
        · rw [h3]; simp
      · have hr2 : tcp_reading t = false := by
          simp only [tcp_reading, hr, decide_False]
        simp only [get_selects_tcp, hl, if_false, hr, List.filter_cons, hr2, Bool.false_and,
          Bool.false_eq_true, decide_False, Bool.or_self]
        exact ih s

theorem foldl_max_bounds (l : List Int) :
    ∀ m : Int, m ≤ l.foldl (fun m d => if d > m then d else m) m
      ∧ (∀ d ∈ l, d ≤ l.foldl (fun m d => if d > m then d else m) m)
      ∧ (l.foldl (fun m d => if d > m then d else m) m = m
          ∨ l.foldl (fun m d => if d > m then d else m) m ∈ l) := by
  induction l with
  | nil => intro m; simp
  | cons x rest ih =>
    intro m
    obtain ⟨h1, h2, h3⟩ := ih (if x > m then x else m)
    have hm := select_max_ge m x
    simp only [List.foldl_cons, List.mem_cons, forall_eq_or_imp]
    refine ⟨by omega, ⟨by omega, h2⟩, ?_⟩
    rcases h3 with h3 | h3
    · rw [h3]
      by_cases hx : x > m
      · simp [hx]
      · simp [hx]
    · exact Or.inr (Or.inr h3)

theorem foldl_max_append (a b : List Int) (m : Int) :
    (a ++ b).foldl (fun m d => if d > m then d else m) m
      = b.foldl (fun m d => if d > m then d else m)
          (a.foldl (fun m d => if d > m then d else m) m) := List.foldl_append _ _ _ _

/-- The sets `get_selects` builds, as lists, and the value it returns. -/
theorem get_selects_eq (tun : Int) (udp : List udp_session) (tcp : List tcp_session) :
    (get_selects tun udp tcp).rfds
        = tun :: ((udp.filter (fun u => !u.stop)).map (fun u => u.socket)
            ++ (tcp.filter (fun t => tcp_reading t && decide (t.send_window > 0))).map
                (fun t => t.socket))
    ∧ (get_selects tun udp tcp).wfds
        = (tcp.filter (fun t => decide (t.state = TCP_LISTEN))).map (fun t => t.socket)
    ∧ (get_selects tun udp tcp).efds
        = tun :: ((udp.filter (fun u => !u.stop)).map (fun u => u.socket)
            ++ (tcp.filter (fun t => decide (t.state = TCP_LISTEN) || tcp_reading t)).map
                (fun t => t.socket))
    ∧ (get_selects tun udp tcp).max
        = ((get_selects tun udp tcp).efds).foldl (fun m d => if d > m then d else m) tun := by
  have hu := get_selects_udp_eq udp { rfds := [tun], wfds := [], efds := [tun], max := tun }
  have ht := get_selects_tcp_eq tcp
    (get_selects_udp udp { rfds := [tun], wfds := [], efds := [tun], max := tun })
  have he : (get_selects tun udp tcp).efds
      = tun :: ((udp.filter (fun u => !u.stop)).map (fun u => u.socket)
          ++ (tcp.filter (fun t => decide (t.state = TCP_LISTEN) || tcp_reading t)).map
              (fun t => t.socket)) := by
    show (get_selects_tcp tcp _).efds = _
    rw [ht.2.2.1, hu.2.2.1]; simp
  refine ⟨?_, ?_, he, ?_⟩
  · show (get_selects_tcp tcp _).rfds = _
    rw [ht.1, hu.1]; simp
  · show (get_selects_tcp tcp _).wfds = _
    rw [ht.2.1, hu.2.1]; simp
  · rw [he]
    show (get_selects_tcp tcp _).max = _
    rw [ht.2.2.2, hu.2.2.2, List.foldl_cons, foldl_max_append]
    simp

/-- C31. Readiness sets.  The read set holds exactly the TUN descriptor, the
sockets of the UDP sessions that are not stopped and the sockets of the TCP
sessions in SYN_RECV, ESTABLISHED or CLOSE_WAIT with `send_window > 0`; the
write set exactly the sockets of the TCP sessions in LISTEN; the exception set
exactly the TUN descriptor, the sockets of the UDP sessions that are not
stopped and the sockets of the TCP sessions in LISTEN, SYN_RECV, ESTABLISHED
or CLOSE_WAIT.  The value returned is the largest descriptor of the exception
set, which holds every descriptor of the other two.  For a session whose
socket is neither the TUN descriptor nor the socket of another session this
is the statement per flow: a UDP socket is in the read and the exception set
exactly when the session is not stopped and never in the write set; a socket
in LISTEN is in the write and the exception set and not in the read set; a
socket in SYN_RECV, ESTABLISHED or CLOSE_WAIT is in the exception set, in the
read set exactly when `send_window > 0`, and not in the write set; a socket in
any other state is in no set. -/
theorem get_selects_sets (tun : Int) (udp : List udp_session) (tcp : List tcp_session) :
    (∀ d, d ∈ (get_selects tun udp tcp).rfds ↔
        d = tun ∨ (∃ u ∈ udp, u.stop = false ∧ u.socket = d)
          ∨ (∃ t ∈ tcp, tcp_reading t = true ∧ t.send_window > 0 ∧ t.socket = d))
    ∧ (∀ d, d ∈ (get_selects tun udp tcp).wfds ↔ ∃ t ∈ tcp, t.state = TCP_LISTEN ∧ t.socket = d)
    ∧ (∀ d, d ∈ (get_selects tun udp tcp).efds ↔
        d = tun ∨ (∃ u ∈ udp, u.stop = false ∧ u.socket = d)
          ∨ (∃ t ∈ tcp, (t.state = TCP_LISTEN ∨ tcp_reading t = true) ∧ t.socket = d))
    ∧ ((get_selects tun udp tcp).max ∈ (get_selects tun udp tcp).efds
        ∧ (∀ d ∈ (get_selects tun udp tcp).efds, d ≤ (get_selects tun udp tcp).max)
        ∧ (∀ d ∈ (get_selects tun udp tcp).rfds, d ∈ (get_selects tun udp tcp).efds)
        ∧ (∀ d ∈ (get_selects tun udp tcp).wfds, d ∈ (get_selects tun udp tcp).efds))
    ∧ (∀ (pre : List udp_session) (u : udp_session) (post : List udp_session),
        udp = pre ++ u :: post → u.socket ≠ tun →
        (∀ v ∈ pre ++ post, v.socket ≠ u.socket) → (∀ t ∈ tcp, t.socket ≠ u.socket) →
        (u.socket ∈ (get_selects tun udp tcp).rfds ↔ u.stop = false)
        ∧ (u.socket ∈ (get_selects tun udp tcp).efds ↔ u.stop = false)
        ∧ u.socket ∉ (get_selects tun udp tcp).wfds)
    ∧ (∀ (pre : List tcp_session) (t : tcp_session) (post : List tcp_session),
        tcp = pre ++ t :: post → t.socket ≠ tun →
        (∀ v ∈ udp, v.socket ≠ t.socket) → (∀ v ∈ pre ++ post, v.socket ≠ t.socket) →
        (t.state = TCP_LISTEN →
          t.socket ∈ (get_selects tun udp tcp).wfds
          ∧ t.socket ∈ (get_selects tun udp tcp).efds
          ∧ t.socket ∉ (get_selects tun udp tcp).rfds)
        ∧ (t.state = TCP_SYN_RECV ∨ t.state = TCP_ESTABLISHED ∨ t.state = TCP_CLOSE_WAIT →
          t.socket ∈ (get_selects tun udp tcp).efds
          ∧ (t.socket ∈ (get_selects tun udp tcp).rfds ↔ t.send_window > 0)
          ∧ t.socket ∉ (get_selects tun udp tcp).wfds)
        ∧ (t.state ≠ TCP_LISTEN → t.state ≠ TCP_SYN_RECV → t.state ≠ TCP_ESTABLISHED →
            t.state ≠ TCP_CLOSE_WAIT →
          t.socket ∉ (get_selects tun udp tcp).rfds
          ∧ t.socket ∉ (get_selects tun udp tcp).wfds
          ∧ t.socket ∉ (get_selects tun udp tcp).efds)) := by
  obtain ⟨hr, hw, he, hm⟩ := get_selects_eq tun udp tcp
  have mr : ∀ d, d ∈ (get_selects tun udp tcp).rfds ↔
      d = tun ∨ (∃ u ∈ udp, u.stop = false ∧ u.socket = d)
        ∨ (∃ t ∈ tcp, tcp_reading t = true ∧ t.send_window > 0 ∧ t.socket = d) := by
    intro d
    rw [hr]
    simp only [List.mem_cons, List.mem_append, List.mem_map, List.mem_filter,
      Bool.not_eq_true', Bool.and_eq_true, decide_eq_true_eq, and_assoc]
  have mw : ∀ d, d ∈ (get_selects tun udp tcp).wfds ↔
      ∃ t ∈ tcp, t.state = TCP_LISTEN ∧ t.socket = d := by
    intro d
    rw [hw]
    simp only [List.mem_map, List.mem_filter, decide_eq_true_eq, and_assoc]
  have me : ∀ d, d ∈ (get_selects tun udp tcp).efds ↔
      d = tun ∨ (∃ u ∈ udp, u.stop = false ∧ u.socket = d)
        ∨ (∃ t ∈ tcp, (t.state = TCP_LISTEN ∨ tcp_reading t = true) ∧ t.socket = d) := by
    intro d
    rw [he]
    simp only [List.mem_cons, List.mem_append, List.mem_map, List.mem_filter,
      Bool.not_eq_true', Bool.or_eq_true, decide_eq_true_eq, and_assoc]
  have hread : ∀ t : tcp_session, tcp_reading t = true ↔
      (t.state = TCP_ESTABLISHED ∨ t.state = TCP_SYN_RECV ∨ t.state = TCP_CLOSE_WAIT) := by
    intro t; simp only [tcp_reading, decide_eq_true_eq]
  refine ⟨mr, mw, me, ?_, ?_, ?_⟩
  · have hb := foldl_max_bounds (get_selects tun udp tcp).efds tun
    rw [← hm] at hb
    refine ⟨?_, hb.2.1, ?_, ?_⟩
    · rcases hb.2.2 with h | h
      · rw [h, he]; exact List.mem_cons_self _ _
      · exact h
    · intro d hd
      rcases (mr d).1 hd with h | h | ⟨t, ht, h1, _, h3⟩
      · exact (me d).2 (Or.inl h)
      · exact (me d).2 (Or.inr (Or.inl h))
      · exact (me d).2 (Or.inr (Or.inr ⟨t, ht, Or.inr h1, h3⟩))
    · intro d hd
      obtain ⟨t, ht, h1, h2⟩ := (mw d).1 hd
      exact (me d).2 (Or.inr (Or.inr ⟨t, ht, Or.inl h1, h2⟩))
  · intro pre u post hudp htun hothers htcp
    have hmem : u ∈ udp := by rw [hudp]; simp
    have honly : ∀ v ∈ udp, v.socket = u.socket → v = u := by
      intro v hv hs
      rw [hudp] at hv
      rcases List.mem_append.mp hv with h | h
      · exact absurd hs (hothers v (List.mem_append_left _ h))
      · rcases List.mem_cons.mp h with h | h
        · exact h
        · exact absurd hs (hothers v (List.mem_append_right _ h))
    refine ⟨?_, ?_, ?_⟩
    · rw [mr]
      constructor
      · rintro (h | ⟨v, hv, h1, h2⟩ | ⟨t, ht, _, _, h3⟩)
        · exact absurd h htun
        · rw [← honly v hv h2]; exact h1
        · exact absurd h3 (htcp t ht)
      · intro h
        exact Or.inr (Or.inl ⟨u, hmem, h, rfl⟩)
    · rw [me]
      constructor
      · rintro (h | ⟨v, hv, h1, h2⟩ | ⟨t, ht, _, h3⟩)
        · exact absurd h htun
        · rw [← honly v hv h2]; exact h1
        · exact absurd h3 (htcp t ht)
      · intro h
        exact Or.inr (Or.inl ⟨u, hmem, h, rfl⟩)
    · rw [mw]
      rintro ⟨t, ht, _, h3⟩
      exact absurd h3 (htcp t ht)
  · intro pre t post htcp htun hudp hothers
    have hmem : t ∈ tcp := by rw [htcp]; simp
    have honly : ∀ v ∈ tcp, v.socket = t.socket → v = t := by
      intro v hv hs
      rw [htcp] at hv
      rcases List.mem_append.mp hv with h | h
      · exact absurd hs (hothers v (List.mem_append_left _ h))
      · rcases List.mem_cons.mp h with h | h
        · exact h
        · exact absurd hs (hothers v (List.mem_append_right _ h))
    refine ⟨?_, ?_, ?_⟩
    · intro hl
      refine ⟨(mw _).2 ⟨t, hmem, hl, rfl⟩, (me _).2 (Or.inr (Or.inr ⟨t, hmem, Or.inl hl, rfl⟩)),
        ?_⟩
      rw [mr]
      rintro (h | ⟨v, hv, _, h2⟩ | ⟨v, hv, h1, _, h3⟩)
      · exact absurd h htun
      · exact absurd h2 (hudp v hv)
      · rw [honly v hv h3, hread, hl] at h1
        exact absurd h1 (by decide)
    · intro hs
      have hrd : tcp_reading t = true := by
        rw [hread]
        rcases hs with h | h | h
        · exact Or.inr (Or.inl h)
        · exact Or.inl h
        · exact Or.inr (Or.inr h)
      refine ⟨(me _).2 (Or.inr (Or.inr ⟨t, hmem, Or.inr hrd, rfl⟩)), ?_, ?_⟩
      · rw [mr]
        constructor
        · rintro (h | ⟨v, hv, _, h2⟩ | ⟨v, hv, _, h2, h3⟩)
          · exact absurd h htun
          · exact absurd h2 (hudp v hv)
          · rw [← honly v hv h3]; exact h2
        · intro h
          exact Or.inr (Or.inr ⟨t, hmem, hrd, h, rfl⟩)
      · rw [mw]
        rintro ⟨v, hv, h1, h3⟩
        rw [honly v hv h3] at h1
        rw [hread, h1] at hrd
        exact absurd hrd (by decide)
    · intro h1 h2 h3 h4
      have hrd : ¬ tcp_reading t = true := by
        rw [hread]
        rintro (h | h | h)
        · exact h3 h
        · exact h2 h
        · exact h4 h
      refine ⟨?_, ?_, ?_⟩
      · rw [mr]
        rintro (h | ⟨v, hv, _, h5⟩ | ⟨v, hv, h5, _, h6⟩)
        · exact absurd h htun
        · exact absurd h5 (hudp v hv)
        · rw [honly v hv h6] at h5; exact hrd h5
      · rw [mw]
        rintro ⟨v, hv, h5, h6⟩
        rw [honly v hv h6] at h5; exact h1 h5
      · rw [me]
        rintro (h | ⟨v, hv, _, h5⟩ | ⟨v, hv, h5, h6⟩)
        · exact absurd h htun
        · exact absurd h5 (hudp v hv)
        · rw [honly v hv h6] at h5
          rcases h5 with h5 | h5
          · exact h1 h5
          · exact hrd h5

/-! ## The packets of `write_tcp` -/

theorem build_tcp_v4 (k : netguard_h) (cur : tcp_session) (data : List Byte) (confirm : Nat)
    (syn ack fin rst : Bool) (h4 : cur.version = 4) :
    ∃ h : iphdr, (build_tcp k cur data confirm syn ack fin rst).ip = .v4 h
      ∧ h.version = 4 ∧ h.ihl = 5 ∧ h.ttl = 64 ∧ h.protocol = IPPROTO_TCP
      ∧ h.saddr = ip4_bytes cur.daddr ∧ h.daddr = ip4_bytes cur.saddr
      ∧ h.tot_len = htons (20 + 20 + data.length) := by
  simp only [build_tcp, build_ip, h4, if_true]
  exact ⟨_, rfl, rfl, rfl, rfl, rfl, rfl, rfl, rfl⟩

theorem build_tcp_v6 (k : netguard_h) (cur : tcp_session) (data : List Byte) (confirm : Nat)
    (syn ack fin rst : Bool) (h4 : ¬ cur.version = 4) :
    ∃ h : ip6_hdr, (build_tcp k cur data confirm syn ack fin rst).ip = .v6 h
      ∧ h.vfc = 0x60 ∧ h.hlim = 64 ∧ h.nxt = IPPROTO_TCP
      ∧ h.src = ip6_bytes cur.daddr ∧ h.dst = ip6_bytes cur.saddr
      ∧ h.plen = htons (40 + 20 + data.length - 40) := by
  simp only [build_tcp, build_ip, h4, if_false]
  exact ⟨_, rfl, rfl, rfl, rfl, rfl, rfl, rfl⟩

theorem build_tcp_buffer_length (k : netguard_h) (cur : tcp_session) (data : List Byte)
    (confirm : Nat) (syn ack fin rst : Bool) :
    (build_tcp k cur data confirm syn ack fin rst).buffer.length
      = (if cur.version = 4 then 20 else 40) + 20 + data.length := by
  by_cases h4 : cur.version = 4
  · simp only [build_tcp, build_ip, h4, if_true, List.length_append, ip_header.bytes,
      iphdr_bytes_length, tcphdr_bytes_length]
  · simp only [build_tcp, build_ip, h4, if_false, List.length_append, ip_header.bytes,
      ip6_hdr_bytes_length, tcphdr_bytes_length]

/-- C32 (as amended). TCP synthesis parameters.  The packet `write_tcp` hands
to the tunnel for a session has the session's destination port as source port
and its source port as destination port, the session's destination address as
IP source and its source address as IP destination (four bytes for version 4,
sixteen otherwise), TTL or hop limit 64, IPv4 header length 5, sequence number
`local_seq`, data offset 5, window `TCP_RECV_WINDOW` (as 32-bit and 16-bit
fields hold them), exactly the flags asked for, acknowledgement number
`remote_seq + confirm` modulo 2^32 with ACK and 0 without.  The IPv4 total
length is the number of bytes written, the IPv6 payload length that number
less the 40 bytes of the fixed header, both as a 16-bit field holds them. -/
theorem write_tcp_parameters (k : netguard_h) (w : Nat → Bool) (io : tcp_io)
    (cur : tcp_session) (data : List Byte) (confirm : Nat) (syn ack fin rst : Bool) :
    (write_tcp k w io cur data confirm syn ack fin rst).1.tun
        = io.tun ++ [build_tcp k cur data confirm syn ack fin rst]
    ∧ (build_tcp k cur data confirm syn ack fin rst).tcp.source = cur.dest
    ∧ (build_tcp k cur data confirm syn ack fin rst).tcp.dest = cur.source
    ∧ ntohl (build_tcp k cur data confirm syn ack fin rst).tcp.seq = cur.local_seq % 2 ^ 32
    ∧ (build_tcp k cur data confirm syn ack fin rst).tcp.doff = 5
    ∧ ntohs (build_tcp k cur data confirm syn ack fin rst).tcp.window
        = k.TCP_RECV_WINDOW % 65536
    ∧ (build_tcp k cur data confirm syn ack fin rst).tcp.syn = syn
    ∧ (build_tcp k cur data confirm syn ack fin rst).tcp.ack = ack
    ∧ (build_tcp k cur data confirm syn ack fin rst).tcp.fin = fin
    ∧ (build_tcp k cur data confirm syn ack fin rst).tcp.rst = rst
    ∧ (build_tcp k cur data confirm syn ack fin rst).tcp.psh = false
    ∧ (build_tcp k cur data confirm syn ack fin rst).tcp.urg = false
    ∧ (ack = true → ntohl (build_tcp k cur data confirm syn ack fin rst).tcp.ack_seq
        = (cur.remote_seq + confirm) % 2 ^ 32)
    ∧ (ack = false → (build_tcp k cur data confirm syn ack fin rst).tcp.ack_seq = 0)
    ∧ (cur.version = 4 →
        ∃ h : iphdr, (build_tcp k cur data confirm syn ack fin rst).ip = .v4 h
          ∧ h.version = 4 ∧ h.ihl = 5 ∧ h.ttl = 64 ∧ h.protocol = IPPROTO_TCP
          ∧ h.saddr = ip4_bytes cur.daddr ∧ h.daddr = ip4_bytes cur.saddr)
    ∧ (cur.version ≠ 4 →
        ∃ h : ip6_hdr, (build_tcp k cur data confirm syn ack fin rst).ip = .v6 h
          ∧ h.vfc = 0x60 ∧ h.hlim = 64 ∧ h.nxt = IPPROTO_TCP
          ∧ h.src = ip6_bytes cur.daddr ∧ h.dst = ip6_bytes cur.saddr)
    ∧ (build_tcp k cur data confirm syn ack fin rst).ip.length_field
        = (if cur.version = 4 then
            (build_tcp k cur data confirm syn ack fin rst).buffer.length % 65536
          else ((build_tcp k cur data confirm syn ack fin rst).buffer.length - 40) % 65536) := by
  refine ⟨rfl, rfl, rfl, build_tcp_seq k cur data confirm syn ack fin rst, rfl, ?_, rfl, rfl,
    rfl, rfl, rfl, rfl, ?_, ?_, ?_, ?_, ?_⟩
  · show ntohs (htons k.TCP_RECV_WINDOW) = _
    exact ntohs_htons _
  · intro ha
    subst ha
    exact build_tcp_ack_seq k cur data confirm syn fin rst
  · intro ha
    subst ha
    rfl
  · intro h4
    obtain ⟨h, e, h1, h2, h3, h5, h6, h7, _⟩ :=
      build_tcp_v4 k cur data confirm syn ack fin rst h4
    exact ⟨h, e, h1, h2, h3, h5, h6, h7⟩
  · intro h4
    obtain ⟨h, e, h1, h2, h3, h5, h6, _⟩ :=
      build_tcp_v6 k cur data confirm syn ack fin rst h4
    exact ⟨h, e, h1, h2, h3, h5, h6⟩
  · rw [build_tcp_buffer_length]
    by_cases h4 : cur.version = 4
    · obtain ⟨h, e, _, _, _, _, _, _, h8⟩ :=
        build_tcp_v4 k cur data confirm syn ack fin rst h4
      rw [e]
      simp only [ip_header.length_field, h8, ntohs_htons, h4, if_true]
    · obtain ⟨h, e, _, _, _, _, _, h8⟩ :=
        build_tcp_v6 k cur data confirm syn ack fin rst h4
      rw [e]
      simp only [ip_header.length_field, h8, ntohs_htons, h4, if_false]

set_option maxRecDepth 100000 in
/-- Counterexample to C32 as stated: the bare ACK for the IPv6 example session is
a packet of 60 bytes whose IP length field holds 20. -/
theorem write_tcp_length_v6 :
    (build_tcp ex_k ex_session6 [] 0 false true false false).buffer.length = 60
    ∧ (build_tcp ex_k ex_session6 [] 0 false true false false).ip.length_field = 20 := by
  decide

/-! ## The capture file -/

theorem pcaprec_hdr_s_bytes_length (h : pcaprec_hdr_s) : h.bytes.length = 16 := rfl

theorem pcap_hdr_s_bytes_length (h : pcap_hdr_s) : h.bytes.length = 24 := rfl

theorem write_pcap_ok (k : netguard_h) (file ptr : List Byte) (hp : ptr ≠ []) :
    write_pcap k { fwrite_ok := true, ftruncate_ok := true } file ptr
      = if (file ++ ptr).length > k.MAX_PCAP_FILE then (file ++ ptr).take 24
        else file ++ ptr := by
  simp only [write_pcap, not_true_eq_false, hp, or_self, if_false, if_true]

theorem pcap_record_bytes_ne (k : netguard_h) (s n l : Nat) :
    (pcap_record k s n l).bytes ≠ [] := by
  intro h
  have := congrArg List.length h
  rw [pcaprec_hdr_s_bytes_length] at this
  exact absurd this (by decide)

set_option maxRecDepth 100000 in
/-- C35. PCAP file structure.  With every `fwrite` and `ftruncate` succeeding,
`write_pcap_rec` on a file that holds at least the global header and a packet
of which at least one byte is captured: when header and packet bytes fit
below `MAX_PCAP_FILE` the record is appended whole; when the file with the
record exceeds the limit only after the packet bytes, the file is cut to its
first 24 bytes; but when the file exceeds the limit already with the record
header, it is cut there and the packet bytes are then written behind the
global header without a record header.  The capture file of 60 bytes with
limit 64 is well formed, and after one more packet of 20 bytes it is the
global header followed by the 20 packet bytes, which is not. -/
theorem write_pcap_rec_file (k : netguard_h) (tv_sec tv_nsec : Nat) (file buffer : List Byte)
    (hfile : 24 ≤ file.length)
    (hplen : 0 < min buffer.length k.MAX_PCAP_RECORD) :
    (file.length + 16 + min buffer.length k.MAX_PCAP_RECORD ≤ k.MAX_PCAP_FILE →
        write_pcap_rec k tv_sec tv_nsec { fwrite_ok := true, ftruncate_ok := true }
            { fwrite_ok := true, ftruncate_ok := true } file buffer
          = file ++ (pcap_record k tv_sec tv_nsec buffer.length).bytes
              ++ buffer.take (min buffer.length k.MAX_PCAP_RECORD))
    ∧ (file.length + 16 ≤ k.MAX_PCAP_FILE →
        k.MAX_PCAP_FILE < file.length + 16 + min buffer.length k.MAX_PCAP_RECORD →
        write_pcap_rec k tv_sec tv_nsec { fwrite_ok := true, ftruncate_ok := true }
            { fwrite_ok := true, ftruncate_ok := true } file buffer
          = file.take 24)
    ∧ (k.MAX_PCAP_FILE < file.length + 16 →
        24 + min buffer.length k.MAX_PCAP_RECORD ≤ k.MAX_PCAP_FILE →
        write_pcap_rec k tv_sec tv_nsec { fwrite_ok := true, ftruncate_ok := true }
            { fwrite_ok := true, ftruncate_ok := true } file buffer
          = file.take 24 ++ buffer.take (min buffer.length k.MAX_PCAP_RECORD))
    ∧ (pcap_wellformed ex_k ex_pcap_file = true
        ∧ ex_pcap_file.length = 60
        ∧ write_pcap_rec ex_k 101 0 ex_pcap_io ex_pcap_io ex_pcap_file (List.replicate 20 0x45)
            = (pcap_global ex_k).bytes ++ List.replicate 20 0x45
        ∧ pcap_wellformed ex_k
            (write_pcap_rec ex_k 101 0 ex_pcap_io ex_pcap_io ex_pcap_file
              (List.replicate 20 0x45)) = false) := by
  have hmin : (if buffer.length < k.MAX_PCAP_RECORD then buffer.length else k.MAX_PCAP_RECORD)
      = min buffer.length k.MAX_PCAP_RECORD := by
    split <;> omega
  have hne : buffer.take (min buffer.length k.MAX_PCAP_RECORD) ≠ [] := by
    intro h
    have := congrArg List.length h
    rw [List.length_take] at this
    simp only [List.length_nil] at this
    omega
  have hbl : (buffer.take (min buffer.length k.MAX_PCAP_RECORD)).length
      = min buffer.length k.MAX_PCAP_RECORD := by
    rw [List.length_take]; omega
  have hrec := pcap_record_bytes_ne k tv_sec tv_nsec buffer.length
  have hrl := pcaprec_hdr_s_bytes_length (pcap_record k tv_sec tv_nsec buffer.length)
  refine ⟨?_, ?_, ?_, ?_⟩
  · intro h
    simp only [write_pcap_rec, hmin]
    rw [write_pcap_ok k file _ hrec, if_neg (by rw [List.length_append, hrl]; omega),
      write_pcap_ok k _ _ hne,
      if_neg (by rw [List.length_append, List.length_append, hrl, hbl]; omega)]
  · intro h1 h2
    simp only [write_pcap_rec, hmin]
    rw [write_pcap_ok k file _ hrec, if_neg (by rw [List.length_append, hrl]; omega),
      write_pcap_ok k _ _ hne,
      if_pos (by rw [List.length_append, List.length_append, hrl, hbl]; omega),
      List.append_assoc, List.take_append_of_le_length hfile]
  · intro h1 h2
    simp only [write_pcap_rec, hmin]
    rw [write_pcap_ok k file _ hrec, if_pos (by rw [List.length_append, hrl]; omega),
      List.take_append_of_le_length hfile, write_pcap_ok k _ _ hne,
      if_neg (by rw [List.length_append, hbl, List.length_take]; omega)]
  · decide

/-! ## Port 53 and the stop flag -/

theorem ite_forwarded (cur0 : udp_session) (p : Prop) [Decidable p] (a b : Bool × udp_ctx)
    (ha : p → a.1 = true → a.2.cur = cur0) (hb : ¬ p → b.1 = true → b.2.cur = cur0) :
    (if p then a else b).1 = true → (if p then a else b).2.cur = cur0 := by
  split
  · exact ha ‹_›
  · exact hb ‹_›

theorem ite_forwarded_stop (v : Bool) (p : Prop) [Decidable p] (a b : Bool × udp_ctx)
    (ha : p → a.1 = true → a.2.cur.stop = v) (hb : ¬ p → b.1 = true → b.2.cur.stop = v) :
    (if p then a else b).1 = true → (if p then a else b).2.cur.stop = v := by
  split
  · exact ha ‹_›
  · exact hb ‹_›

/-- A datagram `handle_udp` forwards (result 1, not on the DHCP path) leaves of the
session only `time` changed. -/
theorem handle_udp_session_forwarded (k : netguard_h) (env : udp_env)
    (hosts : List (List Byte)) (calls : Nat) (cur : udp_session) (seg : udp_in)
    (hd : ¬ (ntohs seg.udp.source = 68 ∨ ntohs seg.udp.dest = 67)) :
    (handle_udp_session k env hosts calls cur seg).1 = true →
      (handle_udp_session k env hosts calls cur seg).2.cur
        = { cur with time := env.time calls } := by
  have hneg : ¬ ((-1 : Int) ≥ 0) := by decide
  simp only [handle_udp_session, hd, if_false, hneg]
  repeat' (apply ite_forwarded <;> intro _)
  · intro h; exact absurd h Bool.false_ne_true
  · intro h; exact absurd h Bool.false_ne_true
  · intro _; rfl

/-- With a `check_dhcp` that leaves the stop flag of the session alone (the function
of the source writes `saddr` and no other field), a datagram for which
`handle_udp` returns 1 leaves the stop flag of its session as it was, on the
DHCP path too. -/
theorem handle_udp_session_stop (k : netguard_h) (env : udp_env) (hosts : List (List Byte))
    (calls : Nat) (cur : udp_session) (seg : udp_in)
    (hd : ∀ (u : udp_session) (d : List Byte) (io : udp_io),
      (env.check_dhcp u d io).cur.stop = u.stop) :
    (handle_udp_session k env hosts calls cur seg).1 = true →
      (handle_udp_session k env hosts calls cur seg).2.cur.stop = cur.stop := by
  by_cases hp : ntohs seg.udp.source = 68 ∨ ntohs seg.udp.dest = 67
  · simp only [handle_udp_session, hp, if_true]
    repeat' (apply ite_forwarded_stop <;> intro _)
    · intro h; exact absurd h Bool.false_ne_true
    · intro _; exact hd _ _ _
    · intro h; exact absurd h Bool.false_ne_true
    · intro _; exact hd _ _ _
  · intro h
    rw [handle_udp_session_forwarded k env hosts calls cur seg hp h]

theorem handle_udp_stop (k : netguard_h) (env : udp_env) (hosts : List (List Byte))
    (table : List udp_session) (seg : udp_in) (uid : Int)
    (before : List udp_session) (cur : udp_session) (next : List udp_session) (calls : Nat)
    (hd : ∀ (u : udp_session) (d : List Byte) (io : udp_io),
      (env.check_dhcp u d io).cur.stop = u.stop)
    (hloc : udp_lookup env table seg uid = some (before, cur, next, calls))
    (ha : (handle_udp k env hosts table seg uid).allowed = true) :
    ∃ cur2, (handle_udp k env hosts table seg uid).table = before ++ cur2 :: next
      ∧ cur2.stop = cur.stop
      ∧ (udp_search seg table = none → cur2.stop = false) := by
  rw [handle_udp_located k env hosts table seg uid before cur next calls hloc] at ha ⊢
  have hs := handle_udp_session_stop k env hosts calls cur seg hd ha
  refine ⟨_, rfl, hs, ?_⟩
  intro hn
  rw [hs]
  simp only [udp_lookup, hn] at hloc
  split at hloc
  · exact absurd hloc (by simp)
  · simp only [Option.some.injEq, Prod.mk.injEq] at hloc
    rw [← hloc.2.1]
    rfl

theorem dns_labels_reads (data : List Byte) (beyond : Byte) :
    ∀ (fuel : Nat) (w : dns_walk), w.qdoff ≤ data.length →
      (∀ o ∈ w.reads, o ≤ data.length) →
      (dns_labels data beyond fuel w).2.qdoff ≤ data.length
      ∧ ∀ o ∈ (dns_labels data beyond fuel w).2.reads, o ≤ data.length := by
  intro fuel
  induction fuel with
  | zero => intro w hq hr; exact ⟨hq, hr⟩
  | succ fuel ih =>
    intro w hq hr
    have hr2 : ∀ o ∈ w.reads ++ [w.qdoff], o ≤ data.length := by
      intro o ho
      rcases List.mem_append.mp ho with h | h
      · exact hr o h
      · rw [List.mem_singleton] at h; rw [h]; exact hq
    have hw1 : ∀ len : Nat,
        (if len ≠ 0 ∧ w.qdoff + 1 + len ≤ data.length then
            ({ noff := (w.noff + (len + 1)) % 256, qdoff := w.qdoff + (1 + len),
               name := mem_write w.name w.noff ((data.drop (w.qdoff + 1)).take len ++ [46]),
               reads := w.reads ++ [w.qdoff] } : dns_walk)
          else { w with reads := w.reads ++ [w.qdoff] }).qdoff ≤ data.length
        ∧ ∀ o ∈ (if len ≠ 0 ∧ w.qdoff + 1 + len ≤ data.length then
            ({ noff := (w.noff + (len + 1)) % 256, qdoff := w.qdoff + (1 + len),
               name := mem_write w.name w.noff ((data.drop (w.qdoff + 1)).take len ++ [46]),
               reads := w.reads ++ [w.qdoff] } : dns_walk)
          else { w with reads := w.reads ++ [w.qdoff] }).reads, o ≤ data.length := by
      intro len
      split
      · next hc => exact ⟨by show w.qdoff + (1 + len) ≤ data.length; omega, hr2⟩
      · exact ⟨hq, hr2⟩
    simp only [dns_labels]
    split
    · exact ⟨hq, hr2⟩
    · split
      · exact ih _ (hw1 _).1 (hw1 _).2
      · exact hw1 _

theorem get_dns_reads_bound (data : List Byte) (beyond : Byte) (hlen : 13 ≤ data.length) :
    ∀ o ∈ (get_dns data beyond).reads, o ≤ data.length := by
  have h := dns_labels_reads data beyond 10 { noff := 0, qdoff := 12, name := [], reads := [] }
    (by show 12 ≤ data.length; omega) (by intro o ho; simp at ho)
  simp only [get_dns]
  split
  · intro o ho; simp at ho
  · split
    · split
      · exact h.2
      · split
        · exact h.2
        · exact h.2
    · intro o ho; simp at ho

set_option maxRecDepth 1000000 in
theorem get_dns_short_reads : ∀ b : Byte,
    16 ∈ (get_dns ex_query_short b).reads ∧ (get_dns ex_query_short b).ret = -1 := by
  decide

/-- C37. What `get_dns` reads.  For a datagram of at least 13 bytes every label
length byte is read at an offset of at most `datalen`; the offset `datalen`
itself, the byte behind the datagram, is among them: for the query that ends
with its label `abc` (16 bytes) the second length byte is read at offset 16,
whatever that byte is, before the datagram is refused. -/
theorem get_dns_reads_past_end (data : List Byte) (beyond : Byte) (hlen : 13 ≤ data.length) :
    (∀ o ∈ (get_dns data beyond).reads, o ≤ data.length)
    ∧ ex_query_short.length = 16
    ∧ (∀ b : Byte, 16 ∈ (get_dns ex_query_short b).reads
        ∧ (get_dns ex_query_short b).ret = -1) := by
  exact ⟨get_dns_reads_bound data beyond hlen, rfl, get_dns_short_reads⟩

set_option maxRecDepth 1000000 in
/-- C38. Questions `get_dns` accepts.  The query of scenario 2 is well formed and
accepted.  The datagram in which the label `a` is followed by a length byte 9
with four bytes behind it is accepted too, with the name `a` and those four
bytes as type and class: the label that does not fit is read again until the
tenth round and then skipped.  So is the datagram of ten labels `a` followed
by a byte 5: after ten rounds the next byte is skipped unread.  Neither is a
well-formed question. -/
theorem get_dns_accepts_malformed :
    (dns_wellformed ex_query = true ∧ (get_dns ex_query 0).ret = 0)
    ∧ (ex_query_cut.length = 19
        ∧ ex_query_cut.getD 14 0 = 9
        ∧ dns_wellformed ex_query_cut = false
        ∧ (get_dns ex_query_cut 0).ret = 0
        ∧ c_string (get_dns ex_query_cut 0).name = [97]
        ∧ (get_dns ex_query_cut 0).qtype = 1
        ∧ (get_dns ex_query_cut 0).qclass = 1
        ∧ (get_dns ex_query_cut 0).reads = [12, 14, 14, 14, 14, 14, 14, 14, 14, 14])
    ∧ (ex_query_ten.getD 32 0 = 5
        ∧ dns_wellformed ex_query_ten = false
        ∧ (get_dns ex_query_ten 0).ret = 0
        ∧ (get_dns ex_query_ten 0).reads = [12, 14, 16, 18, 20, 22, 24, 26, 28, 30]) := by
  decide

/-! ## Witnesses: the theorems on ingress, the capture file, DNS and checksums at concrete inputs -/

set_option maxRecDepth 100000 in
/-- Witness for C33: the example datagram at log level 3. -/
theorem handle_ip_v4_validation_witness :
    (ntohs (word16 (ex_udp_packet.getD 2 0) (ex_udp_packet.getD 3 0)) ≠ ex_udp_packet.length →
        handle_ip ex_k ex_ip_env_verbose ex_args_open ([] : List udp_session) ([] : List tcp_session) ex_udp_packet
          = { allowed := false, udp := ([] : List udp_session), tcp := ([] : List tcp_session), tcp_io := {}, udp_io := {},
              handler := none, logged := none })
    ∧ (ntohs (word16 (ex_udp_packet.getD 2 0) (ex_udp_packet.getD 3 0)) = ex_udp_packet.length →
        ip_parse ex_ip_env_verbose.loglevel ex_udp_packet
          = some { version := 4, protocol := pkt_byte ex_udp_packet 9,
                   payload := 20 + ((((pkt_byte ex_udp_packet 0 % 16 : Nat) : Int) - 5) * 4 % 256).toNat })
    ∧ calc_checksum 0 (ex_udp_packet.take 20) ≠ 0
    ∧ (ex_ip_env_verbose.loglevel < ANDROID_LOG_WARN
        ∧ calc_checksum 0 (ex_udp_packet.take 20) ≠ 65535
        ∧ (handle_ip ex_k ex_ip_env_verbose ex_args_open [] [] ex_udp_packet).handler
            = some IPPROTO_UDP
        ∧ (handle_ip ex_k ex_ip_env_verbose ex_args_open [] [] ex_udp_packet).udp
            = [{ time := 100, uid := 10001, version := 4,
                 saddr := [10, 0, 0, 2, 0, 0, 0, 0, 0, 0, 0, 0, 0, 0, 0, 0],
                 source := htons 40000,
                 daddr := [93, 184, 216, 34, 0, 0, 0, 0, 0, 0, 0, 0, 0, 0, 0, 0],
                 dest := htons 9999, stop := false, socket := 8 }]
        ∧ (handle_ip ex_k ex_ip_env_verbose ex_args_open [] [] ex_udp_packet).udp_io.sent
            = [{ socket := 8, data := [1, 2, 3, 4], addr := [93, 184, 216, 34],
                 port := htons 9999 }]) :=
  handle_ip_v4_validation ex_k ex_ip_env_verbose ex_args_open [] [] ex_udp_packet (by decide)

set_option maxRecDepth 100000 in
/-- Witness for C34: the SYN behind one hop-by-hop header. -/
theorem handle_ip_v6_extension_witness :
    (ip_parse ex_ip_env.loglevel ex_ip6_packet = none
      ∨ ip_parse ex_ip_env.loglevel ex_ip6_packet
          = some { version := 6, protocol := pkt_byte ex_ip6_packet 6, payload := 40 })
    ∧ (handle_ip ex_k ex_ip_env ex_args_open ([] : List udp_session) ([] : List tcp_session) ex_ip6_packet
          = { allowed := false, udp := ([] : List udp_session), tcp := ([] : List tcp_session), tcp_io := {}, udp_io := {},
              handler := none, logged := none }
        ∨ handle_ip ex_k ex_ip_env ex_args_open ([] : List udp_session) ([] : List tcp_session) ex_ip6_packet
          = { allowed := false, udp := ([] : List udp_session), tcp := ([] : List tcp_session), tcp_io := {}, udp_io := {},
              handler := none, logged := if ex_args_open.log then some false else none })
    ∧ (pkt_byte ex_ip6_packet 0 / 16 = 6
        ∧ pkt_byte ex_ip6_packet 6 = 0
        ∧ pkt_byte ex_ip6_packet 40 = IPPROTO_TCP
        ∧ (tcp_segment ex_ip6_packet 48).tcp.syn = true
        ∧ ip_parse ex_ip_env.loglevel ex_ip6_packet
            = some { version := 6, protocol := 0, payload := 40 }
        ∧ handle_ip ex_k ex_ip_env { ex_args with uids := [10001] } [] [] ex_ip6_packet
            = { allowed := false, udp := [], tcp := [], tcp_io := {}, udp_io := {},
                handler := none, logged := some false }) :=
  handle_ip_v6_extension ex_k ex_ip_env ex_args_open [] [] ex_ip6_packet (by decide) (by decide)

set_option maxRecDepth 100000 in
/-- Witness for C35: the capture file of 60 bytes and a packet of 20 bytes, the
limit being 64. -/
theorem write_pcap_rec_file_witness :
    (ex_pcap_file.length + 16 + min (List.replicate 20 (0x45 : Byte)).length ex_k.MAX_PCAP_RECORD ≤ ex_k.MAX_PCAP_FILE →
        write_pcap_rec ex_k 101 0 { fwrite_ok := true, ftruncate_ok := true }
            { fwrite_ok := true, ftruncate_ok := true } ex_pcap_file (List.replicate 20 (0x45 : Byte))
          = ex_pcap_file ++ (pcap_record ex_k 101 0 (List.replicate 20 (0x45 : Byte)).length).bytes
              ++ (List.replicate 20 (0x45 : Byte)).take (min (List.replicate 20 (0x45 : Byte)).length ex_k.MAX_PCAP_RECORD))
    ∧ (ex_pcap_file.length + 16 ≤ ex_k.MAX_PCAP_FILE →
        ex_k.MAX_PCAP_FILE < ex_pcap_file.length + 16 + min (List.replicate 20 (0x45 : Byte)).length ex_k.MAX_PCAP_RECORD →
        write_pcap_rec ex_k 101 0 { fwrite_ok := true, ftruncate_ok := true }
            { fwrite_ok := true, ftruncate_ok := true } ex_pcap_file (List.replicate 20 (0x45 : Byte))
          = ex_pcap_file.take 24)
    ∧ (ex_k.MAX_PCAP_FILE < ex_pcap_file.length + 16 →
        24 + min (List.replicate 20 (0x45 : Byte)).length ex_k.MAX_PCAP_RECORD ≤ ex_k.MAX_PCAP_FILE →
        write_pcap_rec ex_k 101 0 { fwrite_ok := true, ftruncate_ok := true }
            { fwrite_ok := true, ftruncate_ok := true } ex_pcap_file (List.replicate 20 (0x45 : Byte))
          = ex_pcap_file.take 24 ++ (List.replicate 20 (0x45 : Byte)).take (min (List.replicate 20 (0x45 : Byte)).length ex_k.MAX_PCAP_RECORD))
    ∧ (pcap_wellformed ex_k ex_pcap_file = true
        ∧ ex_pcap_file.length = 60
        ∧ write_pcap_rec ex_k 101 0 ex_pcap_io ex_pcap_io ex_pcap_file (List.replicate 20 0x45)
            = (pcap_global ex_k).bytes ++ List.replicate 20 0x45
        ∧ pcap_wellformed ex_k
            (write_pcap_rec ex_k 101 0 ex_pcap_io ex_pcap_io ex_pcap_file
              (List.replicate 20 0x45)) = false) :=
  write_pcap_rec_file ex_k 101 0 ex_pcap_file (List.replicate 20 0x45) (by decide) (by decide)

set_option maxRecDepth 100000 in
/-- Witness for C37: the query of scenario 2. -/
theorem get_dns_reads_past_end_witness :
    (∀ o ∈ (get_dns ex_query (0 : Byte)).reads, o ≤ ex_query.length)
    ∧ ex_query_short.length = 16
    ∧ (∀ b : Byte, 16 ∈ (get_dns ex_query_short b).reads
        ∧ (get_dns ex_query_short b).ret = -1) :=
  get_dns_reads_past_end ex_query 0 (by decide)

/-- Witness for C39: accumulator 7, a two-byte buffer and a three-byte buffer. -/
theorem calc_checksum_chain_witness :
    calc_checksum (calc_checksum 7 ([1, 2] : List Byte)) ([3, 4, 5] : List Byte) = calc_checksum 7 (([1, 2] : List Byte) ++ ([3, 4, 5] : List Byte))
    ∧ calc_checksum 7 ([1, 2] : List Byte) = ones16 (7 + word_sum ([1, 2] : List Byte))
    ∧ calc_checksum (calc_checksum 7 ([1, 2] : List Byte)) ([3, 4, 5] : List Byte) = ones16 (7 + word_sum ([1, 2] : List Byte) + word_sum ([3, 4, 5] : List Byte))
    ∧ calc_checksum 7 (([1, 2] : List Byte) ++ ([3, 4, 5] : List Byte)) = ones16 (7 + word_sum (([1, 2] : List Byte) ++ ([3, 4, 5] : List Byte)))
    ∧ (calc_checksum 7 ([1, 2] : List Byte) = 0 ↔ 7 = 0 ∧ ∀ x ∈ ([1, 2] : List Byte), x = 0)
    ∧ (calc_checksum 7 (([1, 2] : List Byte) ++ ([3, 4, 5] : List Byte)) = 0 ↔ 7 = 0 ∧ ∀ x ∈ ([1, 2] : List Byte) ++ ([3, 4, 5] : List Byte), x = 0) :=
  calc_checksum_chain 7 [1, 2] [3, 4, 5] (by decide) (by decide) (by decide)

set_option maxRecDepth 100000 in
/-- Witness for C40: the SYN of owner 10001, filtering off, 10001 on the list. -/
theorem handle_ip_filter_off_witness :
    handle_ip ex_k ex_ip_env ex_args_open ([] : List udp_session) ([] : List tcp_session) (ex_tcp_packet 2)
      = { allowed := false, udp := ([] : List udp_session), tcp := ([] : List tcp_session), tcp_io := {}, udp_io := {},
          handler := none, logged := if ex_args_open.log then some false else none }
    ∧ (∀ (uids : List Int) (other : List Byte),
        handle_ip ex_k ex_ip_env { ex_args_open with uids := uids } ([] : List udp_session) ([] : List tcp_session) other
          = handle_ip ex_k ex_ip_env ex_args_open ([] : List udp_session) ([] : List tcp_session) other) :=
  handle_ip_filter_off ex_k ex_ip_env ex_args_open [] [] (ex_tcp_packet 2)
    { version := 4, protocol := IPPROTO_TCP, payload := 20 } (by decide) rfl (by decide) rfl

end NetGuard
